import Mathlib

/-! # nymea-app: the JSON-RPC client (libnymea-app/jsonrpc/jsonrpcclient.cpp)

A shallow embedding of `JsonRpcClient` and `JsonRpcReply`.  The client object, the
persistent stores it touches (QSettings group `jsonTokens`, the pinned
certificate files, the response cache files), the Qt event queue and the
observable effects (signals, bytes handed to the connection, callbacks invoked
on other objects) are fields of one record that every member function
transforms.  Library functions whose result is computed outside this
repository (JSON parsing and printing, MD5, the locale) are fields of `Env`
and every definition is parametric in them.

Conventions
* a byte is identified with the character of the same code, so `QByteArray`
  is `List Char`;
* `int` is a 32 bit two's complement integer, `toInt32` wraps;
* dereferencing a null pointer is the fault `Fault.nullDereference`;
* opening a file for writing succeeds, opening it for reading succeeds exactly
  when the file exists;
* `QSettings` ignores the empty key: `setValue` writes nothing and `value`
  answers with an invalid value;
* the multi-hash of notification handlers is a list, newest entry first, which
  is the order of `values(key)`; the order across keys is that of the hash, so
  what `key(value)` answers is a function of the environment;
* object lifetime (`deleteLater`) and logging are not modelled.
-/

namespace Nymea

/-! ## Qt value types -/

abbrev QByteArray := List Char

abbrev QString := String

abbrev QStringList := List String

/-- The values a `QVariant` holds in this client: what `QJsonDocument::toVariant`
produces, plus byte arrays. -/
inductive QVariant where
  | invalid
  | bool (b : Bool)
  | int (n : Int)
  | str (s : String)
  | bytes (b : List Char)
  | list (xs : List QVariant)
  | map (kvs : List (String × QVariant))
  deriving Inhabited

abbrev QVariantMap := List (String × QVariant)

abbrev QVariantList := List QVariant

/-- Wrap an integer into the range of a 32 bit `int`. -/
def toInt32 (n : Int) : Int := (n + 2147483648) % 4294967296 - 2147483648

/-- The largest `int`. -/
def INT_MAX : Nat := 2147483647

/-! ### Associative containers (`QMap`, `QHash`) as association lists -/

namespace QMap

variable {κ : Type} {α : Type} [DecidableEq κ]

/-- The entry stored under `k`, if any (`find`). -/
def value? : List (κ × α) → κ → Option α
  | [], _ => none
  | (k', v) :: m, k => if k' = k then some v else value? m k

/-- Lookup with a default (`value(key)`, `value(key, default)`). -/
def value (m : List (κ × α)) (k : κ) (dflt : α) : α := (value? m k).getD dflt

/-- Membership of a key (`contains`). -/
def contains (m : List (κ × α)) (k : κ) : Bool := (value? m k).isSome

/-- Insert, replacing the value of an existing key (`insert`). -/
def insert : List (κ × α) → κ → α → List (κ × α)
  | [], k, v => [(k, v)]
  | (k', v') :: m, k, v => if k' = k then (k, v) :: m else (k', v') :: insert m k v

/-- Remove every entry of a key (`remove`). -/
def remove : List (κ × α) → κ → List (κ × α)
  | [], _ => []
  | (k', v) :: m, k => if k' = k then remove m k else (k', v) :: remove m k

/-- Remove a key and hand back its value (`take`). -/
def take (m : List (κ × α)) (k : κ) : Option α × List (κ × α) := (value? m k, remove m k)

end QMap

/-! ### Text helpers -/

/-- Split at every occurrence of a separator character, keeping empty parts
(`QString::split(sep)`); the current part is accumulated in `cur`. -/
def splitAux (sep : Char) : List Char → List Char → List (List Char)
  | [], cur => [cur]
  | c :: cs, cur => if c = sep then cur :: splitAux sep cs [] else splitAux sep cs (cur ++ [c])

/-- The parts of a string between separators: `QString::split`. -/
def QString.split (s : QString) (sep : Char) : QStringList :=
  (splitAux sep s.toList []).map String.mk

/-- Value of a decimal digit character. -/
def digitValue (c : Char) : Nat := c.toNat - 48

/-- Value of a string of decimal digits. -/
def digitsValue (ds : List Char) : Nat := ds.foldl (fun n c => 10 * n + digitValue c) 0

/-- Decimal text of an `int` literal with an optional sign; `none` for any other text. -/
def parseInt (cs : List Char) : Option Int :=
  match cs with
  | [] => none
  | '-' :: ds => if ds ≠ [] ∧ ds.all Char.isDigit then some (-(digitsValue ds : Int)) else none
  | '+' :: ds => if ds ≠ [] ∧ ds.all Char.isDigit then some (digitsValue ds : Int) else none
  | ds => if ds.all Char.isDigit then some (digitsValue ds : Int) else none

/-- Decimal digits of a natural number, most significant first; `fuel` bounds the number of digits. -/
def natDigits : Nat → Nat → List Char
  | 0, _ => []
  | fuel + 1, n => if n < 10 then [Char.ofNat (48 + n)] else natDigits fuel (n / 10) ++ [Char.ofNat (48 + n % 10)]

/-- Decimal text of an integer: `QString::number`. -/
def QString.number (n : Int) : QString :=
  match n with
  | Int.ofNat k => String.mk (natDigits (k + 1) k)
  | Int.negSucc k => String.mk ('-' :: natDigits (k + 2) (k + 1))

/-- Lower case of an ASCII letter. -/
def asciiLower (c : Char) : Char :=
  if 65 ≤ c.toNat ∧ c.toNat ≤ 90 then Char.ofNat (c.toNat + 32) else c

/-! ### QVariant conversions -/

namespace QVariant

/-- Conversion `QVariant::toString`. -/
def toQString : QVariant → QString
  | str s => s
  | bytes b => String.mk b
  | int n => QString.number n
  | bool b => if b then "true" else "false"
  | _ => ""

/-- Conversion `QVariant::toByteArray`. -/
def toByteArray : QVariant → QByteArray
  | str s => s.toList
  | bytes b => b
  | int n => (QString.number n).toList
  | bool b => if b then "true".toList else "false".toList
  | _ => []

/-- Conversion of text to `int`: 0 unless the text is an `int` literal in range. -/
def textToInt (cs : List Char) : Int :=
  match parseInt cs with
  | some n => if -2147483648 ≤ n ∧ n ≤ 2147483647 then n else 0
  | none => 0

/-- Conversion `QVariant::toInt`. -/
def toInt : QVariant → Int
  | int n => toInt32 n
  | bool b => if b then 1 else 0
  | str s => textToInt s.toList
  | bytes b => textToInt b
  | _ => 0

/-- Conversion of text to `bool`: false for the empty text, "0" and "false" (any case). -/
def textToBool (cs : List Char) : Bool :=
  !(cs.isEmpty || cs == ['0'] || cs.map asciiLower == "false".toList)

/-- Conversion `QVariant::toBool`. -/
def toBool : QVariant → Bool
  | bool b => b
  | int n => n != 0
  | str s => textToBool s.toList
  | bytes b => textToBool b
  | _ => false

/-- Conversion `QVariant::toMap`. -/
def toMap : QVariant → QVariantMap
  | map kvs => kvs
  | _ => []

/-- Conversion `QVariant::toList`. -/
def toList : QVariant → QVariantList
  | list xs => xs
  | _ => []

/-- Conversion `QVariant::toStringList`. -/
def toStringList : QVariant → QStringList
  | list xs => xs.map toQString
  | str s => [s]
  | bytes b => [String.mk b]
  | int n => [QString.number n]
  | bool b => [if b then "true" else "false"]
  | _ => []

end QVariant

/-- Lookup in a variant map, an invalid variant when the key is absent: `QVariantMap::value`. -/
def QVariantMap.value (m : QVariantMap) (k : String) : QVariant := QMap.value m k QVariant.invalid

/-! ### QVersionNumber -/

abbrev QVersionNumber := List Nat

namespace QVersionNumber

/-- Close the segment being read: it is kept when it has a digit and fits an `int`. -/
def finish (cur : Option Nat) (acc : List Nat) : List Nat :=
  match cur with
  | some v => if v ≤ INT_MAX then acc ++ [v] else acc
  | none => acc

/-- Read dot separated decimal segments from the front of the text and stop at
the first character that continues none. -/
def scan : List Char → Option Nat → List Nat → List Nat
  | [], cur, acc => finish cur acc
  | c :: cs, cur, acc =>
    if c.isDigit then scan cs (some (10 * cur.getD 0 + digitValue c)) acc
    else if c = '.' then
      match cur with
      | some v => if v ≤ INT_MAX then scan cs none (acc ++ [v]) else acc
      | none => acc
    else finish cur acc

/-- Parse a version: `QVersionNumber::fromString`. -/
def fromString (s : QString) : QVersionNumber := scan s.toList none []

/-- The comparison `QVersionNumber::compare(a, b) < 0`: segment-wise, a proper
prefix is smaller. -/
def lt : List Nat → List Nat → Bool
  | [], [] => false
  | [], _ :: _ => true
  | _ :: _, [] => false
  | a :: as, b :: bs => if a < b then true else if b < a then false else lt as bs

/-- The comparison `a >= b`. -/
def ge (a b : List Nat) : Bool := !lt a b

/-- First segment, 0 for the null version: `majorVersion`. -/
def majorVersion (v : QVersionNumber) : Nat := v.headD 0

/-- Segments joined by dots: `toString`. -/
def toQString (v : QVersionNumber) : QString :=
  String.intercalate "." (v.map (fun n => QString.number (n : Int)))

end QVersionNumber

/-! ### QUuid -/

/-- A uuid, held as its 32 hexadecimal digits in lower case. -/
structure QUuid where
  digits : List Char
  deriving DecidableEq, Inhabited

namespace QUuid

/-- The null uuid. -/
def null : QUuid := ⟨List.replicate 32 '0'⟩

/-- Whether this is the null uuid: `isNull`. -/
def isNull (u : QUuid) : Bool := u.digits.all (fun c => c == '0')

/-- Whether a character is a hexadecimal digit. -/
def isHex (c : Char) : Bool :=
  c.isDigit || (97 ≤ c.toNat && c.toNat ≤ 102) || (65 ≤ c.toNat && c.toNat ≤ 70)

/-- Read `n` hexadecimal digits from the front of the text. -/
def takeHex : Nat → List Char → Option (List Char × List Char)
  | 0, cs => some ([], cs)
  | _ + 1, [] => none
  | n + 1, c :: cs =>
    if isHex c then (takeHex n cs).map (fun r => (asciiLower c :: r.1, r.2)) else none

/-- Read a dash from the front of the text. -/
def takeDash : List Char → Option (List Char)
  | '-' :: cs => some cs
  | _ => none

/-- Parse the text of a uuid, the null uuid when it is malformed: `QUuid(const QString &)`.
At most 38 characters are looked at, an opening brace is optional and whatever
follows the last digit is ignored. -/
def fromString (s : QString) : QUuid :=
  let cs := s.toList.take 38
  let cs := match cs with
    | '{' :: rest => rest
    | _ => cs
  let parsed : Option (List Char) := do
    let (d1, cs) ← takeHex 8 cs
    let cs ← takeDash cs
    let (d2, cs) ← takeHex 4 cs
    let cs ← takeDash cs
    let (d3, cs) ← takeHex 4 cs
    let cs ← takeDash cs
    let (d4, cs) ← takeHex 4 cs
    let cs ← takeDash cs
    let (d5, _) ← takeHex 12 cs
    pure (d1 ++ d2 ++ d3 ++ d4 ++ d5)
  match parsed with
  | some ds => ⟨ds⟩
  | none => null

/-- The text of a uuid without braces, 8-4-4-4-12. -/
def toStringWithoutBraces (u : QUuid) : QString :=
  let d := u.digits
  String.mk (d.take 8 ++ ['-'] ++ (d.drop 8).take 4 ++ ['-'] ++ (d.drop 12).take 4 ++ ['-']
    ++ (d.drop 16).take 4 ++ ['-'] ++ d.drop 20)

/-- The text of a uuid in braces: `toString`. -/
def toQString (u : QUuid) : QString := "\x7b" ++ toStringWithoutBraces u ++ "\x7d"

end QUuid

/-! ### Byte arrays -/

/-- Search from the front, `i` being the index of the head of the text. -/
def indexOfAux (pat : List Char) : List Char → Int → Int
  | [], i => if pat = [] then i else -1
  | c :: cs, i => if pat.isPrefixOf (c :: cs) then i else indexOfAux pat cs (i + 1)

/-- Index of the first occurrence of `pat`, -1 when there is none: `QByteArray::indexOf`. -/
def QByteArray.indexOf (b : QByteArray) (pat : List Char) : Int := indexOfAux pat b 0

/-- The first `len` bytes: `QByteArray::left`. -/
def QByteArray.left (b : QByteArray) (len : Int) : QByteArray :=
  if len ≥ b.length then b else if len < 0 then [] else b.take len.toNat

/-- The last `len` bytes: `QByteArray::right`. -/
def QByteArray.right (b : QByteArray) (len : Int) : QByteArray :=
  if len ≥ b.length then b else if len < 0 then [] else b.drop (b.length - len.toNat)

/-- Upper case hexadecimal digit of a value below 16. -/
def hexDigitUpper (n : Nat) : Char := if n < 10 then Char.ofNat (48 + n) else Char.ofNat (55 + n)

/-- Two upper case hexadecimal digits of a byte: `toHex().toUpper()`. -/
def byteToHexUpper (b : Nat) : List Char := [hexDigitUpper (b / 16 % 16), hexDigitUpper (b % 16)]

/-! ## The environment -/

/-- A `QObject` the client may call: the client itself or another object. -/
inductive QObjectRef where
  | self
  | object (id : Nat)
  deriving DecidableEq, Inhabited

/-- Library functions computed outside this repository. -/
structure Env where
  /-- Function `QJsonDocument::fromJson(bytes).toVariant()`, `none` on a parse error. -/
  fromJson : QByteArray → Option QVariant
  /-- Function `QJsonDocument::fromVariant(v).toJson()`. -/
  toJson : QVariant → QByteArray
  /-- Function `QCryptographicHash::hash(text.toUtf8(), Md5).toHex()`. -/
  md5Hex : QString → QString
  /-- Function `QLocale().name()`. -/
  localeName : QString
  /-- Function `UserInfo::listToScopes`. -/
  listToScopes : QStringList → Nat
  /-- Constant `UserInfo::PermissionScopeAdmin`. -/
  permissionScopeAdmin : Nat
  /-- Function `QMetaEnum::keyToValue` of `CloudConnectionState`. -/
  cloudConnectionStateValue : QByteArray → Int
  /-- Function `QMultiHash::key(value)` on the entries of `m_notificationHandlers`: the
  key of the first entry of the value in the order of the hash, which the
  entries do not determine. -/
  hashKey : List (QString × QObjectRef) → QObjectRef → QString

/-- The signals of `JsonRpcClient` raised by the code embedded here. -/
inductive Signal where
  | connectedChanged (connected : Bool)
  | authenticationRequiredChanged
  | authenticatedChanged
  | authenticationFailed
  | newSslCertificate
  | verifyConnectionCertificate (serverUuid : QString) (issuerInfo : QVariantMap) (pem : QByteArray)
  | invalidMinimumVersion (actual : QString) (minimum : QString)
  | invalidMaximumVersion (actual : QString) (maximum : QString)
  | responseReceived (commandId : Int) (params : QVariantMap)
  | permissionsChanged
  | handshakeReceived
  | initialSetupRequiredChanged
  | pushButtonAuthAvailableChanged
  | createUserSucceeded
  | createUserFailed (error : QString)
  | pushButtonAuthFailed
  | cloudConnectionStateChanged
  | serverQtVersionChanged

/-- Layout of a printed JSON document. -/
inductive JsonFormat where
  | Indented
  | Compact
  deriving DecidableEq

/-- Bytes handed to `NymeaConnection::sendData`: the printed `document` followed by `terminator`. -/
structure Outgoing where
  document : QVariantMap
  format : JsonFormat
  terminator : QByteArray

/-- What the client does, in the order it happens: signals raised, bytes handed to
the connection, `QMetaObject::invokeMethod` calls of a reply callback (`invoke`)
or of a notification handler (`notify`), and requests to disconnect. -/
inductive Effect where
  | emit (signal : Signal)
  | sendData (data : Outgoing)
  | invoke (object : QObjectRef) (method : QString) (commandId : Int) (params : QVariantMap)
  | notify (object : QObjectRef) (method : QString) (data : QVariantMap)
  | disconnectFromHost

/-- A call posted to the event queue (`Qt::QueuedConnection`). -/
inductive QueuedCall where
  | dataReceived (data : QByteArray)
  | callback (object : QObjectRef) (method : QString) (commandId : Int) (params : QVariantMap)
  | responseReceived (commandId : Int) (params : QVariantMap)

/-- Faults that end the program. -/
inductive Fault where
  | nullDereference
  deriving DecidableEq

/-- The peer certificate as far as the client looks at it. -/
structure QSslCertificate where
  toPem : QByteArray
  issuerInfo : List (QByteArray × QStringList)
  digestSha256 : List Nat

/-- The host the connection points to. -/
structure NymeaHost where
  uuid : QUuid

/-- The connection manager as far as the client looks at it. -/
structure NymeaConnection where
  connected : Bool
  isEncrypted : Bool
  sslCertificate : QSslCertificate
  currentHost : Option NymeaHost

/-- A pending call record (`class JsonRpcReply`). -/
structure JsonRpcReply where
  m_commandId : Int
  m_nameSpace : QString
  m_method : QString
  m_params : QVariantMap
  m_caller : Option QObjectRef
  m_callback : QString

/-- The client (`class JsonRpcClient`) with the stores, queue and effect log around it. -/
structure JsonRpcClient where
  m_id : Int
  m_connection : NymeaConnection
  m_notificationHandlers : List (QString × QObjectRef)
  m_notificationHandlerMethods : List (QObjectRef × QString)
  m_replies : List (Int × JsonRpcReply)
  m_cacheHashes : List (QString × QString)
  m_connected : Bool
  m_pendingPushButtonTransaction : Int
  m_token : QByteArray
  m_serverUuid : QString
  m_serverVersion : QString
  m_jsonRpcVersion : QVersionNumber
  m_initialSetupRequired : Bool
  m_authenticationRequired : Bool
  m_authenticated : Bool
  m_pushButtonAuthAvailable : Bool
  m_cloudConnectionState : Int
  m_serverQtVersion : QString
  m_serverQtBuildVersion : QString
  m_permissionScopes : Nat
  m_username : QString
  m_experiences : List (QString × QString)
  m_receiveBuffer : QByteArray
  /-- The QSettings group `jsonTokens`. -/
  jsonTokens : List (QString × QByteArray)
  /-- The files of `DataLocation/sslcerts/`, by file name. -/
  sslcerts : List (QString × QByteArray)
  /-- The files of `CacheLocation`, by file name. -/
  cacheFiles : List (QString × QByteArray)
  /-- The calls posted to the event queue and not yet delivered, oldest first. -/
  eventQueue : List QueuedCall
  /-- The effects so far, oldest first. -/
  effects : List Effect

namespace JsonRpcReply

def commandId (r : JsonRpcReply) : Int := r.m_commandId

def nameSpace (r : JsonRpcReply) : QString := r.m_nameSpace

def method (r : JsonRpcReply) : QString := r.m_method

def params (r : JsonRpcReply) : QVariantMap := r.m_params

def caller (r : JsonRpcReply) : Option QObjectRef := r.m_caller

def callback (r : JsonRpcReply) : QString := r.m_callback

/-- The request document of a call: `JsonRpcReply::requestMap`. -/
def requestMap (r : JsonRpcReply) : QVariantMap :=
  let request : QVariantMap := []
  let request := QMap.insert request "id" (QVariant.int r.m_commandId)
  let request := QMap.insert request "method" (QVariant.str (r.m_nameSpace ++ "." ++ r.m_method))
  if !r.m_params.isEmpty then QMap.insert request "params" (QVariant.map r.m_params) else request

end JsonRpcReply

/-! ## Effects and stores -/

namespace JsonRpcClient

/-- Raise a signal. -/
def emit (signal : Signal) (s : JsonRpcClient) : JsonRpcClient :=
  { s with effects := s.effects ++ [Effect.emit signal] }

/-- Post a call to the event queue. -/
def post (call : QueuedCall) (s : JsonRpcClient) : JsonRpcClient :=
  { s with eventQueue := s.eventQueue ++ [call] }

/-- Modelled from the spec: `NymeaConnection::sendData` (connection/nymeaconnection.cpp is
not among the sources) forwards the bytes to the active transport and is a no-op
when none is connected. -/
def sendData (data : Outgoing) (s : JsonRpcClient) : JsonRpcClient :=
  if s.m_connection.connected then { s with effects := s.effects ++ [Effect.sendData data] } else s

/-- Modelled from the spec: `NymeaConnection::disconnectFromHost` (not among the sources)
asks the transport to disconnect; the state changes only when the transport
reports it, through `onInterfaceConnectedChanged`. -/
def disconnectFromHost (s : JsonRpcClient) : JsonRpcClient :=
  { s with effects := s.effects ++ [Effect.disconnectFromHost] }

/-- The value of the settings key in group `jsonTokens`, as a byte array:
`QSettings::value`, which answers an empty key with an invalid value (and a
warning), whose byte array is empty. -/
def settingsValue (s : JsonRpcClient) (key : QString) : QByteArray :=
  if key = "" then [] else QMap.value s.jsonTokens key []

/-- Store a value under the settings key in group `jsonTokens`: `QSettings::setValue`,
which ignores an empty key (a warning, nothing is written). -/
def settingsSetValue (key : QString) (value : QByteArray) (s : JsonRpcClient) : JsonRpcClient :=
  if key = "" then s else { s with jsonTokens := QMap.insert s.jsonTokens key value }

/-- Name of the certificate file of a server below `sslcerts/`. -/
def pemFileName (serverUuid : QUuid) : QString := serverUuid.toStringWithoutBraces ++ ".pem"

/-- Read the pinned certificate of a server: `loadPem`; `none` is the result `false`. -/
def loadPem (serverUuid : QUuid) (s : JsonRpcClient) : Option QByteArray :=
  QMap.value? s.sslcerts (pemFileName serverUuid)

/-- Write the pinned certificate of a server: `storePem`. -/
def storePem (serverUuid : QUuid) (pem : QByteArray) (s : JsonRpcClient) : JsonRpcClient :=
  { s with sslcerts := QMap.insert s.sslcerts (pemFileName serverUuid) pem }

/-- Pin a certificate on request of the user: `acceptCertificate`. -/
def acceptCertificate (serverUuid : QString) (pem : QByteArray) (s : JsonRpcClient) : JsonRpcClient :=
  storePem (QUuid.fromString serverUuid) pem s

/-- Whether a token is stored for a server: `tokenExists`. -/
def tokenExists (serverUuid : QString) (s : JsonRpcClient) : Bool :=
  QMap.contains s.jsonTokens (QUuid.fromString serverUuid).toQString

/-- Name of the cache file of a call below `CacheLocation`. -/
def cacheFileName (env : Env) (method : QString) (params : QVariantMap) (hash : QString) : QString :=
  let callSignature := method ++ "-" ++ String.mk (env.toJson (QVariant.map params)) ++ "-" ++ env.localeName
  let callSignatureHash := env.md5Hex callSignature
  method ++ "-" ++ callSignatureHash ++ "-" ++ hash ++ ".cache"

/-! ## Getters -/

def connected (s : JsonRpcClient) : Bool := s.m_connected

def initialSetupRequired (s : JsonRpcClient) : Bool := s.m_initialSetupRequired

def authenticationRequired (s : JsonRpcClient) : Bool :=
  s.m_authenticationRequired && s.m_token.isEmpty

def pushButtonAuthAvailable (s : JsonRpcClient) : Bool := s.m_pushButtonAuthAvailable

def authenticated (s : JsonRpcClient) : Bool := s.m_authenticated

def serverUuid (s : JsonRpcClient) : QString := s.m_serverUuid

def jsonRpcVersion (s : JsonRpcClient) : QString := s.m_jsonRpcVersion.toQString

/-- Whether the negotiated version is at least the given one: `ensureServerVersion`. -/
def ensureServerVersion (jsonRpcVersion : QString) (s : JsonRpcClient) : Bool :=
  QVersionNumber.ge s.m_jsonRpcVersion (QVersionNumber.fromString jsonRpcVersion)

/-- Issuer attributes and fingerprint of the peer certificate: `certificateIssuerInfo`. -/
def certificateIssuerInfo (s : JsonRpcClient) : QVariantMap :=
  let issuerInfo : QVariantMap := s.m_connection.sslCertificate.issuerInfo.foldl
    (fun m attr => QMap.insert m (String.mk attr.1) (QVariant.list (attr.2.map QVariant.str))) []
  let certificateFingerprint : QByteArray := s.m_connection.sslCertificate.digestSha256.foldl
    (fun fp b => (if fp.length > 0 then fp ++ [':'] else fp) ++ byteToHexUpper b) []
  QMap.insert issuerInfo "fingerprint" (QVariant.bytes certificateFingerprint)

/-! ## Sending calls -/

/-- Allocate the next identifier and build the record of a call: `createReply`.
The result is the null pointer (`none`) unless the method has exactly two
dot-separated parts. -/
def createReply (method : QString) (params : QVariantMap) (caller : Option QObjectRef)
    (callback : QString) (s : JsonRpcClient) : Option JsonRpcReply × JsonRpcClient :=
  let callParts := QString.split method '.'
  if callParts.length ≠ 2 then (none, s)
  else
    let s := { s with m_id := toInt32 (s.m_id + 1) }
    (some ⟨s.m_id, callParts.headD "", callParts.getLastD "", params, caller, callback⟩, s)

/-- Add the token to a request and hand it to the connection: `sendRequest`. -/
def sendRequest (request : QVariantMap) (s : JsonRpcClient) : JsonRpcClient :=
  let newRequest := QMap.insert request "token" (QVariant.bytes s.m_token)
  sendData ⟨newRequest, JsonFormat.Compact, ['\n']⟩ s

/-- The cache lookup of `sendCommand`: the payload stored for the call under the
hash the server advertises for the method, when the file exists and parses. -/
def cachedResponse (env : Env) (method : QString) (params : QVariantMap) (s : JsonRpcClient) :
    Option QVariantMap :=
  if QMap.contains s.m_cacheHashes method then
    let hash := QMap.value s.m_cacheHashes method ""
    match QMap.value? s.cacheFiles (cacheFileName env method params hash) with
    | some content => (env.fromJson content).map QVariant.toMap
    | none => none
  else none

/-- Issue a call, answered from the cache when possible: `sendCommand`. -/
def sendCommand (env : Env) (method : QString) (params : QVariantMap) (caller : Option QObjectRef)
    (callbackMethod : QString) (s : JsonRpcClient) : Except Fault (Int × JsonRpcClient) :=
  match createReply method params caller callbackMethod s with
  | (none, _) => Except.error Fault.nullDereference
  | (some reply, s) =>
    match cachedResponse env method params s with
    | some cachedParams =>
      let s := match reply.caller with
        | some object => if reply.callback ≠ "" then
            post (QueuedCall.callback object reply.callback reply.commandId cachedParams) s else s
        | none => s
      let s := post (QueuedCall.responseReceived reply.commandId cachedParams) s
      Except.ok (reply.commandId, s)
    | none =>
      let s := { s with m_replies := QMap.insert s.m_replies reply.commandId reply }
      let s := sendRequest reply.requestMap s
      Except.ok (reply.commandId, s)

/-- Query the cloud connection state: `getCloudConnectionStatus`. -/
def getCloudConnectionStatus (s : JsonRpcClient) : Except Fault JsonRpcClient :=
  match createReply "JSONRPC.IsCloudConnected" [] (some QObjectRef.self) "isCloudConnectedReply" s with
  | (none, _) => Except.error Fault.nullDereference
  | (some reply, s) =>
    let s := { s with m_replies := QMap.insert s.m_replies reply.commandId reply }
    Except.ok (sendRequest reply.requestMap s)

/-- The parameters `setNotificationsEnabled` sends: the namespaces of the registered
handlers (`m_notificationHandlers.keys()`, one entry per registration) and "Users". -/
def notificationStatusParams (s : JsonRpcClient) : QVariantMap :=
  let namespaces : QStringList := s.m_notificationHandlers.map Prod.fst
  -- We always want the Users notification to check for changed permissions
  let namespaces := if !namespaces.contains "Users" then namespaces ++ ["Users"] else namespaces
  if ensureServerVersion "3.1" s then
    QMap.insert [] "namespaces" (QVariant.list (namespaces.map QVariant.str))
  else
    QMap.insert [] "enabled" (QVariant.bool (decide (namespaces.length > 0)))

/-- Tell the server which notifications to deliver: `setNotificationsEnabled`. -/
def setNotificationsEnabled (s : JsonRpcClient) : Except Fault JsonRpcClient :=
  if !s.m_connection.connected then Except.ok s
  else
    match createReply "JSONRPC.SetNotificationStatus" (notificationStatusParams s) (some QObjectRef.self)
        "setNotificationsEnabledResponse" s with
    | (none, _) => Except.error Fault.nullDereference
    | (some reply, s) =>
      let s := { s with m_replies := QMap.insert s.m_replies reply.commandId reply }
      Except.ok (sendRequest reply.requestMap s)

/-- Register a notification handler for a namespace: `registerNotificationHandler`.
The multi-hash is a list with the newest entry first; what `key(handler)`
answers is the environment's `hashKey`. -/
def registerNotificationHandler (env : Env) (handler : QObjectRef) (nameSpace : QString)
    (method : QString) (s : JsonRpcClient) : Except Fault JsonRpcClient :=
  let key : QString := env.hashKey s.m_notificationHandlers handler
  if key = nameSpace then Except.ok s
  else
    let s := { s with m_notificationHandlers := (nameSpace, handler) :: s.m_notificationHandlers }
    let s := { s with m_notificationHandlerMethods := QMap.insert s.m_notificationHandlerMethods handler method }
    setNotificationsEnabled s

/-- Remove every registration of a handler: `unregisterNotificationHandler`. -/
def unregisterNotificationHandler (handler : QObjectRef) (s : JsonRpcClient) : Except Fault JsonRpcClient :=
  let s := { s with m_notificationHandlers := s.m_notificationHandlers.filter (fun e => decide (e.2 ≠ handler)) }
  let s := { s with m_notificationHandlerMethods := QMap.remove s.m_notificationHandlerMethods handler }
  setNotificationsEnabled s

/-- Create the first user: `createUser`. -/
def createUser (username : QString) (password : QString) (s : JsonRpcClient) :
    Except Fault (Int × JsonRpcClient) :=
  let params : QVariantMap := []
  let params := QMap.insert params "username" (QVariant.str username)
  let params := QMap.insert params "password" (QVariant.str password)
  match createReply "JSONRPC.CreateUser" params (some QObjectRef.self) "processCreateUser" s with
  | (none, _) => Except.error Fault.nullDereference
  | (some reply, s) =>
    let s := { s with m_replies := QMap.insert s.m_replies reply.commandId reply }
    let s := sendData ⟨reply.requestMap, JsonFormat.Indented, []⟩ s
    Except.ok (reply.commandId, s)

/-- Log in with user name and password: `authenticate`. -/
def authenticate (username : QString) (password : QString) (deviceName : QString) (s : JsonRpcClient) :
    Except Fault (Int × JsonRpcClient) :=
  let params : QVariantMap := []
  let params := QMap.insert params "username" (QVariant.str username)
  let params := QMap.insert params "password" (QVariant.str password)
  let params := QMap.insert params "deviceName" (QVariant.str deviceName)
  match createReply "JSONRPC.Authenticate" params (some QObjectRef.self) "processAuthenticate" s with
  | (none, _) => Except.error Fault.nullDereference
  | (some reply, s) =>
    let s := { s with m_replies := QMap.insert s.m_replies reply.commandId reply }
    let s := sendData ⟨reply.requestMap, JsonFormat.Indented, []⟩ s
    Except.ok (reply.commandId, s)

/-- Start push button pairing: `requestPushButtonAuth`. -/
def requestPushButtonAuth (deviceName : QString) (s : JsonRpcClient) :
    Except Fault (Int × JsonRpcClient) :=
  let params : QVariantMap := []
  let params := QMap.insert params "deviceName" (QVariant.str deviceName)
  match createReply "JSONRPC.RequestPushButtonAuth" params (some QObjectRef.self)
      "processRequestPushButtonAuth" s with
  | (none, _) => Except.error Fault.nullDereference
  | (some reply, s) =>
    let s := { s with m_replies := QMap.insert s.m_replies reply.commandId reply }
    let s := sendData ⟨reply.requestMap, JsonFormat.Indented, []⟩ s
    Except.ok (reply.commandId, s)

/-- Set up remote access: `setupRemoteAccess`. -/
def setupRemoteAccess (env : Env) (idToken : QString) (userId : QString) (s : JsonRpcClient) :
    Except Fault (Int × JsonRpcClient) :=
  let params : QVariantMap := []
  let params := QMap.insert params "idToken" (QVariant.str idToken)
  let params := QMap.insert params "userId" (QVariant.str userId)
  sendCommand env "JSONRPC.SetupRemoteAccess" params (some QObjectRef.self) "setupRemoteAccessReply" s

/-- Deploy the cloud certificate: `deployCertificate`. -/
def deployCertificate (env : Env) (rootCA certificate publicKey privateKey : QByteArray)
    (endpoint : QString) (s : JsonRpcClient) : Except Fault JsonRpcClient :=
  let params : QVariantMap := []
  let params := QMap.insert params "rootCA" (QVariant.bytes rootCA)
  let params := QMap.insert params "certificatePEM" (QVariant.bytes certificate)
  let params := QMap.insert params "publicKey" (QVariant.bytes publicKey)
  let params := QMap.insert params "privateKey" (QVariant.bytes privateKey)
  let params := QMap.insert params "endpoint" (QVariant.str endpoint)
  (sendCommand env "JSONRPC.SetupCloudConnection" params (some QObjectRef.self)
    "deployCertificateReply" s).map Prod.snd

/-- The Qt version of the server, asked for when not yet known: `serverQtVersion`. -/
def serverQtVersion (env : Env) (s : JsonRpcClient) : Except Fault (QString × JsonRpcClient) :=
  if s.m_serverQtVersion ≠ "" then Except.ok (s.m_serverQtVersion, s)
  else if ensureServerVersion "4.0" s then
    (sendCommand env "JSONRPC.Version" [] (some QObjectRef.self) "getVersionsReply" s).map
      (fun r => ("", r.2))
  else Except.ok ("", s)

/-! ## Reply handlers -/

/-- Slot `setNotificationsEnabledResponse`. -/
def setNotificationsEnabledResponse (_commandId : Int) (_params : QVariantMap) (s : JsonRpcClient) :
    JsonRpcClient :=
  if !s.m_connected then emit (Signal.connectedChanged true) { s with m_connected := true } else s

/-- The success branch of the push button notification up to the call of
`setNotificationsEnabled`: the token of the notification is held and stored. -/
def pushButtonAuthFields (data : QVariantMap) (s : JsonRpcClient) : JsonRpcClient :=
  let s := { s with m_token := ((data.value "params").toMap.value "token").toByteArray }
  let s := settingsSetValue s.m_serverUuid s.m_token s
  let s := { s with m_initialSetupRequired := false }
  emit Signal.authenticationRequiredChanged s

/-- Slot `notificationReceived`: the handler of the client for namespace JSONRPC. -/
def notificationReceived (env : Env) (data : QVariantMap) (s : JsonRpcClient) : Except Fault JsonRpcClient :=
  if (data.value "notification").toQString = "JSONRPC.PushButtonAuthFinished" then
    if ((data.value "params").toMap.value "transactionId").toInt ≠ s.m_pendingPushButtonTransaction then
      Except.ok s
    else
      let s := { s with m_pendingPushButtonTransaction := -1 }
      if ((data.value "params").toMap.value "success").toBool then
        setNotificationsEnabled (pushButtonAuthFields data s)
      else
        Except.ok (emit Signal.pushButtonAuthFailed s)
  else if (data.value "notification").toQString = "JSONRPC.CloudConnectedChanged" then
    let s := { s with m_cloudConnectionState :=
      env.cloudConnectionStateValue ((data.value "params").toMap.value "connectionState").toByteArray }
    Except.ok (emit Signal.cloudConnectionStateChanged s)
  else Except.ok s

/-- Slot `isCloudConnectedReply`. -/
def isCloudConnectedReply (env : Env) (_commandId : Int) (data : QVariantMap) (s : JsonRpcClient) :
    JsonRpcClient :=
  let s := { s with m_cloudConnectionState :=
    env.cloudConnectionStateValue (data.value "connectionState").toByteArray }
  emit Signal.cloudConnectionStateChanged s

/-- Slot `setupRemoteAccessReply`. -/
def setupRemoteAccessReply (_commandId : Int) (_data : QVariantMap) (s : JsonRpcClient) : JsonRpcClient := s

/-- Slot `deployCertificateReply`. -/
def deployCertificateReply (_commandId : Int) (_data : QVariantMap) (s : JsonRpcClient) : JsonRpcClient := s

/-- Slot `getVersionsReply`. -/
def getVersionsReply (_commandId : Int) (data : QVariantMap) (s : JsonRpcClient) : JsonRpcClient :=
  let s := { s with m_serverQtVersion := (data.value "qtVersion").toQString }
  let s := { s with m_serverQtBuildVersion := (data.value "qtBuildVersion").toQString }
  if s.m_serverQtVersion ≠ "" then emit Signal.serverQtVersionChanged s else s

/-- The success branch of `processAuthenticate` up to the call of
`setNotificationsEnabled`: token, user name and scopes are taken from the reply,
the token is stored, the client is marked authenticated. -/
def processAuthenticateFields (env : Env) (data : QVariantMap) (s : JsonRpcClient) : JsonRpcClient :=
  let s := { s with m_token := (data.value "token").toByteArray }
  let s := { s with m_username := (data.value "username").toQString }
  let s := { s with m_permissionScopes :=
    if s.m_jsonRpcVersion.majorVersion ≥ 6 then
      env.listToScopes (data.value "scopes").toStringList
    else
      env.permissionScopeAdmin }
  let s := settingsSetValue s.m_serverUuid s.m_token s
  let s := emit Signal.authenticationRequiredChanged s
  let s := { s with m_authenticated := true }
  emit Signal.authenticatedChanged s

/-- Slot `processAuthenticate`. -/
def processAuthenticate (env : Env) (_commandId : Int) (data : QVariantMap) (s : JsonRpcClient) :
    Except Fault JsonRpcClient :=
  if (data.value "success").toBool then
    setNotificationsEnabled (processAuthenticateFields env data s)
  else
    Except.ok (emit Signal.authenticationFailed s)

/-- Slot `processCreateUser`. -/
def processCreateUser (_commandId : Int) (data : QVariantMap) (s : JsonRpcClient) : JsonRpcClient :=
  if (data.value "error").toQString = "UserErrorNoError" then
    let s := emit Signal.createUserSucceeded s
    let s := { s with m_initialSetupRequired := false }
    emit Signal.initialSetupRequiredChanged s
  else
    emit (Signal.createUserFailed (data.value "error").toQString) s

/-- Slot `processRequestPushButtonAuth`. -/
def processRequestPushButtonAuth (_commandId : Int) (data : QVariantMap) (s : JsonRpcClient) :
    JsonRpcClient :=
  if (data.value "success").toBool then
    { s with m_pendingPushButtonTransaction := (data.value "transactionId").toInt }
  else
    emit Signal.pushButtonAuthFailed s

/-- One step of the loop over the `cacheHashes` of a Hello reply. -/
def insertCacheHash (m : List (QString × QString)) (cacheHash : QVariant) : List (QString × QString) :=
  QMap.insert m (cacheHash.toMap.value "method").toQString (cacheHash.toMap.value "hash").toQString

/-- One step of the loop over the `experiences` of a Hello reply. -/
def insertExperience (m : List (QString × QString)) (experience : QVariant) : List (QString × QString) :=
  QMap.insert m (experience.toMap.value "name").toQString (experience.toMap.value "version").toQString

/-- The end of `helloReply`: enable notifications and query the cloud state. -/
def helloReplyNotifications (s : JsonRpcClient) : Except Fault JsonRpcClient :=
  match setNotificationsEnabled s with
  | Except.error e => Except.error e
  | Except.ok s => getCloudConnectionStatus s

/-- The part of `helloReply` that decides on initial setup and authentication. -/
def helloReplyAuthentication (s : JsonRpcClient) : Except Fault JsonRpcClient :=
  if s.m_initialSetupRequired then
    Except.ok (emit Signal.initialSetupRequiredChanged s)
  else if s.m_authenticationRequired then
    -- Reload the token, now that we're certain about the server uuid.
    let s := { s with m_token := settingsValue s s.m_serverUuid }
    let s := emit Signal.authenticationRequiredChanged s
    if s.m_token.isEmpty then Except.ok s
    else
      let s := { s with m_authenticated := true }
      let s := emit Signal.authenticatedChanged s
      helloReplyNotifications s
  else helloReplyNotifications s

/-- The fields `helloReply` sets after the certificate check: the cache hashes, the
permission scopes and the user name; the signals permissionsChanged and
handshakeReceived. -/
def helloReplySessionFields (env : Env) (params : QVariantMap) (s : JsonRpcClient) : JsonRpcClient :=
  let cacheHashes := (params.value "cacheHashes").toList
  let s := { s with m_cacheHashes := cacheHashes.foldl insertCacheHash [] }
  let s := { s with m_permissionScopes :=
    if s.m_jsonRpcVersion.majorVersion ≥ 6 then
      env.listToScopes (params.value "permissionScopes").toStringList
    else
      env.permissionScopeAdmin }
  let s := { s with m_username := (params.value "username").toQString }
  let s := emit Signal.permissionsChanged s
  emit Signal.handshakeReceived s

/-- The uuid of the server is handed to the host of the connection when the host
(`host` is the current host) has none. -/
def updateHostUuid (host : NymeaHost) (s : JsonRpcClient) : JsonRpcClient :=
  { s with m_connection := { s.m_connection with
      currentHost := some (if host.uuid.isNull then ⟨QUuid.fromString s.m_serverUuid⟩ else host) } }

/-- The part of `helloReply` after the certificate check: cache hashes, permissions,
the uuid of the host, then setup and authentication. -/
def helloReplySession (env : Env) (params : QVariantMap) (s : JsonRpcClient) : Except Fault JsonRpcClient :=
  let s := helloReplySessionFields env params s
  match s.m_connection.currentHost with
  | none => Except.error Fault.nullDereference
  | some host => helloReplyAuthentication (updateHostUuid host s)

/-- The protocol version of a Hello reply as `helloReply` reads it: a version
without a dot is taken as the minor version of major version 0. -/
def protocolVersion (params : QVariantMap) : QVersionNumber :=
  let protoVersionString := (params.value "protocol version").toQString
  let protoVersionString :=
    if !protoVersionString.toList.contains '.' then "0." ++ protoVersionString else protoVersionString
  QVersionNumber.fromString protoVersionString

/-- The fields `helloReply` copies from the reply before it checks the version. -/
def helloReplyFields (params : QVariantMap) (s : JsonRpcClient) : JsonRpcClient :=
  let s := { s with m_initialSetupRequired := (params.value "initialSetupRequired").toBool }
  let s := { s with m_authenticationRequired := (params.value "authenticationRequired").toBool }
  let s := { s with m_pushButtonAuthAvailable := (params.value "pushButtonAuthAvailable").toBool }
  let s := emit Signal.pushButtonAuthAvailableChanged s
  let s := { s with m_serverUuid := (params.value "uuid").toQString }
  let s := { s with m_serverVersion := (params.value "version").toQString }
  let s := { s with m_experiences := (params.value "experiences").toList.foldl insertExperience [] }
  { s with m_jsonRpcVersion := protocolVersion params }

/-- Slot `helloReply`: the handshake. -/
def helloReply (env : Env) (_commandId : Int) (params : QVariantMap) (s : JsonRpcClient) :
    Except Fault JsonRpcClient :=
  let s := helloReplyFields params s
  let minimumRequiredVersion : QVersionNumber := [5, 0]
  let maximumMajorVersion : QVersionNumber := [6]
  if QVersionNumber.lt s.m_jsonRpcVersion minimumRequiredVersion then
    Except.ok (emit (Signal.invalidMinimumVersion s.m_jsonRpcVersion.toQString
      minimumRequiredVersion.toQString) s)
  else if s.m_jsonRpcVersion.majorVersion > maximumMajorVersion.majorVersion then
    Except.ok (emit (Signal.invalidMaximumVersion s.m_jsonRpcVersion.toQString
      (QString.number maximumMajorVersion.majorVersion ++ ".x")) s)
  else
    -- Verify SSL certificate
    if s.m_connection.isEncrypted then
      let certificate := s.m_connection.sslCertificate
      match loadPem (QUuid.fromString s.m_serverUuid) s with
      | none =>
        let s := emit Signal.newSslCertificate s
        let s := storePem (QUuid.fromString s.m_serverUuid) s.m_connection.sslCertificate.toPem s
        helloReplySession env params s
      | some oldPem =>
        if certificate.toPem ≠ oldPem then
          let issuerInfo := certificateIssuerInfo s
          let s := disconnectFromHost s
          Except.ok (emit (Signal.verifyConnectionCertificate s.m_serverUuid issuerInfo
            certificate.toPem) s)
        else helloReplySession env params s
    else helloReplySession env params s

/-! ## Dispatch of received documents -/

/-- Call a method of the client by name with arguments (int, QVariantMap):
`QMetaObject::invokeMethod(this, name, ...)`.  The invokable methods with this
signature are the reply slots used in this file and the signal
`responseReceived`; any other name is not found and nothing happens. -/
def invokeSelf (env : Env) (method : QString) (commandId : Int) (params : QVariantMap)
    (s : JsonRpcClient) : Except Fault JsonRpcClient :=
  if method = "helloReply" then helloReply env commandId params s
  else if method = "processAuthenticate" then processAuthenticate env commandId params s
  else if method = "processCreateUser" then Except.ok (processCreateUser commandId params s)
  else if method = "processRequestPushButtonAuth" then
    Except.ok (processRequestPushButtonAuth commandId params s)
  else if method = "setNotificationsEnabledResponse" then
    Except.ok (setNotificationsEnabledResponse commandId params s)
  else if method = "isCloudConnectedReply" then Except.ok (isCloudConnectedReply env commandId params s)
  else if method = "setupRemoteAccessReply" then Except.ok (setupRemoteAccessReply commandId params s)
  else if method = "deployCertificateReply" then Except.ok (deployCertificateReply commandId params s)
  else if method = "getVersionsReply" then Except.ok (getVersionsReply commandId params s)
  else if method = "responseReceived" then Except.ok (emit (Signal.responseReceived commandId params) s)
  else Except.ok s

/-- Invoke the callback of a call on its caller: the invocation is recorded, and
when the caller is the client itself the method runs. -/
def invokeCallback (env : Env) (object : QObjectRef) (method : QString) (commandId : Int)
    (params : QVariantMap) (s : JsonRpcClient) : Except Fault JsonRpcClient :=
  let s := { s with effects := s.effects ++ [Effect.invoke object method commandId params] }
  match object with
  | QObjectRef.self => invokeSelf env method commandId params s
  | QObjectRef.object _ => Except.ok s

/-- Invoke the recorded method of a notification handler with the document: the
invocation is recorded, and when the handler is the client itself the method
runs (`notificationReceived` is its only method taking one QVariantMap). -/
def invokeNotificationHandler (env : Env) (dataMap : QVariantMap) (s : JsonRpcClient)
    (handler : QObjectRef) : Except Fault JsonRpcClient :=
  let method := QMap.value s.m_notificationHandlerMethods handler ""
  let s := { s with effects := s.effects ++ [Effect.notify handler method dataMap] }
  match handler with
  | QObjectRef.self =>
    if method = "notificationReceived" then notificationReceived env dataMap s else Except.ok s
  | QObjectRef.object _ => Except.ok s

/-- The notification branch of `dataReceived`. -/
def handleNotification (env : Env) (dataMap : QVariantMap) (s : JsonRpcClient) :
    Except Fault JsonRpcClient :=
  -- Check if our permissions changed
  let userMap := ((dataMap.value "params").toMap.value "userInfo").toMap
  let s :=
    if (dataMap.value "notification").toQString = "Users.UserChanged"
        ∧ (userMap.value "username").toQString = s.m_username then
      let s := { s with m_permissionScopes := env.listToScopes (userMap.value "scopes").toStringList }
      emit Signal.permissionsChanged s
    else s
  let notification := QString.split (dataMap.value "notification").toQString '.'
  let nameSpace := notification.headD ""
  let handlers := (s.m_notificationHandlers.filter (fun e => decide (e.1 = nameSpace))).map Prod.snd
  handlers.foldlM (invokeNotificationHandler env dataMap) s

/-- The end of the reply branch of `dataReceived`: cache the payload if the server
advertises a hash for the method and no file exists yet. -/
def storeInCache (env : Env) (reply : JsonRpcReply) (dataMap : QVariantMap) (s : JsonRpcClient) :
    JsonRpcClient :=
  let fullMethod := reply.nameSpace ++ "." ++ reply.method
  if QMap.contains s.m_cacheHashes fullMethod then
    let hash := QMap.value s.m_cacheHashes fullMethod ""
    let f := cacheFileName env fullMethod reply.params hash
    if !QMap.contains s.cacheFiles f then
      { s with cacheFiles := QMap.insert s.cacheFiles f (env.toJson (dataMap.value "params")) }
    else s
  else s

/-- The part of the reply branch of `dataReceived` that forwards the reply: the
callback, the signal `responseReceived`, the cache. -/
def forwardReply (env : Env) (reply : JsonRpcReply) (commandId : Int) (dataMap : QVariantMap)
    (s : JsonRpcClient) : Except Fault JsonRpcClient :=
  let invoked : Except Fault JsonRpcClient :=
    match reply.caller with
    | some object =>
      if reply.callback ≠ "" then
        invokeCallback env object reply.callback commandId (dataMap.value "params").toMap s
      else Except.ok s
    | none => Except.ok s
  match invoked with
  | Except.error e => Except.error e
  | Except.ok s =>
    let s := emit (Signal.responseReceived reply.commandId (dataMap.value "params").toMap) s
    Except.ok (storeInCache env reply dataMap s)

/-- What the reply branch of `dataReceived` does on the status "unauthorized": the
token is dropped, also from the settings, and authentication is required again. -/
def unauthorized (s : JsonRpcClient) : JsonRpcClient :=
  let s := { s with m_authenticationRequired := true }
  let s := { s with m_token := [] }
  let s := settingsSetValue s.m_serverUuid s.m_token s
  let s := emit Signal.authenticationRequiredChanged s
  let s := { s with m_authenticated := false }
  emit Signal.authenticatedChanged s

/-- The reply branch of `dataReceived` once the pending record `reply` has been
taken out of the table. -/
def handleMatchedReply (env : Env) (reply : JsonRpcReply) (commandId : Int) (dataMap : QVariantMap)
    (s : JsonRpcClient) : Except Fault JsonRpcClient :=
  let s := if (dataMap.value "status").toQString = "unauthorized" then unauthorized s else s
  if (dataMap.value "status").toQString = "error"
      ∧ reply.nameSpace = "JSONRPC" ∧ reply.method = "Hello" then
    let s := { s with m_id := 0 }
    match sendCommand env "JSONRPC.Hello" [] (some QObjectRef.self) "helloReply" s with
    | Except.error e => Except.error e
    | Except.ok r => forwardReply env reply commandId dataMap r.2
  else forwardReply env reply commandId dataMap s

/-- The reply branch of `dataReceived`. -/
def handleReply (env : Env) (dataMap : QVariantMap) (s : JsonRpcClient) : Except Fault JsonRpcClient :=
  let commandId := (dataMap.value "id").toInt
  let taken := QMap.take s.m_replies commandId
  let s := { s with m_replies := taken.2 }
  match taken.1 with
  | none => Except.ok s
  | some reply => handleMatchedReply env reply commandId dataMap s

/-- The part of `dataReceived` after the document has been cut off the buffer. -/
def handleDocument (env : Env) (dataMap : QVariantMap) (s : JsonRpcClient) : Except Fault JsonRpcClient :=
  -- check if this is a notification
  if QMap.contains dataMap "notification" then handleNotification env dataMap s
  -- check if this is a reply to a request
  else handleReply env dataMap s

/-- The index at which `dataReceived` cuts the buffer. -/
def splitIndex (buffer : QByteArray) : Int :=
  let splitIndex := QByteArray.indexOf buffer ['}', '\n', '{'] + 1
  if splitIndex ≤ 0 then (buffer.length : Int) else splitIndex

/-- Slot `dataReceived`: one pass of the frame reassembler and the dispatch of the
document it yields. -/
def dataReceived (env : Env) (data : QByteArray) (s : JsonRpcClient) : Except Fault JsonRpcClient :=
  if !s.m_connection.connected then Except.ok s
  else
    let s := { s with m_receiveBuffer := s.m_receiveBuffer ++ data }
    let splitIndex := splitIndex s.m_receiveBuffer
    match env.fromJson (QByteArray.left s.m_receiveBuffer splitIndex) with
    | none => Except.ok s
    | some jsonDoc =>
      let s := { s with m_receiveBuffer :=
        QByteArray.right s.m_receiveBuffer (s.m_receiveBuffer.length - splitIndex - 1) }
      let s := if !s.m_receiveBuffer.isEmpty then post (QueuedCall.dataReceived []) s else s
      handleDocument env jsonDoc.toMap s

/-! ## Connection events and the event loop -/

/-- Slot `onInterfaceConnectedChanged`. -/
def onInterfaceConnectedChanged (env : Env) (connected : Bool) (s : JsonRpcClient) :
    Except Fault JsonRpcClient :=
  if !connected then
    let s := { s with m_initialSetupRequired := false }
    let s := { s with m_authenticationRequired := false }
    let s := { s with m_authenticated := false }
    let s := { s with m_receiveBuffer := [] }
    let s := { s with m_serverQtVersion := "" }
    let s := { s with m_serverQtBuildVersion := "" }
    if s.m_connected then
      Except.ok (emit (Signal.connectedChanged false) { s with m_connected := false })
    else Except.ok s
  else
    -- Clear anything that might be left in the buffer from a previous connection.
    let s := { s with m_receiveBuffer := [] }
    -- Load token for this host
    match s.m_connection.currentHost with
    | none => Except.error Fault.nullDereference
    | some host =>
      let s := { s with m_token := settingsValue s host.uuid.toQString }
      let params : QVariantMap := QMap.insert [] "locale" (QVariant.str env.localeName)
      match sendCommand env "JSONRPC.Hello" params (some QObjectRef.self) "helloReply" s with
      | Except.error e => Except.error e
      | Except.ok r => Except.ok r.2

/-- Modelled from the spec: the connection manager (`NymeaConnection`, not among the
sources) re-emits the state of the transport verbatim; `connected()` has the
reported value when the slot of the client runs. -/
def transportConnectedChanged (env : Env) (connected : Bool) (s : JsonRpcClient) :
    Except Fault JsonRpcClient :=
  onInterfaceConnectedChanged env connected
    { s with m_connection := { s.m_connection with connected := connected } }

/-- Deliver one queued call. -/
def deliver (env : Env) (call : QueuedCall) (s : JsonRpcClient) : Except Fault JsonRpcClient :=
  match call with
  | QueuedCall.dataReceived data => dataReceived env data s
  | QueuedCall.callback object method commandId params =>
    invokeCallback env object method commandId params s
  | QueuedCall.responseReceived commandId params =>
    Except.ok (emit (Signal.responseReceived commandId params) s)

/-- Run the event loop: deliver queued calls, oldest first, until the queue is
empty or `fuel` calls have been delivered. -/
def processEvents (env : Env) : Nat → JsonRpcClient → Except Fault JsonRpcClient
  | 0, s => Except.ok s
  | fuel + 1, s =>
    match s.eventQueue with
    | [] => Except.ok s
    | call :: rest =>
      match deliver env call { s with eventQueue := rest } with
      | Except.error e => Except.error e
      | Except.ok s => processEvents env fuel s

end JsonRpcClient

/-! ## A model of the JSON parser

`Env.fromJson` is a parameter of every definition above.  The parser below
follows the grammar `QJsonDocument::fromJson` accepts on the fragment used in
the examples: objects, arrays, strings with the simple escapes, integers,
`true`, `false` and `null`; the top level value is an object or an array,
white space around it is skipped and anything else after it is an error.
Numbers with a fraction or an exponent and `\u` escapes are outside the
fragment and are reported as errors.
-/

namespace Json

/-- White space between tokens. -/
def isSpace (c : Char) : Bool := c == ' ' || c == '\t' || c == '\n' || c == '\r'

/-- Drop leading white space. -/
def eatSpace : List Char → List Char
  | [] => []
  | c :: cs => if isSpace c then eatSpace cs else c :: cs

/-- The character an escape letter stands for. -/
def unescape (c : Char) : Option Char :=
  if c = '"' then some '"' else if c = '\\' then some '\\' else if c = '/' then some '/'
  else if c = 'b' then some (Char.ofNat 8) else if c = 'f' then some (Char.ofNat 12)
  else if c = 'n' then some '\n' else if c = 'r' then some '\r' else if c = 't' then some '\t'
  else none

/-- Read a string after its opening quote; `acc` holds the characters read so far. -/
def parseString : List Char → List Char → Option (String × List Char)
  | [], _ => none
  | c :: cs, acc =>
    if c = '"' then some (String.mk acc, cs)
    else if c = '\\' then
      match cs with
      | [] => none
      | e :: rest =>
        match unescape e with
        | some x => parseString rest (acc ++ [x])
        | none => none
    else parseString cs (acc ++ [c])

/-- Read the digits of a number. -/
def takeDigits : List Char → List Char × List Char
  | [] => ([], [])
  | c :: cs => if c.isDigit then ((takeDigits cs).1.cons c, (takeDigits cs).2) else ([], c :: cs)

/-- Read an integer literal: a single 0 or digits that do not start with 0; a
fraction or an exponent after it is outside the fragment. -/
def parseNumber (cs : List Char) : Option (Int × List Char) :=
  let neg := cs.head? = some '-'
  let body := if neg then cs.drop 1 else cs
  let ds := if body.head? = some '0' then (['0'], body.drop 1) else takeDigits body
  if ds.1 = [] then none
  else if ds.2.head? = some '.' ∨ ds.2.head? = some 'e' ∨ ds.2.head? = some 'E' then none
  else some (if neg then -(digitsValue ds.1 : Int) else (digitsValue ds.1 : Int), ds.2)

/-- Read a literal word. -/
def takeWord (w : List Char) (cs : List Char) : Option (List Char) :=
  if w.isPrefixOf cs then some (cs.drop w.length) else none

mutual

/-- Read a value; the text has no leading white space. -/
def parseValue : Nat → List Char → Option (QVariant × List Char)
  | 0, _ => none
  | fuel + 1, cs =>
    match cs with
    | [] => none
    | c :: rest =>
      if c = '{' then
        match eatSpace rest with
        | [] => none
        | d :: rest2 =>
          if d = '}' then some (QVariant.map [], rest2)
          else (parseMembers fuel (d :: rest2) []).map (fun r => (QVariant.map r.1, r.2))
      else if c = '[' then
        match eatSpace rest with
        | [] => none
        | d :: rest2 =>
          if d = ']' then some (QVariant.list [], rest2)
          else (parseElements fuel (d :: rest2) []).map (fun r => (QVariant.list r.1, r.2))
      else if c = '"' then (parseString rest []).map (fun r => (QVariant.str r.1, r.2))
      else if c = 't' then (takeWord "true".toList cs).map (fun r => (QVariant.bool true, r))
      else if c = 'f' then (takeWord "false".toList cs).map (fun r => (QVariant.bool false, r))
      else if c = 'n' then (takeWord "null".toList cs).map (fun r => (QVariant.invalid, r))
      else (parseNumber cs).map (fun r => (QVariant.int r.1, r.2))

/-- Read the members of an object up to its closing brace; the text starts at a key. -/
def parseMembers : Nat → List Char → QVariantMap → Option (QVariantMap × List Char)
  | 0, _, _ => none
  | fuel + 1, cs, acc =>
    match cs with
    | [] => none
    | c :: rest =>
      if c = '"' then
        match parseString rest [] with
        | none => none
        | some (key, afterKey) =>
          match eatSpace afterKey with
          | [] => none
          | colon :: afterColon =>
            if colon = ':' then
              match parseValue fuel (eatSpace afterColon) with
              | none => none
              | some (v, afterValue) =>
                match eatSpace afterValue with
                | [] => none
                | d :: rest2 =>
                  if d = '}' then some (QMap.insert acc key v, rest2)
                  else if d = ',' then parseMembers fuel (eatSpace rest2) (QMap.insert acc key v)
                  else none
            else none
      else none

/-- Read the elements of an array up to its closing bracket; the text starts at a value. -/
def parseElements : Nat → List Char → QVariantList → Option (QVariantList × List Char)
  | 0, _, _ => none
  | fuel + 1, cs, acc =>
    match parseValue fuel cs with
    | none => none
    | some (v, afterValue) =>
      match eatSpace afterValue with
      | [] => none
      | d :: rest2 =>
        if d = ']' then some (acc ++ [v], rest2)
        else if d = ',' then parseElements fuel (eatSpace rest2) (acc ++ [v])
        else none

end

/-- Parse a document: `QJsonDocument::fromJson(bytes).toVariant()`, `none` on an error. -/
def fromJson (bytes : QByteArray) : Option QVariant :=
  match eatSpace bytes with
  | [] => none
  | c :: rest =>
    if c = '{' ∨ c = '[' then
      match parseValue (bytes.length + 1) (c :: rest) with
      | none => none
      | some (v, after) => if eatSpace after = [] then some v else none
    else none

end Json

/-! ## Example data -/

/-- An environment for the examples: the parser model above; the printer, the
hash and the enumerations are stand-ins, no example depends on their values;
`key` answers with the newest entry of the value, one of the orders a hash
can have. -/
def exampleEnv : Env where
  fromJson := Json.fromJson
  toJson := fun _ => []
  md5Hex := fun text => text
  localeName := "en_US"
  listToScopes := fun scopes => scopes.length
  permissionScopeAdmin := 1
  cloudConnectionStateValue := fun _ => 0
  hashKey := fun entries value => ((entries.find? (fun e => e.2 = value)).map Prod.fst).getD ""

/-- A peer certificate for the examples. -/
def exampleCertificate : QSslCertificate := ⟨"PEM-A".toList, [], [171, 205]⟩

/-- A client right after construction whose transport is connected to a host of
unknown uuid: no call made, nothing stored, the client itself registered as the
handler of namespace JSONRPC. -/
def exampleClient : JsonRpcClient where
  m_id := 0
  m_connection := ⟨true, false, exampleCertificate, some ⟨QUuid.null⟩⟩
  m_notificationHandlers := [("JSONRPC", QObjectRef.self)]
  m_notificationHandlerMethods := [(QObjectRef.self, "notificationReceived")]
  m_replies := []
  m_cacheHashes := []
  m_connected := false
  m_pendingPushButtonTransaction := -1
  m_token := []
  m_serverUuid := ""
  m_serverVersion := ""
  m_jsonRpcVersion := []
  m_initialSetupRequired := false
  m_authenticationRequired := false
  m_authenticated := false
  m_pushButtonAuthAvailable := false
  m_cloudConnectionState := 0
  m_serverQtVersion := ""
  m_serverQtBuildVersion := ""
  m_permissionScopes := 0
  m_username := ""
  m_experiences := []
  m_receiveBuffer := []
  jsonTokens := []
  sslcerts := []
  cacheFiles := []
  eventQueue := []
  effects := []

/-- The example client on an encrypted transport. -/
def exampleEncrypted : JsonRpcClient :=
  { exampleClient with m_connection := ⟨true, true, exampleCertificate, some ⟨QUuid.null⟩⟩ }

/-- A pending call of another object (object 7): `Things.GetThings` with identifier 2. -/
def exampleReply : JsonRpcReply := ⟨2, "Things", "GetThings", [], some (QObjectRef.object 7), "getThingsReply"⟩

/-- The example client with the call `exampleReply` pending. -/
def examplePending : JsonRpcClient :=
  { exampleClient with m_id := 2, m_replies := [(2, exampleReply)], m_connected := true }

/-! ## Auxiliary definitions for the statements -/

namespace JsonRpcClient

/-- The record of the call `setNotificationsEnabled` issues from state `s`. -/
def notificationStatusReply (s : JsonRpcClient) : JsonRpcReply :=
  ⟨toInt32 (s.m_id + 1), "JSONRPC", "SetNotificationStatus", notificationStatusParams s,
    some QObjectRef.self, "setNotificationsEnabledResponse"⟩

/-- The record of the call `getCloudConnectionStatus` issues from state `s`. -/
def cloudConnectedReply (s : JsonRpcClient) : JsonRpcReply :=
  ⟨toInt32 (s.m_id + 1), "JSONRPC", "IsCloudConnected", [], some QObjectRef.self, "isCloudConnectedReply"⟩

/-- The state after a call with record `reply` has been issued through `sendRequest`
on a connected client. -/
def issued (reply : JsonRpcReply) (s : JsonRpcClient) : JsonRpcClient :=
  { s with
    m_id := reply.m_commandId
    m_replies := QMap.insert s.m_replies reply.m_commandId reply
    effects := s.effects ++ [Effect.sendData
      ⟨QMap.insert reply.requestMap "token" (QVariant.bytes s.m_token), JsonFormat.Compact, ['\n']⟩] }

end JsonRpcClient

namespace JsonRpcClient

/-- The params of the Hello reply of the end-to-end example of the specification. -/
def exampleHelloParams : QVariantMap :=
  [("uuid", QVariant.str "srv-1"), ("protocol version", QVariant.str "6.2"),
   ("authenticationRequired", QVariant.bool true), ("initialSetupRequired", QVariant.bool false),
   ("pushButtonAuthAvailable", QVariant.bool false), ("cacheHashes", QVariant.list [])]

/-- The version-mismatch events. -/
def isVersionMismatch : Effect → Bool
  | Effect.emit (Signal.invalidMinimumVersion _ _) => true
  | Effect.emit (Signal.invalidMaximumVersion _ _) => true
  | _ => false

/-- The effects that hand bytes to the connection. -/
def isSendData : Effect → Bool
  | Effect.sendData _ => true
  | _ => false

/-- The recorded invocations of reply callbacks. -/
def isInvoke : Effect → Bool
  | Effect.invoke _ _ _ _ => true
  | _ => false

end JsonRpcClient

namespace JsonRpcClient

/-- The effects of `s'` are those of `s` followed by further effects that all satisfy `P`. -/
def EffectsAdded (P : Effect → Prop) (s s' : JsonRpcClient) : Prop :=
  ∃ new, s'.effects = s.effects ++ new ∧ ∀ e ∈ new, P e

/-- What the last part of the handshake may do to the outside: send, and raise the
signals of the setup and authentication steps. -/
def isHandshakeTail (e : Effect) : Prop :=
  isSendData e = true ∨ e = Effect.emit Signal.initialSetupRequiredChanged
    ∨ e = Effect.emit Signal.authenticationRequiredChanged
    ∨ e = Effect.emit Signal.authenticatedChanged

end JsonRpcClient

namespace JsonRpcClient

/-- The client after `helloReply` has pinned the certificate of the peer: the fields
of the reply are copied, newSslCertificate is raised and the PEM is stored
under the uuid of the reply. -/
def pinned (params : QVariantMap) (s : JsonRpcClient) : JsonRpcClient :=
  storePem (QUuid.fromString (params.value "uuid").toQString) s.m_connection.sslCertificate.toPem
    (emit Signal.newSslCertificate (helloReplyFields params s))

end JsonRpcClient

namespace JsonRpcClient

/-- From `s` to `s'` the counter went up by at most `n`, and every pending record of
`s'` was pending in `s` or has an identifier handed out in between. -/
def Allocates (n : Nat) (s s' : JsonRpcClient) : Prop :=
  s.m_id ≤ s'.m_id ∧ s'.m_id ≤ s.m_id + n
    ∧ ∀ id, QMap.contains s'.m_replies id = true →
        QMap.contains s.m_replies id = true ∨ (s.m_id < id ∧ id ≤ s'.m_id)

end JsonRpcClient

namespace JsonRpcClient

/-- Whether a received document is an error reply to a pending JSONRPC.Hello call:
the case in which `dataReceived` sets the counter back to 0. -/
def resetsCounter (dataMap : QVariantMap) (s : JsonRpcClient) : Bool :=
  !QMap.contains dataMap "notification"
    && decide ((dataMap.value "status").toQString = "error")
    && match QMap.value? s.m_replies (dataMap.value "id").toInt with
       | some reply => decide (reply.m_nameSpace = "JSONRPC" ∧ reply.m_method = "Hello")
       | none => false

/-- What happens to a client within one connection: the calls of the public
interface, the transport reporting its state, and received documents. -/
inductive Action where
  | sendCommand (method : QString) (params : QVariantMap) (caller : Option QObjectRef)
      (callback : QString)
  | authenticate (username : QString) (password : QString) (deviceName : QString)
  | createUser (username : QString) (password : QString)
  | requestPushButtonAuth (deviceName : QString)
  | registerNotificationHandler (handler : QObjectRef) (nameSpace : QString) (method : QString)
  | unregisterNotificationHandler (handler : QObjectRef)
  | connectedChanged (connected : Bool)
  | receive (dataMap : QVariantMap)

/-- Perform an action; the result carries the identifier the call returns, if it returns one. -/
def perform (env : Env) (a : Action) (s : JsonRpcClient) : Except Fault (Option Int × JsonRpcClient) :=
  match a with
  | Action.sendCommand method params caller callback =>
    (sendCommand env method params caller callback s).map (fun r => (some r.1, r.2))
  | Action.authenticate username password deviceName =>
    (authenticate username password deviceName s).map (fun r => (some r.1, r.2))
  | Action.createUser username password =>
    (createUser username password s).map (fun r => (some r.1, r.2))
  | Action.requestPushButtonAuth deviceName =>
    (requestPushButtonAuth deviceName s).map (fun r => (some r.1, r.2))
  | Action.registerNotificationHandler handler nameSpace method =>
    (registerNotificationHandler env handler nameSpace method s).map (fun r => (none, r))
  | Action.unregisterNotificationHandler handler =>
    (unregisterNotificationHandler handler s).map (fun r => (none, r))
  | Action.connectedChanged connected =>
    (transportConnectedChanged env connected s).map (fun r => (none, r))
  | Action.receive dataMap =>
    (handleDocument env dataMap s).map (fun r => (none, r))

/-- Perform a sequence of actions; the result carries the identifiers returned, in order. -/
def runActions (env : Env) : List Action → JsonRpcClient → Except Fault (List Int × JsonRpcClient)
  | [], s => Except.ok ([], s)
  | a :: rest, s =>
    match perform env a s with
    | Except.error e => Except.error e
    | Except.ok (o, s1) =>
      match runActions env rest s1 with
      | Except.error e => Except.error e
      | Except.ok (ids, s2) => Except.ok (o.toList ++ ids, s2)

/-- Whether an action sets the counter back: only an error reply to a pending Hello call does. -/
def Action.resets (a : Action) (s : JsonRpcClient) : Bool :=
  match a with
  | Action.receive dataMap => resetsCounter dataMap s
  | _ => false

/-- The counter has room for the identifiers one action can allocate: one per
registered notification handler, or two. -/
def hasRoom (s : JsonRpcClient) : Prop :=
  s.m_id + s.m_notificationHandlers.length + 2 ≤ 2147483647

instance hasRoomDecidable (s : JsonRpcClient) : Decidable (hasRoom s) := by
  unfold hasRoom
  exact inferInstance

/-- A run in which no step sets the counter back or exhausts the range of `int`. -/
def Steady (env : Env) : List Action → JsonRpcClient → Prop
  | [], _ => True
  | a :: rest, s =>
    a.resets s = false ∧ hasRoom s
      ∧ ∀ o s1, perform env a s = Except.ok (o, s1) → Steady env rest s1

end JsonRpcClient

namespace JsonRpcClient

end JsonRpcClient


namespace JsonRpcClient

/-! ## The frame reassembler in the event loop -/

/-- Whether a text contains the bytes at which `dataReceived` splits the buffer. -/
def hasSplit : List Char → Bool
  | [] => false
  | c :: cs => ['}', '\n', '{'].isPrefixOf (c :: cs) || hasSplit cs

/-- The bytes `dataReceived` hands to the parser: the buffer up to the split index. -/
def candidate (buffer : QByteArray) : QByteArray := QByteArray.left buffer (splitIndex buffer)

/-- The bytes `dataReceived` keeps once the candidate has parsed. -/
def remainder (buffer : QByteArray) : QByteArray :=
  QByteArray.right buffer (buffer.length - splitIndex buffer - 1)

/-- The document a call of `dataReceived` hands on to the dispatch: none when the
client ignores the call or the candidate does not parse. -/
def dispatchedDocument (env : Env) (data : QByteArray) (s : JsonRpcClient) : Option QVariantMap :=
  if !s.m_connection.connected then none
  else (env.fromJson (candidate (s.m_receiveBuffer ++ data))).map QVariant.toMap

/-- The document the delivery of a queued call dispatches. -/
def documentOf (env : Env) (call : QueuedCall) (s : JsonRpcClient) : Option QVariantMap :=
  match call with
  | QueuedCall.dataReceived data => dispatchedDocument env data s
  | QueuedCall.callback _ _ _ _ => none
  | QueuedCall.responseReceived _ _ => none

/-- What happens around the client while bytes come in: the transport reports a
chunk, which queues a call of `dataReceived` (the slot is connected with
`Qt::QueuedConnection`), or the event loop delivers the oldest queued call. -/
inductive LoopStep where
  | arrive (chunk : QByteArray)
  | deliver

/-- Run the steps in order; the result lists the documents handed to the dispatch,
oldest first.  Delivering from an empty queue does nothing. -/
def runLoop (env : Env) : List LoopStep → JsonRpcClient →
    Except Fault (List QVariantMap × JsonRpcClient)
  | [], s => Except.ok ([], s)
  | LoopStep.arrive chunk :: rest, s => runLoop env rest (post (QueuedCall.dataReceived chunk) s)
  | LoopStep.deliver :: rest, s =>
    match s.eventQueue with
    | [] => runLoop env rest s
    | call :: queue =>
      match deliver env call { s with eventQueue := queue } with
      | Except.error e => Except.error e
      | Except.ok s' =>
        match runLoop env rest s' with
        | Except.error e => Except.error e
        | Except.ok r =>
          Except.ok ((documentOf env call { s with eventQueue := queue }).toList ++ r.1, r.2)

/-- The documents a run dispatches, none when the run ends in a fault. -/
def dispatched (env : Env) (steps : List LoopStep) (s : JsonRpcClient) : Option (List QVariantMap) :=
  match runLoop env steps s with
  | Except.error _ => none
  | Except.ok r => some r.1

/-- The bytes the transport reports during the steps, in order. -/
def arrivals : List LoopStep → QByteArray
  | [] => []
  | LoopStep.arrive chunk :: rest => chunk ++ arrivals rest
  | LoopStep.deliver :: rest => arrivals rest

/-- The byte stream of a list of documents, each followed by a newline. -/
def stream : List QByteArray → QByteArray
  | [] => []
  | d :: ds => d ++ '\n' :: stream ds

/-- Whether a queued call is a call of `dataReceived`. -/
def isData : QueuedCall → Bool
  | QueuedCall.dataReceived _ => true
  | QueuedCall.callback _ _ _ _ => false
  | QueuedCall.responseReceived _ _ => false

/-- The bytes carried by the queued calls of `dataReceived`, in order. -/
def queuedBytes : List QueuedCall → QByteArray
  | [] => []
  | QueuedCall.dataReceived data :: rest => data ++ queuedBytes rest
  | QueuedCall.callback _ _ _ _ :: rest => queuedBytes rest
  | QueuedCall.responseReceived _ _ :: rest => queuedBytes rest

/-- The text `d` is one complete document with value `v` for the parser of `env`:
it runs from an opening to a closing brace, does not contain the bytes at which
`dataReceived` splits, parses to `v` with or without a newline around it, and
none of its proper prefixes parses, with or without a newline before it. -/
structure CompleteDocument (env : Env) (d : QByteArray) (v : QVariant) : Prop where
  opens : d.head? = some '{'
  closes : d.getLast? = some '}'
  nosplit : QByteArray.indexOf d ['}', '\n', '{'] = -1
  parses : env.fromJson d = some v
  parses_nl : env.fromJson (d ++ ['\n']) = some v
  nl_parses : env.fromJson ('\n' :: d) = some v
  nl_parses_nl : env.fromJson ('\n' :: (d ++ ['\n'])) = some v
  prefixes : ∀ k, k < d.length →
    env.fromJson (d.take k) = none ∧ env.fromJson ('\n' :: d.take k) = none

/-- The buffer ends before the end of the first remaining document. -/
def Short (buffer : QByteArray) (lead : QByteArray) : List (QByteArray × QVariant) → Prop
  | [] => True
  | d :: _ => buffer.length < (lead ++ d.1).length

/-- The part of the state the frame reassembler depends on: the buffer, whether the
transport is connected, whether the connection has a host, the queued calls. -/
def wire (s : JsonRpcClient) : QByteArray × Bool × Bool × List QueuedCall :=
  (s.m_receiveBuffer, s.m_connection.connected, s.m_connection.currentHost.isSome, s.eventQueue)

/-- From `s` to `s'` the buffer and the transport are as before and at most `n`
calls, none of them of `dataReceived`, are queued. -/
def Quiet (n : Nat) (s s' : JsonRpcClient) : Prop :=
  s'.m_receiveBuffer = s.m_receiveBuffer
    ∧ s'.m_connection.connected = s.m_connection.connected
    ∧ s'.m_connection.currentHost.isSome = s.m_connection.currentHost.isSome
    ∧ ∃ extra, s'.eventQueue = s.eventQueue ++ extra ∧ extra.length ≤ n
      ∧ ∀ c, c ∈ extra → isData c = false

end JsonRpcClient

namespace JsonRpcClient

/-- The state of a reassembly in progress: the client is connected and has a
host; the bytes not yet consumed (the buffer, the queued chunks, the chunks to
come) are the stream of the remaining documents, after a newline when the last
document was consumed without it; and a call of `dataReceived` is queued unless
the buffer ends inside the first remaining document. -/
structure Reassembling (env : Env) (rem : List (QByteArray × QVariant)) (future : QByteArray)
    (s : JsonRpcClient) : Prop where
  connected : s.m_connection.connected = true
  host : s.m_connection.currentHost.isSome = true
  docs : ∀ d, d ∈ rem → CompleteDocument env d.1 d.2
  bytes : ∃ lead, (lead = [] ∨ lead = ['\n'])
    ∧ s.m_receiveBuffer ++ queuedBytes s.eventQueue ++ future = lead ++ stream (rem.map Prod.fst)
    ∧ (Short s.m_receiveBuffer lead rem ∨ ∃ c, c ∈ s.eventQueue ∧ isData c = true)

end JsonRpcClient

namespace JsonRpcClient

/-- The text of a reply with identifier 1, for the examples. -/
def exampleFirst : QByteArray := "\x7b\"id\":1\x7d".toList

/-- The text of a reply with identifier 2, for the examples. -/
def exampleSecond : QByteArray := "\x7b\"id\":2\x7d".toList

/-- The two example documents with their values. -/
def exampleDocuments : List (QByteArray × QVariant) :=
  [(exampleFirst, QVariant.map [("id", QVariant.int 1)]),
   (exampleSecond, QVariant.map [("id", QVariant.int 2)])]

end JsonRpcClient

namespace JsonRpcClient

/-- The encrypted example client with the certificate "PEM-B" pinned for the server
of the example Hello reply; the peer presents `exampleCertificate`. -/
def examplePinned : JsonRpcClient := acceptCertificate "srv-1" "PEM-B".toList exampleEncrypted

/-- The example Hello reply with protocol version 4.2 instead of 6.2. -/
def exampleOldHelloParams : QVariantMap :=
  [("uuid", QVariant.str "srv-1"), ("protocol version", QVariant.str "4.2"),
   ("authenticationRequired", QVariant.bool true), ("initialSetupRequired", QVariant.bool false),
   ("pushButtonAuthAvailable", QVariant.bool false), ("cacheHashes", QVariant.list [])]

end JsonRpcClient

namespace JsonRpcClient

/-- The token state of the client: the held token, the stored tokens and the flags
`m_authenticated` and `m_authenticationRequired`. -/
def credentials (s : JsonRpcClient) : QByteArray × List (QString × QByteArray) × Bool × Bool :=
  (s.m_token, s.jsonTokens, s.m_authenticated, s.m_authenticationRequired)

/-- An effect other than a request to disconnect. -/
def keepsConnection (e : Effect) : Prop := e ≠ Effect.disconnectFromHost

end JsonRpcClient

namespace JsonRpcClient

/-- What the client holds of a session besides the token and the flags: the server
uuid, the negotiated protocol version, the permission scopes, the cache-hash
table and the user name. -/
def session (s : JsonRpcClient) :
    QString × QVersionNumber × Nat × List (QString × QString) × QString :=
  (s.m_serverUuid, s.m_jsonRpcVersion, s.m_permissionScopes, s.m_cacheHashes, s.m_username)

/-- The example client in a session: authenticated with the token "tok" on server
"srv-1", protocol version 6.2, one cacheable method. -/
def exampleSession : JsonRpcClient :=
  { exampleClient with
    m_connected := true
    m_serverUuid := "srv-1"
    m_jsonRpcVersion := [6, 2]
    m_permissionScopes := 1
    m_token := "tok".toList
    m_authenticated := true
    m_cacheHashes := [("Things.GetThings", "h1")] }

end JsonRpcClient

namespace JsonRpcClient

/-- The name of the cache file of the example call `Things.GetThings` under hash "h1". -/
def exampleCacheFile : QString := cacheFileName exampleEnv "Things.GetThings" [] "h1"

/-- The example client in a session with the call `exampleReply` pending; the
server advertises hash "h1" for its method and nothing is cached. -/
def exampleCachePending : JsonRpcClient :=
  { exampleSession with m_id := 2, m_replies := [(2, exampleReply)] }

/-- The example client in a session with a payload of the call `Things.GetThings`
cached under hash "h1". -/
def exampleCached : JsonRpcClient :=
  { exampleSession with cacheFiles := [(exampleCacheFile, "\x7b\"things\":[]\x7d".toList)] }

/-- A Hello reply that advertises hash "h2" for `Things.GetThings`. -/
def exampleCacheHello : QVariantMap :=
  [("uuid", QVariant.str "srv-1"), ("protocol version", QVariant.str "6.2"),
   ("authenticationRequired", QVariant.bool false), ("initialSetupRequired", QVariant.bool false),
   ("pushButtonAuthAvailable", QVariant.bool false),
   ("cacheHashes", QVariant.list [QVariant.map
      [("method", QVariant.str "Things.GetThings"), ("hash", QVariant.str "h2")]])]

/-- A Hello reply that advertises hash "h2" for `Things.GetThings` and names the
protocol version "4.2", which is below the minimum. -/
def exampleOldCacheHello : QVariantMap :=
  [("uuid", QVariant.str "srv-1"), ("protocol version", QVariant.str "4.2"),
   ("authenticationRequired", QVariant.bool false), ("initialSetupRequired", QVariant.bool false),
   ("pushButtonAuthAvailable", QVariant.bool false),
   ("cacheHashes", QVariant.list [QVariant.map
      [("method", QVariant.str "Things.GetThings"), ("hash", QVariant.str "h2")]])]

end JsonRpcClient

namespace JsonRpcClient

/-- The client `exampleCached` with the call `exampleReply` pending. -/
def exampleCachedPending : JsonRpcClient :=
  { exampleCached with m_id := 2, m_replies := [(2, exampleReply)] }

/-- The calls a cache hit of `sendCommand` posts: the callback, when the call has a
caller and a callback, and the signal `responseReceived`. -/
def cacheHitCalls (caller : Option QObjectRef) (callback : QString) (id : Int)
    (payload : QVariantMap) : List QueuedCall :=
  (match caller with
    | some object => if callback ≠ "" then [QueuedCall.callback object callback id payload] else []
    | none => [])
  ++ [QueuedCall.responseReceived id payload]

end JsonRpcClient

/-! ## A printer for the examples -/

namespace Json

/-- Print a string between quotes; the characters are not escaped. -/
def printString (s : String) : List Char := '"' :: s.toList ++ ['"']

/-- Join texts with commas. -/
def commaSeparated : List (List Char) → List Char
  | [] => []
  | [x] => x
  | x :: y :: rest => x ++ ',' :: commaSeparated (y :: rest)

/-- Compact JSON text of a value nested at most `depth` deep; what lies deeper, an
invalid value and a byte array are printed as `null`. -/
def printValue : Nat → QVariant → List Char
  | 0, _ => "null".toList
  | _ + 1, QVariant.invalid => "null".toList
  | _ + 1, QVariant.bool b => if b then "true".toList else "false".toList
  | _ + 1, QVariant.int n => (QString.number n).toList
  | _ + 1, QVariant.str s => printString s
  | _ + 1, QVariant.bytes _ => "null".toList
  | depth + 1, QVariant.list vs =>
    '[' :: commaSeparated (vs.map (printValue depth)) ++ [']']
  | depth + 1, QVariant.map m =>
    '\x7b' :: commaSeparated (m.map (fun e => printString e.1 ++ ':' :: printValue depth e.2))
      ++ ['\x7d']

/-- A stand-in for `QJsonDocument::fromVariant(v).toJson()` in the examples: the
compact text of a map or a list, the empty text for any other value (the
document is null then). -/
def toJson (v : QVariant) : QByteArray :=
  match v with
  | QVariant.map _ => printValue 64 v
  | QVariant.list _ => printValue 64 v
  | _ => []

end Json

namespace JsonRpcClient

/-- The example environment with the printer above, which the parser model reads
back. -/
def examplePrinterEnv : Env := { exampleEnv with toJson := Json.toJson }

end JsonRpcClient

/-! ## The registry of notification handlers -/

namespace JsonRpcClient

end JsonRpcClient

namespace JsonRpcClient

/-- The example client with object 7 registered for namespace "Things". -/
def exampleRegistered : JsonRpcClient :=
  { exampleClient with
    m_notificationHandlers := [("Things", QObjectRef.object 7), ("JSONRPC", QObjectRef.self)]
    m_notificationHandlerMethods :=
      [(QObjectRef.self, "notificationReceived"), (QObjectRef.object 7, "thingsNotification")] }

end JsonRpcClient


/-! ## Delivery of notifications -/

namespace JsonRpcClient

/-- The handlers registered for a namespace, in the order
`m_notificationHandlers.values(nameSpace)` lists them, one per registration. -/
def handlersOf (nameSpace : QString) (s : JsonRpcClient) : List QObjectRef :=
  (s.m_notificationHandlers.filter (fun e => decide (e.1 = nameSpace))).map Prod.snd

end JsonRpcClient

/-! ## Calls sent during the handshake and after authentication -/

namespace JsonRpcClient

/-- The full method names of the request documents handed to the connection, oldest
first. -/
def sentMethods (effects : List Effect) : List QString :=
  effects.filterMap (fun e =>
    match e with
    | Effect.sendData d => some (d.document.value "method").toQString
    | _ => none)

/-- The certificate check of `helloReply` lets the reply pass: the transport is not
encrypted, or no certificate is stored for the server of the reply, or the
stored certificate is the one of the peer. -/
def certificateAccepted (params : QVariantMap) (s : JsonRpcClient) : Prop :=
  s.m_connection.isEncrypted = false
    ∨ loadPem (QUuid.fromString (params.value "uuid").toQString) s = none
    ∨ loadPem (QUuid.fromString (params.value "uuid").toQString) s
        = some s.m_connection.sslCertificate.toPem

end JsonRpcClient

namespace JsonRpcClient

/-- A successful reply to `JSONRPC.Authenticate`, for the examples. -/
def exampleAuthenticated : QVariantMap :=
  [("success", QVariant.bool true), ("token", QVariant.str "tok")]

/-- A run for the examples: the transport connects (Hello gets identifier 1), the
user logs in (JSONRPC.Authenticate gets identifier 2), the server answers the
Hello call with status "error" (the counter is set back and stands at 1 after
the retry), and then answers the Authenticate call with success and the token
"tok". -/
def exampleReuseRun : List Action :=
  [Action.connectedChanged true,
   Action.authenticate "user" "secret" "app",
   Action.receive [("id", QVariant.int 1), ("status", QVariant.str "error")],
   Action.receive [("id", QVariant.int 2), ("status", QVariant.str "success"),
     ("params", QVariant.map exampleAuthenticated)]]

/-- The notification that ends push button transaction 4 with a token, for the
examples. -/
def examplePushButtonFinished : QVariantMap :=
  [("notification", QVariant.str "JSONRPC.PushButtonAuthFinished"),
   ("params", QVariant.map [("transactionId", QVariant.int 4), ("success", QVariant.bool true),
     ("token", QVariant.str "tok")])]

/-- The example client waiting for push button transaction 4. -/
def examplePushButtonPending : JsonRpcClient :=
  { exampleClient with m_pendingPushButtonTransaction := 4 }

/-- The example client after the handshake with server "srv-1", which requires
authentication: connected, protocol version 6.2, no token held or stored. -/
def exampleAwaitingLogin : JsonRpcClient :=
  { exampleClient with
    m_connected := true
    m_serverUuid := "srv-1"
    m_jsonRpcVersion := [6, 2]
    m_authenticationRequired := true }

/-- The client `exampleAwaitingLogin` waiting for push button transaction 4. -/
def exampleAwaitingPushButton : JsonRpcClient :=
  { exampleAwaitingLogin with m_pendingPushButtonTransaction := 4 }

end JsonRpcClient

/-! ## The namespaces of `JSONRPC.SetNotificationStatus` -/

namespace JsonRpcClient

/-- The namespaces parameter of a request document. -/
def namespacesOf (document : QVariantMap) : QStringList :=
  ((document.value "params").toMap.value "namespaces").toStringList

end JsonRpcClient

/-! ## A candidate that does not parse -/

namespace JsonRpcClient

/-- A text in braces that is not a document, for the examples. -/
def exampleUndecodable : QByteArray := "\x7bx\x7d".toList

/-- The connected example client with the undecodable text at the head of its
buffer, followed by a newline and the first example document with its newline;
nothing is queued. -/
def exampleStalled : JsonRpcClient :=
  { exampleClient with m_receiveBuffer := exampleUndecodable ++ '\n' :: (exampleFirst ++ ['\n']) }

/-- The second example document arrives and is delivered, then an empty chunk
arrives and is delivered. -/
def exampleLaterPasses : List LoopStep :=
  [LoopStep.arrive (exampleSecond ++ ['\n']), LoopStep.deliver, LoopStep.arrive [], LoopStep.deliver]

end JsonRpcClient

namespace JsonRpcClient

/-- The notification that ends push button transaction 4 without success, for the
examples. -/
def examplePushButtonFailed : QVariantMap :=
  [("notification", QVariant.str "JSONRPC.PushButtonAuthFinished"),
   ("params", QVariant.map [("transactionId", QVariant.int 4), ("success", QVariant.bool false)])]

end JsonRpcClient

/-! ## Queued data and a new connection -/

namespace JsonRpcClient

/-- The example client with a chunk read from its transport, the second example
document and a newline, queued for `dataReceived`. -/
def exampleChunkQueued : JsonRpcClient :=
  post (QueuedCall.dataReceived (exampleSecond ++ ['\n'])) exampleClient

end JsonRpcClient

/-! ## Certificates of different servers -/

namespace JsonRpcClient

/-- The text of a uuid, for the examples. -/
def exampleUuidA : QString := "\x7b11111111-2222-3333-4444-555555555555\x7d"

/-- The text of another uuid, for the examples. -/
def exampleUuidB : QString := "\x7b11111111-2222-3333-4444-555555555556\x7d"

end JsonRpcClient


/-! ## The authentication flags along the events of a session -/

namespace JsonRpcClient

/-- What the transport and the server make the client do about authentication: the
transport reports its state, and the slots run for a Hello reply, for a reply
to `JSONRPC.Authenticate`, for a notification of namespace JSONRPC, and for a
reply with status "unauthorized". -/
inductive AuthEvent where
  | transport (connected : Bool)
  | helloReply (commandId : Int) (params : QVariantMap)
  | authenticateReply (commandId : Int) (data : QVariantMap)
  | notification (data : QVariantMap)
  | unauthorizedReply

/-- Run the slot of an event. -/
def performAuth (env : Env) (e : AuthEvent) (s : JsonRpcClient) : Except Fault JsonRpcClient :=
  match e with
  | AuthEvent.transport connected => transportConnectedChanged env connected s
  | AuthEvent.helloReply commandId params => helloReply env commandId params s
  | AuthEvent.authenticateReply commandId data => processAuthenticate env commandId data s
  | AuthEvent.notification data => notificationReceived env data s
  | AuthEvent.unauthorizedReply => Except.ok (unauthorized s)

/-- Run the slots of the events in order. -/
def runAuth (env : Env) : List AuthEvent → JsonRpcClient → Except Fault JsonRpcClient
  | [], s => Except.ok s
  | e :: rest, s =>
    match performAuth env e s with
    | Except.error f => Except.error f
    | Except.ok s1 => runAuth env rest s1

/-- Both `authenticated()` and `authenticationRequired()` hold. -/
def bothAuthenticatedAndRequired (s : JsonRpcClient) : Bool :=
  authenticated s && authenticationRequired s

/-- The event comes in the usual order and with the usual payload: the transport
reports a connection and a Hello reply arrives while the client is not marked
authenticated, and a successful authentication reply or push button
notification carries a token that is not empty. -/
def AuthEvent.admissible (e : AuthEvent) (s : JsonRpcClient) : Prop :=
  match e with
  | AuthEvent.transport connected => connected = true → s.m_authenticated = false
  | AuthEvent.helloReply _ _ => s.m_authenticated = false
  | AuthEvent.authenticateReply _ data =>
    (data.value "success").toBool = true → (data.value "token").toByteArray ≠ []
  | AuthEvent.notification data =>
    ((data.value "params").toMap.value "success").toBool = true →
      ((data.value "params").toMap.value "token").toByteArray ≠ []
  | AuthEvent.unauthorizedReply => True

/-- Every event of the run is admissible in the state it meets. -/
def Orderly (env : Env) : List AuthEvent → JsonRpcClient → Prop
  | [], _ => True
  | e :: rest, s =>
    e.admissible s ∧ ∀ s1, performAuth env e s = Except.ok s1 → Orderly env rest s1

/-- A Hello reply that requires authentication, then a successful authentication
reply without a token. -/
def exampleTokenlessRun : List AuthEvent :=
  [AuthEvent.helloReply 1 exampleHelloParams,
   AuthEvent.authenticateReply 2 [("success", QVariant.bool true)]]

/-- The transport reports a connection, the Hello reply requires authentication, the
authentication succeeds with the token "tok", and a later reply is
"unauthorized". -/
def exampleAuthRun : List AuthEvent :=
  [AuthEvent.transport true, AuthEvent.helloReply 1 exampleHelloParams,
   AuthEvent.authenticateReply 2 exampleAuthenticated, AuthEvent.unauthorizedReply]

end JsonRpcClient

/-! ## Stored tokens -/

namespace JsonRpcClient

/-- The example session on a server that reports the uuid `exampleUuidA`, with the
call `exampleReply` (identifier 2) pending. -/
def exampleUuidSession : JsonRpcClient :=
  { exampleSession with m_serverUuid := exampleUuidA, m_id := 2, m_replies := [(2, exampleReply)] }

end JsonRpcClient

/-! ## The Hello call after an error reply -/

namespace JsonRpcClient

/-- The record of the Hello call `dataReceived` issues after an error reply to a
Hello call: the counter was set back, so its identifier is 1, and it has no
params. -/
def helloRetryReply : JsonRpcReply :=
  ⟨1, "JSONRPC", "Hello", [], some QObjectRef.self, "helloReply"⟩

/-- The error reply to the call with identifier 1, for the examples. -/
def exampleHelloError : QVariantMap := [("id", QVariant.int 1), ("status", QVariant.str "error")]

end JsonRpcClient

/-! ## Conversions used by the energy logs and the ZigBee nodes -/

/-- Wrap an integer into the range of a 64 bit `qlonglong`. -/
def toInt64 (n : Int) : Int := (n + 9223372036854775808) % 18446744073709551616 - 9223372036854775808

/-- Wrap an integer into the range of a 32 bit `uint`. -/
def toUInt32 (n : Int) : Int := n % 4294967296

/-- Wrap an integer into the range of a `quint16`. -/
def toUInt16 (n : Int) : Int := n % 65536

namespace QVariant

/-- Conversion of text to `qlonglong`: 0 unless the text is an integer literal in range. -/
def textToLongLong (cs : List Char) : Int :=
  match parseInt cs with
  | some n => if -9223372036854775808 ≤ n ∧ n ≤ 9223372036854775807 then n else 0
  | none => 0

/-- Conversion `QVariant::toLongLong`. -/
def toLongLong : QVariant → Int
  | int n => toInt64 n
  | bool b => if b then 1 else 0
  | str s => textToLongLong s.toList
  | bytes b => textToLongLong b
  | _ => 0

/-- Conversion of text to `uint`: 0 unless the text is an integer literal in range. -/
def textToUInt (cs : List Char) : Int :=
  match parseInt cs with
  | some n => if 0 ≤ n ∧ n ≤ 4294967295 then n else 0
  | none => 0

/-- Conversion `QVariant::toUInt`. -/
def toUInt : QVariant → Int
  | int n => toUInt32 n
  | bool b => if b then 1 else 0
  | str s => textToUInt s.toList
  | bytes b => textToUInt b
  | _ => 0

/-- Conversion `QVariant::toUuid`. -/
def toUuid : QVariant → QUuid
  | str s => QUuid.fromString s
  | bytes b => QUuid.fromString (String.mk b)
  | _ => QUuid.null

end QVariant

/-- A `QDateTime`, held as the milliseconds since the epoch of its instant; it is
compared as the instant. -/
structure QDateTime where
  msecs : Int
  deriving DecidableEq, Inhabited

namespace QDateTime

/-- The instant `secs` seconds after the epoch: `QDateTime::fromSecsSinceEpoch`. -/
def fromSecsSinceEpoch (secs : Int) : QDateTime := ⟨secs * 1000⟩

/-- The instant `msecs` milliseconds after the epoch: `QDateTime::fromMSecsSinceEpoch`. -/
def fromMSecsSinceEpoch (msecs : Int) : QDateTime := ⟨msecs⟩

end QDateTime

/-! ## Energy logs: the power log of things -/

/-- Library functions on `double` computed outside this repository. -/
structure EnergyEnv where
  /-- Conversion `QVariant::toDouble`. -/
  toDouble : QVariant → Float

/-- An entry of the power log: `ThingPowerLogEntry`. -/
structure ThingPowerLogEntry where
  timestamp : QDateTime
  thingId : QUuid
  currentPower : Float
  totalConsumption : Float
  totalProduction : Float

/-- What the model of the power log does, in the order it happens: the signal
`liveEntryChanged`, and the calls of `EnergyLogs::appendEntries` with their
batch. -/
inductive LogEffect where
  | liveEntryChanged (entry : ThingPowerLogEntry)
  | appendEntries (entries : List ThingPowerLogEntry)

/-- The list model of the power log: `ThingPowerLogs`, with the list `m_list` of its
base class `EnergyLogs`. -/
structure ThingPowerLogs where
  m_list : List ThingPowerLogEntry
  m_liveEntries : List (QUuid × ThingPowerLogEntry)
  effects : List LogEffect

namespace ThingPowerLogs

/-- Modelled from the spec: `EnergyLogs::rowCount` (energylogs.cpp is not among the
sources; energylogs.h declares it as the `count` of the list model) is the
number of entries of `m_list`. -/
def rowCount (logs : ThingPowerLogs) : Nat := logs.m_list.length

/-- Modelled from the spec: `EnergyLogs::get` (energylogs.cpp is not among the
sources; energylogs.h declares it) is the entry of `m_list` at the index, the
null pointer (`none`) outside the list. -/
def get (logs : ThingPowerLogs) (index : Nat) : Option ThingPowerLogEntry := logs.m_list[index]?

/-- Modelled from the spec: `EnergyLogs::appendEntries` (energylogs.cpp is not among
the sources; energylogs.h declares it next to the list `m_list` and the signal
`entriesAdded`) appends the entries to the list in their order, as one batch. -/
def appendEntries (entries : List ThingPowerLogEntry) (logs : ThingPowerLogs) : ThingPowerLogs :=
  { logs with m_list := logs.m_list ++ entries
              effects := logs.effects ++ [LogEffect.appendEntries entries] }

/-- The loop of `find` with the index at `i`: the entries below index `i` are
still to be looked at, from the highest index down.  The result is the null
pointer (`none`) or the entry found. -/
def findFrom (thingId : QUuid) (timestamp : QDateTime) (logs : ThingPowerLogs) :
    Nat → Except Fault (Option ThingPowerLogEntry)
  | 0 => Except.ok none
  | i + 1 =>
    match logs.get i with
    | none => Except.error Fault.nullDereference
    | some entry =>
      if entry.thingId ≠ thingId then findFrom thingId timestamp logs i
      else if timestamp = entry.timestamp then Except.ok (some entry)
      else if timestamp.msecs > entry.timestamp.msecs then
        Except.ok none -- Giving up, entry is not here
      else findFrom thingId timestamp logs i

/-- The entry of a thing at a timestamp: `ThingPowerLogs::find`. -/
def find (thingId : QUuid) (timestamp : QDateTime) (logs : ThingPowerLogs) :
    Except Fault (Option ThingPowerLogEntry) :=
  findFrom thingId timestamp logs logs.rowCount

/-- Append a batch of entries: `addEntries`. -/
def addEntries (entries : List ThingPowerLogEntry) (logs : ThingPowerLogs) : ThingPowerLogs :=
  appendEntries entries logs

/-- Build an entry from a map: `unpack`, and the same lines in `logEntriesReceived`. -/
def unpack (env : EnergyEnv) (map : QVariantMap) : ThingPowerLogEntry :=
  let timestamp := QDateTime.fromSecsSinceEpoch (map.value "timestamp").toLongLong
  let thingId := (map.value "thingId").toUuid
  let currentPower := env.toDouble (map.value "currentPower")
  let totalConsumption := env.toDouble (map.value "totalConsumption")
  let totalProduction := env.toDouble (map.value "totalProduction")
  ⟨timestamp, thingId, currentPower, totalConsumption, totalProduction⟩

/-- The first loop of `logEntriesReceived`: the live entries. -/
def receiveCurrentEntries (env : EnergyEnv) : QVariantList → ThingPowerLogs → ThingPowerLogs
  | [], logs => logs
  | variant :: rest, logs =>
    let entry := unpack env variant.toMap
    let logs := { logs with m_liveEntries := QMap.insert logs.m_liveEntries entry.thingId entry }
    let logs := { logs with effects := logs.effects ++ [LogEffect.liveEntryChanged entry] }
    receiveCurrentEntries env rest logs

/-- The second loop of `logEntriesReceived`, with the group collected so far. -/
def groupEntries (env : EnergyEnv) :
    QVariantList → List ThingPowerLogEntry → ThingPowerLogs → List ThingPowerLogEntry × ThingPowerLogs
  | [], groupForTimestamp, logs => (groupForTimestamp, logs)
  | variant :: rest, groupForTimestamp, logs =>
    let entry := unpack env variant.toMap
    match groupForTimestamp with
    | [] => groupEntries env rest [entry] logs
    | first :: _ =>
      if first.timestamp = entry.timestamp then
        groupEntries env rest (groupForTimestamp ++ [entry]) logs
      else
        -- Finalize previous group and start a new one
        groupEntries env rest [entry] (addEntries groupForTimestamp logs)

/-- The entries of a reply to the log query: `logEntriesReceived`. -/
def logEntriesReceived (env : EnergyEnv) (params : QVariantMap) (logs : ThingPowerLogs) :
    ThingPowerLogs :=
  let logs := receiveCurrentEntries env (params.value "currentEntries").toList logs
  -- Grouping them so when the UI gets entriesAdded, the whole set for this timstamp will be
  -- available at once
  let r := groupEntries env (params.value "thingPowerLogEntries").toList [] logs
  if !r.1.isEmpty then addEntries r.1 r.2 else r.2

/-- The batches handed to `appendEntries`, oldest first. -/
def batches (effects : List LogEffect) : List (List ThingPowerLogEntry) :=
  effects.filterMap (fun e =>
    match e with
    | LogEffect.appendEntries entries => some entries
    | _ => none)

end ThingPowerLogs

namespace ThingPowerLogs

/-- The uuid of a thing, for the examples. -/
def exampleThing : QUuid := QUuid.fromString JsonRpcClient.exampleUuidA

/-- The uuid of another thing, for the examples. -/
def exampleOtherThing : QUuid := QUuid.fromString JsonRpcClient.exampleUuidB

/-- A power log for the examples: the thing at the seconds 60 and 120, the other
thing at the second 120, the thing again at the second 120. -/
def exampleLogs : ThingPowerLogs :=
  { m_list := [⟨⟨60000⟩, exampleThing, 5, 1, 0⟩, ⟨⟨120000⟩, exampleThing, 6, 2, 0⟩,
      ⟨⟨120000⟩, exampleOtherThing, 7, 3, 0⟩, ⟨⟨120000⟩, exampleThing, 8, 4, 0⟩]
    m_liveEntries := []
    effects := [] }

end ThingPowerLogs

namespace ThingPowerLogs

/-- A stand-in for the conversion to `double`, for the examples. -/
def exampleEnergyEnv : EnergyEnv := ⟨fun v => Float.ofInt v.toInt⟩

/-- The map of a log entry of the example thing at a second, for the examples. -/
def exampleEntryMap (secs : Int) (power : Int) : QVariant :=
  QVariant.map [("timestamp", QVariant.int secs),
    ("thingId", QVariant.str JsonRpcClient.exampleUuidA), ("currentPower", QVariant.int power)]

/-- A reply whose entries are not in the order of their timestamps: the seconds 60,
120 and 60 again. -/
def exampleUnsortedReply : QVariantMap :=
  [("thingPowerLogEntries",
    QVariant.list [exampleEntryMap 60 5, exampleEntryMap 120 6, exampleEntryMap 60 7])]

/-- A reply whose entries are in the order of their timestamps: the seconds 60, 60
and 120. -/
def exampleSortedReply : QVariantMap :=
  [("thingPowerLogEntries",
    QVariant.list [exampleEntryMap 60 5, exampleEntryMap 60 7, exampleEntryMap 120 6])]

/-- An empty power log. -/
def exampleEmptyLogs : ThingPowerLogs := ⟨[], [], []⟩

end ThingPowerLogs

/-! ## ZigBee nodes -/

/-- The kind of a node: `ZigbeeNode::ZigbeeNodeType`. -/
inductive ZigbeeNodeType where
  | ZigbeeNodeTypeCoordinator
  | ZigbeeNodeTypeRouter
  | ZigbeeNodeTypeEndDevice
  deriving DecidableEq

/-- The state of a node: `ZigbeeNode::ZigbeeNodeState`. -/
inductive ZigbeeNodeState where
  | ZigbeeNodeStateUninitialized
  | ZigbeeNodeStateInitializing
  | ZigbeeNodeStateInitialized
  | ZigbeeNodeStateHandled
  deriving DecidableEq

/-- The signals of a node. -/
inductive ZigbeeNodeSignal where
  | networkAddressChanged (networkAddress : Int)
  | typeChanged (type : ZigbeeNodeType)
  | stateChanged (state : ZigbeeNodeState)
  | manufacturerChanged (manufacturer : QString)
  | modelChanged (model : QString)
  | versionChanged (version : QString)
  | rxOnWhenIdleChanged (rxOnWhenIdle : Bool)
  | reachableChanged (reachable : Bool)
  | lqiChanged (lqi : Int)
  | lastSeenChanged (lastSeen : QDateTime)
  deriving DecidableEq

/-- A node of a ZigBee network: `ZigbeeNode`, with the signals it raised, oldest
first. -/
structure ZigbeeNode where
  m_networkUuid : QUuid
  m_ieeeAddress : QString
  m_networkAddress : Int
  m_type : ZigbeeNodeType
  m_state : ZigbeeNodeState
  m_manufacturer : QString
  m_model : QString
  m_version : QString
  m_rxOnWhenIdle : Bool
  m_reachable : Bool
  m_lqi : Int
  m_lastSeen : QDateTime
  signals : List ZigbeeNodeSignal

namespace ZigbeeNode

def setNetworkAddress (networkAddress : Int) (node : ZigbeeNode) : ZigbeeNode :=
  if node.m_networkAddress = networkAddress then node
  else
    let node := { node with m_networkAddress := networkAddress }
    { node with signals := node.signals ++ [ZigbeeNodeSignal.networkAddressChanged node.m_networkAddress] }

def setType (type : ZigbeeNodeType) (node : ZigbeeNode) : ZigbeeNode :=
  if node.m_type = type then node
  else
    let node := { node with m_type := type }
    { node with signals := node.signals ++ [ZigbeeNodeSignal.typeChanged node.m_type] }

def setState (state : ZigbeeNodeState) (node : ZigbeeNode) : ZigbeeNode :=
  if node.m_state = state then node
  else
    let node := { node with m_state := state }
    { node with signals := node.signals ++ [ZigbeeNodeSignal.stateChanged node.m_state] }

def setManufacturer (manufacturer : QString) (node : ZigbeeNode) : ZigbeeNode :=
  if node.m_manufacturer = manufacturer then node
  else
    let node := { node with m_manufacturer := manufacturer }
    { node with signals := node.signals ++ [ZigbeeNodeSignal.manufacturerChanged node.m_manufacturer] }

def setModel (model : QString) (node : ZigbeeNode) : ZigbeeNode :=
  if node.m_model = model then node
  else
    let node := { node with m_model := model }
    { node with signals := node.signals ++ [ZigbeeNodeSignal.modelChanged node.m_model] }

def setVersion (version : QString) (node : ZigbeeNode) : ZigbeeNode :=
  if node.m_version = version then node
  else
    let node := { node with m_version := version }
    { node with signals := node.signals ++ [ZigbeeNodeSignal.versionChanged node.m_version] }

def setRxOnWhenIdle (rxOnWhenIdle : Bool) (node : ZigbeeNode) : ZigbeeNode :=
  if node.m_rxOnWhenIdle = rxOnWhenIdle then node
  else
    let node := { node with m_rxOnWhenIdle := rxOnWhenIdle }
    { node with signals := node.signals ++ [ZigbeeNodeSignal.rxOnWhenIdleChanged node.m_rxOnWhenIdle] }

def setReachable (reachable : Bool) (node : ZigbeeNode) : ZigbeeNode :=
  if node.m_reachable = reachable then node
  else
    let node := { node with m_reachable := reachable }
    { node with signals := node.signals ++ [ZigbeeNodeSignal.reachableChanged node.m_reachable] }

def setLqi (lqi : Int) (node : ZigbeeNode) : ZigbeeNode :=
  if node.m_lqi = lqi then node
  else
    let node := { node with m_lqi := lqi }
    { node with signals := node.signals ++ [ZigbeeNodeSignal.lqiChanged node.m_lqi] }

def setLastSeen (lastSeen : QDateTime) (node : ZigbeeNode) : ZigbeeNode :=
  if node.m_lastSeen = lastSeen then node
  else
    let node := { node with m_lastSeen := lastSeen }
    { node with signals := node.signals ++ [ZigbeeNodeSignal.lastSeenChanged node.m_lastSeen] }

def stringToNodeState (nodeState : QString) : ZigbeeNodeState :=
  if nodeState = "ZigbeeNodeStateUninitialized" then ZigbeeNodeState.ZigbeeNodeStateUninitialized
  else if nodeState = "ZigbeeNodeStateInitializing" then ZigbeeNodeState.ZigbeeNodeStateInitializing
  else if nodeState = "ZigbeeNodeStateInitialized" then ZigbeeNodeState.ZigbeeNodeStateInitialized
  else ZigbeeNodeState.ZigbeeNodeStateHandled

def stringToNodeType (nodeType : QString) : ZigbeeNodeType :=
  if nodeType = "ZigbeeNodeTypeCoordinator" then ZigbeeNodeType.ZigbeeNodeTypeCoordinator
  else if nodeType = "ZigbeeNodeTypeRouter" then ZigbeeNodeType.ZigbeeNodeTypeRouter
  else ZigbeeNodeType.ZigbeeNodeTypeEndDevice

/-- Take the properties of a node from its map: `updateNodeProperties`.  The
network address is cut to a `quint16`; the product of the `uint` read from
"lastSeen" and the `int` 1000 is a `uint`. -/
def updateNodeProperties (nodeMap : QVariantMap) (node : ZigbeeNode) : ZigbeeNode :=
  let node := setNetworkAddress (toUInt16 (nodeMap.value "networkAddress").toUInt) node
  let node := setType (stringToNodeType (nodeMap.value "type").toQString) node
  let node := setState (stringToNodeState (nodeMap.value "state").toQString) node
  let node := setManufacturer (nodeMap.value "manufacturer").toQString node
  let node := setModel (nodeMap.value "model").toQString node
  let node := setVersion (nodeMap.value "version").toQString node
  let node := setRxOnWhenIdle (nodeMap.value "receiverOnWhileIdle").toBool node
  let node := setReachable (nodeMap.value "reachable").toBool node
  let node := setLqi (nodeMap.value "lqi").toUInt node
  setLastSeen (QDateTime.fromMSecsSinceEpoch (toUInt32 ((nodeMap.value "lastSeen").toUInt * 1000))) node

/-- A node for the examples, not seen so far in this model (instant 0). -/
def exampleNode : ZigbeeNode :=
  { m_networkUuid := QUuid.null
    m_ieeeAddress := "00:11:22:33:44:55:66:77"
    m_networkAddress := 0
    m_type := ZigbeeNodeType.ZigbeeNodeTypeEndDevice
    m_state := ZigbeeNodeState.ZigbeeNodeStateUninitialized
    m_manufacturer := ""
    m_model := ""
    m_version := ""
    m_rxOnWhenIdle := false
    m_reachable := false
    m_lqi := 0
    m_lastSeen := ⟨0⟩
    signals := [] }

/-- The map of a node last seen at second 1700000000 (14 November 2023). -/
def exampleNodeMap : QVariantMap :=
  [("networkAddress", QVariant.int 4660), ("type", QVariant.str "ZigbeeNodeTypeRouter"),
   ("state", QVariant.str "ZigbeeNodeStateInitialized"), ("reachable", QVariant.bool true),
   ("lqi", QVariant.int 200), ("lastSeen", QVariant.int 1700000000)]

end ZigbeeNode
/-! ## Lemmas on the containers -/

namespace QMap

variable {κ : Type} {α : Type} [DecidableEq κ]

theorem value?_insert_self (m : List (κ × α)) (k : κ) (v : α) :
    value? (insert m k v) k = some v := by
  induction m with
  | nil => simp [insert, value?]
  | cons e m ih =>
    obtain ⟨k', v'⟩ := e
    by_cases h : k' = k <;> simp [insert, value?, h, ih]

theorem value?_insert_of_ne (m : List (κ × α)) (k k' : κ) (v : α) (h : k' ≠ k) :
    value? (insert m k v) k' = value? m k' := by
  induction m with
  | nil => simp [insert, value?, Ne.symm h]
  | cons e m ih =>
    obtain ⟨k'', v''⟩ := e
    by_cases h1 : k'' = k
    · subst h1
      simp [insert, value?, Ne.symm h]
    · by_cases h2 : k'' = k'
      · subst h2
        simp [insert, value?, h1]
      · simp [insert, value?, h1, h2, ih]

theorem value_insert_self (m : List (κ × α)) (k : κ) (v d : α) :
    value (insert m k v) k d = v := by
  simp [value, value?_insert_self]

theorem remove_of_value?_none (m : List (κ × α)) (k : κ) (h : value? m k = none) :
    remove m k = m := by
  induction m with
  | nil => rfl
  | cons e m ih =>
    obtain ⟨k', v⟩ := e
    by_cases hk : k' = k
    · simp [value?, hk] at h
    · simp only [value?, hk, if_false] at h
      simp [remove, hk, ih h]

theorem value?_remove_self (m : List (κ × α)) (k : κ) : value? (remove m k) k = none := by
  induction m with
  | nil => rfl
  | cons e m ih =>
    obtain ⟨k', v⟩ := e
    by_cases hk : k' = k <;> simp [remove, hk, ih, value?]

theorem value?_remove_of_ne (m : List (κ × α)) (k k' : κ) (h : k' ≠ k) :
    value? (remove m k) k' = value? m k' := by
  induction m with
  | nil => rfl
  | cons e m ih =>
    obtain ⟨k'', v⟩ := e
    by_cases hk : k'' = k
    · subst hk
      simp [remove, ih, value?, Ne.symm h]
    · by_cases hk2 : k'' = k'
      · subst hk2
        simp [remove, hk, value?]
      · simp [remove, hk, hk2, ih, value?]

end QMap

namespace JsonRpcClient

/-! ## The settings store -/

@[simp] theorem settingsSetValue_m_id (key : QString) (value : QByteArray) (s : JsonRpcClient) :
    (settingsSetValue key value s).m_id = s.m_id := by
  unfold settingsSetValue; split <;> rfl

@[simp] theorem settingsSetValue_m_connection (key : QString) (value : QByteArray) (s : JsonRpcClient) :
    (settingsSetValue key value s).m_connection = s.m_connection := by
  unfold settingsSetValue; split <;> rfl

@[simp] theorem settingsSetValue_m_notificationHandlers (key : QString) (value : QByteArray) (s : JsonRpcClient) :
    (settingsSetValue key value s).m_notificationHandlers = s.m_notificationHandlers := by
  unfold settingsSetValue; split <;> rfl

@[simp] theorem settingsSetValue_m_notificationHandlerMethods (key : QString) (value : QByteArray) (s : JsonRpcClient) :
    (settingsSetValue key value s).m_notificationHandlerMethods = s.m_notificationHandlerMethods := by
  unfold settingsSetValue; split <;> rfl

@[simp] theorem settingsSetValue_m_replies (key : QString) (value : QByteArray) (s : JsonRpcClient) :
    (settingsSetValue key value s).m_replies = s.m_replies := by
  unfold settingsSetValue; split <;> rfl

@[simp] theorem settingsSetValue_m_cacheHashes (key : QString) (value : QByteArray) (s : JsonRpcClient) :
    (settingsSetValue key value s).m_cacheHashes = s.m_cacheHashes := by
  unfold settingsSetValue; split <;> rfl

@[simp] theorem settingsSetValue_m_connected (key : QString) (value : QByteArray) (s : JsonRpcClient) :
    (settingsSetValue key value s).m_connected = s.m_connected := by
  unfold settingsSetValue; split <;> rfl

@[simp] theorem settingsSetValue_m_pendingPushButtonTransaction (key : QString) (value : QByteArray) (s : JsonRpcClient) :
    (settingsSetValue key value s).m_pendingPushButtonTransaction = s.m_pendingPushButtonTransaction := by
  unfold settingsSetValue; split <;> rfl

@[simp] theorem settingsSetValue_m_token (key : QString) (value : QByteArray) (s : JsonRpcClient) :
    (settingsSetValue key value s).m_token = s.m_token := by
  unfold settingsSetValue; split <;> rfl

@[simp] theorem settingsSetValue_m_serverUuid (key : QString) (value : QByteArray) (s : JsonRpcClient) :
    (settingsSetValue key value s).m_serverUuid = s.m_serverUuid := by
  unfold settingsSetValue; split <;> rfl

@[simp] theorem settingsSetValue_m_serverVersion (key : QString) (value : QByteArray) (s : JsonRpcClient) :
    (settingsSetValue key value s).m_serverVersion = s.m_serverVersion := by
  unfold settingsSetValue; split <;> rfl

@[simp] theorem settingsSetValue_m_jsonRpcVersion (key : QString) (value : QByteArray) (s : JsonRpcClient) :
    (settingsSetValue key value s).m_jsonRpcVersion = s.m_jsonRpcVersion := by
  unfold settingsSetValue; split <;> rfl

@[simp] theorem settingsSetValue_m_initialSetupRequired (key : QString) (value : QByteArray) (s : JsonRpcClient) :
    (settingsSetValue key value s).m_initialSetupRequired = s.m_initialSetupRequired := by
  unfold settingsSetValue; split <;> rfl

@[simp] theorem settingsSetValue_m_authenticationRequired (key : QString) (value : QByteArray) (s : JsonRpcClient) :
    (settingsSetValue key value s).m_authenticationRequired = s.m_authenticationRequired := by
  unfold settingsSetValue; split <;> rfl

@[simp] theorem settingsSetValue_m_authenticated (key : QString) (value : QByteArray) (s : JsonRpcClient) :
    (settingsSetValue key value s).m_authenticated = s.m_authenticated := by
  unfold settingsSetValue; split <;> rfl

@[simp] theorem settingsSetValue_m_pushButtonAuthAvailable (key : QString) (value : QByteArray) (s : JsonRpcClient) :
    (settingsSetValue key value s).m_pushButtonAuthAvailable = s.m_pushButtonAuthAvailable := by
  unfold settingsSetValue; split <;> rfl

@[simp] theorem settingsSetValue_m_cloudConnectionState (key : QString) (value : QByteArray) (s : JsonRpcClient) :
    (settingsSetValue key value s).m_cloudConnectionState = s.m_cloudConnectionState := by
  unfold settingsSetValue; split <;> rfl

@[simp] theorem settingsSetValue_m_serverQtVersion (key : QString) (value : QByteArray) (s : JsonRpcClient) :
    (settingsSetValue key value s).m_serverQtVersion = s.m_serverQtVersion := by
  unfold settingsSetValue; split <;> rfl

@[simp] theorem settingsSetValue_m_serverQtBuildVersion (key : QString) (value : QByteArray) (s : JsonRpcClient) :
    (settingsSetValue key value s).m_serverQtBuildVersion = s.m_serverQtBuildVersion := by
  unfold settingsSetValue; split <;> rfl

@[simp] theorem settingsSetValue_m_permissionScopes (key : QString) (value : QByteArray) (s : JsonRpcClient) :
    (settingsSetValue key value s).m_permissionScopes = s.m_permissionScopes := by
  unfold settingsSetValue; split <;> rfl

@[simp] theorem settingsSetValue_m_username (key : QString) (value : QByteArray) (s : JsonRpcClient) :
    (settingsSetValue key value s).m_username = s.m_username := by
  unfold settingsSetValue; split <;> rfl

@[simp] theorem settingsSetValue_m_experiences (key : QString) (value : QByteArray) (s : JsonRpcClient) :
    (settingsSetValue key value s).m_experiences = s.m_experiences := by
  unfold settingsSetValue; split <;> rfl

@[simp] theorem settingsSetValue_m_receiveBuffer (key : QString) (value : QByteArray) (s : JsonRpcClient) :
    (settingsSetValue key value s).m_receiveBuffer = s.m_receiveBuffer := by
  unfold settingsSetValue; split <;> rfl

@[simp] theorem settingsSetValue_sslcerts (key : QString) (value : QByteArray) (s : JsonRpcClient) :
    (settingsSetValue key value s).sslcerts = s.sslcerts := by
  unfold settingsSetValue; split <;> rfl

@[simp] theorem settingsSetValue_cacheFiles (key : QString) (value : QByteArray) (s : JsonRpcClient) :
    (settingsSetValue key value s).cacheFiles = s.cacheFiles := by
  unfold settingsSetValue; split <;> rfl

@[simp] theorem settingsSetValue_eventQueue (key : QString) (value : QByteArray) (s : JsonRpcClient) :
    (settingsSetValue key value s).eventQueue = s.eventQueue := by
  unfold settingsSetValue; split <;> rfl

@[simp] theorem settingsSetValue_effects (key : QString) (value : QByteArray) (s : JsonRpcClient) :
    (settingsSetValue key value s).effects = s.effects := by
  unfold settingsSetValue; split <;> rfl

/-- With a key that is not empty, `setValue` writes the entry. -/
theorem settingsSetValue_jsonTokens (key : QString) (value : QByteArray) (s : JsonRpcClient)
    (hkey : key ≠ "") :
    (settingsSetValue key value s).jsonTokens = QMap.insert s.jsonTokens key value := by
  unfold settingsSetValue; rw [if_neg hkey]

/-- With the empty key, `setValue` writes nothing. -/
theorem settingsSetValue_empty (key : QString) (value : QByteArray) (s : JsonRpcClient)
    (hkey : key = "") : settingsSetValue key value s = s := by
  unfold settingsSetValue; rw [if_pos hkey]

/-- The entries after `setValue`: the old ones, with the entry of the key replaced
when the key is not empty. -/
theorem settingsSetValue_tokens (key : QString) (value : QByteArray) (s : JsonRpcClient) :
    (settingsSetValue key value s).jsonTokens
      = if key = "" then s.jsonTokens else QMap.insert s.jsonTokens key value := by
  unfold settingsSetValue; split <;> rfl

/-- What `value` reads back after `setValue` under the same key: the value stored, or
nothing when the key is empty. -/
theorem settingsValue_settingsSetValue (key : QString) (value : QByteArray) (s : JsonRpcClient) :
    settingsValue (settingsSetValue key value s) key = if key = "" then [] else value := by
  unfold settingsValue settingsSetValue
  by_cases hkey : key = ""
  · simp only [hkey, if_true]
  · simp only [hkey, if_false, QMap.value_insert_self]

/-! ## The unauthorized block -/

theorem unauthorized_m_token (s : JsonRpcClient) : (unauthorized s).m_token = [] := by
  simp [unauthorized, emit]

theorem unauthorized_m_authenticated (s : JsonRpcClient) :
    (unauthorized s).m_authenticated = false := by
  simp [unauthorized, emit]

theorem unauthorized_m_authenticationRequired (s : JsonRpcClient) :
    (unauthorized s).m_authenticationRequired = true := by
  simp [unauthorized, emit]

theorem unauthorized_m_serverUuid (s : JsonRpcClient) :
    (unauthorized s).m_serverUuid = s.m_serverUuid := by
  simp [unauthorized, emit]

/-- The store after the unauthorized block: an empty token under the server uuid,
unless the uuid is empty. -/
theorem unauthorized_jsonTokens (s : JsonRpcClient) :
    (unauthorized s).jsonTokens
      = if s.m_serverUuid = "" then s.jsonTokens else QMap.insert s.jsonTokens s.m_serverUuid [] := by
  simp [unauthorized, emit, settingsSetValue_tokens]

/-- The text of a uuid is never empty: it starts with a brace. -/
theorem QUuid_toQString_ne_empty (u : QUuid) : u.toQString ≠ "" := by
  intro h
  have hlen := congrArg String.length h
  simp only [QUuid.toQString, String.length_append] at hlen
  have h1 : ("\x7b" : String).length = 1 := by decide
  have h2 : ("" : String).length = 0 := by decide
  omega

/-! ## What the authentication paths store -/

theorem processAuthenticateFields_m_token (env : Env) (data : QVariantMap) (s : JsonRpcClient) :
    (processAuthenticateFields env data s).m_token = (data.value "token").toByteArray := by
  simp [processAuthenticateFields, emit]

theorem processAuthenticateFields_jsonTokens (env : Env) (data : QVariantMap) (s : JsonRpcClient) :
    (processAuthenticateFields env data s).jsonTokens
      = if s.m_serverUuid = "" then s.jsonTokens
        else QMap.insert s.jsonTokens s.m_serverUuid (data.value "token").toByteArray := by
  simp [processAuthenticateFields, emit, settingsSetValue_tokens]

theorem processAuthenticateFields_m_authenticated (env : Env) (data : QVariantMap)
    (s : JsonRpcClient) : (processAuthenticateFields env data s).m_authenticated = true := by
  simp [processAuthenticateFields, emit]

theorem pushButtonAuthFields_m_token (data : QVariantMap) (s : JsonRpcClient) :
    (pushButtonAuthFields data s).m_token
      = ((data.value "params").toMap.value "token").toByteArray := by
  simp [pushButtonAuthFields, emit]

theorem pushButtonAuthFields_jsonTokens (data : QVariantMap) (s : JsonRpcClient) :
    (pushButtonAuthFields data s).jsonTokens
      = if s.m_serverUuid = "" then s.jsonTokens
        else QMap.insert s.jsonTokens s.m_serverUuid
          ((data.value "params").toMap.value "token").toByteArray := by
  simp [pushButtonAuthFields, emit, settingsSetValue_tokens]

theorem pushButtonAuthFields_m_authenticated (data : QVariantMap) (s : JsonRpcClient) :
    (pushButtonAuthFields data s).m_authenticated = s.m_authenticated := by
  simp [pushButtonAuthFields, emit]

/-! ## The literal method names are well formed -/

theorem createReply_Hello (p : QVariantMap) (c : Option QObjectRef) (cb : QString) (s : JsonRpcClient) :
    createReply "JSONRPC.Hello" p c cb s
      = (some ⟨toInt32 (s.m_id + 1), "JSONRPC", "Hello", p, c, cb⟩,
        { s with m_id := toInt32 (s.m_id + 1) }) := rfl

theorem createReply_IsCloudConnected (p : QVariantMap) (c : Option QObjectRef) (cb : QString)
    (s : JsonRpcClient) :
    createReply "JSONRPC.IsCloudConnected" p c cb s
      = (some ⟨toInt32 (s.m_id + 1), "JSONRPC", "IsCloudConnected", p, c, cb⟩,
        { s with m_id := toInt32 (s.m_id + 1) }) := rfl

theorem createReply_SetNotificationStatus (p : QVariantMap) (c : Option QObjectRef) (cb : QString)
    (s : JsonRpcClient) :
    createReply "JSONRPC.SetNotificationStatus" p c cb s
      = (some ⟨toInt32 (s.m_id + 1), "JSONRPC", "SetNotificationStatus", p, c, cb⟩,
        { s with m_id := toInt32 (s.m_id + 1) }) := rfl

theorem createReply_CreateUser (p : QVariantMap) (c : Option QObjectRef) (cb : QString)
    (s : JsonRpcClient) :
    createReply "JSONRPC.CreateUser" p c cb s
      = (some ⟨toInt32 (s.m_id + 1), "JSONRPC", "CreateUser", p, c, cb⟩,
        { s with m_id := toInt32 (s.m_id + 1) }) := rfl

theorem createReply_Authenticate (p : QVariantMap) (c : Option QObjectRef) (cb : QString)
    (s : JsonRpcClient) :
    createReply "JSONRPC.Authenticate" p c cb s
      = (some ⟨toInt32 (s.m_id + 1), "JSONRPC", "Authenticate", p, c, cb⟩,
        { s with m_id := toInt32 (s.m_id + 1) }) := rfl

theorem createReply_RequestPushButtonAuth (p : QVariantMap) (c : Option QObjectRef) (cb : QString)
    (s : JsonRpcClient) :
    createReply "JSONRPC.RequestPushButtonAuth" p c cb s
      = (some ⟨toInt32 (s.m_id + 1), "JSONRPC", "RequestPushButtonAuth", p, c, cb⟩,
        { s with m_id := toInt32 (s.m_id + 1) }) := rfl

/-- The two outcomes of `createReply`: the null pointer and an untouched client,
or a record with the next identifier. -/
theorem createReply_cases (method : QString) (params : QVariantMap) (caller : Option QObjectRef)
    (callback : QString) (s : JsonRpcClient) :
    createReply method params caller callback s = (none, s)
    ∨ ∃ ns m, createReply method params caller callback s
        = (some ⟨toInt32 (s.m_id + 1), ns, m, params, caller, callback⟩,
          { s with m_id := toInt32 (s.m_id + 1) }) := by
  by_cases hlen : (QString.split method '.').length ≠ 2
  · left
    simp [createReply, hlen]
  · right
    refine ⟨(QString.split method '.').headD "", (QString.split method '.').getLastD "", ?_⟩
    simp only [createReply, hlen, if_false]

/-! ## Calls issued by the client itself -/

theorem sendRequest_connected (request : QVariantMap) (s : JsonRpcClient)
    (h : s.m_connection.connected = true) :
    sendRequest request s = { s with effects := s.effects ++
      [Effect.sendData ⟨QMap.insert request "token" (QVariant.bytes s.m_token), JsonFormat.Compact, ['\n']⟩] } := by
  simp [sendRequest, sendData, h]

theorem setNotificationsEnabled_connected (s : JsonRpcClient) (h : s.m_connection.connected = true) :
    setNotificationsEnabled s = Except.ok (issued (notificationStatusReply s) s) := by
  unfold setNotificationsEnabled
  simp only [h, Bool.not_true, Bool.false_eq_true, if_false, createReply_SetNotificationStatus]
  rw [sendRequest_connected]
  · rfl
  · exact h

theorem getCloudConnectionStatus_connected (s : JsonRpcClient) (h : s.m_connection.connected = true) :
    getCloudConnectionStatus s = Except.ok (issued (cloudConnectedReply s) s) := by
  unfold getCloudConnectionStatus
  simp only [createReply_IsCloudConnected]
  rw [sendRequest_connected]
  · rfl
  · exact h

theorem requestMap_method (r : JsonRpcReply) :
    (r.requestMap).value "method" = QVariant.str (r.m_nameSpace ++ "." ++ r.m_method) := by
  unfold JsonRpcReply.requestMap
  split <;> simp [QVariantMap.value, QMap.value, QMap.insert, QMap.value?]

theorem requestMap_no_token (r : JsonRpcReply) : QMap.contains r.requestMap "token" = false := by
  unfold JsonRpcReply.requestMap
  split <;> simp [QMap.contains, QMap.insert, QMap.value?]

/-! ## C2: disconnect and the pending table -/

/-- C2, counterexample: a call of another object is pending with identifier 2 when
the transport reports disconnected; afterwards the record is still in the
pending table. -/
theorem disconnect_keeps_pending_example :
    ∃ s', onInterfaceConnectedChanged exampleEnv false examplePending = Except.ok s'
      ∧ QMap.value? examplePending.m_replies 2 = some exampleReply
      ∧ QMap.value? s'.m_replies 2 = some exampleReply :=
  ⟨_, rfl, rfl, rfl⟩

/-- C2, amended: when the transport reports disconnected the slot returns, invokes
no callback of a pending call, posts nothing and sends nothing (the only effect
is the signal connectedChanged(false) when the client was connected), and the
pending table is left as it was. -/
theorem disconnect_leaves_pending_table (env : Env) (s : JsonRpcClient) :
    ∃ s', onInterfaceConnectedChanged env false s = Except.ok s'
      ∧ s'.m_replies = s.m_replies
      ∧ s'.eventQueue = s.eventQueue
      ∧ s'.effects = s.effects ++
          (if s.m_connected then [Effect.emit (Signal.connectedChanged false)] else []) := by
  unfold onInterfaceConnectedChanged
  by_cases h : s.m_connected <;> simp [h, emit]

/-! ## C4: replies with an unknown identifier -/

theorem handleDocument_unknown_id (env : Env) (dataMap : QVariantMap) (s : JsonRpcClient)
    (htopic : QMap.contains dataMap "notification" = false)
    (hid : QMap.value? s.m_replies (dataMap.value "id").toInt = none) :
    handleDocument env dataMap s = Except.ok s := by
  simp [handleDocument, htopic, handleReply, QMap.take, hid, QMap.remove_of_value?_none]

/-- C4: a received document without notification topic whose id matches no pending
record changes nothing but the receive buffer and the queued continuation pass:
no effect (callback, signal, bytes sent), no cache file, and the pending table,
the counter, the token, the stored tokens and the authentication flags are as
before. -/
theorem unknown_reply_ignored (env : Env) (data : QByteArray) (s : JsonRpcClient) (jsonDoc : QVariant)
    (hconn : s.m_connection.connected = true)
    (hparse : env.fromJson (QByteArray.left (s.m_receiveBuffer ++ data)
      (splitIndex (s.m_receiveBuffer ++ data))) = some jsonDoc)
    (htopic : QMap.contains jsonDoc.toMap "notification" = false)
    (hid : QMap.value? s.m_replies (jsonDoc.toMap.value "id").toInt = none) :
    ∃ s', dataReceived env data s = Except.ok s'
      ∧ s'.effects = s.effects
      ∧ (s'.eventQueue = s.eventQueue ∨ s'.eventQueue = s.eventQueue ++ [QueuedCall.dataReceived []])
      ∧ s'.cacheFiles = s.cacheFiles ∧ s'.m_replies = s.m_replies ∧ s'.m_id = s.m_id
      ∧ s'.m_token = s.m_token ∧ s'.jsonTokens = s.jsonTokens
      ∧ s'.m_authenticated = s.m_authenticated
      ∧ s'.m_authenticationRequired = s.m_authenticationRequired := by
  simp only [dataReceived, hconn, hparse]
  simp only [Bool.not_true, Bool.false_eq_true, if_false]
  rw [handleDocument_unknown_id env _ _ htopic (by split <;> simpa [post] using hid)]
  refine ⟨_, rfl, ?_⟩
  split <;> simp [post]

/-- C4, witness: an "unauthorized" reply with id 5 while only call 2 is pending. -/
theorem unknown_reply_ignored_witness :
    ∃ s', dataReceived exampleEnv "\x7b\"id\":5,\"status\":\"unauthorized\"\x7d\n".toList examplePending
        = Except.ok s'
      ∧ s'.effects = examplePending.effects
      ∧ (s'.eventQueue = examplePending.eventQueue
        ∨ s'.eventQueue = examplePending.eventQueue ++ [QueuedCall.dataReceived []])
      ∧ s'.cacheFiles = examplePending.cacheFiles ∧ s'.m_replies = examplePending.m_replies
      ∧ s'.m_id = examplePending.m_id
      ∧ s'.m_token = examplePending.m_token ∧ s'.jsonTokens = examplePending.jsonTokens
      ∧ s'.m_authenticated = examplePending.m_authenticated
      ∧ s'.m_authenticationRequired = examplePending.m_authenticationRequired :=
  unknown_reply_ignored exampleEnv _ examplePending
    (QVariant.map [("id", QVariant.int 5), ("status", QVariant.str "unauthorized")]) rfl rfl rfl rfl

/-! ## C6: the token of outgoing documents -/

/-- C6, counterexample: `authenticate` on a connected client that holds the token
"tok" hands one document to the connection, and it has no "token" entry. -/
theorem authenticate_sends_no_token_example :
    ∃ id s' doc, authenticate "user" "secret" "phone" { exampleClient with m_token := "tok".toList }
        = Except.ok (id, s')
      ∧ s'.effects = [Effect.sendData ⟨doc, JsonFormat.Indented, []⟩]
      ∧ QMap.contains doc "token" = false :=
  ⟨_, _, _, rfl, rfl, rfl⟩

/-- C6, amended: on a connected client, every document sent through `sendRequest`
(the calls of `sendCommand` that are not answered from the cache, of
`setNotificationsEnabled` and of `getCloudConnectionStatus`) carries a "token"
entry equal to the token held when it is sent; `authenticate`, `createUser` and
`requestPushButtonAuth` hand their request document to the connection without
a "token" entry. -/
theorem token_of_outgoing_documents (env : Env) (s : JsonRpcClient)
    (hconn : s.m_connection.connected = true) :
    (∀ request, ∃ doc, (sendRequest request s).effects
          = s.effects ++ [Effect.sendData ⟨doc, JsonFormat.Compact, ['\n']⟩]
        ∧ doc.value "token" = QVariant.bytes s.m_token)
    ∧ (∀ method params caller callback id s',
        sendCommand env method params caller callback s = Except.ok (id, s') →
        s'.effects = s.effects
        ∨ ∃ doc, s'.effects = s.effects ++ [Effect.sendData ⟨doc, JsonFormat.Compact, ['\n']⟩]
            ∧ doc.value "token" = QVariant.bytes s.m_token)
    ∧ (∃ s' doc, setNotificationsEnabled s = Except.ok s'
        ∧ s'.effects = s.effects ++ [Effect.sendData ⟨doc, JsonFormat.Compact, ['\n']⟩]
        ∧ doc.value "token" = QVariant.bytes s.m_token)
    ∧ (∃ s' doc, getCloudConnectionStatus s = Except.ok s'
        ∧ s'.effects = s.effects ++ [Effect.sendData ⟨doc, JsonFormat.Compact, ['\n']⟩]
        ∧ doc.value "token" = QVariant.bytes s.m_token)
    ∧ (∀ username password deviceName, ∃ id s' doc,
        authenticate username password deviceName s = Except.ok (id, s')
        ∧ s'.effects = s.effects ++ [Effect.sendData ⟨doc, JsonFormat.Indented, []⟩]
        ∧ QMap.contains doc "token" = false)
    ∧ (∀ username password, ∃ id s' doc,
        createUser username password s = Except.ok (id, s')
        ∧ s'.effects = s.effects ++ [Effect.sendData ⟨doc, JsonFormat.Indented, []⟩]
        ∧ QMap.contains doc "token" = false)
    ∧ (∀ deviceName, ∃ id s' doc,
        requestPushButtonAuth deviceName s = Except.ok (id, s')
        ∧ s'.effects = s.effects ++ [Effect.sendData ⟨doc, JsonFormat.Indented, []⟩]
        ∧ QMap.contains doc "token" = false) := by
  refine ⟨?_, ?_, ?_, ?_, ?_, ?_, ?_⟩
  · intro request
    rw [sendRequest_connected _ _ hconn]
    exact ⟨_, rfl, by simp [QVariantMap.value, QMap.value_insert_self]⟩
  · intro method params caller callback id s' h
    rcases createReply_cases method params caller callback s with hc | ⟨ns, m, hc⟩
    · simp [sendCommand, hc] at h
    · cases hcache : cachedResponse env method params { s with m_id := toInt32 (s.m_id + 1) } with
      | some cachedParams =>
        left
        simp only [sendCommand, hc, hcache] at h
        cases h
        simp only [JsonRpcReply.caller]
        cases caller <;> simp only [post] <;> try split
        all_goals simp
      | none =>
        right
        simp only [sendCommand, hc, hcache] at h
        cases h
        rw [sendRequest_connected]
        · exact ⟨_, rfl, by simp [QVariantMap.value, QMap.value_insert_self]⟩
        · exact hconn
  · rw [setNotificationsEnabled_connected s hconn]
    exact ⟨_, _, rfl, rfl, by simp [QVariantMap.value, QMap.value_insert_self]⟩
  · rw [getCloudConnectionStatus_connected s hconn]
    exact ⟨_, _, rfl, rfl, by simp [QVariantMap.value, QMap.value_insert_self]⟩
  · intro username password deviceName
    simp only [authenticate, createReply_Authenticate, sendData, hconn, if_true]
    exact ⟨_, _, _, rfl, rfl, requestMap_no_token _⟩
  · intro username password
    simp only [createUser, createReply_CreateUser, sendData, hconn, if_true]
    exact ⟨_, _, _, rfl, rfl, requestMap_no_token _⟩
  · intro deviceName
    simp only [requestPushButtonAuth, createReply_RequestPushButtonAuth, sendData, hconn, if_true]
    exact ⟨_, _, _, rfl, rfl, requestMap_no_token _⟩

/-- C6, witness: the example client, which is connected. -/
theorem token_of_outgoing_documents_witness :
    (∀ request, ∃ doc, (sendRequest request exampleClient).effects
          = exampleClient.effects ++ [Effect.sendData ⟨doc, JsonFormat.Compact, ['\n']⟩]
        ∧ doc.value "token" = QVariant.bytes exampleClient.m_token)
    ∧ (∀ method params caller callback id s',
        sendCommand exampleEnv method params caller callback exampleClient = Except.ok (id, s') →
        s'.effects = exampleClient.effects
        ∨ ∃ doc, s'.effects = exampleClient.effects
              ++ [Effect.sendData ⟨doc, JsonFormat.Compact, ['\n']⟩]
            ∧ doc.value "token" = QVariant.bytes exampleClient.m_token)
    ∧ (∃ s' doc, setNotificationsEnabled exampleClient = Except.ok s'
        ∧ s'.effects = exampleClient.effects ++ [Effect.sendData ⟨doc, JsonFormat.Compact, ['\n']⟩]
        ∧ doc.value "token" = QVariant.bytes exampleClient.m_token)
    ∧ (∃ s' doc, getCloudConnectionStatus exampleClient = Except.ok s'
        ∧ s'.effects = exampleClient.effects ++ [Effect.sendData ⟨doc, JsonFormat.Compact, ['\n']⟩]
        ∧ doc.value "token" = QVariant.bytes exampleClient.m_token)
    ∧ (∀ username password deviceName, ∃ id s' doc,
        authenticate username password deviceName exampleClient = Except.ok (id, s')
        ∧ s'.effects = exampleClient.effects ++ [Effect.sendData ⟨doc, JsonFormat.Indented, []⟩]
        ∧ QMap.contains doc "token" = false)
    ∧ (∀ username password, ∃ id s' doc,
        createUser username password exampleClient = Except.ok (id, s')
        ∧ s'.effects = exampleClient.effects ++ [Effect.sendData ⟨doc, JsonFormat.Indented, []⟩]
        ∧ QMap.contains doc "token" = false)
    ∧ (∀ deviceName, ∃ id s' doc,
        requestPushButtonAuth deviceName exampleClient = Except.ok (id, s')
        ∧ s'.effects = exampleClient.effects ++ [Effect.sendData ⟨doc, JsonFormat.Indented, []⟩]
        ∧ QMap.contains doc "token" = false) :=
  token_of_outgoing_documents exampleEnv exampleClient rfl

/-! ## The handshake -/

theorem helloReplyNotifications_connected (s : JsonRpcClient) (hconn : s.m_connection.connected = true) :
    helloReplyNotifications s = Except.ok
      (issued (cloudConnectedReply (issued (notificationStatusReply s) s))
        (issued (notificationStatusReply s) s)) := by
  simp only [helloReplyNotifications, setNotificationsEnabled_connected s hconn]
  rw [getCloudConnectionStatus_connected _ (by simpa [issued] using hconn)]

theorem helloReplyNotifications_not_connected (s : JsonRpcClient)
    (hconn : s.m_connection.connected = false) :
    helloReplyNotifications s = Except.ok
      { s with m_id := toInt32 (s.m_id + 1)
               m_replies := QMap.insert s.m_replies (toInt32 (s.m_id + 1)) (cloudConnectedReply s) } := by
  simp [helloReplyNotifications, setNotificationsEnabled, hconn, getCloudConnectionStatus,
    createReply_IsCloudConnected, sendRequest, sendData, cloudConnectedReply, JsonRpcReply.commandId]

/-- C7, counterexample: the example client is authenticated with the token "tok"
before the Hello reply of the end-to-end example (uuid "srv-1", protocol version
"6.2", authenticationRequired=true) arrives; the transport is unencrypted and no
token is stored for "srv-1".  `helloReply` drops the held token but leaves the
flag behind authenticated() as it is: afterwards authenticationRequired() and
authenticated() are both true. -/
theorem hello_reply_keeps_authenticated_example :
    (processAuthenticate exampleEnv 2 exampleAuthenticated exampleClient).map
        (fun s => (authenticated s, settingsValue s "srv-1", s.m_connection.isEncrypted))
      = Except.ok (true, [], false)
    ∧ ((processAuthenticate exampleEnv 2 exampleAuthenticated exampleClient).bind
        (helloReply exampleEnv 1 exampleHelloParams)).map
        (fun s' => (authenticationRequired s', authenticated s'))
      = Except.ok (true, true) :=
  ⟨rfl, rfl⟩

/-- C7, amended: a Hello reply with a supported protocol version,
initialSetupRequired=false and authenticationRequired=true, received on an
unencrypted transport (of a connection that has a current host) when no token
is stored for the uuid of the reply: `helloReply` returns, afterwards
authenticationRequired() is true, authenticated() is what it was before the
reply (false on a client that was not authenticated), and no call was issued:
the only effects are four signals, and the pending table, the counter and the
event queue are unchanged. -/
theorem helloReply_authentication_required (env : Env) (commandId : Int) (params : QVariantMap)
    (s : JsonRpcClient) (host : NymeaHost)
    (hmin : QVersionNumber.lt (protocolVersion params) [5, 0] = false)
    (hmax : (protocolVersion params).majorVersion ≤ 6)
    (hsetup : (params.value "initialSetupRequired").toBool = false)
    (hauth : (params.value "authenticationRequired").toBool = true)
    (henc : s.m_connection.isEncrypted = false)
    (htoken : settingsValue s (params.value "uuid").toQString = [])
    (hhost : s.m_connection.currentHost = some host) :
    ∃ s', helloReply env commandId params s = Except.ok s'
      ∧ authenticationRequired s' = true ∧ authenticated s' = authenticated s
      ∧ s'.effects = s.effects ++ [Effect.emit Signal.pushButtonAuthAvailableChanged,
          Effect.emit Signal.permissionsChanged, Effect.emit Signal.handshakeReceived,
          Effect.emit Signal.authenticationRequiredChanged]
      ∧ s'.m_replies = s.m_replies ∧ s'.m_id = s.m_id ∧ s'.eventQueue = s.eventQueue := by
  have hmax' : ¬ (protocolVersion params).majorVersion > QVersionNumber.majorVersion [6] := by
    simpa [QVersionNumber.majorVersion] using hmax
  have h1 : helloReply env commandId params s
      = helloReplySession env params (helloReplyFields params s) := by
    simp [helloReply, helloReplyFields, emit, hmin, hmax', henc]
  have hhost' : (helloReplySessionFields env params (helloReplyFields params s)).m_connection.currentHost
      = some host := by
    simpa [helloReplySessionFields, helloReplyFields, emit] using hhost
  rw [h1]
  simp only [helloReplySession, hhost']
  by_cases hu : (params.value "uuid").toQString = ""
  · simp [helloReplyAuthentication, updateHostUuid, helloReplySessionFields, helloReplyFields, emit,
      hsetup, hauth, settingsValue, hu, authenticationRequired, authenticated]
  · have htoken' : QMap.value s.jsonTokens (params.value "uuid").toQString [] = [] := by
      simpa [settingsValue, hu] using htoken
    simp [helloReplyAuthentication, updateHostUuid, helloReplySessionFields, helloReplyFields, emit,
      hsetup, hauth, settingsValue, hu, htoken', authenticationRequired, authenticated]

/-- C7, witness: the Hello reply of the end-to-end example (uuid "srv-1", protocol
version "6.2") received by the example client, which is not authenticated. -/
theorem helloReply_authentication_required_witness :
    ∃ s', helloReply exampleEnv 1 exampleHelloParams exampleClient = Except.ok s'
      ∧ authenticationRequired s' = true ∧ authenticated s' = false
      ∧ s'.effects = exampleClient.effects ++ [Effect.emit Signal.pushButtonAuthAvailableChanged,
          Effect.emit Signal.permissionsChanged, Effect.emit Signal.handshakeReceived,
          Effect.emit Signal.authenticationRequiredChanged]
      ∧ s'.m_replies = exampleClient.m_replies ∧ s'.m_id = exampleClient.m_id
      ∧ s'.eventQueue = exampleClient.eventQueue :=
  helloReply_authentication_required exampleEnv 1 exampleHelloParams exampleClient ⟨QUuid.null⟩
    (by decide) (by decide) rfl rfl rfl rfl rfl

/-! ## C8: successful authentication -/

/-- C8, counterexample: the example client is connected and holds no server uuid
(no Hello reply has been processed); it receives the reply success=true with
the token "tok".  The token is held afterwards, but `QSettings::setValue`
ignores the empty key: nothing is stored, and the value read back under the
server uuid is empty. -/
theorem authentication_without_uuid_stores_nothing :
    exampleClient.m_connection.connected = true
    ∧ (processAuthenticate exampleEnv 3 exampleAuthenticated exampleClient).map
        (fun s' => (authenticated s', s'.m_token, s'.jsonTokens,
          settingsValue s' exampleClient.m_serverUuid))
      = Except.ok (true, "tok".toList, [], []) :=
  ⟨rfl, rfl⟩

/-- C8, amended: when `processAuthenticate` receives a reply with success=true on a
connected client, it returns; afterwards authenticated() is true, the token of
the reply is the held token and, when the server uuid the client holds is not
empty, is stored under it (with the empty uuid the store is left as it is), and
exactly one call was issued: the effects are two signals followed by a single
document handed to the connection, whose method is
JSONRPC.SetNotificationStatus, and the pending table gained the record of that
call. -/
theorem processAuthenticate_success (env : Env) (commandId : Int) (data : QVariantMap)
    (s : JsonRpcClient)
    (hconn : s.m_connection.connected = true)
    (hsuccess : (data.value "success").toBool = true) :
    ∃ s' doc reply, processAuthenticate env commandId data s = Except.ok s'
      ∧ authenticated s' = true
      ∧ s'.m_token = (data.value "token").toByteArray
      ∧ (s.m_serverUuid ≠ "" →
          settingsValue s' s.m_serverUuid = (data.value "token").toByteArray
          ∧ s'.jsonTokens
              = QMap.insert s.jsonTokens s.m_serverUuid (data.value "token").toByteArray)
      ∧ (s.m_serverUuid = "" → s'.jsonTokens = s.jsonTokens)
      ∧ s'.effects = s.effects ++ [Effect.emit Signal.authenticationRequiredChanged,
          Effect.emit Signal.authenticatedChanged,
          Effect.sendData ⟨doc, JsonFormat.Compact, ['\n']⟩]
      ∧ doc.value "method" = QVariant.str "JSONRPC.SetNotificationStatus"
      ∧ doc.value "token" = QVariant.bytes (data.value "token").toByteArray
      ∧ s'.m_replies = QMap.insert s.m_replies reply.m_commandId reply
      ∧ reply.m_nameSpace = "JSONRPC" ∧ reply.m_method = "SetNotificationStatus"
      ∧ s'.eventQueue = s.eventQueue := by
  have hconn1 : (processAuthenticateFields env data s).m_connection.connected = true := by
    simpa [processAuthenticateFields, emit] using hconn
  simp only [processAuthenticate, hsuccess, if_true, setNotificationsEnabled_connected _ hconn1]
  refine ⟨_, QMap.insert (notificationStatusReply (processAuthenticateFields env data s)).requestMap
    "token" (QVariant.bytes (data.value "token").toByteArray),
    notificationStatusReply (processAuthenticateFields env data s), rfl, ?_, ?_, ?_, ?_, ?_, ?_, ?_,
    ?_, rfl, rfl, ?_⟩
  · simp [authenticated, issued, processAuthenticateFields, emit]
  · simp [issued, processAuthenticateFields, emit]
  · intro hu
    have htok : (issued (notificationStatusReply (processAuthenticateFields env data s))
        (processAuthenticateFields env data s)).jsonTokens
          = QMap.insert s.jsonTokens s.m_serverUuid (data.value "token").toByteArray := by
      simp [issued, processAuthenticateFields, emit, settingsSetValue_tokens, hu]
    refine ⟨?_, htok⟩
    simp only [settingsValue, if_neg hu, htok, QMap.value_insert_self]
  · intro hu
    simp [issued, processAuthenticateFields, emit, settingsSetValue_tokens, hu]
  · simp [issued, processAuthenticateFields, emit]
  · have hne : ("method" : String) ≠ "token" := by decide
    simp only [QVariantMap.value, QMap.value, QMap.value?_insert_of_ne _ _ _ _ hne]
    have := requestMap_method (notificationStatusReply (processAuthenticateFields env data s))
    simpa [QVariantMap.value, QMap.value, notificationStatusReply] using this
  · simp [QVariantMap.value, QMap.value_insert_self]
  · simp [issued, processAuthenticateFields, emit]
  · simp [issued, processAuthenticateFields, emit]

/-- C8, witness: a successful reply carrying the token "tok" received by the example
client that has learnt the server uuid "srv-1" from the handshake: the token is
stored under "srv-1". -/
theorem processAuthenticate_success_witness :
    ∃ s', processAuthenticate exampleEnv 3 exampleAuthenticated exampleAwaitingLogin
        = Except.ok s'
      ∧ authenticated s' = true
      ∧ s'.m_token = "tok".toList
      ∧ settingsValue s' "srv-1" = "tok".toList
      ∧ s'.jsonTokens = [("srv-1", "tok".toList)] :=
  match processAuthenticate_success exampleEnv 3 exampleAuthenticated exampleAwaitingLogin
    rfl rfl with
  | ⟨s', _, _, h1, h2, h3, h4, _⟩ => ⟨s', h1, h2, h3, (h4 (by decide)).1, (h4 (by decide)).2⟩

/-! ## Effects of the handshake -/

theorem EffectsAdded.refl (P : Effect → Prop) (s : JsonRpcClient) : EffectsAdded P s s :=
  ⟨[], by simp, by simp⟩

theorem EffectsAdded.trans {P : Effect → Prop} {s1 s2 s3 : JsonRpcClient}
    (h12 : EffectsAdded P s1 s2) (h23 : EffectsAdded P s2 s3) : EffectsAdded P s1 s3 := by
  obtain ⟨n1, e1, p1⟩ := h12
  obtain ⟨n2, e2, p2⟩ := h23
  refine ⟨n1 ++ n2, by rw [e2, e1, List.append_assoc], ?_⟩
  intro e he
  rcases List.mem_append.mp he with h | h
  · exact p1 e h
  · exact p2 e h

theorem EffectsAdded.mono {P Q : Effect → Prop} {s s' : JsonRpcClient} (hPQ : ∀ e, P e → Q e)
    (h : EffectsAdded P s s') : EffectsAdded Q s s' := by
  obtain ⟨n, e, p⟩ := h
  exact ⟨n, e, fun x hx => hPQ x (p x hx)⟩

theorem EffectsAdded.of_eq {P : Effect → Prop} {s s' : JsonRpcClient} (new : List Effect)
    (h : s'.effects = s.effects ++ new) (hP : ∀ e ∈ new, P e) : EffectsAdded P s s' :=
  ⟨new, h, hP⟩

theorem EffectsAdded.snoc {P : Effect → Prop} {s s1 s2 : JsonRpcClient} (e : Effect)
    (h : EffectsAdded P s s1) (h2 : s2.effects = s1.effects ++ [e]) (hP : P e) :
    EffectsAdded P s s2 :=
  EffectsAdded.trans h ⟨[e], h2, by simpa using hP⟩

theorem EffectsAdded.same {P : Effect → Prop} {s s1 s2 : JsonRpcClient}
    (h : EffectsAdded P s s1) (h2 : s2.effects = s1.effects) : EffectsAdded P s s2 :=
  EffectsAdded.trans h ⟨[], by simpa using h2, by simp⟩

theorem EffectsAdded.emit {P : Effect → Prop} {s s1 : JsonRpcClient} (signal : Signal)
    (h : EffectsAdded P s s1) (hP : P (Effect.emit signal)) :
    EffectsAdded P s (JsonRpcClient.emit signal s1) :=
  EffectsAdded.snoc (Effect.emit signal) h rfl hP

theorem EffectsAdded.issued {P : Effect → Prop} {s s1 : JsonRpcClient} (reply : JsonRpcReply)
    (h : EffectsAdded P s s1) (hP : ∀ e, isSendData e = true → P e) :
    EffectsAdded P s (JsonRpcClient.issued reply s1) :=
  EffectsAdded.snoc (Effect.sendData ⟨QMap.insert reply.requestMap "token" (QVariant.bytes s1.m_token),
    JsonFormat.Compact, ['\n']⟩) h rfl (hP _ rfl)

/-- The end of the handshake returns, from a state reached with effects satisfying
`P`; it only sends, and leaves the pinned certificates and the cache hashes alone. -/
theorem helloReplyNotifications_frame (P : Effect → Prop) (hP : ∀ e, isSendData e = true → P e)
    (s s1 : JsonRpcClient) (hs : EffectsAdded P s s1) :
    ∃ s', helloReplyNotifications s1 = Except.ok s'
      ∧ s'.sslcerts = s1.sslcerts ∧ s'.m_cacheHashes = s1.m_cacheHashes
      ∧ EffectsAdded P s s' := by
  by_cases hconn : s1.m_connection.connected = true
  · rw [helloReplyNotifications_connected s1 hconn]
    exact ⟨_, rfl, rfl, rfl, EffectsAdded.issued _ (EffectsAdded.issued _ hs hP) hP⟩
  · rw [helloReplyNotifications_not_connected s1 (by simpa using hconn)]
    exact ⟨_, rfl, rfl, rfl, EffectsAdded.same hs rfl⟩

/-- The setup and authentication steps of the handshake return; they raise their
own signals and send, and leave the pinned certificates and the cache hashes alone. -/
theorem helloReplyAuthentication_frame (P : Effect → Prop) (hP : ∀ e, isHandshakeTail e → P e)
    (s s1 : JsonRpcClient) (hs : EffectsAdded P s s1) :
    ∃ s', helloReplyAuthentication s1 = Except.ok s'
      ∧ s'.sslcerts = s1.sslcerts ∧ s'.m_cacheHashes = s1.m_cacheHashes
      ∧ EffectsAdded P s s' := by
  have hsend : ∀ e, isSendData e = true → P e := fun e he => hP e (Or.inl he)
  have h1 : P (Effect.emit Signal.initialSetupRequiredChanged) := hP _ (by simp [isHandshakeTail])
  have h2 : P (Effect.emit Signal.authenticationRequiredChanged) := hP _ (by simp [isHandshakeTail])
  have h3 : P (Effect.emit Signal.authenticatedChanged) := hP _ (by simp [isHandshakeTail])
  unfold helloReplyAuthentication
  by_cases hsetup : s1.m_initialSetupRequired = true
  · rw [if_pos hsetup]
    exact ⟨_, rfl, rfl, rfl, EffectsAdded.emit _ hs h1⟩
  · rw [if_neg hsetup]
    by_cases hauth : s1.m_authenticationRequired = true
    · rw [if_pos hauth]
      simp only []
      split
      · exact ⟨_, rfl, rfl, rfl, EffectsAdded.emit _ (EffectsAdded.same hs rfl) h2⟩
      · exact helloReplyNotifications_frame P hsend s _
          (EffectsAdded.emit _ (EffectsAdded.same (EffectsAdded.emit _ (EffectsAdded.same hs rfl) h2)
            rfl) h3)
    · rw [if_neg hauth]
      exact helloReplyNotifications_frame P hsend s s1 hs

theorem helloReplySession_of_host (env : Env) (params : QVariantMap) (s : JsonRpcClient)
    (host : NymeaHost) (h : s.m_connection.currentHost = some host) :
    helloReplySession env params s
      = helloReplyAuthentication (updateHostUuid host (helloReplySessionFields env params s)) := by
  have hconn : (helloReplySessionFields env params s).m_connection.currentHost = some host := by
    simpa [helloReplySessionFields, emit] using h
  simp only [helloReplySession, hconn]

theorem helloReplySession_of_no_host (env : Env) (params : QVariantMap) (s : JsonRpcClient)
    (h : s.m_connection.currentHost = none) :
    helloReplySession env params s = Except.error Fault.nullDereference := by
  have hconn : (helloReplySessionFields env params s).m_connection.currentHost = none := by
    simpa [helloReplySessionFields, emit] using h
  simp only [helloReplySession, hconn]

/-- The part of the handshake after the certificate check: when it returns, the
pinned certificates are as before, the cache hashes are those of the reply and
the effects are its own; it returns whenever the connection has a host. -/
theorem helloReplySession_frame (env : Env) (params : QVariantMap) (P : Effect → Prop)
    (hP : ∀ e, isHandshakeTail e → P e) (hperm : P (Effect.emit Signal.permissionsChanged))
    (hhs : P (Effect.emit Signal.handshakeReceived))
    (s s1 : JsonRpcClient) (hs : EffectsAdded P s s1) :
    (∀ s', helloReplySession env params s1 = Except.ok s' →
        s'.sslcerts = s1.sslcerts
        ∧ s'.m_cacheHashes = (params.value "cacheHashes").toList.foldl insertCacheHash []
        ∧ EffectsAdded P s s')
    ∧ (∀ host, s1.m_connection.currentHost = some host →
        ∃ s', helloReplySession env params s1 = Except.ok s') := by
  have hfx : EffectsAdded P s (helloReplySessionFields env params s1) :=
    EffectsAdded.emit _ (EffectsAdded.emit _ (EffectsAdded.same hs rfl) hperm) hhs
  cases hh : s1.m_connection.currentHost with
  | none =>
    rw [helloReplySession_of_no_host env params s1 hh]
    exact ⟨fun s' h => (by cases h), fun host hhost => (by cases hhost)⟩
  | some host =>
    rw [helloReplySession_of_host env params s1 host hh]
    obtain ⟨s', hs', h1, h2, h3⟩ := helloReplyAuthentication_frame P hP s
      (updateHostUuid host (helloReplySessionFields env params s1))
      (EffectsAdded.same hfx rfl)
    refine ⟨fun s'' h => ?_, fun _ _ => ⟨s', hs'⟩⟩
    rw [hs'] at h
    cases h
    refine ⟨?_, ?_, h3⟩
    · rw [h1]
      simp [updateHostUuid, helloReplySessionFields, emit]
    · rw [h2]
      simp [updateHostUuid, helloReplySessionFields, emit]

theorem QVersionNumber.not_lt_of_major (v : QVersionNumber) (h : 6 < QVersionNumber.majorVersion v) :
    QVersionNumber.lt v [5, 0] = false := by
  cases v with
  | nil => simp [QVersionNumber.majorVersion] at h
  | cons a as =>
    simp only [QVersionNumber.majorVersion, List.headD_cons] at h
    simp only [QVersionNumber.lt]
    have h1 : ¬ a < 5 := by omega
    have h2 : 5 < a := by omega
    simp [h1, h2]

/-! ## C9: the version check of the handshake -/

/-- C9: a Hello reply whose protocol version is below 5.0 makes `helloReply` raise
invalidMinimumVersion and return, one whose major version is above 6 makes it
raise invalidMaximumVersion and return; in both cases nothing else happens after
the signal pushButtonAuthAvailableChanged: the pinned certificates, the cache
hashes, the authenticated flag, the pending table, the counter and the event
queue are unchanged and nothing is sent.  For a version within the bounds no
effect of `helloReply` is a version-mismatch signal. -/
theorem helloReply_version_check (env : Env) (commandId : Int) (params : QVariantMap)
    (s : JsonRpcClient) :
    (QVersionNumber.lt (protocolVersion params) [5, 0] = true →
      ∃ s', helloReply env commandId params s = Except.ok s'
        ∧ s'.effects = s.effects ++ [Effect.emit Signal.pushButtonAuthAvailableChanged,
            Effect.emit (Signal.invalidMinimumVersion (protocolVersion params).toQString "5.0")]
        ∧ s'.sslcerts = s.sslcerts ∧ s'.m_cacheHashes = s.m_cacheHashes
        ∧ s'.m_authenticated = s.m_authenticated
        ∧ s'.m_replies = s.m_replies ∧ s'.m_id = s.m_id ∧ s'.eventQueue = s.eventQueue)
    ∧ (6 < (protocolVersion params).majorVersion →
      ∃ s', helloReply env commandId params s = Except.ok s'
        ∧ s'.effects = s.effects ++ [Effect.emit Signal.pushButtonAuthAvailableChanged,
            Effect.emit (Signal.invalidMaximumVersion (protocolVersion params).toQString "6.x")]
        ∧ s'.sslcerts = s.sslcerts ∧ s'.m_cacheHashes = s.m_cacheHashes
        ∧ s'.m_authenticated = s.m_authenticated
        ∧ s'.m_replies = s.m_replies ∧ s'.m_id = s.m_id ∧ s'.eventQueue = s.eventQueue)
    ∧ (QVersionNumber.lt (protocolVersion params) [5, 0] = false →
      (protocolVersion params).majorVersion ≤ 6 →
      ∀ s', helloReply env commandId params s = Except.ok s' →
        EffectsAdded (fun e => isVersionMismatch e = false) s s') := by
  have hv : (helloReplyFields params s).m_jsonRpcVersion = protocolVersion params := rfl
  refine ⟨fun hmin => ?_, fun hmax => ?_, fun hmin hmax s' hs' => ?_⟩
  · have e1 : helloReply env commandId params s = Except.ok
        (emit (Signal.invalidMinimumVersion (protocolVersion params).toQString
          (QVersionNumber.toQString [5, 0])) (helloReplyFields params s)) := by
      simp only [helloReply, hv, hmin, if_true]
    rw [e1]
    refine ⟨_, rfl, ?_⟩
    simp [emit, helloReplyFields]
    decide
  · have hmin := QVersionNumber.not_lt_of_major _ hmax
    have hmax' : (protocolVersion params).majorVersion > QVersionNumber.majorVersion [6] := by
      simpa [QVersionNumber.majorVersion] using hmax
    have e1 : helloReply env commandId params s = Except.ok
        (emit (Signal.invalidMaximumVersion (protocolVersion params).toQString
          (QString.number (QVersionNumber.majorVersion [6]) ++ ".x")) (helloReplyFields params s)) := by
      simp only [helloReply, hv, hmin, hmax', if_true, Bool.false_eq_true, if_false]
    rw [e1]
    refine ⟨_, rfl, ?_⟩
    simp [emit, helloReplyFields]
    decide
  · have hmax' : ¬ (protocolVersion params).majorVersion > QVersionNumber.majorVersion [6] := by
      simpa [QVersionNumber.majorVersion] using hmax
    have h0 : EffectsAdded (fun e => isVersionMismatch e = false) s (helloReplyFields params s) :=
      EffectsAdded.same (EffectsAdded.emit Signal.pushButtonAuthAvailableChanged
        (EffectsAdded.same (EffectsAdded.refl _ s) rfl) rfl) rfl
    have htail : ∀ e, isHandshakeTail e → isVersionMismatch e = false := by
      intro e he
      rcases he with he | he | he | he
      · cases e <;> simp_all [isSendData, isVersionMismatch]
      all_goals (subst he; rfl)
    simp only [helloReply, hv, hmin, hmax', Bool.false_eq_true, if_false] at hs'
    split at hs'
    · split at hs'
      · have hpin : EffectsAdded (fun e => isVersionMismatch e = false) s
            (storePem (QUuid.fromString (emit Signal.newSslCertificate
                (helloReplyFields params s)).m_serverUuid)
              (emit Signal.newSslCertificate (helloReplyFields params s)).m_connection.sslCertificate.toPem
              (emit Signal.newSslCertificate (helloReplyFields params s))) :=
          EffectsAdded.same (EffectsAdded.emit Signal.newSslCertificate h0 rfl) rfl
        exact ((helloReplySession_frame env params _ htail rfl rfl s _ hpin).1 s' hs').2.2
      · split at hs'
        · cases hs'
          exact EffectsAdded.emit _ (EffectsAdded.snoc Effect.disconnectFromHost h0 rfl rfl) rfl
        · exact ((helloReplySession_frame env params _ htail rfl rfl s _ h0).1 s' hs').2.2
    · exact ((helloReplySession_frame env params _ htail rfl rfl s _ h0).1 s' hs').2.2

/-- C9, witness: versions "4.9" (too old), "7.1" (too new) and "6.2" (supported) on
the example client. -/
theorem helloReply_version_check_witness :
    (∃ s', helloReply exampleEnv 1 [("protocol version", QVariant.str "4.9")] exampleClient
          = Except.ok s'
        ∧ s'.effects = exampleClient.effects ++ [Effect.emit Signal.pushButtonAuthAvailableChanged,
            Effect.emit (Signal.invalidMinimumVersion
              (protocolVersion [("protocol version", QVariant.str "4.9")]).toQString "5.0")]
        ∧ s'.sslcerts = exampleClient.sslcerts ∧ s'.m_cacheHashes = exampleClient.m_cacheHashes
        ∧ s'.m_authenticated = exampleClient.m_authenticated
        ∧ s'.m_replies = exampleClient.m_replies ∧ s'.m_id = exampleClient.m_id
        ∧ s'.eventQueue = exampleClient.eventQueue)
    ∧ (∃ s', helloReply exampleEnv 1 [("protocol version", QVariant.str "7.1")] exampleClient
          = Except.ok s'
        ∧ s'.effects = exampleClient.effects ++ [Effect.emit Signal.pushButtonAuthAvailableChanged,
            Effect.emit (Signal.invalidMaximumVersion
              (protocolVersion [("protocol version", QVariant.str "7.1")]).toQString "6.x")]
        ∧ s'.sslcerts = exampleClient.sslcerts ∧ s'.m_cacheHashes = exampleClient.m_cacheHashes
        ∧ s'.m_authenticated = exampleClient.m_authenticated
        ∧ s'.m_replies = exampleClient.m_replies ∧ s'.m_id = exampleClient.m_id
        ∧ s'.eventQueue = exampleClient.eventQueue)
    ∧ (∀ s', helloReply exampleEnv 1 exampleHelloParams exampleClient = Except.ok s' →
        EffectsAdded (fun e => isVersionMismatch e = false) exampleClient s') :=
  ⟨(helloReply_version_check exampleEnv 1 [("protocol version", QVariant.str "4.9")]
      exampleClient).1 (by decide),
   (helloReply_version_check exampleEnv 1 [("protocol version", QVariant.str "7.1")]
      exampleClient).2.1 (by decide),
   (helloReply_version_check exampleEnv 1 exampleHelloParams exampleClient).2.2
      (by decide) (by decide)⟩

/-! ## C10: trust on first use -/

/-- C10: on an encrypted transport, a Hello reply with a supported version whose
server uuid has no stored certificate makes `helloReply` store the PEM of the
peer certificate under that uuid, raise newSslCertificate and go on: it runs
the rest of the handshake from the pinned state and returns; the cache hashes
are those of the reply, the signals permissionsChanged and handshakeReceived
follow, then only effects of the setup and authentication steps, none of which
is a request to disconnect; the stored certificate is still the pinned one. -/
theorem helloReply_pins_first_certificate (env : Env) (commandId : Int) (params : QVariantMap)
    (s : JsonRpcClient) (host : NymeaHost)
    (hmin : QVersionNumber.lt (protocolVersion params) [5, 0] = false)
    (hmax : (protocolVersion params).majorVersion ≤ 6)
    (henc : s.m_connection.isEncrypted = true)
    (hnone : loadPem (QUuid.fromString (params.value "uuid").toQString) s = none)
    (hhost : s.m_connection.currentHost = some host) :
    helloReply env commandId params s = helloReplySession env params (pinned params s)
    ∧ ∃ s' new, helloReply env commandId params s = Except.ok s'
      ∧ loadPem (QUuid.fromString (params.value "uuid").toQString) s'
          = some s.m_connection.sslCertificate.toPem
      ∧ s'.m_cacheHashes = (params.value "cacheHashes").toList.foldl insertCacheHash []
      ∧ s'.effects = s.effects ++ [Effect.emit Signal.pushButtonAuthAvailableChanged,
          Effect.emit Signal.newSslCertificate, Effect.emit Signal.permissionsChanged,
          Effect.emit Signal.handshakeReceived] ++ new
      ∧ (∀ e ∈ new, isHandshakeTail e)
      ∧ Effect.disconnectFromHost ∉ new := by
  have hmax' : ¬ (protocolVersion params).majorVersion > QVersionNumber.majorVersion [6] := by
    simpa [QVersionNumber.majorVersion] using hmax
  have hv : (helloReplyFields params s).m_jsonRpcVersion = protocolVersion params := rfl
  have henc' : (helloReplyFields params s).m_connection.isEncrypted = true := henc
  have hnone' : loadPem (QUuid.fromString (helloReplyFields params s).m_serverUuid)
      (helloReplyFields params s) = none := hnone
  have h1 : helloReply env commandId params s = helloReplySession env params (pinned params s) := by
    simp only [helloReply, hv, hmin, hmax', Bool.false_eq_true, if_false, henc', if_true, hnone']
    rfl
  have hhost' : (pinned params s).m_connection.currentHost = some host := hhost
  refine ⟨h1, ?_⟩
  rw [h1, helloReplySession_of_host env params _ host hhost']
  obtain ⟨s', hs', hcert, hcache, new, hnew, htail⟩ := helloReplyAuthentication_frame isHandshakeTail
    (fun e he => he) _ (updateHostUuid host (helloReplySessionFields env params (pinned params s)))
    (EffectsAdded.refl _ _)
  refine ⟨s', new, hs', ?_, ?_, ?_, htail, ?_⟩
  · simp only [loadPem, hcert]
    simp [updateHostUuid, helloReplySessionFields, emit, pinned, storePem, QMap.value?_insert_self,
      helloReplyFields]
  · rw [hcache]
    simp [updateHostUuid, helloReplySessionFields, emit]
  · rw [hnew]
    simp [updateHostUuid, helloReplySessionFields, emit, pinned, storePem, helloReplyFields]
  · intro hmem
    have := htail _ hmem
    simp [isHandshakeTail, isSendData] at this

/-- C10, witness: the Hello reply of the end-to-end example on an encrypted
transport, no certificate being stored. -/
theorem helloReply_pins_first_certificate_witness :
    helloReply exampleEnv 1 exampleHelloParams exampleEncrypted
      = helloReplySession exampleEnv exampleHelloParams (pinned exampleHelloParams exampleEncrypted)
    ∧ ∃ s' new, helloReply exampleEnv 1 exampleHelloParams exampleEncrypted = Except.ok s'
      ∧ loadPem (QUuid.fromString (exampleHelloParams.value "uuid").toQString) s'
          = some exampleEncrypted.m_connection.sslCertificate.toPem
      ∧ s'.m_cacheHashes = (exampleHelloParams.value "cacheHashes").toList.foldl insertCacheHash []
      ∧ s'.effects = exampleEncrypted.effects ++ [Effect.emit Signal.pushButtonAuthAvailableChanged,
          Effect.emit Signal.newSslCertificate, Effect.emit Signal.permissionsChanged,
          Effect.emit Signal.handshakeReceived] ++ new
      ∧ (∀ e ∈ new, isHandshakeTail e)
      ∧ Effect.disconnectFromHost ∉ new :=
  helloReply_pins_first_certificate exampleEnv 1 exampleHelloParams exampleEncrypted ⟨QUuid.null⟩
    (by decide) (by decide) rfl rfl rfl

/-! ## Allocation of identifiers -/

theorem toInt32_of_range (n : Int) (h0 : 0 ≤ n) (h1 : n ≤ 2147483647) : toInt32 n = n := by
  unfold toInt32
  omega

theorem QMap.contains_insert {κ α : Type} [DecidableEq κ] (m : List (κ × α)) (k k' : κ) (v : α)
    (h : QMap.contains (QMap.insert m k v) k' = true) : k' = k ∨ QMap.contains m k' = true := by
  by_cases hk : k' = k
  · exact Or.inl hk
  · right
    simpa [QMap.contains, QMap.value?_insert_of_ne m k k' v hk] using h

theorem QMap.contains_remove {κ α : Type} [DecidableEq κ] (m : List (κ × α)) (k k' : κ)
    (h : QMap.contains (QMap.remove m k) k' = true) : QMap.contains m k' = true ∧ k' ≠ k := by
  by_cases hk : k' = k
  · subst hk
    simp [QMap.contains, QMap.value?_remove_self] at h
  · exact ⟨by simpa [QMap.contains, QMap.value?_remove_of_ne m k k' hk] using h, hk⟩

theorem Allocates.nothing (s : JsonRpcClient) : Allocates 0 s s :=
  ⟨le_refl _, by simp, fun _ h => Or.inl h⟩

theorem Allocates.unchanged {s s' : JsonRpcClient} (n : Nat) (hid : s'.m_id = s.m_id)
    (hr : s'.m_replies = s.m_replies) : Allocates n s s' :=
  ⟨by rw [hid], by rw [hid]; omega, fun _ h => Or.inl (by rwa [hr] at h)⟩

theorem Allocates.weaken {n m : Nat} {s s' : JsonRpcClient} (h : Allocates n s s') (hnm : n ≤ m) :
    Allocates m s s' :=
  ⟨h.1, by have := h.2.1; omega, h.2.2⟩

theorem Allocates.append {n m : Nat} {s1 s2 s3 : JsonRpcClient} (h12 : Allocates n s1 s2)
    (h23 : Allocates m s2 s3) : Allocates (n + m) s1 s3 := by
  obtain ⟨a1, a2, a3⟩ := h12
  obtain ⟨b1, b2, b3⟩ := h23
  refine ⟨le_trans a1 b1, by push_cast; omega, fun id h => ?_⟩
  rcases b3 id h with h | h
  · rcases a3 id h with h | h
    · exact Or.inl h
    · exact Or.inr ⟨h.1, le_trans h.2 b1⟩
  · exact Or.inr ⟨lt_of_le_of_lt a1 h.1, h.2⟩

/-- Frame: a change that leaves the counter and the pending table alone. -/
theorem Allocates.frame {n : Nat} {s s1 s2 : JsonRpcClient} (h : Allocates n s s1)
    (hid : s2.m_id = s1.m_id) (hr : s2.m_replies = s1.m_replies) : Allocates n s s2 := by
  have := Allocates.append h (Allocates.unchanged 0 hid hr)
  simpa using this

/-- One call created and recorded with the next identifier. -/
theorem Allocates.insert {s s' : JsonRpcClient} (r : JsonRpcReply) (h0 : 0 ≤ s.m_id)
    (hroom : s.m_id + 1 ≤ 2147483647)
    (hid : s'.m_id = toInt32 (s.m_id + 1))
    (hr : s'.m_replies = QMap.insert s.m_replies (toInt32 (s.m_id + 1)) r) : Allocates 1 s s' := by
  have ht : toInt32 (s.m_id + 1) = s.m_id + 1 := toInt32_of_range _ (by omega) hroom
  rw [ht] at hid hr
  refine ⟨by omega, by rw [hid]; simp, fun id h => ?_⟩
  rw [hr] at h
  rcases QMap.contains_insert _ _ _ _ h with h | h
  · exact Or.inr ⟨by omega, by omega⟩
  · exact Or.inl h

theorem sendRequest_m_id (request : QVariantMap) (s : JsonRpcClient) :
    (sendRequest request s).m_id = s.m_id ∧ (sendRequest request s).m_replies = s.m_replies := by
  simp only [sendRequest, sendData]
  split <;> exact ⟨rfl, rfl⟩

theorem setNotificationsEnabled_allocates (s s' : JsonRpcClient) (h0 : 0 ≤ s.m_id)
    (hroom : s.m_id + 1 ≤ 2147483647) (h : setNotificationsEnabled s = Except.ok s') :
    Allocates 1 s s' := by
  unfold setNotificationsEnabled at h
  split at h
  · cases h
    exact Allocates.weaken (Allocates.nothing s) (by omega)
  · simp only [createReply_SetNotificationStatus] at h
    cases h
    exact Allocates.insert _ h0 hroom (sendRequest_m_id _ _).1 (sendRequest_m_id _ _).2

theorem getCloudConnectionStatus_allocates (s s' : JsonRpcClient) (h0 : 0 ≤ s.m_id)
    (hroom : s.m_id + 1 ≤ 2147483647) (h : getCloudConnectionStatus s = Except.ok s') :
    Allocates 1 s s' := by
  simp only [getCloudConnectionStatus, createReply_IsCloudConnected] at h
  cases h
  exact Allocates.insert _ h0 hroom (sendRequest_m_id _ _).1 (sendRequest_m_id _ _).2

theorem helloReplyNotifications_allocates (s s' : JsonRpcClient) (h0 : 0 ≤ s.m_id)
    (hroom : s.m_id + 2 ≤ 2147483647) (h : helloReplyNotifications s = Except.ok s') :
    Allocates 2 s s' := by
  unfold helloReplyNotifications at h
  cases h1 : setNotificationsEnabled s with
  | error e => simp [h1] at h
  | ok s1 =>
    simp only [h1] at h
    have a1 := setNotificationsEnabled_allocates s s1 h0 (by omega) h1
    have a2 := getCloudConnectionStatus_allocates s1 s' (le_trans h0 a1.1)
      (by have := a1.2.1; push_cast at this; omega) h
    exact Allocates.append a1 a2

/-- Frame: a start state that has the counter and the pending table of `s`. -/
theorem Allocates.of_frame {n : Nat} {s s1 s' : JsonRpcClient} (h : Allocates n s1 s')
    (hid : s1.m_id = s.m_id) (hr : s1.m_replies = s.m_replies) : Allocates n s s' := by
  have := Allocates.append (Allocates.unchanged 0 hid hr) h
  simpa using this

theorem helloReplyAuthentication_allocates (s s' : JsonRpcClient) (h0 : 0 ≤ s.m_id)
    (hroom : s.m_id + 2 ≤ 2147483647) (h : helloReplyAuthentication s = Except.ok s') :
    Allocates 2 s s' := by
  unfold helloReplyAuthentication at h
  split at h
  · cases h
    exact Allocates.unchanged 2 rfl rfl
  · split at h
    · simp only [] at h
      split at h
      · cases h
        exact Allocates.unchanged 2 rfl rfl
      · exact Allocates.of_frame (helloReplyNotifications_allocates _ s'
          (by simpa [emit] using h0) (by simpa [emit] using hroom) h) (by simp [emit])
          (by simp [emit])
    · exact helloReplyNotifications_allocates s s' h0 hroom h

theorem helloReplySession_allocates (env : Env) (params : QVariantMap) (s s' : JsonRpcClient)
    (h0 : 0 ≤ s.m_id) (hroom : s.m_id + 2 ≤ 2147483647)
    (h : helloReplySession env params s = Except.ok s') : Allocates 2 s s' := by
  cases hh : s.m_connection.currentHost with
  | none => simp [helloReplySession_of_no_host env params s hh] at h
  | some host =>
    rw [helloReplySession_of_host env params s host hh] at h
    exact Allocates.of_frame (helloReplyAuthentication_allocates _ s'
      (by simpa [updateHostUuid, helloReplySessionFields, emit] using h0)
      (by simpa [updateHostUuid, helloReplySessionFields, emit] using hroom) h)
      (by simp [updateHostUuid, helloReplySessionFields, emit])
      (by simp [updateHostUuid, helloReplySessionFields, emit])

theorem helloReply_allocates (env : Env) (commandId : Int) (params : QVariantMap)
    (s s' : JsonRpcClient) (h0 : 0 ≤ s.m_id) (hroom : s.m_id + 2 ≤ 2147483647)
    (h : helloReply env commandId params s = Except.ok s') : Allocates 2 s s' := by
  have key : ∀ s1 : JsonRpcClient, s1.m_id = s.m_id → s1.m_replies = s.m_replies →
      helloReplySession env params s1 = Except.ok s' → Allocates 2 s s' := by
    intro s1 hid hr h1
    exact Allocates.of_frame (helloReplySession_allocates env params s1 s'
      (by rw [hid]; exact h0) (by rw [hid]; exact hroom) h1) hid hr
  unfold helloReply at h
  simp only [] at h
  split at h
  · cases h
    exact Allocates.unchanged 2 (by simp [emit, helloReplyFields]) (by simp [emit, helloReplyFields])
  · split at h
    · cases h
      exact Allocates.unchanged 2 (by simp [emit, helloReplyFields]) (by simp [emit, helloReplyFields])
    · split at h
      · split at h
        · exact key _ (by simp [storePem, emit, helloReplyFields])
            (by simp [storePem, emit, helloReplyFields]) h
        · split at h
          · cases h
            exact Allocates.unchanged 2 (by simp [emit, helloReplyFields, disconnectFromHost])
              (by simp [emit, helloReplyFields, disconnectFromHost])
          · exact key _ (by simp [emit, helloReplyFields]) (by simp [emit, helloReplyFields]) h
      · exact key _ (by simp [emit, helloReplyFields]) (by simp [emit, helloReplyFields]) h

theorem processAuthenticate_allocates (env : Env) (commandId : Int) (data : QVariantMap)
    (s s' : JsonRpcClient) (h0 : 0 ≤ s.m_id) (hroom : s.m_id + 1 ≤ 2147483647)
    (h : processAuthenticate env commandId data s = Except.ok s') : Allocates 1 s s' := by
  unfold processAuthenticate at h
  split at h
  · exact Allocates.of_frame (setNotificationsEnabled_allocates _ s'
      (by simpa [processAuthenticateFields, emit] using h0)
      (by simpa [processAuthenticateFields, emit] using hroom) h)
      (by simp [processAuthenticateFields, emit])
      (by simp [processAuthenticateFields, emit])
  · cases h
    exact Allocates.unchanged 1 rfl rfl

theorem invokeSelf_allocates (env : Env) (method : QString) (commandId : Int) (params : QVariantMap)
    (s s' : JsonRpcClient) (h0 : 0 ≤ s.m_id) (hroom : s.m_id + 2 ≤ 2147483647)
    (h : invokeSelf env method commandId params s = Except.ok s') : Allocates 2 s s' := by
  unfold invokeSelf at h
  split at h
  · exact helloReply_allocates env commandId params s s' h0 hroom h
  split at h
  · exact Allocates.weaken (processAuthenticate_allocates env commandId params s s' h0 (by omega) h)
      (by omega)
  split at h
  · cases h
    apply Allocates.unchanged 2 <;> (unfold processCreateUser; split <;> rfl)
  split at h
  · cases h
    apply Allocates.unchanged 2 <;> (unfold processRequestPushButtonAuth; split <;> rfl)
  split at h
  · cases h
    apply Allocates.unchanged 2 <;> (unfold setNotificationsEnabledResponse; split <;> rfl)
  split at h
  · cases h
    exact Allocates.unchanged 2 rfl rfl
  split at h
  · cases h
    exact Allocates.unchanged 2 rfl rfl
  split at h
  · cases h
    exact Allocates.unchanged 2 rfl rfl
  split at h
  · cases h
    apply Allocates.unchanged 2 <;> (unfold getVersionsReply; simp only []; split <;> rfl)
  split at h
  · cases h
    exact Allocates.unchanged 2 rfl rfl
  · cases h
    exact Allocates.unchanged 2 rfl rfl

theorem invokeCallback_allocates (env : Env) (object : QObjectRef) (method : QString)
    (commandId : Int) (params : QVariantMap)
    (s s' : JsonRpcClient) (h0 : 0 ≤ s.m_id) (hroom : s.m_id + 2 ≤ 2147483647)
    (h : invokeCallback env object method commandId params s = Except.ok s') : Allocates 2 s s' := by
  unfold invokeCallback at h
  cases object with
  | self =>
    exact Allocates.of_frame (invokeSelf_allocates env method commandId params _ s'
      (by exact h0) (by exact hroom) h) rfl rfl
  | object id =>
    cases h
    exact Allocates.unchanged 2 rfl rfl

theorem storeInCache_m_id (env : Env) (reply : JsonRpcReply) (dataMap : QVariantMap)
    (s : JsonRpcClient) :
    (storeInCache env reply dataMap s).m_id = s.m_id
      ∧ (storeInCache env reply dataMap s).m_replies = s.m_replies := by
  unfold storeInCache
  simp only []
  split
  · split <;> exact ⟨rfl, rfl⟩
  · exact ⟨rfl, rfl⟩

theorem forwardReply_allocates (env : Env) (reply : JsonRpcReply) (commandId : Int)
    (dataMap : QVariantMap) (s s' : JsonRpcClient) (h0 : 0 ≤ s.m_id)
    (hroom : s.m_id + 2 ≤ 2147483647)
    (h : forwardReply env reply commandId dataMap s = Except.ok s') : Allocates 2 s s' := by
  unfold forwardReply at h
  simp only [] at h
  have key : ∀ s1 : JsonRpcClient, Allocates 2 s s1 →
      Allocates 2 s (storeInCache env reply dataMap
        (emit (Signal.responseReceived reply.commandId (dataMap.value "params").toMap) s1)) := by
    intro s1 a1
    exact Allocates.frame a1 (by rw [(storeInCache_m_id _ _ _ _).1]; rfl)
      (by rw [(storeInCache_m_id _ _ _ _).2]; rfl)
  cases hc : reply.caller with
  | none =>
    simp only [hc] at h
    cases h
    exact key s (Allocates.unchanged 2 rfl rfl)
  | some object =>
    simp only [hc] at h
    by_cases hcb : reply.callback ≠ ""
    · rw [if_pos hcb] at h
      cases h1 : invokeCallback env object reply.callback commandId (dataMap.value "params").toMap s with
      | error e => simp [h1] at h
      | ok s1 =>
        simp only [h1] at h
        cases h
        exact key s1 (invokeCallback_allocates env object _ commandId _ s s1 h0 hroom h1)
    · rw [if_neg hcb] at h
      cases h
      exact key s (Allocates.unchanged 2 rfl rfl)

theorem handleMatchedReply_allocates (env : Env) (reply : JsonRpcReply) (commandId : Int)
    (dataMap : QVariantMap) (s s' : JsonRpcClient)
    (h0 : 0 ≤ s.m_id) (hroom : s.m_id + 2 ≤ 2147483647)
    (hnot : ¬ ((dataMap.value "status").toQString = "error"
        ∧ reply.nameSpace = "JSONRPC" ∧ reply.method = "Hello"))
    (h : handleMatchedReply env reply commandId dataMap s = Except.ok s') : Allocates 2 s s' := by
  unfold handleMatchedReply at h
  simp only [] at h
  rw [if_neg hnot] at h
  split at h
  · exact Allocates.of_frame (forwardReply_allocates env reply _ dataMap _ s'
        (by simpa [unauthorized, emit] using h0)
        (by simpa [unauthorized, emit] using hroom) h)
      (by simp [unauthorized, emit])
      (by simp [unauthorized, emit])
  · exact forwardReply_allocates env reply _ dataMap _ s' h0 hroom h

/-- The reply branch of `dataReceived` on a reply that does not set the counter
back: the counter goes up by at most two, and a record pending afterwards was
pending before under another identifier than the one of the reply, or is new. -/
theorem handleReply_takes (env : Env) (dataMap : QVariantMap) (s s' : JsonRpcClient)
    (h0 : 0 ≤ s.m_id) (hroom : s.m_id + 2 ≤ 2147483647)
    (hreset : resetsCounter dataMap s = false)
    (htopic : QMap.contains dataMap "notification" = false)
    (h : handleReply env dataMap s = Except.ok s') :
    s.m_id ≤ s'.m_id ∧ s'.m_id ≤ s.m_id + 2
    ∧ ∀ i, QMap.contains s'.m_replies i = true →
      (QMap.contains s.m_replies i = true ∧ i ≠ (dataMap.value "id").toInt)
      ∨ (s.m_id < i ∧ i ≤ s'.m_id) := by
  unfold handleReply at h
  simp only [QMap.take] at h
  have hrem : ∀ (s1 : JsonRpcClient), Allocates 2 s1 s' → s1.m_id = s.m_id →
      s1.m_replies = QMap.remove s.m_replies (dataMap.value "id").toInt →
      s.m_id ≤ s'.m_id ∧ s'.m_id ≤ s.m_id + 2
      ∧ ∀ i, QMap.contains s'.m_replies i = true →
        (QMap.contains s.m_replies i = true ∧ i ≠ (dataMap.value "id").toInt)
        ∨ (s.m_id < i ∧ i ≤ s'.m_id) := by
    intro s1 a h1 h2
    refine ⟨by rw [← h1]; exact a.1, by rw [← h1]; exact a.2.1, fun i hi => ?_⟩
    rcases a.2.2 i hi with hh | hh
    · rw [h2] at hh
      exact Or.inl (QMap.contains_remove _ _ _ hh)
    · rw [h1] at hh
      exact Or.inr hh
  cases hv : QMap.value? s.m_replies (dataMap.value "id").toInt with
  | none =>
    simp only [hv] at h
    cases h
    exact hrem _ (Allocates.weaken (Allocates.nothing _) (by omega)) rfl rfl
  | some reply =>
    simp only [hv] at h
    have hnot : ¬ ((dataMap.value "status").toQString = "error"
        ∧ reply.nameSpace = "JSONRPC" ∧ reply.method = "Hello") := by
      intro hc
      simp [resetsCounter, htopic, hv, hc.1] at hreset
      exact hreset hc.2.1 hc.2.2
    exact hrem _ (handleMatchedReply_allocates env reply _ dataMap _ s' (by exact h0)
      (by exact hroom) hnot h) rfl rfl

theorem Steady.cons {env : Env} {a : Action} {rest : List Action} {s s0 : JsonRpcClient}
    {o0 : Option Int} (hreset : Action.resets a s = false) (hroom : hasRoom s)
    (hp : perform env a s = Except.ok (o0, s0)) (hrest : Steady env rest s0) :
    Steady env (a :: rest) s := by
  refine ⟨hreset, hroom, fun o s1 h => ?_⟩
  rw [hp] at h
  cases h
  exact hrest

theorem EffectsAdded.sendData {P : Effect → Prop} {s s1 : JsonRpcClient} (data : Outgoing)
    (h : EffectsAdded P s s1) (hP : P (Effect.sendData data)) :
    EffectsAdded P s (JsonRpcClient.sendData data s1) := by
  unfold JsonRpcClient.sendData
  split
  · exact EffectsAdded.snoc _ h rfl hP
  · exact h

theorem setNotificationsEnabled_effects (P : Effect → Prop) (hsend : ∀ d, P (Effect.sendData d))
    (s s1 s' : JsonRpcClient) (hs : EffectsAdded P s s1)
    (h : setNotificationsEnabled s1 = Except.ok s') : EffectsAdded P s s' := by
  unfold setNotificationsEnabled at h
  split at h
  · cases h
    exact hs
  · simp only [createReply_SetNotificationStatus] at h
    cases h
    exact EffectsAdded.sendData _ (EffectsAdded.same hs rfl) (hsend _)

theorem sendCommand_effects (P : Effect → Prop) (hsend : ∀ d, P (Effect.sendData d))
    (env : Env) (method : QString) (params : QVariantMap) (caller : Option QObjectRef)
    (callback : QString) (s s1 : JsonRpcClient) (r : Int × JsonRpcClient)
    (hs : EffectsAdded P s s1)
    (h : sendCommand env method params caller callback s1 = Except.ok r) :
    EffectsAdded P s r.2 := by
  rcases createReply_cases method params caller callback s1 with hc | ⟨ns, m, hc⟩
  · simp [sendCommand, hc] at h
  · cases hcache : cachedResponse env method params { s1 with m_id := toInt32 (s1.m_id + 1) } with
    | some cachedParams =>
      simp only [sendCommand, hc, hcache] at h
      cases h
      refine EffectsAdded.same hs ?_
      cases caller <;> simp only [JsonRpcReply.caller, post] <;> try split
      all_goals rfl
    | none =>
      simp only [sendCommand, hc, hcache] at h
      cases h
      exact EffectsAdded.sendData _ (EffectsAdded.same hs rfl) (hsend _)

theorem processAuthenticate_effects (P : Effect → Prop) (hemit : ∀ sig, P (Effect.emit sig))
    (hsend : ∀ d, P (Effect.sendData d)) (env : Env) (commandId : Int) (data : QVariantMap)
    (s s1 s' : JsonRpcClient) (hs : EffectsAdded P s s1)
    (h : processAuthenticate env commandId data s1 = Except.ok s') : EffectsAdded P s s' := by
  unfold processAuthenticate at h
  split at h
  · refine setNotificationsEnabled_effects P hsend s _ s' ?_ h
    refine EffectsAdded.trans hs (EffectsAdded.of_eq
      [Effect.emit Signal.authenticationRequiredChanged, Effect.emit Signal.authenticatedChanged]
      (by simp [processAuthenticateFields, emit]) ?_)
    intro e he
    simp only [List.mem_cons, List.mem_singleton, List.not_mem_nil, or_false] at he
    rcases he with rfl | rfl <;> exact hemit _
  · cases h
    exact EffectsAdded.emit _ hs (hemit _)

theorem helloReply_effects (P : Effect → Prop) (hemit : ∀ sig, P (Effect.emit sig))
    (hsend : ∀ d, P (Effect.sendData d)) (hdisc : P Effect.disconnectFromHost)
    (env : Env) (commandId : Int) (params : QVariantMap)
    (s s1 s' : JsonRpcClient) (hs : EffectsAdded P s s1)
    (h : helloReply env commandId params s1 = Except.ok s') : EffectsAdded P s s' := by
  have htail : ∀ e, isHandshakeTail e → P e := by
    intro e he
    rcases he with he | he | he | he
    · cases e <;> simp_all [isSendData]
    all_goals (subst he; exact hemit _)
  have h0 : EffectsAdded P s (helloReplyFields params s1) :=
    EffectsAdded.same (EffectsAdded.emit Signal.pushButtonAuthAvailableChanged
      (EffectsAdded.same hs rfl) (hemit _)) rfl
  unfold helloReply at h
  simp only [] at h
  split at h
  · cases h
    exact EffectsAdded.emit _ h0 (hemit _)
  · split at h
    · cases h
      exact EffectsAdded.emit _ h0 (hemit _)
    · split at h
      · split at h
        · have hpin : EffectsAdded P s
              (storePem (QUuid.fromString (emit Signal.newSslCertificate
                  (helloReplyFields params s1)).m_serverUuid)
                (emit Signal.newSslCertificate
                  (helloReplyFields params s1)).m_connection.sslCertificate.toPem
                (emit Signal.newSslCertificate (helloReplyFields params s1))) :=
            EffectsAdded.same (EffectsAdded.emit Signal.newSslCertificate h0 (hemit _)) rfl
          exact ((helloReplySession_frame env params _ htail (hemit _) (hemit _) s _ hpin).1 s' h).2.2
        · split at h
          · cases h
            exact EffectsAdded.emit _ (EffectsAdded.snoc Effect.disconnectFromHost h0 rfl hdisc)
              (hemit _)
          · exact ((helloReplySession_frame env params _ htail (hemit _) (hemit _) s _ h0).1 s' h).2.2
      · exact ((helloReplySession_frame env params _ htail (hemit _) (hemit _) s _ h0).1 s' h).2.2

theorem invokeSelf_effects (P : Effect → Prop) (hemit : ∀ sig, P (Effect.emit sig))
    (hsend : ∀ d, P (Effect.sendData d)) (hdisc : P Effect.disconnectFromHost)
    (env : Env) (method : QString) (commandId : Int) (params : QVariantMap)
    (s s1 s' : JsonRpcClient) (hs : EffectsAdded P s s1)
    (h : invokeSelf env method commandId params s1 = Except.ok s') : EffectsAdded P s s' := by
  unfold invokeSelf at h
  split at h
  · exact helloReply_effects P hemit hsend hdisc env commandId params s s1 s' hs h
  split at h
  · exact processAuthenticate_effects P hemit hsend env commandId params s s1 s' hs h
  split at h
  · cases h
    unfold processCreateUser
    split
    · exact EffectsAdded.emit _ (EffectsAdded.same (EffectsAdded.emit _ hs (hemit _)) rfl) (hemit _)
    · exact EffectsAdded.emit _ hs (hemit _)
  split at h
  · cases h
    unfold processRequestPushButtonAuth
    split
    · exact EffectsAdded.same hs rfl
    · exact EffectsAdded.emit _ hs (hemit _)
  split at h
  · cases h
    unfold setNotificationsEnabledResponse
    split
    · exact EffectsAdded.emit _ (EffectsAdded.same hs rfl) (hemit _)
    · exact hs
  split at h
  · cases h
    exact EffectsAdded.emit _ (EffectsAdded.same hs rfl) (hemit _)
  split at h
  · cases h
    exact hs
  split at h
  · cases h
    exact hs
  split at h
  · cases h
    unfold getVersionsReply
    simp only []
    split
    · exact EffectsAdded.emit _ (EffectsAdded.same hs rfl) (hemit _)
    · exact EffectsAdded.same hs rfl
  split at h
  · cases h
    exact EffectsAdded.emit _ hs (hemit _)
  · cases h
    exact hs

/-- Effects that are not invocations of a reply callback leave the list of those
invocations as it was. -/
theorem EffectsAdded.filter_isInvoke {s s' : JsonRpcClient}
    (h : EffectsAdded (fun e => isInvoke e = false) s s') :
    s'.effects.filter isInvoke = s.effects.filter isInvoke := by
  obtain ⟨new, hnew, hP⟩ := h
  rw [hnew, List.filter_append]
  have : new.filter isInvoke = [] := by
    rw [List.filter_eq_nil_iff]
    intro e he
    simp [hP e he]
  rw [this, List.append_nil]

/-! ## Forwarding of matched replies -/

theorem storeInCache_effects (env : Env) (reply : JsonRpcReply) (dataMap : QVariantMap)
    (s : JsonRpcClient) : (storeInCache env reply dataMap s).effects = s.effects := by
  unfold storeInCache
  simp only []
  split
  · split <;> rfl
  · rfl

theorem forwardReply_invokes_once (env : Env) (reply : JsonRpcReply) (commandId : Int)
    (dataMap : QVariantMap) (s s' : JsonRpcClient) (object : QObjectRef)
    (hcaller : reply.m_caller = some object) (hcb : reply.m_callback ≠ "")
    (h : forwardReply env reply commandId dataMap s = Except.ok s') :
    s'.effects.filter isInvoke = s.effects.filter isInvoke
      ++ [Effect.invoke object reply.m_callback commandId (dataMap.value "params").toMap] := by
  have hno : ∀ sig, isInvoke (Effect.emit sig) = false := fun _ => rfl
  unfold forwardReply at h
  simp only [JsonRpcReply.caller, hcaller, JsonRpcReply.callback] at h
  rw [if_pos hcb] at h
  cases h1 : invokeCallback env object reply.m_callback commandId (dataMap.value "params").toMap s with
  | error e => simp [h1] at h
  | ok s1 =>
    simp only [h1] at h
    cases h
    rw [storeInCache_effects]
    have hs1 : s1.effects.filter isInvoke = s.effects.filter isInvoke
        ++ [Effect.invoke object reply.m_callback commandId (dataMap.value "params").toMap] := by
      unfold invokeCallback at h1
      cases object with
      | self =>
        simp only [] at h1
        have := EffectsAdded.filter_isInvoke (invokeSelf_effects (fun e => isInvoke e = false)
          hno (fun _ => rfl) rfl env _ commandId _ _ _ s1 (EffectsAdded.refl _ _) h1)
        rw [this]
        simp [isInvoke]
      | object id =>
        cases h1
        simp [isInvoke]
    simp only [emit, List.filter_append, hs1]
    simp [isInvoke]

theorem handleMatchedReply_invokes_once (env : Env) (reply : JsonRpcReply) (commandId : Int)
    (dataMap : QVariantMap) (s0 s s' : JsonRpcClient) (object : QObjectRef)
    (hs : EffectsAdded (fun e => isInvoke e = false) s0 s)
    (hcaller : reply.m_caller = some object) (hcb : reply.m_callback ≠ "")
    (h : handleMatchedReply env reply commandId dataMap s = Except.ok s') :
    s'.effects.filter isInvoke = s0.effects.filter isInvoke
      ++ [Effect.invoke object reply.m_callback commandId (dataMap.value "params").toMap] := by
  have hun : EffectsAdded (fun e => isInvoke e = false) s0
      (if (dataMap.value "status").toQString = "unauthorized" then unauthorized s else s) := by
    split
    · refine EffectsAdded.trans hs (EffectsAdded.of_eq
        [Effect.emit Signal.authenticationRequiredChanged, Effect.emit Signal.authenticatedChanged]
        (by simp [unauthorized, emit]) ?_)
      intro e he
      simp only [List.mem_cons, List.mem_singleton, List.not_mem_nil, or_false] at he
      rcases he with rfl | rfl <;> rfl
    · exact hs
  have key1 : ∀ s2 : JsonRpcClient, EffectsAdded (fun e => isInvoke e = false) s0 s2 →
      forwardReply env reply commandId dataMap s2 = Except.ok s' →
      s'.effects.filter isInvoke = s0.effects.filter isInvoke
        ++ [Effect.invoke object reply.m_callback commandId (dataMap.value "params").toMap] := by
    intro s2 h2 hf
    rw [forwardReply_invokes_once env reply _ dataMap s2 s' object hcaller hcb hf,
      EffectsAdded.filter_isInvoke h2]
  unfold handleMatchedReply at h
  simp only [] at h
  generalize (if (dataMap.value "status").toQString = "unauthorized" then unauthorized s else s) = S
    at h hun
  split at h
  · split at h
    · cases h
    · rename_i r hsend
      exact key1 _ (sendCommand_effects (fun e => isInvoke e = false)
        (fun _ => rfl) env _ _ _ _ s0 _ r (EffectsAdded.same hun (by rfl)) hsend) h
  · exact key1 _ hun h

theorem handleReply_invokes_once (env : Env) (dataMap : QVariantMap) (s s' : JsonRpcClient)
    (reply : JsonRpcReply) (object : QObjectRef)
    (hid : QMap.value? s.m_replies (dataMap.value "id").toInt = some reply)
    (hcaller : reply.m_caller = some object) (hcb : reply.m_callback ≠ "")
    (h : handleReply env dataMap s = Except.ok s') :
    s'.effects.filter isInvoke = s.effects.filter isInvoke
      ++ [Effect.invoke object reply.m_callback (dataMap.value "id").toInt
          (dataMap.value "params").toMap] := by
  unfold handleReply at h
  simp only [QMap.take, hid] at h
  exact handleMatchedReply_invokes_once env reply _ dataMap s _ s' object
    (EffectsAdded.same (EffectsAdded.refl _ s) (by rfl)) hcaller hcb h

/-! ## The reply slots return -/

theorem setNotificationsEnabled_returns (s : JsonRpcClient) :
    ∃ s', setNotificationsEnabled s = Except.ok s' := by
  unfold setNotificationsEnabled
  split
  · exact ⟨_, rfl⟩
  · simp only [createReply_SetNotificationStatus]
    exact ⟨_, rfl⟩

theorem helloReply_returns (env : Env) (commandId : Int) (params : QVariantMap) (s : JsonRpcClient)
    (host : NymeaHost) (hhost : s.m_connection.currentHost = some host) :
    ∃ s', helloReply env commandId params s = Except.ok s' := by
  have key : ∀ s1 : JsonRpcClient, s1.m_connection.currentHost = some host →
      ∃ s', helloReplySession env params s1 = Except.ok s' := by
    intro s1 h1
    exact (helloReplySession_frame env params (fun _ => True) (fun _ _ => trivial) trivial trivial
      s1 s1 (EffectsAdded.refl _ s1)).2 host h1
  unfold helloReply
  simp only []
  split
  · exact ⟨_, rfl⟩
  · split
    · exact ⟨_, rfl⟩
    · split
      · split
        · exact key _ hhost
        · split
          · exact ⟨_, rfl⟩
          · exact key _ hhost
      · exact key _ hhost

theorem invokeSelf_returns (env : Env) (method : QString) (commandId : Int) (params : QVariantMap)
    (s : JsonRpcClient) (host : NymeaHost) (hhost : s.m_connection.currentHost = some host) :
    ∃ s', invokeSelf env method commandId params s = Except.ok s' := by
  unfold invokeSelf
  split
  · exact helloReply_returns env commandId params s host hhost
  split
  · unfold processAuthenticate
    split
    · exact setNotificationsEnabled_returns _
    · exact ⟨_, rfl⟩
  repeat' split
  all_goals exact ⟨_, rfl⟩

theorem forwardReply_returns (env : Env) (reply : JsonRpcReply) (commandId : Int)
    (dataMap : QVariantMap) (s : JsonRpcClient)
    (hhost : reply.m_caller = some QObjectRef.self → ∃ host, s.m_connection.currentHost = some host) :
    ∃ s', forwardReply env reply commandId dataMap s = Except.ok s' := by
  unfold forwardReply
  simp only []
  cases hc : reply.caller with
  | none => exact ⟨_, rfl⟩
  | some object =>
    simp only []
    by_cases hcb : reply.callback ≠ ""
    · rw [if_pos hcb]
      cases object with
      | self =>
        obtain ⟨host, hh⟩ := hhost hc
        obtain ⟨s1, h1⟩ := invokeSelf_returns env reply.callback commandId
          (dataMap.value "params").toMap
          { s with effects := s.effects ++ [Effect.invoke QObjectRef.self reply.callback commandId
              (dataMap.value "params").toMap] } host hh
        have h2 : invokeCallback env QObjectRef.self reply.callback commandId
            (dataMap.value "params").toMap s = Except.ok s1 := h1
        rw [h2]
        exact ⟨_, rfl⟩
      | object id => exact ⟨_, rfl⟩
    · rw [if_neg hcb]
      exact ⟨_, rfl⟩

theorem sendCommand_Hello_returns (env : Env) (params : QVariantMap) (caller : Option QObjectRef)
    (callback : QString) (s : JsonRpcClient) :
    ∃ r, sendCommand env "JSONRPC.Hello" params caller callback s = Except.ok r
      ∧ r.2.m_connection = s.m_connection := by
  cases hcache : cachedResponse env "JSONRPC.Hello" params { s with m_id := toInt32 (s.m_id + 1) } with
  | some cachedParams =>
    simp only [sendCommand, createReply_Hello, hcache]
    refine ⟨_, rfl, ?_⟩
    cases caller <;> simp only [JsonRpcReply.caller, post] <;> try split
    all_goals rfl
  | none =>
    simp only [sendCommand, createReply_Hello, hcache]
    refine ⟨_, rfl, ?_⟩
    simp only [sendRequest, sendData]
    split <;> rfl

theorem handleMatchedReply_returns (env : Env) (reply : JsonRpcReply) (commandId : Int)
    (dataMap : QVariantMap) (s : JsonRpcClient)
    (hhost : reply.m_caller = some QObjectRef.self → ∃ host, s.m_connection.currentHost = some host) :
    ∃ s', handleMatchedReply env reply commandId dataMap s = Except.ok s' := by
  have hun : (if (dataMap.value "status").toQString = "unauthorized" then unauthorized s
      else s).m_connection = s.m_connection := by
    split
    · simp [unauthorized, emit]
    · rfl
  unfold handleMatchedReply
  simp only []
  generalize (if (dataMap.value "status").toQString = "unauthorized" then unauthorized s else s) = S
    at hun
  split
  · obtain ⟨r, hr, hconn⟩ := sendCommand_Hello_returns env [] (some QObjectRef.self) "helloReply"
      { S with m_id := 0 }
    rw [hr]
    refine forwardReply_returns env reply commandId dataMap r.2 (fun hc => ?_)
    rw [hconn]
    simpa [hun] using hhost hc
  · refine forwardReply_returns env reply commandId dataMap S (fun hc => ?_)
    rw [hun]
    exact hhost hc

/-! ## C5: matched replies -/

/-- C5, counterexample: (a) the Hello call of the client is pending with identifier 1
and is answered with status "error": its callback is invoked once, the counter
is set back and the new Hello call is recorded under identifier 1 again; a
second reply carrying identifier 1 then invokes the callback a second time.
(b) The transport connects (Hello gets identifier 1), the user logs in
(JSONRPC.Authenticate gets identifier 2) and the Hello call is answered with
status "error", which leaves the counter at 1.  The success reply to call 2
invokes `processAuthenticate` once; that callback issues
JSONRPC.SetNotificationStatus, which gets identifier 2 again: a record is
pending under 2 afterwards, and a second reply carrying identifier 2 invokes a
callback, `setNotificationsEnabledResponse`. -/
theorem second_reply_after_hello_error_example :
    (∃ s0 s1 s2, transportConnectedChanged exampleEnv true exampleClient = Except.ok s0
      ∧ handleDocument exampleEnv [("id", QVariant.int 1), ("status", QVariant.str "error")] s0
          = Except.ok s1
      ∧ s1.effects.filter isInvoke = [Effect.invoke QObjectRef.self "helloReply" 1 []]
      ∧ handleDocument exampleEnv [("id", QVariant.int 1), ("status", QVariant.str "success"),
          ("params", QVariant.map exampleHelloParams)] s1 = Except.ok s2
      ∧ s2.effects.filter isInvoke = [Effect.invoke QObjectRef.self "helloReply" 1 [],
          Effect.invoke QObjectRef.self "helloReply" 1 exampleHelloParams])
    ∧ ∃ s3 s4, runActions exampleEnv (exampleReuseRun.take 3) exampleClient = Except.ok ([2], s3)
      ∧ s3.m_id = 1
      ∧ (QMap.value? s3.m_replies 2).map (fun r => (r.m_method, r.m_callback))
          = some ("Authenticate", "processAuthenticate")
      ∧ handleDocument exampleEnv [("id", QVariant.int 2), ("status", QVariant.str "success"),
          ("params", QVariant.map exampleAuthenticated)] s3 = Except.ok s4
      ∧ s4.effects.filter isInvoke = [Effect.invoke QObjectRef.self "helloReply" 1 [],
          Effect.invoke QObjectRef.self "processAuthenticate" 2 exampleAuthenticated]
      ∧ (QMap.value? s4.m_replies 2).map (fun r => (r.m_method, r.m_callback))
          = some ("SetNotificationStatus", "setNotificationsEnabledResponse")
      ∧ (handleDocument exampleEnv [("id", QVariant.int 2), ("status", QVariant.str "success")]
          s4).map (fun s5 => s5.effects.filter isInvoke)
        = Except.ok [Effect.invoke QObjectRef.self "helloReply" 1 [],
          Effect.invoke QObjectRef.self "processAuthenticate" 2 exampleAuthenticated,
          Effect.invoke QObjectRef.self "setNotificationsEnabledResponse" 2 []] :=
  ⟨⟨_, _, _, rfl, rfl, rfl, rfl, rfl⟩, _, _, rfl, rfl, rfl, rfl, rfl, rfl, rfl⟩

/-- C5, amended: a received document without notification topic whose id matches a
pending record that has a callback (a caller and a callback name): the dispatch
returns (for a callback of the client itself, when the connection has a host)
and exactly one invocation of a reply callback is added, that of the record's
callback with the id and the params payload of the reply, whatever the status.
Unless the reply is an error reply to a JSONRPC.Hello call (whose retry sets the
counter back and can take the same identifier) or the id is one of the next two
values of the counter (so that a call issued by the callback takes it again),
while the counter is within 0 and the largest `int` minus 2: no record is
pending under the id afterwards, and a second reply carrying the same id
changes nothing and so invokes no callback. -/
theorem matched_reply_forwarded_once (env : Env) (dataMap : QVariantMap) (s : JsonRpcClient)
    (reply : JsonRpcReply) (object : QObjectRef)
    (htopic : QMap.contains dataMap "notification" = false)
    (hid : QMap.value? s.m_replies (dataMap.value "id").toInt = some reply)
    (hcaller : reply.m_caller = some object) (hcb : reply.m_callback ≠ "")
    (hhost : object = QObjectRef.self → ∃ host, s.m_connection.currentHost = some host) :
    ∃ s', handleDocument env dataMap s = Except.ok s'
      ∧ s'.effects.filter isInvoke = s.effects.filter isInvoke
          ++ [Effect.invoke object reply.m_callback (dataMap.value "id").toInt
              (dataMap.value "params").toMap]
      ∧ (resetsCounter dataMap s = false →
          0 ≤ s.m_id → s.m_id + 2 ≤ 2147483647 →
          ((dataMap.value "id").toInt ≤ s.m_id ∨ s.m_id + 2 < (dataMap.value "id").toInt) →
          QMap.contains s'.m_replies (dataMap.value "id").toInt = false
          ∧ ∀ second : QVariantMap, QMap.contains second "notification" = false →
              (second.value "id").toInt = (dataMap.value "id").toInt →
              handleDocument env second s' = Except.ok s') := by
  have hdoc : handleDocument env dataMap s = handleReply env dataMap s := by
    simp [handleDocument, htopic]
  have hret : ∃ s', handleReply env dataMap s = Except.ok s' := by
    unfold handleReply
    simp only [QMap.take, hid]
    refine handleMatchedReply_returns env reply _ dataMap _ (fun hc => ?_)
    rw [hcaller] at hc
    cases hc
    exact hhost rfl
  obtain ⟨s', hs'⟩ := hret
  rw [hdoc]
  refine ⟨s', hs', handleReply_invokes_once env dataMap s s' reply object hid hcaller hcb hs',
    fun hreset h0 hroom hfresh => ?_⟩
  have htakes := handleReply_takes env dataMap s s' h0 hroom hreset htopic hs'
  have hgone : QMap.contains s'.m_replies (dataMap.value "id").toInt = false := by
    cases hc : QMap.contains s'.m_replies (dataMap.value "id").toInt with
    | false => rfl
    | true =>
      rcases htakes.2.2 _ hc with h1 | h1
      · exact absurd rfl h1.2
      · have := htakes.2.1
        omega
  refine ⟨hgone, fun second hsec hsame => ?_⟩
  refine handleDocument_unknown_id env second s' hsec ?_
  rw [hsame]
  cases hv : QMap.value? s'.m_replies (dataMap.value "id").toInt with
  | none => rfl
  | some r => simp [QMap.contains, hv] at hgone

/-- C5, witness: the reply to the pending call 2 of object 7 on the example client,
whose counter stands at 2. -/
theorem matched_reply_forwarded_once_witness :
    ∃ s', handleDocument exampleEnv [("id", QVariant.int 2), ("status", QVariant.str "success"),
          ("params", QVariant.map [("things", QVariant.list [])])] examplePending = Except.ok s'
      ∧ s'.effects.filter isInvoke = examplePending.effects.filter isInvoke
          ++ [Effect.invoke (QObjectRef.object 7) "getThingsReply" 2 [("things", QVariant.list [])]]
      ∧ QMap.contains s'.m_replies 2 = false
      ∧ ∀ second : QVariantMap, QMap.contains second "notification" = false →
          (second.value "id").toInt = 2 → handleDocument exampleEnv second s' = Except.ok s' :=
  match matched_reply_forwarded_once exampleEnv
      [("id", QVariant.int 2), ("status", QVariant.str "success"),
        ("params", QVariant.map [("things", QVariant.list [])])] examplePending exampleReply
      (QObjectRef.object 7) rfl rfl rfl (by decide) (fun h => by cases h) with
  | ⟨s', h1, h2, h3⟩ =>
    ⟨s', h1, h2, (h3 rfl (by decide) (by decide) (Or.inl (by decide))).1,
      (h3 rfl (by decide) (by decide) (Or.inl (by decide))).2⟩

/-! ## C1: the frame reassembler -/

/-! ### The split index on a stream of documents -/

theorem hasSplit_cons (c : Char) (cs : List Char) :
    hasSplit (c :: cs) = (['}', '\n', '{'].isPrefixOf (c :: cs) || hasSplit cs) := rfl

theorem isPrefixOf_split_iff (l : List Char) :
    ['}', '\n', '{'].isPrefixOf l = true ↔ ∃ r, l = '}' :: '\n' :: '{' :: r := by
  rw [List.isPrefixOf_iff_prefix]
  constructor
  · rintro ⟨r, rfl⟩
    exact ⟨r, rfl⟩
  · rintro ⟨r, rfl⟩
    exact ⟨r, rfl⟩

theorem isPrefixOf_split_eq_false (l : List Char)
    (h : ¬ ∃ r, l = '}' :: '\n' :: '{' :: r) : ['}', '\n', '{'].isPrefixOf l = false := by
  cases hp : ['}', '\n', '{'].isPrefixOf l with
  | false => rfl
  | true => exact absurd ((isPrefixOf_split_iff l).mp hp) h

theorem indexOfAux_of_not_hasSplit (l : List Char) (i : Int) (h : hasSplit l = false) :
    indexOfAux ['}', '\n', '{'] l i = -1 := by
  induction l generalizing i with
  | nil => simp [indexOfAux]
  | cons c cs ih =>
    rw [hasSplit_cons, Bool.or_eq_false_iff] at h
    rw [indexOfAux, h.1]
    exact ih (i + 1) h.2

theorem not_hasSplit_of_indexOfAux (l : List Char) (i : Int) (hi : 0 ≤ i)
    (h : indexOfAux ['}', '\n', '{'] l i = -1) : hasSplit l = false := by
  induction l generalizing i with
  | nil => rfl
  | cons c cs ih =>
    rw [indexOfAux] at h
    split at h
    · omega
    · rename_i hp
      rw [hasSplit_cons, Bool.or_eq_false_iff]
      exact ⟨(Bool.not_eq_true _).mp hp, ih (i + 1) (by omega) h⟩

theorem hasSplit_append_left (x y : List Char) (h : hasSplit (x ++ y) = false) :
    hasSplit x = false := by
  induction x with
  | nil => rfl
  | cons c cs ih =>
    rw [List.cons_append, hasSplit_cons, Bool.or_eq_false_iff] at h
    rw [hasSplit_cons, Bool.or_eq_false_iff]
    refine ⟨isPrefixOf_split_eq_false _ ?_, ih h.2⟩
    rintro ⟨r, hr⟩
    have h2 : ['}', '\n', '{'].isPrefixOf (c :: (cs ++ y)) = true :=
      (isPrefixOf_split_iff _).mpr ⟨r ++ y, by rw [← List.cons_append, hr]; rfl⟩
    rw [h2] at h
    exact absurd h.1 (by decide)

theorem hasSplit_newline_cons (x : List Char) : hasSplit ('\n' :: x) = hasSplit x := by
  rw [hasSplit_cons, isPrefixOf_split_eq_false _ (by rintro ⟨r, hr⟩; simp at hr)]
  rfl

theorem hasSplit_append_newline (x : List Char) (h : hasSplit x = false) :
    hasSplit (x ++ ['\n']) = false := by
  induction x with
  | nil => rfl
  | cons c cs ih =>
    rw [hasSplit_cons, Bool.or_eq_false_iff] at h
    rw [List.cons_append, hasSplit_cons, Bool.or_eq_false_iff]
    refine ⟨isPrefixOf_split_eq_false _ ?_, ih h.2⟩
    rintro ⟨r, hr⟩
    have hn : ¬ ∃ r, c :: cs = '}' :: '\n' :: '{' :: r := by
      rw [← isPrefixOf_split_iff, h.1]
      decide
    apply hn
    match cs, hr with
    | [], hr => simp at hr
    | [x], hr => simp at hr
    | x :: y :: rest, hr =>
      simp only [List.cons_append, List.cons.injEq] at hr
      obtain ⟨rfl, rfl, rfl, -⟩ := hr
      exact ⟨rest, rfl⟩

theorem indexOfAux_found (a b : List Char) (i : Int) (h : hasSplit (a ++ ['}', '\n']) = false) :
    indexOfAux ['}', '\n', '{'] (a ++ '}' :: '\n' :: '{' :: b) i = i + a.length := by
  induction a generalizing i with
  | nil => simp [indexOfAux]
  | cons c cs ih =>
    rw [List.cons_append, hasSplit_cons, Bool.or_eq_false_iff] at h
    have hno : ['}', '\n', '{'].isPrefixOf (c :: (cs ++ '}' :: '\n' :: '{' :: b)) = false := by
      refine isPrefixOf_split_eq_false _ ?_
      rintro ⟨r, hr⟩
      have hn : ¬ ∃ r, c :: (cs ++ ['}', '\n']) = '}' :: '\n' :: '{' :: r := by
        rw [← isPrefixOf_split_iff, h.1]
        decide
      apply hn
      match cs, hr with
      | [], hr => simp at hr
      | [x], hr => simp at hr
      | x :: y :: rest, hr =>
        simp only [List.cons_append, List.cons.injEq] at hr
        obtain ⟨rfl, rfl, rfl, -⟩ := hr
        exact ⟨rest ++ ['}', '\n'], rfl⟩
    rw [List.cons_append, indexOfAux, hno, ih (i + 1) h.2, List.length_cons]
    simp only [Bool.false_eq_true, if_false]
    push_cast
    omega

/-- Without the split bytes the whole buffer is the candidate and nothing remains. -/
theorem candidate_of_not_hasSplit (B : QByteArray) (h : hasSplit B = false) :
    candidate B = B ∧ remainder B = [] := by
  have hi : QByteArray.indexOf B ['}', '\n', '{'] = -1 := indexOfAux_of_not_hasSplit B 0 h
  have hs : splitIndex B = B.length := by simp [splitIndex, hi]
  constructor
  · simp [candidate, hs, QByteArray.left]
  · simp only [remainder, hs, QByteArray.right]
    rw [if_neg (by omega), if_pos (by omega)]

/-- With the split bytes right after `p` and none before, `p` is the candidate and
what follows the newline remains. -/
theorem candidate_of_split (a X : QByteArray) (h : hasSplit (a ++ ['}', '\n']) = false) :
    candidate (a ++ '}' :: '\n' :: '{' :: X) = a ++ ['}']
      ∧ remainder (a ++ '}' :: '\n' :: '{' :: X) = '{' :: X := by
  have hi : QByteArray.indexOf (a ++ '}' :: '\n' :: '{' :: X) ['}', '\n', '{'] = a.length := by
    have := indexOfAux_found a X 0 h
    simpa [QByteArray.indexOf] using this
  have hs : splitIndex (a ++ '}' :: '\n' :: '{' :: X) = a.length + 1 := by
    simp only [splitIndex, hi]
    rw [if_neg (by omega)]
  constructor
  · simp only [candidate, hs, QByteArray.left]
    rw [if_neg (by simp; omega), if_neg (by omega)]
    have : (↑a.length + 1 : Int).toNat = a.length + 1 := by omega
    rw [this, List.take_append_eq_append_take]
    simp
  · simp only [remainder, hs, QByteArray.right]
    rw [if_neg (by simp; omega), if_neg (by simp; omega)]
    have : (a ++ '}' :: '\n' :: '{' :: X).length -
        ((↑(a ++ '}' :: '\n' :: '{' :: X).length : Int) - (↑a.length + 1) - 1).toNat
        = a.length + 2 := by
      simp only [List.length_append, List.length_cons]
      omega
    rw [this, List.drop_append_eq_append_drop]
    simp

theorem CompleteDocument.not_hasSplit {env : Env} {d : QByteArray} {v : QVariant}
    (hd : CompleteDocument env d v) : hasSplit d = false :=
  not_hasSplit_of_indexOfAux d 0 (le_refl 0) hd.nosplit

theorem Short.nil (env : Env) (lead : QByteArray) (rem : List (QByteArray × QVariant))
    (hrem : ∀ d, d ∈ rem → CompleteDocument env d.1 d.2) : Short [] lead rem := by
  cases rem with
  | nil => trivial
  | cons d rest =>
    obtain ⟨t, ht⟩ := List.head?_eq_some_iff.mp (hrem d (List.mem_cons_self d rest)).opens
    simp [Short, ht]

/-- A buffer that ends inside the first remaining document does not parse. -/
theorem pass_short (env : Env) (d : QByteArray) (v : QVariant) (hd : CompleteDocument env d v)
    (lead : QByteArray) (hlead : lead = [] ∨ lead = ['\n']) (B Y : QByteArray)
    (hB : lead ++ d = B ++ Y) (hlen : B.length < (lead ++ d).length) :
    env.fromJson (candidate B) = none := by
  have hP : hasSplit (lead ++ d) = false := by
    rcases hlead with rfl | rfl
    · exact hd.not_hasSplit
    · exact (hasSplit_newline_cons d).trans hd.not_hasSplit
  rw [hB] at hP
  rw [(candidate_of_not_hasSplit B (hasSplit_append_left B Y hP)).1]
  rcases hlead with rfl | rfl
  · have hk : B = d.take B.length := by
      have : d = B ++ Y := hB
      rw [this, List.take_left]
    rw [hk]
    exact (hd.prefixes B.length (by simpa using hlen)).1
  · cases B with
    | nil =>
      obtain ⟨t, ht⟩ := List.head?_eq_some_iff.mp hd.opens
      simpa using (hd.prefixes 0 (by simp [ht])).1
    | cons b bs =>
      have h2 : '\n' :: d = b :: (bs ++ Y) := hB
      simp only [List.cons.injEq] at h2
      obtain ⟨rfl, h3⟩ := h2
      have hk : bs = d.take bs.length := by rw [h3, List.take_left]
      rw [hk]
      exact (hd.prefixes bs.length (by simpa using hlen)).2

/-- What one pass finds in a buffer that starts the rest of the stream: nothing,
the buffer ending inside the first remaining document, or that document. -/
theorem pass_outcome (env : Env) (hempty : env.fromJson [] = none)
    (hnl : env.fromJson ['\n'] = none)
    (rem : List (QByteArray × QVariant)) (hrem : ∀ d, d ∈ rem → CompleteDocument env d.1 d.2)
    (lead : QByteArray) (hlead : lead = [] ∨ lead = ['\n']) (B F : QByteArray)
    (h : B ++ F = lead ++ stream (rem.map Prod.fst)) :
    (env.fromJson (candidate B) = none ∧ Short B lead rem)
    ∨ ∃ d rest lead', rem = d :: rest ∧ env.fromJson (candidate B) = some d.2
        ∧ (lead' = [] ∨ lead' = ['\n'])
        ∧ remainder B ++ F = lead' ++ stream (rest.map Prod.fst) := by
  cases rem with
  | nil =>
    left
    refine ⟨?_, trivial⟩
    simp only [List.map_nil, stream, List.append_nil] at h
    rcases hlead with rfl | rfl
    · have hB : B = [] := (List.append_eq_nil.mp h).1
      rw [hB, (candidate_of_not_hasSplit [] rfl).1]
      exact hempty
    · cases B with
      | nil =>
        rw [(candidate_of_not_hasSplit [] rfl).1]
        exact hempty
      | cons b bs =>
        simp only [List.cons_append, List.cons.injEq, List.append_eq_nil] at h
        obtain ⟨rfl, rfl, -⟩ := h
        rw [(candidate_of_not_hasSplit ['\n'] rfl).1]
        exact hnl
  | cons d rest =>
    have hd := hrem d (List.mem_cons_self d rest)
    have hrest : ∀ e, e ∈ rest → CompleteDocument env e.1 e.2 :=
      fun e he => hrem e (List.mem_cons_of_mem d he)
    have hP : hasSplit (lead ++ d.1) = false := by
      rcases hlead with rfl | rfl
      · exact hd.not_hasSplit
      · exact (hasSplit_newline_cons d.1).trans hd.not_hasSplit
    have hPv : env.fromJson (lead ++ d.1) = some d.2 := by
      rcases hlead with rfl | rfl
      · exact hd.parses
      · exact hd.nl_parses
    have hPnv : env.fromJson (lead ++ d.1 ++ ['\n']) = some d.2 := by
      rcases hlead with rfl | rfl
      · exact hd.parses_nl
      · exact hd.nl_parses_nl
    have h' : B ++ F = (lead ++ d.1) ++ '\n' :: stream (rest.map Prod.fst) := by
      rw [h]
      simp [stream]
    rcases List.append_eq_append_iff.mp h' with ⟨Y, hY, -⟩ | ⟨C, hC, hF⟩
    · -- the buffer is a prefix of the document
      cases Y with
      | nil =>
        right
        refine ⟨d, rest, ['\n'], rfl, ?_, Or.inr rfl, ?_⟩
        · rw [List.append_nil] at hY
          rw [← hY, (candidate_of_not_hasSplit _ hP).1]
          exact hPv
        · rw [List.append_nil] at hY
          rw [← hY, (candidate_of_not_hasSplit _ hP).2]
          rw [← hY] at h'
          simpa using h'
      | cons y ys =>
        left
        have hlen : B.length < (lead ++ d.1).length := by
          rw [hY]
          simp
        exact ⟨pass_short env d.1 d.2 hd lead hlead B (y :: ys) hY hlen, hlen⟩
    · -- the buffer holds the whole document
      right
      cases C with
      | nil =>
        rw [List.append_nil] at hC
        refine ⟨d, rest, ['\n'], rfl, ?_, Or.inr rfl, ?_⟩
        · rw [hC, (candidate_of_not_hasSplit _ hP).1]
          exact hPv
        · rw [hC, (candidate_of_not_hasSplit _ hP).2]
          simpa using hF.symm
      | cons x C1 =>
        simp only [List.cons_append, List.cons.injEq] at hF
        obtain ⟨rfl, hF⟩ := hF
        cases C1 with
        | nil =>
          refine ⟨d, rest, [], rfl, ?_, Or.inl rfl, ?_⟩
          · rw [hC, (candidate_of_not_hasSplit _ (hasSplit_append_newline _ hP)).1]
            exact hPnv
          · rw [hC, (candidate_of_not_hasSplit _ (hasSplit_append_newline _ hP)).2]
            simpa using hF.symm
        | cons y C2 =>
          cases rest with
          | nil => simp [stream] at hF
          | cons d2 rest2 =>
            obtain ⟨t, ht⟩ := List.head?_eq_some_iff.mp
              (hrest d2 (List.mem_cons_self d2 rest2)).opens
            have hy : y = '{' := by
              simp only [List.map_cons, stream, ht, List.cons_append, List.cons.injEq] at hF
              exact hF.1.symm
            subst hy
            obtain ⟨a0, ha0⟩ := List.getLast?_eq_some_iff.mp hd.closes
            have hPa : lead ++ d.1 = (lead ++ a0) ++ ['}'] := by rw [ha0, List.append_assoc]
            have hsplit : hasSplit ((lead ++ a0) ++ ['}', '\n']) = false := by
              have := hasSplit_append_newline _ hP
              rw [hPa, List.append_assoc] at this
              exact this
            have hBeq : B = (lead ++ a0) ++ '}' :: '\n' :: '{' :: C2 := by
              rw [hC, hPa, List.append_assoc]
              rfl
            refine ⟨d, d2 :: rest2, [], rfl, ?_, Or.inl rfl, ?_⟩
            · rw [hBeq, (candidate_of_split _ C2 hsplit).1, ← hPa]
              exact hPv
            · rw [hBeq, (candidate_of_split _ C2 hsplit).2]
              simpa using hF.symm

/-! ### The dispatch leaves the buffer alone -/

theorem Quiet.of_wire {s s' : JsonRpcClient} (n : Nat) (h : wire s' = wire s) : Quiet n s s' := by
  simp only [wire, Prod.mk.injEq] at h
  exact ⟨h.1, h.2.1, h.2.2.1, [], by simp [h.2.2.2], Nat.zero_le n, by simp⟩

theorem Quiet.trans_wire {n : Nat} {s s1 s' : JsonRpcClient} (h : Quiet n s s1)
    (hw : wire s' = wire s1) : Quiet n s s' := by
  simp only [wire, Prod.mk.injEq] at hw
  obtain ⟨h1, h2, h3, extra, h4, h5⟩ := h
  exact ⟨hw.1.trans h1, hw.2.1.trans h2, hw.2.2.1.trans h3, extra, hw.2.2.2.trans h4, h5⟩

theorem wire_host {s s' : JsonRpcClient} (h : wire s' = wire s)
    (hhost : s.m_connection.currentHost.isSome = true) :
    s'.m_connection.currentHost.isSome = true := by
  simp only [wire, Prod.mk.injEq] at h
  rw [h.2.2.1]
  exact hhost

theorem sendRequest_wire (request : QVariantMap) (s : JsonRpcClient) :
    wire (sendRequest request s) = wire s := by
  simp only [sendRequest, sendData]
  split <;> rfl

theorem setNotificationsEnabled_calm (s : JsonRpcClient) :
    ∃ s', setNotificationsEnabled s = Except.ok s' ∧ wire s' = wire s := by
  unfold setNotificationsEnabled
  split
  · exact ⟨_, rfl, rfl⟩
  · simp only [createReply_SetNotificationStatus]
    exact ⟨_, rfl, (sendRequest_wire _ _).trans rfl⟩

theorem getCloudConnectionStatus_calm (s : JsonRpcClient) :
    ∃ s', getCloudConnectionStatus s = Except.ok s' ∧ wire s' = wire s := by
  simp only [getCloudConnectionStatus, createReply_IsCloudConnected]
  exact ⟨_, rfl, (sendRequest_wire _ _).trans rfl⟩

theorem helloReplyNotifications_calm (s : JsonRpcClient) :
    ∃ s', helloReplyNotifications s = Except.ok s' ∧ wire s' = wire s := by
  obtain ⟨s1, h1, w1⟩ := setNotificationsEnabled_calm s
  obtain ⟨s2, h2, w2⟩ := getCloudConnectionStatus_calm s1
  refine ⟨s2, ?_, w2.trans w1⟩
  simp only [helloReplyNotifications, h1, h2]

theorem helloReplyAuthentication_calm (s : JsonRpcClient) :
    ∃ s', helloReplyAuthentication s = Except.ok s' ∧ wire s' = wire s := by
  have key : ∀ s1 : JsonRpcClient, wire s1 = wire s →
      ∃ s', helloReplyNotifications s1 = Except.ok s' ∧ wire s' = wire s := by
    intro s1 w1
    obtain ⟨s2, h2, w2⟩ := helloReplyNotifications_calm s1
    exact ⟨s2, h2, w2.trans w1⟩
  unfold helloReplyAuthentication
  split
  · exact ⟨_, rfl, rfl⟩
  · split
    · simp only []
      split
      · exact ⟨_, rfl, rfl⟩
      · exact key _ rfl
    · exact key _ rfl

theorem helloReplySession_calm (env : Env) (params : QVariantMap) (s : JsonRpcClient)
    (hhost : s.m_connection.currentHost.isSome = true) :
    ∃ s', helloReplySession env params s = Except.ok s' ∧ wire s' = wire s := by
  obtain ⟨host, hh⟩ := Option.isSome_iff_exists.mp hhost
  rw [helloReplySession_of_host env params s host hh]
  obtain ⟨s2, h2, w2⟩ := helloReplyAuthentication_calm
    (updateHostUuid host (helloReplySessionFields env params s))
  refine ⟨s2, h2, w2.trans ?_⟩
  simp [wire, updateHostUuid, helloReplySessionFields, emit, hh]

theorem helloReply_calm (env : Env) (commandId : Int) (params : QVariantMap) (s : JsonRpcClient)
    (hhost : s.m_connection.currentHost.isSome = true) :
    ∃ s', helloReply env commandId params s = Except.ok s' ∧ wire s' = wire s := by
  have key : ∀ s1 : JsonRpcClient, wire s1 = wire s →
      ∃ s', helloReplySession env params s1 = Except.ok s' ∧ wire s' = wire s := by
    intro s1 w1
    obtain ⟨s2, h2, w2⟩ := helloReplySession_calm env params s1 (wire_host w1 hhost)
    exact ⟨s2, h2, w2.trans w1⟩
  unfold helloReply
  simp only []
  split
  · exact ⟨_, rfl, by simp [wire, emit, helloReplyFields]⟩
  · split
    · exact ⟨_, rfl, by simp [wire, emit, helloReplyFields]⟩
    · split
      · split
        · exact key _ (by simp [wire, storePem, emit, helloReplyFields])
        · split
          · exact ⟨_, rfl, by simp [wire, emit, helloReplyFields, disconnectFromHost]⟩
          · exact key _ (by simp [wire, emit, helloReplyFields])
      · exact key _ (by simp [wire, emit, helloReplyFields])

theorem processAuthenticate_calm (env : Env) (commandId : Int) (data : QVariantMap)
    (s : JsonRpcClient) :
    ∃ s', processAuthenticate env commandId data s = Except.ok s' ∧ wire s' = wire s := by
  unfold processAuthenticate
  split
  · obtain ⟨s2, h2, w2⟩ := setNotificationsEnabled_calm (processAuthenticateFields env data s)
    exact ⟨s2, h2, w2.trans (by simp [wire, processAuthenticateFields, emit])⟩
  · exact ⟨_, rfl, rfl⟩

theorem notificationReceived_calm (env : Env) (data : QVariantMap) (s : JsonRpcClient) :
    ∃ s', notificationReceived env data s = Except.ok s' ∧ wire s' = wire s := by
  unfold notificationReceived
  split
  · split
    · exact ⟨_, rfl, rfl⟩
    · simp only []
      split
      · obtain ⟨s2, h2, w2⟩ := setNotificationsEnabled_calm
          (pushButtonAuthFields data { s with m_pendingPushButtonTransaction := -1 })
        exact ⟨s2, h2, w2.trans (by simp [wire, pushButtonAuthFields, emit])⟩
      · exact ⟨_, rfl, rfl⟩
  · split
    · exact ⟨_, rfl, rfl⟩
    · exact ⟨_, rfl, rfl⟩

theorem invokeSelf_calm (env : Env) (method : QString) (commandId : Int) (params : QVariantMap)
    (s : JsonRpcClient) (hhost : s.m_connection.currentHost.isSome = true) :
    ∃ s', invokeSelf env method commandId params s = Except.ok s' ∧ wire s' = wire s := by
  unfold invokeSelf
  split
  · exact helloReply_calm env commandId params s hhost
  split
  · exact processAuthenticate_calm env commandId params s
  split
  · exact ⟨_, rfl, by unfold processCreateUser; split <;> rfl⟩
  split
  · exact ⟨_, rfl, by unfold processRequestPushButtonAuth; split <;> rfl⟩
  split
  · exact ⟨_, rfl, by unfold setNotificationsEnabledResponse; split <;> rfl⟩
  split
  · exact ⟨_, rfl, rfl⟩
  split
  · exact ⟨_, rfl, rfl⟩
  split
  · exact ⟨_, rfl, rfl⟩
  split
  · exact ⟨_, rfl, by unfold getVersionsReply; simp only []; split <;> rfl⟩
  split
  · exact ⟨_, rfl, rfl⟩
  · exact ⟨_, rfl, rfl⟩

theorem invokeCallback_calm (env : Env) (object : QObjectRef) (method : QString)
    (commandId : Int) (params : QVariantMap) (s : JsonRpcClient)
    (hhost : s.m_connection.currentHost.isSome = true) :
    ∃ s', invokeCallback env object method commandId params s = Except.ok s'
      ∧ wire s' = wire s := by
  unfold invokeCallback
  cases object with
  | self =>
    obtain ⟨s2, h2, w2⟩ := invokeSelf_calm env method commandId params
      { s with effects := s.effects ++ [Effect.invoke QObjectRef.self method commandId params] }
      hhost
    exact ⟨s2, h2, w2⟩
  | object id => exact ⟨_, rfl, rfl⟩

theorem invokeNotificationHandler_calm (env : Env) (dataMap : QVariantMap)
    (handler : QObjectRef) (s : JsonRpcClient) :
    ∃ s', invokeNotificationHandler env dataMap s handler = Except.ok s' ∧ wire s' = wire s := by
  unfold invokeNotificationHandler
  cases handler with
  | self =>
    simp only []
    split
    · obtain ⟨s2, h2, w2⟩ := notificationReceived_calm env dataMap
        { s with effects := s.effects ++ [Effect.notify QObjectRef.self
          (QMap.value s.m_notificationHandlerMethods QObjectRef.self "") dataMap] }
      exact ⟨s2, h2, w2⟩
    · exact ⟨_, rfl, rfl⟩
  | object id => exact ⟨_, rfl, rfl⟩

theorem foldlM_handlers_calm (env : Env) (dataMap : QVariantMap) :
    ∀ (handlers : List QObjectRef) (s : JsonRpcClient),
      ∃ s', handlers.foldlM (invokeNotificationHandler env dataMap) s = Except.ok s'
        ∧ wire s' = wire s := by
  intro handlers
  induction handlers with
  | nil =>
    intro s
    exact ⟨s, rfl, rfl⟩
  | cons x xs ih =>
    intro s
    obtain ⟨s1, h1, w1⟩ := invokeNotificationHandler_calm env dataMap x s
    obtain ⟨s2, h2, w2⟩ := ih s1
    refine ⟨s2, ?_, w2.trans w1⟩
    simp only [List.foldlM_cons, h1, bind, Except.bind]
    exact h2

theorem handleNotification_calm (env : Env) (dataMap : QVariantMap) (s : JsonRpcClient) :
    ∃ s', handleNotification env dataMap s = Except.ok s' ∧ wire s' = wire s := by
  have key : ∀ (s1 : JsonRpcClient) (handlers : List QObjectRef), wire s1 = wire s →
      ∃ s', handlers.foldlM (invokeNotificationHandler env dataMap) s1 = Except.ok s'
        ∧ wire s' = wire s := by
    intro s1 handlers w1
    obtain ⟨s2, h2, w2⟩ := foldlM_handlers_calm env dataMap handlers s1
    exact ⟨s2, h2, w2.trans w1⟩
  unfold handleNotification
  simp only []
  split
  · exact key _ _ (by simp [wire, emit])
  · exact key _ _ rfl

theorem storeInCache_wire (env : Env) (reply : JsonRpcReply) (dataMap : QVariantMap)
    (s : JsonRpcClient) : wire (storeInCache env reply dataMap s) = wire s := by
  unfold storeInCache
  simp only []
  split
  · split <;> rfl
  · rfl

theorem forwardReply_calm (env : Env) (reply : JsonRpcReply) (commandId : Int)
    (dataMap : QVariantMap) (s : JsonRpcClient)
    (hhost : s.m_connection.currentHost.isSome = true) :
    ∃ s', forwardReply env reply commandId dataMap s = Except.ok s' ∧ wire s' = wire s := by
  have key : ∀ s1 : JsonRpcClient, wire s1 = wire s →
      wire (storeInCache env reply dataMap
        (emit (Signal.responseReceived reply.commandId (dataMap.value "params").toMap) s1))
        = wire s := by
    intro s1 w1
    exact (storeInCache_wire _ _ _ _).trans w1
  unfold forwardReply
  simp only []
  cases hc : reply.caller with
  | none => exact ⟨_, rfl, key s rfl⟩
  | some object =>
    simp only []
    by_cases hcb : reply.callback ≠ ""
    · rw [if_pos hcb]
      obtain ⟨s1, h1, w1⟩ := invokeCallback_calm env object reply.callback commandId
        (dataMap.value "params").toMap s hhost
      rw [h1]
      exact ⟨_, rfl, key s1 w1⟩
    · rw [if_neg hcb]
      exact ⟨_, rfl, key s rfl⟩

/-- The Hello call issued again after an error reply: it returns, and queues at
most two calls, neither of `dataReceived`. -/
theorem sendCommand_Hello_quiet (env : Env) (params : QVariantMap) (caller : Option QObjectRef)
    (callback : QString) (s : JsonRpcClient) :
    ∃ r, sendCommand env "JSONRPC.Hello" params caller callback s = Except.ok r
      ∧ Quiet 2 s r.2 := by
  cases hcache : cachedResponse env "JSONRPC.Hello" params { s with m_id := toInt32 (s.m_id + 1) } with
  | some cachedParams =>
    simp only [sendCommand, createReply_Hello, hcache]
    refine ⟨_, rfl, ?_⟩
    cases caller with
    | none =>
      exact ⟨rfl, rfl, rfl, [QueuedCall.responseReceived (toInt32 (s.m_id + 1)) cachedParams], rfl, by simp,
        by simp [isData]⟩
    | some object =>
      simp only [JsonRpcReply.caller, JsonRpcReply.callback, JsonRpcReply.commandId]
      split
      · exact ⟨rfl, rfl, rfl, [QueuedCall.callback object callback (toInt32 (s.m_id + 1)) cachedParams,
          QueuedCall.responseReceived (toInt32 (s.m_id + 1)) cachedParams], by simp [post], by simp,
          by simp [isData]⟩
      · exact ⟨rfl, rfl, rfl, [QueuedCall.responseReceived (toInt32 (s.m_id + 1)) cachedParams], rfl, by simp,
          by simp [isData]⟩
  | none =>
    simp only [sendCommand, createReply_Hello, hcache]
    exact ⟨_, rfl, Quiet.of_wire 2 ((sendRequest_wire _ _).trans rfl)⟩

theorem handleMatchedReply_quiet (env : Env) (reply : JsonRpcReply) (commandId : Int)
    (dataMap : QVariantMap) (s : JsonRpcClient)
    (hhost : s.m_connection.currentHost.isSome = true) :
    ∃ s', handleMatchedReply env reply commandId dataMap s = Except.ok s' ∧ Quiet 2 s s' := by
  have hun : wire (if (dataMap.value "status").toQString = "unauthorized" then unauthorized s
      else s) = wire s := by
    split
    · simp [wire, unauthorized, emit]
    · rfl
  unfold handleMatchedReply
  simp only []
  generalize (if (dataMap.value "status").toQString = "unauthorized" then unauthorized s else s) = S
    at hun
  have hS : S.m_connection.currentHost.isSome = true := wire_host hun hhost
  split
  · obtain ⟨r, hr, hq⟩ := sendCommand_Hello_quiet env [] (some QObjectRef.self) "helloReply"
      { S with m_id := 0 }
    rw [hr]
    have hr2 : r.2.m_connection.currentHost.isSome = true := by
      rw [hq.2.2.1]
      exact hS
    obtain ⟨s2, h2, w2⟩ := forwardReply_calm env reply commandId dataMap r.2 hr2
    refine ⟨s2, h2, ?_⟩
    have hq0 : Quiet 2 s r.2 := by
      simp only [wire, Prod.mk.injEq] at hun
      obtain ⟨q1, q2, q3, extra, q4, q5⟩ := hq
      exact ⟨q1.trans hun.1, q2.trans hun.2.1, q3.trans hun.2.2.1, extra,
        by rw [q4]; exact congrArg (fun q => q ++ extra) hun.2.2.2, q5⟩
    exact Quiet.trans_wire hq0 w2
  · obtain ⟨s2, h2, w2⟩ := forwardReply_calm env reply commandId dataMap S hS
    exact ⟨s2, h2, Quiet.of_wire 2 (w2.trans hun)⟩

theorem handleDocument_quiet (env : Env) (dataMap : QVariantMap) (s : JsonRpcClient)
    (hhost : s.m_connection.currentHost.isSome = true) :
    ∃ s', handleDocument env dataMap s = Except.ok s' ∧ Quiet 2 s s' := by
  unfold handleDocument
  split
  · obtain ⟨s2, h2, w2⟩ := handleNotification_calm env dataMap s
    exact ⟨s2, h2, Quiet.of_wire 2 w2⟩
  · unfold handleReply
    simp only [QMap.take]
    cases hv : QMap.value? s.m_replies (dataMap.value "id").toInt with
    | none => exact ⟨_, rfl, Quiet.of_wire 2 rfl⟩
    | some reply =>
      simp only []
      obtain ⟨s2, h2, q2⟩ := handleMatchedReply_quiet env reply (dataMap.value "id").toInt dataMap
        { s with m_replies := QMap.remove s.m_replies (dataMap.value "id").toInt } hhost
      exact ⟨s2, h2, q2⟩

/-! ### One pass of `dataReceived` -/

theorem dataReceived_none (env : Env) (data : QByteArray) (s : JsonRpcClient)
    (hconn : s.m_connection.connected = true)
    (hp : env.fromJson (candidate (s.m_receiveBuffer ++ data)) = none) :
    dataReceived env data s
      = Except.ok { s with m_receiveBuffer := s.m_receiveBuffer ++ data } := by
  unfold candidate at hp
  simp only [dataReceived, hconn, hp]
  rfl

theorem dataReceived_some (env : Env) (data : QByteArray) (s : JsonRpcClient) (v : QVariant)
    (hconn : s.m_connection.connected = true)
    (hp : env.fromJson (candidate (s.m_receiveBuffer ++ data)) = some v) :
    dataReceived env data s
      = handleDocument env v.toMap
          (if !(remainder (s.m_receiveBuffer ++ data)).isEmpty then
            post (QueuedCall.dataReceived [])
              { s with m_receiveBuffer := remainder (s.m_receiveBuffer ++ data) }
          else { s with m_receiveBuffer := remainder (s.m_receiveBuffer ++ data) }) := by
  unfold candidate at hp
  simp only [dataReceived, hconn, hp]
  rfl

theorem queuedBytes_append (q1 q2 : List QueuedCall) :
    queuedBytes (q1 ++ q2) = queuedBytes q1 ++ queuedBytes q2 := by
  induction q1 with
  | nil => rfl
  | cons c cs ih =>
    cases c <;> simp [queuedBytes, ih]

theorem queuedBytes_of_not_data (q : List QueuedCall) (h : ∀ c, c ∈ q → isData c = false) :
    queuedBytes q = [] := by
  induction q with
  | nil => rfl
  | cons c cs ih =>
    have hc := h c (List.mem_cons_self c cs)
    have ih' := ih (fun x hx => h x (List.mem_cons_of_mem c hx))
    cases c with
    | dataReceived data => simp [isData] at hc
    | callback o m i p => simpa [queuedBytes] using ih'
    | responseReceived i p => simpa [queuedBytes] using ih'

/-- A chunk arrives: the call of `dataReceived` is queued. -/
theorem Reassembling.arrive {env : Env} {rem : List (QByteArray × QVariant)}
    {future : QByteArray} {s : JsonRpcClient} (chunk : QByteArray)
    (h : Reassembling env rem (chunk ++ future) s) :
    Reassembling env rem future (post (QueuedCall.dataReceived chunk) s) := by
  obtain ⟨lead, hlead, hbytes, -⟩ := h.bytes
  refine ⟨h.connected, h.host, h.docs, lead, hlead, ?_, Or.inr ⟨QueuedCall.dataReceived chunk, ?_, rfl⟩⟩
  · simp only [post, queuedBytes_append, queuedBytes, List.append_nil]
    simpa [List.append_assoc] using hbytes
  · simp [post]

/-- The queued call of `dataReceived` is delivered: it returns, the reassembly goes
on with the same documents or without the first one, which it dispatches, and at
most three calls are queued per dispatched document. -/
theorem Reassembling.pass {env : Env} {rem : List (QByteArray × QVariant)}
    {future : QByteArray} {s : JsonRpcClient} (hempty : env.fromJson [] = none)
    (hnl : env.fromJson ['\n'] = none) (data : QByteArray) (queue : List QueuedCall)
    (hq : s.eventQueue = QueuedCall.dataReceived data :: queue)
    (h : Reassembling env rem future s) :
    ∃ s' rem', dataReceived env data { s with eventQueue := queue } = Except.ok s'
      ∧ Reassembling env rem' future s'
      ∧ (dispatchedDocument env data { s with eventQueue := queue }).toList
          ++ rem'.map (fun d => d.2.toMap) = rem.map (fun d => d.2.toMap)
      ∧ s'.eventQueue.length + 3 * rem'.length ≤ queue.length + 3 * rem.length := by
  obtain ⟨lead, hlead, hbytes, -⟩ := h.bytes
  have hB : (s.m_receiveBuffer ++ data) ++ (queuedBytes queue ++ future)
      = lead ++ stream (rem.map Prod.fst) := by
    rw [hq] at hbytes
    simpa [queuedBytes, List.append_assoc] using hbytes
  have hconn : ({ s with eventQueue := queue } : JsonRpcClient).m_connection.connected = true :=
    h.connected
  rcases pass_outcome env hempty hnl rem h.docs lead hlead _ _ hB with
    ⟨hnone, hshort⟩ | ⟨d, rest, lead', hrem, hsome, hlead', hrest⟩
  · refine ⟨_, rem, dataReceived_none env data _ hconn hnone, ?_, ?_, le_refl _⟩
    · refine ⟨h.connected, h.host, h.docs, lead, hlead, ?_, Or.inl hshort⟩
      simpa [List.append_assoc] using hB
    · simp [dispatchedDocument, h.connected, hnone]
  · subst hrem
    have hdocs : ∀ e, e ∈ rest → CompleteDocument env e.1 e.2 :=
      fun e he => h.docs e (List.mem_cons_of_mem d he)
    rw [dataReceived_some env data _ d.2 hconn hsome]
    by_cases hr : remainder (s.m_receiveBuffer ++ data) = []
    · obtain ⟨s', hs', hq'⟩ := handleDocument_quiet env d.2.toMap
        (if !(remainder (s.m_receiveBuffer ++ data)).isEmpty then
            post (QueuedCall.dataReceived [])
              { s with eventQueue := queue,
                       m_receiveBuffer := remainder (s.m_receiveBuffer ++ data) }
          else { s with eventQueue := queue,
                        m_receiveBuffer := remainder (s.m_receiveBuffer ++ data) })
        (by simp only [hr]; exact h.host)
      refine ⟨s', rest, hs', ?_, ?_, ?_⟩
      · obtain ⟨q1, q2, q3, extra, q4, q5, q6⟩ := hq'
        simp only [hr, List.isEmpty_nil, Bool.not_true, Bool.false_eq_true, if_false] at q1 q2 q3 q4
        refine ⟨q2.trans h.connected, q3.trans h.host, hdocs, lead', hlead', ?_, ?_⟩
        · rw [q1, q4, queuedBytes_append, queuedBytes_of_not_data extra q6]
          rw [hr] at hrest
          simpa [List.append_assoc] using hrest
        · rw [q1]
          exact Or.inl (Short.nil env lead' rest hdocs)
      · simp [dispatchedDocument, h.connected, hsome]
      · obtain ⟨q1, q2, q3, extra, q4, q5, q6⟩ := hq'
        simp only [hr, List.isEmpty_nil, Bool.not_true, Bool.false_eq_true, if_false] at q4
        rw [q4]
        simp only [List.length_append, List.length_cons]
        omega
    · have hne : (!(remainder (s.m_receiveBuffer ++ data)).isEmpty) = true := by
        cases hX : remainder (s.m_receiveBuffer ++ data) with
        | nil => exact absurd hX hr
        | cons x xs => rfl
      obtain ⟨s', hs', hq'⟩ := handleDocument_quiet env d.2.toMap
        (if !(remainder (s.m_receiveBuffer ++ data)).isEmpty then
            post (QueuedCall.dataReceived [])
              { s with eventQueue := queue,
                       m_receiveBuffer := remainder (s.m_receiveBuffer ++ data) }
          else { s with eventQueue := queue,
                        m_receiveBuffer := remainder (s.m_receiveBuffer ++ data) })
        (by rw [if_pos hne]; exact h.host)
      refine ⟨s', rest, hs', ?_, ?_, ?_⟩
      · obtain ⟨q1, q2, q3, extra, q4, q5, q6⟩ := hq'
        rw [if_pos hne] at q1 q2 q3 q4
        refine ⟨q2.trans h.connected, q3.trans h.host, hdocs, lead', hlead', ?_, ?_⟩
        · rw [q1, q4]
          simp only [post, queuedBytes_append, queuedBytes_of_not_data extra q6, queuedBytes,
            List.append_nil]
          simpa [List.append_assoc] using hrest
        · refine Or.inr ⟨QueuedCall.dataReceived [], ?_, rfl⟩
          rw [q4]
          simp [post]
      · simp [dispatchedDocument, h.connected, hsome]
      · obtain ⟨q1, q2, q3, extra, q4, q5, q6⟩ := hq'
        rw [if_pos hne] at q4
        rw [q4]
        simp only [post, List.length_append, List.length_cons, List.length_nil]
        omega

/-! ### The event loop -/

theorem runLoop_arrive (env : Env) (chunk : QByteArray) (rest : List LoopStep) (s : JsonRpcClient) :
    runLoop env (LoopStep.arrive chunk :: rest) s
      = runLoop env rest (post (QueuedCall.dataReceived chunk) s) := rfl

theorem runLoop_deliver_nil (env : Env) (rest : List LoopStep) (s : JsonRpcClient)
    (hq : s.eventQueue = []) :
    runLoop env (LoopStep.deliver :: rest) s = runLoop env rest s := by
  simp only [runLoop, hq]

theorem runLoop_deliver_cons (env : Env) (rest : List LoopStep) (s s' : JsonRpcClient)
    (call : QueuedCall) (queue : List QueuedCall) (r : List QVariantMap × JsonRpcClient)
    (hq : s.eventQueue = call :: queue)
    (hd : deliver env call { s with eventQueue := queue } = Except.ok s')
    (hr : runLoop env rest s' = Except.ok r) :
    runLoop env (LoopStep.deliver :: rest) s
      = Except.ok ((documentOf env call { s with eventQueue := queue }).toList ++ r.1, r.2) := by
  simp only [runLoop, hq, hd, hr]

/-- A delivered call that is not a call of `dataReceived` leaves the reassembly as
it is. -/
theorem Reassembling.undisturbed {env : Env} {rem : List (QByteArray × QVariant)}
    {future : QByteArray} {s s' : JsonRpcClient} (call : QueuedCall) (queue : List QueuedCall)
    (hq : s.eventQueue = call :: queue) (hcall : isData call = false)
    (hw : wire s' = wire { s with eventQueue := queue }) (h : Reassembling env rem future s) :
    Reassembling env rem future s' := by
  simp only [wire, Prod.mk.injEq] at hw
  obtain ⟨w1, w2, w3, w4⟩ := hw
  obtain ⟨lead, hlead, hbytes, hlive⟩ := h.bytes
  refine ⟨w2.trans h.connected, w3.trans h.host, h.docs, lead, hlead, ?_, ?_⟩
  · rw [w1, w4]
    rw [hq] at hbytes
    cases call with
    | dataReceived data => simp [isData] at hcall
    | callback o m i p => simpa [queuedBytes] using hbytes
    | responseReceived i p => simpa [queuedBytes] using hbytes
  · rcases hlive with hshort | ⟨c, hc, hdata⟩
    · rw [w1]
      exact Or.inl hshort
    · refine Or.inr ⟨c, ?_, hdata⟩
      rw [w4]
      rw [hq] at hc
      rcases List.mem_cons.mp hc with rfl | hc'
      · rw [hcall] at hdata
        cases hdata
      · exact hc'

/-- The event loop delivers the oldest queued call: the call returns, the
reassembly goes on, and the documents still to come are those of before without
the one dispatched by the call. -/
theorem Reassembling.deliver {env : Env} {rem : List (QByteArray × QVariant)}
    {future : QByteArray} {s : JsonRpcClient} (hempty : env.fromJson [] = none)
    (hnl : env.fromJson ['\n'] = none) (call : QueuedCall) (queue : List QueuedCall)
    (hq : s.eventQueue = call :: queue) (h : Reassembling env rem future s) :
    ∃ s' rem', JsonRpcClient.deliver env call { s with eventQueue := queue } = Except.ok s'
      ∧ Reassembling env rem' future s'
      ∧ (documentOf env call { s with eventQueue := queue }).toList
          ++ rem'.map (fun d => d.2.toMap) = rem.map (fun d => d.2.toMap)
      ∧ s'.eventQueue.length + 3 * rem'.length ≤ queue.length + 3 * rem.length := by
  cases call with
  | dataReceived data => exact h.pass hempty hnl data queue hq
  | callback o m i p =>
    obtain ⟨s', hs', w⟩ := invokeCallback_calm env o m i p { s with eventQueue := queue } h.host
    refine ⟨s', rem, hs', h.undisturbed _ queue hq rfl w, rfl, ?_⟩
    simp only [wire, Prod.mk.injEq] at w
    rw [w.2.2.2]
  | responseReceived i p =>
    exact ⟨_, rem, rfl, h.undisturbed _ queue hq rfl rfl, rfl, le_refl _⟩

/-- With all chunks in and nothing queued, no document is left. -/
theorem Reassembling.done {env : Env} {rem : List (QByteArray × QVariant)} {s : JsonRpcClient}
    (hq : s.eventQueue = []) (h : Reassembling env rem [] s) : rem = [] := by
  obtain ⟨lead, -, hbytes, hlive⟩ := h.bytes
  cases rem with
  | nil => rfl
  | cons d rest =>
    exfalso
    rcases hlive with hshort | ⟨c, hc, -⟩
    · rw [hq] at hbytes
      simp only [queuedBytes, List.append_nil] at hbytes
      have hlen := congrArg List.length hbytes
      simp only [Short] at hshort
      simp only [List.map_cons, stream, List.length_append, List.length_cons] at hlen hshort
      omega
    · rw [hq] at hc
      cases hc

/-- Once all chunks are in, the event loop dispatches the remaining documents in
order; as many deliveries as calls are queued, and three more per document,
are enough. -/
theorem runLoop_drain (env : Env) (hempty : env.fromJson [] = none) (hnl : env.fromJson ['\n'] = none) :
    ∀ (fuel : Nat) (s : JsonRpcClient) (rem : List (QByteArray × QVariant)),
      Reassembling env rem [] s → s.eventQueue.length + 3 * rem.length ≤ fuel →
      ∃ s', runLoop env (List.replicate fuel LoopStep.deliver) s
        = Except.ok (rem.map (fun d => d.2.toMap), s') := by
  intro fuel
  induction fuel with
  | zero =>
    intro s rem _ hfuel
    have hrem : rem = [] := List.length_eq_zero.mp (by omega)
    subst hrem
    exact ⟨s, rfl⟩
  | succ n ih =>
    intro s rem h hfuel
    rw [List.replicate_succ]
    cases hq : s.eventQueue with
    | nil =>
      have hrem : rem = [] := h.done hq
      subst hrem
      rw [runLoop_deliver_nil env _ s hq]
      exact ih s [] h (by rw [hq]; simp)
    | cons call queue =>
      obtain ⟨s1, rem1, hd, h1, htrace, hlen⟩ := h.deliver hempty hnl call queue hq
      obtain ⟨s2, h2⟩ := ih s1 rem1 h1 (by rw [hq] at hfuel; simp at hfuel; omega)
      refine ⟨s2, ?_⟩
      rw [runLoop_deliver_cons env _ s s1 call queue _ hq hd h2]
      simp only [htrace]

/-- Whatever the order of arrivals and deliveries, the event loop dispatches the
remaining documents in order once the queue is run to its end. -/
theorem runLoop_schedule (env : Env) (hempty : env.fromJson [] = none) (hnl : env.fromJson ['\n'] = none) :
    ∀ (steps : List LoopStep) (s : JsonRpcClient) (rem : List (QByteArray × QVariant)),
      Reassembling env rem (arrivals steps) s →
      ∃ n, ∀ fuel, n ≤ fuel →
        ∃ s', runLoop env (steps ++ List.replicate fuel LoopStep.deliver) s
          = Except.ok (rem.map (fun d => d.2.toMap), s') := by
  intro steps
  induction steps with
  | nil =>
    intro s rem h
    exact ⟨s.eventQueue.length + 3 * rem.length, fun fuel hfuel =>
      runLoop_drain env hempty hnl fuel s rem h hfuel⟩
  | cons step rest ih =>
    intro s rem h
    cases step with
    | arrive chunk =>
      obtain ⟨n, hn⟩ := ih (post (QueuedCall.dataReceived chunk) s) rem (h.arrive chunk)
      exact ⟨n, fun fuel hfuel => hn fuel hfuel⟩
    | deliver =>
      cases hq : s.eventQueue with
      | nil =>
        obtain ⟨n, hn⟩ := ih s rem h
        refine ⟨n, fun fuel hfuel => ?_⟩
        rw [List.cons_append, runLoop_deliver_nil env _ s hq]
        exact hn fuel hfuel
      | cons call queue =>
        obtain ⟨s1, rem1, hd, h1, htrace, -⟩ := h.deliver hempty hnl call queue hq
        obtain ⟨n, hn⟩ := ih s1 rem1 h1
        refine ⟨n, fun fuel hfuel => ?_⟩
        obtain ⟨s2, h2⟩ := hn fuel hfuel
        refine ⟨s2, ?_⟩
        rw [List.cons_append, runLoop_deliver_cons env _ s s1 call queue _ hq hd h2]
        simp only [htrace]

/-- A connected client with an empty buffer and an empty queue starts the
reassembly of a stream of complete documents. -/
theorem Reassembling.start (env : Env) (docs : List (QByteArray × QVariant)) (s : JsonRpcClient)
    (hdocs : ∀ d, d ∈ docs → CompleteDocument env d.1 d.2)
    (hconn : s.m_connection.connected = true)
    (hhost : s.m_connection.currentHost.isSome = true)
    (hbuf : s.m_receiveBuffer = []) (hqueue : s.eventQueue = []) :
    Reassembling env docs (stream (docs.map Prod.fst)) s := by
  refine ⟨hconn, hhost, hdocs, [], Or.inl rfl, ?_, Or.inl ?_⟩
  · rw [hbuf, hqueue]
    rfl
  · rw [hbuf]
    exact Short.nil env [] docs hdocs

/-- C1, counterexample: two complete documents one right after the other, with no
newline between them.  Reported as one chunk they never parse: nothing is
dispatched, the queue is empty and both stay in the buffer.  Reported as two
chunks, cut between the documents, both are dispatched. -/
theorem chunk_boundary_changes_documents :
    arrivals [LoopStep.arrive (exampleFirst ++ exampleSecond)]
        = arrivals [LoopStep.arrive exampleFirst, LoopStep.arrive exampleSecond]
      ∧ (runLoop exampleEnv
            ([LoopStep.arrive (exampleFirst ++ exampleSecond)]
              ++ List.replicate 4 LoopStep.deliver) exampleClient).map
          (fun r => (r.1, r.2.eventQueue.length, r.2.m_receiveBuffer))
          = Except.ok ([], 0, exampleFirst ++ exampleSecond)
      ∧ dispatched exampleEnv
          ([LoopStep.arrive exampleFirst, LoopStep.arrive exampleSecond]
            ++ List.replicate 4 LoopStep.deliver) exampleClient
          = some [[("id", QVariant.int 1)], [("id", QVariant.int 2)]] := by
  refine ⟨rfl, rfl, ?_⟩
  have e1 : deliver exampleEnv (QueuedCall.dataReceived exampleFirst)
      { exampleClient with eventQueue := [QueuedCall.dataReceived exampleSecond] }
      = Except.ok { exampleClient with eventQueue := [QueuedCall.dataReceived exampleSecond] } :=
    rfl
  have e2 : deliver exampleEnv (QueuedCall.dataReceived exampleSecond)
      { exampleClient with eventQueue := [] } = Except.ok exampleClient := rfl
  have r3 : runLoop exampleEnv (List.replicate 2 LoopStep.deliver) exampleClient
      = Except.ok ([], exampleClient) := rfl
  have r2 := runLoop_deliver_cons exampleEnv (List.replicate 2 LoopStep.deliver)
    { exampleClient with eventQueue := [QueuedCall.dataReceived exampleSecond] } exampleClient
    (QueuedCall.dataReceived exampleSecond) [] _ rfl e2 r3
  have r1 := runLoop_deliver_cons exampleEnv (List.replicate 3 LoopStep.deliver)
    (post (QueuedCall.dataReceived exampleSecond)
      (post (QueuedCall.dataReceived exampleFirst) exampleClient))
    { exampleClient with eventQueue := [QueuedCall.dataReceived exampleSecond] }
    (QueuedCall.dataReceived exampleFirst) [QueuedCall.dataReceived exampleSecond] _ rfl e1 r2
  rw [dispatched, List.cons_append, List.cons_append, List.nil_append, runLoop_arrive,
    runLoop_arrive]
  rw [show List.replicate 4 LoopStep.deliver
    = LoopStep.deliver :: List.replicate 3 LoopStep.deliver from rfl, r1]
  rfl
/-- C1, amended: take documents that are complete for the parser (text from an
opening to a closing brace without the bytes closing brace, newline, opening
brace, accepted with or without a newline around it, no proper prefix accepted)
and the stream in which each is followed by a newline.  On a connected client
with a host, an empty buffer and an empty queue, any two ways of reporting that
stream in chunks, with any order of arrivals and deliveries, dispatch the same
documents in the same order once the queue has run to its end: the values of
the documents of the stream. -/
theorem reassembly_independent_of_chunks (env : Env) (docs : List (QByteArray × QVariant))
    (s : JsonRpcClient) (hempty : env.fromJson [] = none) (hnl : env.fromJson ['\n'] = none)
    (hdocs : ∀ d, d ∈ docs → CompleteDocument env d.1 d.2)
    (hconn : s.m_connection.connected = true)
    (hhost : s.m_connection.currentHost.isSome = true)
    (hbuf : s.m_receiveBuffer = []) (hqueue : s.eventQueue = [])
    (steps1 steps2 : List LoopStep)
    (h1 : arrivals steps1 = stream (docs.map Prod.fst))
    (h2 : arrivals steps2 = stream (docs.map Prod.fst)) :
    ∃ n, ∀ fuel, n ≤ fuel →
      dispatched env (steps1 ++ List.replicate fuel LoopStep.deliver) s
          = some (docs.map (fun d => d.2.toMap))
        ∧ dispatched env (steps2 ++ List.replicate fuel LoopStep.deliver) s
          = some (docs.map (fun d => d.2.toMap)) := by
  have start := Reassembling.start env docs s hdocs hconn hhost hbuf hqueue
  obtain ⟨n1, hn1⟩ := runLoop_schedule env hempty hnl steps1 s docs (by rw [h1]; exact start)
  obtain ⟨n2, hn2⟩ := runLoop_schedule env hempty hnl steps2 s docs (by rw [h2]; exact start)
  refine ⟨max n1 n2, fun fuel hfuel => ?_⟩
  obtain ⟨s1, e1⟩ := hn1 fuel (le_trans (le_max_left n1 n2) hfuel)
  obtain ⟨s2, e2⟩ := hn2 fuel (le_trans (le_max_right n1 n2) hfuel)
  simp only [dispatched, e1, e2, and_self]

/-- C1, witness: the two example documents, each followed by a newline, reported
as one chunk and reported in three chunks cut inside the documents. -/
theorem reassembly_independent_of_chunks_witness :
    ∃ n, ∀ fuel, n ≤ fuel →
      dispatched exampleEnv
          ([LoopStep.arrive (stream (exampleDocuments.map Prod.fst))]
            ++ List.replicate fuel LoopStep.deliver) exampleClient
          = some (exampleDocuments.map (fun d => d.2.toMap))
        ∧ dispatched exampleEnv
          ([LoopStep.arrive (exampleFirst.take 3), LoopStep.deliver,
            LoopStep.arrive (exampleFirst.drop 3 ++ '\n' :: exampleSecond.take 1),
            LoopStep.arrive (exampleSecond.drop 1 ++ ['\n'])]
            ++ List.replicate fuel LoopStep.deliver) exampleClient
          = some (exampleDocuments.map (fun d => d.2.toMap)) :=
  reassembly_independent_of_chunks exampleEnv exampleDocuments exampleClient rfl rfl
    (fun d hd => by
      simp only [exampleDocuments, List.mem_cons, List.mem_singleton, List.not_mem_nil,
        or_false] at hd
      rcases hd with rfl | rfl
      · exact ⟨rfl, rfl, rfl, rfl, rfl, rfl, rfl, fun k hk => by
          have hk8 : k < 8 := hk
          interval_cases k <;> exact ⟨rfl, rfl⟩⟩
      · exact ⟨rfl, rfl, rfl, rfl, rfl, rfl, rfl, fun k hk => by
          have hk8 : k < 8 := hk
          interval_cases k <;> exact ⟨rfl, rfl⟩⟩)
    rfl rfl rfl rfl _ _ rfl rfl

/-! ## C11: a changed certificate -/

/-- Whatever the reply, `helloReply` leaves every stored certificate as it is: it
writes a certificate file only when none exists under the name. -/
theorem helloReply_keeps_pinned (env : Env) (commandId : Int) (params : QVariantMap)
    (s s' : JsonRpcClient) (f : QString) (c : QByteArray)
    (hf : QMap.value? s.sslcerts f = some c)
    (h : helloReply env commandId params s = Except.ok s') :
    QMap.value? s'.sslcerts f = some c := by
  have key : ∀ s1 : JsonRpcClient, QMap.value? s1.sslcerts f = some c →
      helloReplySession env params s1 = Except.ok s' → QMap.value? s'.sslcerts f = some c := by
    intro s1 h1 hs
    rw [((helloReplySession_frame env params (fun _ => True) (fun _ _ => trivial) trivial trivial
      s1 s1 (EffectsAdded.refl _ s1)).1 s' hs).1]
    exact h1
  unfold helloReply at h
  simp only [] at h
  split at h
  · cases h
    simpa [emit, helloReplyFields] using hf
  · split at h
    · cases h
      simpa [emit, helloReplyFields] using hf
    · split at h
      · split at h
        · rename_i hnone
          refine key _ ?_ h
          have hne : f ≠ pemFileName (QUuid.fromString (helloReplyFields params s).m_serverUuid) := by
            intro heq
            rw [loadPem, ← heq] at hnone
            have : QMap.value? (helloReplyFields params s).sslcerts f = some c := hf
            rw [this] at hnone
            cases hnone
          simp only [storePem, emit]
          rw [QMap.value?_insert_of_ne _ _ _ _ hne]
          exact hf
        · split at h
          · cases h
            simpa [emit, helloReplyFields, disconnectFromHost] using hf
          · exact key _ (by simpa [emit, helloReplyFields] using hf) h
      · exact key _ (by simpa [emit, helloReplyFields] using hf) h

/-- C11, counterexample: the certificate "PEM-B" is pinned for the server and the
peer presents another one, but the Hello reply reports protocol version 4.2:
`helloReply` raises invalidMinimumVersion and returns; it neither asks for a
disconnect nor raises verifyConnectionCertificate. -/
theorem old_version_skips_certificate_check :
    examplePinned.m_connection.isEncrypted = true
      ∧ loadPem (QUuid.fromString (exampleOldHelloParams.value "uuid").toQString) examplePinned
          = some "PEM-B".toList
      ∧ examplePinned.m_connection.sslCertificate.toPem = "PEM-A".toList
      ∧ (helloReply exampleEnv 1 exampleOldHelloParams examplePinned).map (fun s' => s'.effects)
          = Except.ok [Effect.emit Signal.pushButtonAuthAvailableChanged,
              Effect.emit (Signal.invalidMinimumVersion "4.2" "5.0")] :=
  ⟨rfl, rfl, rfl, rfl⟩

/-- C11, amended: on an encrypted transport, a Hello reply with a supported
protocol version whose server uuid has a stored certificate different from the
one of the peer makes `helloReply` ask for a disconnect and raise
verifyConnectionCertificate with the uuid, the issuer info and the PEM of the
peer; nothing else happens after the signal pushButtonAuthAvailableChanged: the
stored certificates, the cache hashes, the authenticated flag, the pending
table, the counter and the event queue are unchanged and nothing is sent.
Whatever the reply, `helloReply` leaves every stored certificate as it is, and
`acceptCertificate` replaces the one of its server. -/
theorem helloReply_certificate_mismatch (env : Env) (commandId : Int) (params : QVariantMap)
    (s : JsonRpcClient) :
    (∀ oldPem, QVersionNumber.lt (protocolVersion params) [5, 0] = false →
      (protocolVersion params).majorVersion ≤ 6 →
      s.m_connection.isEncrypted = true →
      loadPem (QUuid.fromString (params.value "uuid").toQString) s = some oldPem →
      s.m_connection.sslCertificate.toPem ≠ oldPem →
      ∃ s', helloReply env commandId params s = Except.ok s'
        ∧ s'.effects = s.effects ++ [Effect.emit Signal.pushButtonAuthAvailableChanged,
            Effect.disconnectFromHost,
            Effect.emit (Signal.verifyConnectionCertificate (params.value "uuid").toQString
              (certificateIssuerInfo s) s.m_connection.sslCertificate.toPem)]
        ∧ s'.sslcerts = s.sslcerts ∧ s'.m_cacheHashes = s.m_cacheHashes
        ∧ s'.m_authenticated = s.m_authenticated
        ∧ s'.m_replies = s.m_replies ∧ s'.m_id = s.m_id ∧ s'.eventQueue = s.eventQueue)
    ∧ (∀ s' f c, QMap.value? s.sslcerts f = some c →
        helloReply env commandId params s = Except.ok s' → QMap.value? s'.sslcerts f = some c)
    ∧ (∀ serverUuid pem,
        loadPem (QUuid.fromString serverUuid) (acceptCertificate serverUuid pem s) = some pem) := by
  refine ⟨fun oldPem hmin hmax henc hold hdiff => ?_,
    fun s' f c hf h => helloReply_keeps_pinned env commandId params s s' f c hf h,
    fun serverUuid pem => ?_⟩
  · have hmax' : ¬ (protocolVersion params).majorVersion > QVersionNumber.majorVersion [6] := by
      simpa [QVersionNumber.majorVersion] using hmax
    have hv : (helloReplyFields params s).m_jsonRpcVersion = protocolVersion params := rfl
    have henc' : (helloReplyFields params s).m_connection.isEncrypted = true := henc
    have hold' : loadPem (QUuid.fromString (helloReplyFields params s).m_serverUuid)
        (helloReplyFields params s) = some oldPem := hold
    have hdiff' : (helloReplyFields params s).m_connection.sslCertificate.toPem ≠ oldPem := hdiff
    have e1 : helloReply env commandId params s = Except.ok
        (emit (Signal.verifyConnectionCertificate (helloReplyFields params s).m_serverUuid
          (certificateIssuerInfo (helloReplyFields params s))
          (helloReplyFields params s).m_connection.sslCertificate.toPem)
          (disconnectFromHost (helloReplyFields params s))) := by
      simp only [helloReply, hv, hmin, hmax', Bool.false_eq_true, if_false, henc', if_true, hold',
        hdiff', ne_eq, not_false_eq_true]
      rfl
    rw [e1]
    refine ⟨_, rfl, ?_⟩
    simp [emit, helloReplyFields, disconnectFromHost, certificateIssuerInfo]
  · simp [loadPem, acceptCertificate, storePem, QMap.value?_insert_self]

/-- C11, witness: the example Hello reply (version 6.2) on the encrypted example
client with another certificate pinned for the server; accepting a certificate
on the example client. -/
theorem helloReply_certificate_mismatch_witness :
    (∃ s', helloReply exampleEnv 1 exampleHelloParams examplePinned = Except.ok s'
        ∧ s'.effects = examplePinned.effects ++ [Effect.emit Signal.pushButtonAuthAvailableChanged,
            Effect.disconnectFromHost,
            Effect.emit (Signal.verifyConnectionCertificate
              (exampleHelloParams.value "uuid").toQString
              (certificateIssuerInfo examplePinned) examplePinned.m_connection.sslCertificate.toPem)]
        ∧ s'.sslcerts = examplePinned.sslcerts ∧ s'.m_cacheHashes = examplePinned.m_cacheHashes
        ∧ s'.m_authenticated = examplePinned.m_authenticated
        ∧ s'.m_replies = examplePinned.m_replies ∧ s'.m_id = examplePinned.m_id
        ∧ s'.eventQueue = examplePinned.eventQueue)
    ∧ (∀ s', helloReply exampleEnv 1 exampleHelloParams examplePinned = Except.ok s' →
        QMap.value? s'.sslcerts (pemFileName (QUuid.fromString "srv-1")) = some "PEM-B".toList)
    ∧ loadPem (QUuid.fromString "srv-1") (acceptCertificate "srv-1" "PEM-A".toList examplePinned)
        = some "PEM-A".toList :=
  ⟨(helloReply_certificate_mismatch exampleEnv 1 exampleHelloParams examplePinned).1
      "PEM-B".toList (by decide) (by decide) rfl rfl (by decide),
   fun s' h => (helloReply_certificate_mismatch exampleEnv 1 exampleHelloParams examplePinned).2.1
      s' _ _ rfl h,
   (helloReply_certificate_mismatch exampleEnv 1 exampleHelloParams examplePinned).2.2 _ _⟩

/-! ## C12: unauthorized replies -/

/-- The slots of the client other than `helloReply` and `processAuthenticate` return,
leave the token state alone and do not ask for a disconnect. -/
theorem invokeSelf_credentials (env : Env) (method : QString) (commandId : Int)
    (params : QVariantMap) (s : JsonRpcClient) (hhello : method ≠ "helloReply")
    (hauth : method ≠ "processAuthenticate") :
    ∃ s', invokeSelf env method commandId params s = Except.ok s'
      ∧ credentials s' = credentials s ∧ EffectsAdded keepsConnection s s' := by
  have hemit : ∀ sig, keepsConnection (Effect.emit sig) := fun sig h => by cases h
  have hret : ∃ s', invokeSelf env method commandId params s = Except.ok s'
      ∧ credentials s' = credentials s := by
    unfold invokeSelf
    rw [if_neg hhello, if_neg hauth]
    split
    · exact ⟨_, rfl, by unfold processCreateUser; split <;> rfl⟩
    split
    · exact ⟨_, rfl, by unfold processRequestPushButtonAuth; split <;> rfl⟩
    split
    · exact ⟨_, rfl, by unfold setNotificationsEnabledResponse; split <;> rfl⟩
    split
    · exact ⟨_, rfl, rfl⟩
    split
    · exact ⟨_, rfl, rfl⟩
    split
    · exact ⟨_, rfl, rfl⟩
    split
    · exact ⟨_, rfl, by unfold getVersionsReply; simp only []; split <;> rfl⟩
    split
    · exact ⟨_, rfl, rfl⟩
    · exact ⟨_, rfl, rfl⟩
  obtain ⟨s', h1, h2⟩ := hret
  refine ⟨s', h1, h2, ?_⟩
  have h := h1
  unfold invokeSelf at h
  rw [if_neg hhello, if_neg hauth] at h
  have hs : EffectsAdded keepsConnection s s := EffectsAdded.refl _ s
  split at h
  · cases h
    unfold processCreateUser
    split
    · exact EffectsAdded.emit _ (EffectsAdded.same (EffectsAdded.emit _ hs (hemit _)) rfl) (hemit _)
    · exact EffectsAdded.emit _ hs (hemit _)
  split at h
  · cases h
    unfold processRequestPushButtonAuth
    split
    · exact EffectsAdded.same hs rfl
    · exact EffectsAdded.emit _ hs (hemit _)
  split at h
  · cases h
    unfold setNotificationsEnabledResponse
    split
    · exact EffectsAdded.emit _ (EffectsAdded.same hs rfl) (hemit _)
    · exact hs
  split at h
  · cases h
    exact EffectsAdded.emit _ (EffectsAdded.same hs rfl) (hemit _)
  split at h
  · cases h
    exact hs
  split at h
  · cases h
    exact hs
  split at h
  · cases h
    unfold getVersionsReply
    simp only []
    split
    · exact EffectsAdded.emit _ (EffectsAdded.same hs rfl) (hemit _)
    · exact EffectsAdded.same hs rfl
  split at h
  · cases h
    exact EffectsAdded.emit _ hs (hemit _)
  · cases h
    exact hs

theorem storeInCache_credentials (env : Env) (reply : JsonRpcReply) (dataMap : QVariantMap)
    (s : JsonRpcClient) :
    credentials (storeInCache env reply dataMap s) = credentials s
      ∧ (storeInCache env reply dataMap s).m_serverUuid = s.m_serverUuid := by
  unfold storeInCache
  simp only []
  split
  · split <;> exact ⟨rfl, rfl⟩
  · exact ⟨rfl, rfl⟩

/-- Forwarding a reply whose callback is not `helloReply` or `processAuthenticate` of
the client returns, leaves the token state alone and does not ask for a
disconnect. -/
theorem forwardReply_credentials (env : Env) (reply : JsonRpcReply) (commandId : Int)
    (dataMap : QVariantMap) (s : JsonRpcClient)
    (hcb : reply.m_caller = some QObjectRef.self →
      reply.m_callback ≠ "helloReply" ∧ reply.m_callback ≠ "processAuthenticate") :
    ∃ s', forwardReply env reply commandId dataMap s = Except.ok s'
      ∧ credentials s' = credentials s ∧ EffectsAdded keepsConnection s s' := by
  have key : ∀ s1 : JsonRpcClient, credentials s1 = credentials s →
      EffectsAdded keepsConnection s s1 →
      credentials (storeInCache env reply dataMap
        (emit (Signal.responseReceived reply.commandId (dataMap.value "params").toMap) s1))
          = credentials s
      ∧ EffectsAdded keepsConnection s (storeInCache env reply dataMap
        (emit (Signal.responseReceived reply.commandId (dataMap.value "params").toMap) s1)) := by
    intro s1 c1 e1
    refine ⟨(storeInCache_credentials _ _ _ _).1.trans c1, ?_⟩
    exact EffectsAdded.same (EffectsAdded.emit _ e1 (fun h => by cases h))
      (storeInCache_effects env reply dataMap _)
  unfold forwardReply
  simp only []
  cases hc : reply.caller with
  | none => exact ⟨_, rfl, key s rfl (EffectsAdded.refl _ s)⟩
  | some object =>
    simp only []
    by_cases hne : reply.callback ≠ ""
    · rw [if_pos hne]
      cases object with
      | self =>
        obtain ⟨s1, h1, c1, e1⟩ := invokeSelf_credentials env reply.callback commandId
          (dataMap.value "params").toMap
          { s with effects := s.effects ++ [Effect.invoke QObjectRef.self reply.callback commandId
              (dataMap.value "params").toMap] } (hcb hc).1 (hcb hc).2
        have h2 : invokeCallback env QObjectRef.self reply.callback commandId
            (dataMap.value "params").toMap s = Except.ok s1 := h1
        rw [h2]
        refine ⟨_, rfl, key s1 c1 ?_⟩
        exact EffectsAdded.trans (EffectsAdded.of_eq [_] rfl (by
          intro e he
          simp only [List.mem_singleton] at he
          subst he
          intro h
          cases h)) e1
      | object id =>
        refine ⟨_, rfl, key _ rfl ?_⟩
        exact EffectsAdded.of_eq [_] rfl (by
          intro e he
          simp only [List.mem_singleton] at he
          subst he
          intro h
          cases h)
    · rw [if_neg hne]
      exact ⟨_, rfl, key s rfl (EffectsAdded.refl _ s)⟩

/-- C12, counterexample: the Hello call of the client is pending with identifier 1
and the server answers it with status "unauthorized" and no params; the
callback `helloReply` runs after the token has been dropped and takes
`authenticationRequired` from the reply, where it is absent:
`authenticationRequired()` is false afterwards. -/
theorem unauthorized_hello_reply_example :
    ∃ s0 s1, transportConnectedChanged exampleEnv true exampleClient = Except.ok s0
      ∧ QMap.contains s0.m_replies 1 = true
      ∧ handleDocument exampleEnv [("id", QVariant.int 1), ("status", QVariant.str "unauthorized")]
          s0 = Except.ok s1
      ∧ authenticationRequired s1 = false :=
  ⟨_, _, rfl, rfl, rfl, rfl⟩

/-- C12, amended: a received document with status "unauthorized" whose id matches a
pending record, the callback of which is not `helloReply` or
`processAuthenticate` of the client itself: the dispatch returns; afterwards the
held token is empty, the token read from the store under the server uuid is
empty (an empty entry is written when the uuid is not empty; the empty uuid has
no entry), `authenticated()` is false and `authenticationRequired()` is true; no
effect of the dispatch is a request to disconnect. -/
theorem unauthorized_reply_clears_token (env : Env) (dataMap : QVariantMap) (s : JsonRpcClient)
    (reply : JsonRpcReply)
    (htopic : QMap.contains dataMap "notification" = false)
    (hid : QMap.value? s.m_replies (dataMap.value "id").toInt = some reply)
    (hstatus : (dataMap.value "status").toQString = "unauthorized")
    (hcb : reply.m_caller = some QObjectRef.self →
      reply.m_callback ≠ "helloReply" ∧ reply.m_callback ≠ "processAuthenticate") :
    ∃ s', handleDocument env dataMap s = Except.ok s'
      ∧ s'.m_token = [] ∧ settingsValue s' s.m_serverUuid = []
      ∧ (s.m_serverUuid ≠ "" → QMap.value? s'.jsonTokens s.m_serverUuid = some [])
      ∧ authenticated s' = false ∧ authenticationRequired s' = true
      ∧ EffectsAdded keepsConnection s s' := by
  have hnoerr : ¬ ((dataMap.value "status").toQString = "error"
      ∧ reply.nameSpace = "JSONRPC" ∧ reply.method = "Hello") := by
    rw [hstatus]
    intro h
    exact absurd h.1 (by decide)
  have hdoc : handleDocument env dataMap s
      = forwardReply env reply (dataMap.value "id").toInt dataMap
          (unauthorized { s with m_replies := QMap.remove s.m_replies (dataMap.value "id").toInt }) := by
    simp only [handleDocument, htopic, Bool.false_eq_true, if_false, handleReply, QMap.take, hid,
      handleMatchedReply, hstatus, if_true]
    rw [if_neg (by rw [← hstatus]; exact hnoerr)]
  obtain ⟨s', h1, c1, e1⟩ := forwardReply_credentials env reply (dataMap.value "id").toInt dataMap
    (unauthorized { s with m_replies := QMap.remove s.m_replies (dataMap.value "id").toInt }) hcb
  rw [hdoc]
  refine ⟨s', h1, ?_⟩
  simp only [credentials, Prod.mk.injEq, unauthorized_m_token, unauthorized_jsonTokens,
    unauthorized_m_authenticated, unauthorized_m_authenticationRequired] at c1
  obtain ⟨c1, c2, c3, c4⟩ := c1
  refine ⟨c1, ?_, ?_, c3, ?_, ?_⟩
  · unfold settingsValue
    by_cases hu : s.m_serverUuid = ""
    · rw [if_pos hu]
    · rw [if_neg hu, c2, if_neg hu]
      exact QMap.value_insert_self _ _ _ _
  · intro hu
    rw [c2, if_neg hu]
    exact QMap.value?_insert_self _ _ _
  · simp [authenticationRequired, c1, c4]
  · refine EffectsAdded.trans (EffectsAdded.of_eq
      [Effect.emit Signal.authenticationRequiredChanged, Effect.emit Signal.authenticatedChanged]
      (by simp [unauthorized, emit]) ?_) e1
    intro e he
    simp only [List.mem_cons, List.mem_singleton, List.not_mem_nil, or_false] at he
    rcases he with rfl | rfl <;> (intro h; cases h)

/-- C12, witness: the call of object 7 of the example client in its session with
server "srv-1" is answered with status "unauthorized". -/
theorem unauthorized_reply_clears_token_witness :
    ∃ s', handleDocument exampleEnv [("id", QVariant.int 2), ("status", QVariant.str "unauthorized")]
          exampleCachePending = Except.ok s'
      ∧ s'.m_token = [] ∧ settingsValue s' "srv-1" = []
      ∧ QMap.value? s'.jsonTokens "srv-1" = some []
      ∧ authenticated s' = false ∧ authenticationRequired s' = true
      ∧ EffectsAdded keepsConnection exampleCachePending s' :=
  match unauthorized_reply_clears_token exampleEnv
    [("id", QVariant.int 2), ("status", QVariant.str "unauthorized")] exampleCachePending
    exampleReply rfl rfl rfl (fun h => by cases h) with
  | ⟨s', h1, h2, h3, h4, h5⟩ => ⟨s', h1, h2, h3, h4 (by decide), h5⟩

/-! ## C13: what a disconnect resets -/

theorem sendCommand_Hello_session (env : Env) (params : QVariantMap) (caller : Option QObjectRef)
    (callback : QString) (s : JsonRpcClient) :
    ∃ r, sendCommand env "JSONRPC.Hello" params caller callback s = Except.ok r
      ∧ session r.2 = session s ∧ r.2.m_token = s.m_token
      ∧ r.2.m_receiveBuffer = s.m_receiveBuffer := by
  cases hcache : cachedResponse env "JSONRPC.Hello" params { s with m_id := toInt32 (s.m_id + 1) } with
  | some cachedParams =>
    simp only [sendCommand, createReply_Hello, hcache]
    refine ⟨_, rfl, ?_⟩
    cases caller with
    | none => exact ⟨rfl, rfl, rfl⟩
    | some object =>
      simp only [JsonRpcReply.caller, JsonRpcReply.callback]
      split <;> exact ⟨rfl, rfl, rfl⟩
  | none =>
    simp only [sendCommand, createReply_Hello, hcache]
    refine ⟨_, rfl, ?_⟩
    simp only [sendRequest, sendData]
    split <;> exact ⟨rfl, rfl, rfl⟩

/-- C13, counterexample: the transport of a client in a session reports
disconnected; afterwards the client still holds the server uuid, the protocol
version, the permission scopes, the token and the cache-hash table of the
session; only the authenticated flag is reset. -/
theorem disconnect_keeps_session_example :
    (onInterfaceConnectedChanged exampleEnv false exampleSession).map
        (fun s' => (s'.m_serverUuid, s'.m_jsonRpcVersion, s'.m_permissionScopes, s'.m_token,
          s'.m_authenticated, s'.m_cacheHashes))
      = Except.ok ("srv-1", [6, 2], 1, "tok".toList, false, [("Things.GetThings", "h1")]) :=
  rfl

/-- C13, amended: when the transport reports disconnected, the slot returns with
the flags `m_initialSetupRequired`, `m_authenticationRequired`,
`m_authenticated` and `m_connected` false, the receive buffer and the two Qt
version strings empty; the server uuid, the protocol version, the permission
scopes, the cache-hash table, the user name and the token are left as they
were.  When the transport reports connected next (the connection having a
host), the buffer is emptied and the token is replaced by the one stored for
the host, the other values of the previous session are still held while the
Hello call goes out. -/
theorem disconnect_resets_flags (env : Env) (s : JsonRpcClient) :
    (∃ s', onInterfaceConnectedChanged env false s = Except.ok s'
      ∧ s'.m_initialSetupRequired = false ∧ s'.m_authenticationRequired = false
      ∧ s'.m_authenticated = false ∧ s'.m_connected = false ∧ s'.m_receiveBuffer = []
      ∧ s'.m_serverQtVersion = "" ∧ s'.m_serverQtBuildVersion = ""
      ∧ session s' = session s ∧ s'.m_token = s.m_token)
    ∧ (∀ host, s.m_connection.currentHost = some host →
      ∃ s', onInterfaceConnectedChanged env true s = Except.ok s'
        ∧ s'.m_receiveBuffer = [] ∧ s'.m_token = settingsValue s host.uuid.toQString
        ∧ session s' = session s) := by
  constructor
  · unfold onInterfaceConnectedChanged
    simp only [Bool.not_false, if_true]
    split
    · exact ⟨_, rfl, rfl, rfl, rfl, rfl, rfl, rfl, rfl, rfl, rfl⟩
    · rename_i hc
      refine ⟨_, rfl, rfl, rfl, rfl, ?_, rfl, rfl, rfl, rfl, rfl⟩
      simpa using hc
  · intro host hhost
    obtain ⟨r, hr, h1, h2, h3⟩ := sendCommand_Hello_session env
      (QMap.insert [] "locale" (QVariant.str env.localeName)) (some QObjectRef.self) "helloReply"
      { s with m_receiveBuffer := [], m_token := settingsValue s host.uuid.toQString }
    refine ⟨r.2, ?_, h3, h2, h1⟩
    simp only [onInterfaceConnectedChanged, Bool.not_true, Bool.false_eq_true, if_false, hhost]
    have hr' : sendCommand env "JSONRPC.Hello" (QMap.insert [] "locale" (QVariant.str env.localeName))
        (some QObjectRef.self) "helloReply"
        { s with m_receiveBuffer := [],
                 m_token := settingsValue { s with m_receiveBuffer := [] } host.uuid.toQString }
        = Except.ok r := hr
    rw [hr']

/-- C13, witness: the example client in a session is disconnected and connects
again. -/
theorem disconnect_resets_flags_witness :
    ∃ s', onInterfaceConnectedChanged exampleEnv true exampleSession = Except.ok s'
      ∧ s'.m_receiveBuffer = []
      ∧ s'.m_token = settingsValue exampleSession (QUuid.toQString QUuid.null)
      ∧ session s' = session exampleSession :=
  (disconnect_resets_flags exampleEnv exampleSession).2 ⟨QUuid.null⟩ rfl

/-! ## The response cache -/

/-! ### Only the end of the reply branch writes cache files -/

theorem sendRequest_cacheFiles (request : QVariantMap) (s : JsonRpcClient) :
    (sendRequest request s).cacheFiles = s.cacheFiles := by
  simp only [sendRequest, sendData]
  split <;> rfl

theorem setNotificationsEnabled_cacheFiles (s s' : JsonRpcClient)
    (h : setNotificationsEnabled s = Except.ok s') : s'.cacheFiles = s.cacheFiles := by
  unfold setNotificationsEnabled at h
  split at h
  · cases h
    rfl
  · simp only [createReply_SetNotificationStatus] at h
    cases h
    exact sendRequest_cacheFiles _ _

theorem getCloudConnectionStatus_cacheFiles (s s' : JsonRpcClient)
    (h : getCloudConnectionStatus s = Except.ok s') : s'.cacheFiles = s.cacheFiles := by
  simp only [getCloudConnectionStatus, createReply_IsCloudConnected] at h
  cases h
  exact sendRequest_cacheFiles _ _

theorem helloReplyNotifications_cacheFiles (s s' : JsonRpcClient)
    (h : helloReplyNotifications s = Except.ok s') : s'.cacheFiles = s.cacheFiles := by
  unfold helloReplyNotifications at h
  cases h1 : setNotificationsEnabled s with
  | error e => simp [h1] at h
  | ok s1 =>
    simp only [h1] at h
    exact (getCloudConnectionStatus_cacheFiles s1 s' h).trans
      (setNotificationsEnabled_cacheFiles s s1 h1)

theorem helloReplyAuthentication_cacheFiles (s s' : JsonRpcClient)
    (h : helloReplyAuthentication s = Except.ok s') : s'.cacheFiles = s.cacheFiles := by
  unfold helloReplyAuthentication at h
  split at h
  · cases h
    rfl
  · split at h
    · simp only [] at h
      split at h
      · cases h
        rfl
      · exact (helloReplyNotifications_cacheFiles _ s' h).trans rfl
    · exact helloReplyNotifications_cacheFiles s s' h

theorem helloReplySession_cacheFiles (env : Env) (params : QVariantMap) (s s' : JsonRpcClient)
    (h : helloReplySession env params s = Except.ok s') : s'.cacheFiles = s.cacheFiles := by
  cases hh : s.m_connection.currentHost with
  | none => simp [helloReplySession_of_no_host env params s hh] at h
  | some host =>
    rw [helloReplySession_of_host env params s host hh] at h
    exact (helloReplyAuthentication_cacheFiles _ s' h).trans
      (by simp [updateHostUuid, helloReplySessionFields, emit])

theorem helloReply_cacheFiles (env : Env) (commandId : Int) (params : QVariantMap)
    (s s' : JsonRpcClient) (h : helloReply env commandId params s = Except.ok s') :
    s'.cacheFiles = s.cacheFiles := by
  have key : ∀ s1 : JsonRpcClient, s1.cacheFiles = s.cacheFiles →
      helloReplySession env params s1 = Except.ok s' → s'.cacheFiles = s.cacheFiles := by
    intro s1 h1 hs
    exact (helloReplySession_cacheFiles env params s1 s' hs).trans h1
  unfold helloReply at h
  simp only [] at h
  split at h
  · cases h
    simp [emit, helloReplyFields]
  · split at h
    · cases h
      simp [emit, helloReplyFields]
    · split at h
      · split at h
        · exact key _ (by simp [storePem, emit, helloReplyFields]) h
        · split at h
          · cases h
            simp [emit, helloReplyFields, disconnectFromHost]
          · exact key _ (by simp [emit, helloReplyFields]) h
      · exact key _ (by simp [emit, helloReplyFields]) h

theorem processAuthenticate_cacheFiles (env : Env) (commandId : Int) (data : QVariantMap)
    (s s' : JsonRpcClient) (h : processAuthenticate env commandId data s = Except.ok s') :
    s'.cacheFiles = s.cacheFiles := by
  unfold processAuthenticate at h
  split at h
  · exact (setNotificationsEnabled_cacheFiles _ s' h).trans
      (by simp [processAuthenticateFields, emit])
  · cases h
    rfl

theorem notificationReceived_cacheFiles (env : Env) (data : QVariantMap) (s s' : JsonRpcClient)
    (h : notificationReceived env data s = Except.ok s') : s'.cacheFiles = s.cacheFiles := by
  unfold notificationReceived at h
  split at h
  · split at h
    · cases h
      rfl
    · simp only [] at h
      split at h
      · exact (setNotificationsEnabled_cacheFiles _ s' h).trans
          (by simp [pushButtonAuthFields, emit])
      · cases h
        rfl
  · split at h
    · cases h
      rfl
    · cases h
      rfl

theorem invokeSelf_cacheFiles (env : Env) (method : QString) (commandId : Int)
    (params : QVariantMap) (s s' : JsonRpcClient)
    (h : invokeSelf env method commandId params s = Except.ok s') :
    s'.cacheFiles = s.cacheFiles := by
  unfold invokeSelf at h
  split at h
  · exact helloReply_cacheFiles env commandId params s s' h
  split at h
  · exact processAuthenticate_cacheFiles env commandId params s s' h
  split at h
  · cases h
    unfold processCreateUser
    split <;> rfl
  split at h
  · cases h
    unfold processRequestPushButtonAuth
    split <;> rfl
  split at h
  · cases h
    unfold setNotificationsEnabledResponse
    split <;> rfl
  split at h
  · cases h
    rfl
  split at h
  · cases h
    rfl
  split at h
  · cases h
    rfl
  split at h
  · cases h
    unfold getVersionsReply
    simp only []
    split <;> rfl
  split at h
  · cases h
    rfl
  · cases h
    rfl

theorem invokeCallback_cacheFiles (env : Env) (object : QObjectRef) (method : QString)
    (commandId : Int) (params : QVariantMap) (s s' : JsonRpcClient)
    (h : invokeCallback env object method commandId params s = Except.ok s') :
    s'.cacheFiles = s.cacheFiles := by
  unfold invokeCallback at h
  cases object with
  | self => exact (invokeSelf_cacheFiles env method commandId params _ s' h).trans rfl
  | object id =>
    cases h
    rfl

theorem invokeNotificationHandler_cacheFiles (env : Env) (dataMap : QVariantMap)
    (handler : QObjectRef) (s s' : JsonRpcClient)
    (h : invokeNotificationHandler env dataMap s handler = Except.ok s') :
    s'.cacheFiles = s.cacheFiles := by
  unfold invokeNotificationHandler at h
  cases handler with
  | self =>
    simp only [] at h
    split at h
    · exact (notificationReceived_cacheFiles env dataMap _ s' h).trans rfl
    · cases h
      rfl
  | object id =>
    cases h
    rfl

theorem foldlM_handlers_cacheFiles (env : Env) (dataMap : QVariantMap) :
    ∀ (handlers : List QObjectRef) (s s' : JsonRpcClient),
      handlers.foldlM (invokeNotificationHandler env dataMap) s = Except.ok s' →
      s'.cacheFiles = s.cacheFiles := by
  intro handlers
  induction handlers with
  | nil =>
    intro s s' h
    cases h
    rfl
  | cons x xs ih =>
    intro s s' h
    simp only [List.foldlM_cons] at h
    cases h1 : invokeNotificationHandler env dataMap s x with
    | error e => simp [h1, bind, Except.bind] at h
    | ok s1 =>
      simp only [h1, bind, Except.bind] at h
      exact (ih s1 s' h).trans (invokeNotificationHandler_cacheFiles env dataMap x s s1 h1)

theorem handleNotification_cacheFiles (env : Env) (dataMap : QVariantMap) (s s' : JsonRpcClient)
    (h : handleNotification env dataMap s = Except.ok s') : s'.cacheFiles = s.cacheFiles := by
  unfold handleNotification at h
  simp only [] at h
  split at h
  · exact (foldlM_handlers_cacheFiles env dataMap _ _ s' h).trans (by simp [emit])
  · exact foldlM_handlers_cacheFiles env dataMap _ _ s' h

theorem sendCommand_cacheFiles (env : Env) (method : QString) (params : QVariantMap)
    (caller : Option QObjectRef) (callback : QString) (s : JsonRpcClient)
    (r : Int × JsonRpcClient)
    (h : sendCommand env method params caller callback s = Except.ok r) :
    r.2.cacheFiles = s.cacheFiles ∧ r.2.m_cacheHashes = s.m_cacheHashes := by
  rcases createReply_cases method params caller callback s with hc | ⟨ns, m, hc⟩
  · simp [sendCommand, hc] at h
  · cases hcache : cachedResponse env method params { s with m_id := toInt32 (s.m_id + 1) } with
    | some cachedParams =>
      simp only [sendCommand, hc, hcache] at h
      cases h
      cases caller with
      | none => exact ⟨rfl, rfl⟩
      | some object =>
        simp only [JsonRpcReply.caller, JsonRpcReply.callback]
        split <;> exact ⟨rfl, rfl⟩
    | none =>
      simp only [sendCommand, hc, hcache] at h
      cases h
      simp only [sendRequest, sendData]
      split <;> exact ⟨rfl, rfl⟩

/-! ### C14: a changed hash -/

/-- The name of a cache file determines the hash it was written under. -/
theorem cacheFileName_hash_injective (env : Env) (method : QString) (params : QVariantMap)
    (h1 h2 : QString)
    (h : cacheFileName env method params h1 = cacheFileName env method params h2) : h1 = h2 := by
  simp only [cacheFileName] at h
  have := congrArg String.data h
  simp only [String.data_append, List.append_assoc] at this
  exact String.ext (List.append_cancel_right
    (List.append_cancel_left (List.append_cancel_left (List.append_cancel_left
      (List.append_cancel_left this)))))

/-- The lookup of `sendCommand` reads no file but the one named after the call and
the current hash of the method. -/
theorem cachedResponse_remove (env : Env) (method : QString) (params : QVariantMap)
    (s : JsonRpcClient) (f : QString)
    (hf : f ≠ cacheFileName env method params (QMap.value s.m_cacheHashes method "")) :
    cachedResponse env method params { s with cacheFiles := QMap.remove s.cacheFiles f }
      = cachedResponse env method params s := by
  simp only [cachedResponse]
  rw [QMap.value?_remove_of_ne _ _ _ (Ne.symm hf)]

theorem createReply_cacheFiles (method : QString) (params : QVariantMap)
    (caller : Option QObjectRef) (callback : QString) (s : JsonRpcClient)
    (files : List (QString × QByteArray)) :
    createReply method params caller callback { s with cacheFiles := files }
      = ((createReply method params caller callback s).1,
          { (createReply method params caller callback s).2 with cacheFiles := files }) := by
  simp only [createReply]
  split <;> rfl

/-- A file other than the one named after the call and the current hash of the
method makes no difference to `sendCommand`. -/
theorem sendCommand_remove (env : Env) (method : QString) (params : QVariantMap)
    (caller : Option QObjectRef) (callback : QString) (s : JsonRpcClient) (f : QString)
    (hf : f ≠ cacheFileName env method params (QMap.value s.m_cacheHashes method "")) :
    sendCommand env method params caller callback
        { s with cacheFiles := QMap.remove s.cacheFiles f }
      = (sendCommand env method params caller callback s).map
          (fun r => (r.1, { r.2 with cacheFiles := QMap.remove s.cacheFiles f })) := by
  have hc := cachedResponse_remove env method params { s with m_id := toInt32 (s.m_id + 1) } f hf
  rcases createReply_cases method params caller callback s with h1 | ⟨ns, m, h1⟩
  · have h2 : createReply method params caller callback
        { s with cacheFiles := QMap.remove s.cacheFiles f }
        = (none, { s with cacheFiles := QMap.remove s.cacheFiles f }) := by
      rw [createReply_cacheFiles, h1]
    simp only [sendCommand, h1, h2]
    rfl
  · have h2 : createReply method params caller callback
        { s with cacheFiles := QMap.remove s.cacheFiles f }
        = (some ⟨toInt32 (s.m_id + 1), ns, m, params, caller, callback⟩,
          { s with cacheFiles := QMap.remove s.cacheFiles f, m_id := toInt32 (s.m_id + 1) }) := by
      rw [createReply_cacheFiles, h1]
    have hc' : cachedResponse env method params
        { s with cacheFiles := QMap.remove s.cacheFiles f, m_id := toInt32 (s.m_id + 1) }
        = cachedResponse env method params { s with m_id := toInt32 (s.m_id + 1) } := hc
    simp only [sendCommand, h1, h2, hc']
    cases cachedResponse env method params { s with m_id := toInt32 (s.m_id + 1) } with
    | some cachedParams =>
      simp only []
      cases caller with
      | none => rfl
      | some object =>
        simp only [JsonRpcReply.caller, JsonRpcReply.callback]
        split <;> rfl
    | none =>
      simp only [sendRequest, sendData]
      split <;> rfl

/-- The cache-hash table after `helloReply` is the one of before, when the reply is
turned down, or the one of the reply. -/
theorem helloReply_cacheHashes (env : Env) (commandId : Int) (params : QVariantMap)
    (s s' : JsonRpcClient) (h : helloReply env commandId params s = Except.ok s') :
    s'.m_cacheHashes = s.m_cacheHashes
      ∨ s'.m_cacheHashes = (params.value "cacheHashes").toList.foldl insertCacheHash [] := by
  have key : ∀ s1 : JsonRpcClient, helloReplySession env params s1 = Except.ok s' →
      s'.m_cacheHashes = (params.value "cacheHashes").toList.foldl insertCacheHash [] := by
    intro s1 hs
    exact ((helloReplySession_frame env params (fun _ => True) (fun _ _ => trivial) trivial trivial
      s1 s1 (EffectsAdded.refl _ s1)).1 s' hs).2.1
  unfold helloReply at h
  simp only [] at h
  split at h
  · cases h
    exact Or.inl (by simp [emit, helloReplyFields])
  · split at h
    · cases h
      exact Or.inl (by simp [emit, helloReplyFields])
    · split at h
      · split at h
        · exact Or.inr (key _ h)
        · split at h
          · cases h
            exact Or.inl (by simp [emit, helloReplyFields, disconnectFromHost])
          · exact Or.inr (key _ h)
      · exact Or.inr (key _ h)

/-! ### The store step -/

/-- What the store step does: it leaves the cache-hash table alone; it writes the
cache file of the record with the params of the reply when the method is in the
table and no file of that name exists, and leaves the cache files alone when
the method is not in the table or the file exists. -/
theorem storeInCache_eq (env : Env) (reply : JsonRpcReply) (dataMap : QVariantMap)
    (s : JsonRpcClient) :
    (storeInCache env reply dataMap s).m_cacheHashes = s.m_cacheHashes
    ∧ (QMap.contains s.m_cacheHashes (reply.m_nameSpace ++ "." ++ reply.m_method) = true →
        QMap.contains s.cacheFiles (cacheFileName env (reply.m_nameSpace ++ "." ++ reply.m_method)
          reply.m_params (QMap.value s.m_cacheHashes (reply.m_nameSpace ++ "." ++ reply.m_method) ""))
          = false →
        (storeInCache env reply dataMap s).cacheFiles
          = QMap.insert s.cacheFiles (cacheFileName env (reply.m_nameSpace ++ "." ++ reply.m_method)
              reply.m_params (QMap.value s.m_cacheHashes (reply.m_nameSpace ++ "." ++ reply.m_method) ""))
            (env.toJson (dataMap.value "params")))
    ∧ (QMap.contains s.m_cacheHashes (reply.m_nameSpace ++ "." ++ reply.m_method) = false →
        (storeInCache env reply dataMap s).cacheFiles = s.cacheFiles)
    ∧ (QMap.contains s.cacheFiles (cacheFileName env (reply.m_nameSpace ++ "." ++ reply.m_method)
          reply.m_params (QMap.value s.m_cacheHashes (reply.m_nameSpace ++ "." ++ reply.m_method) ""))
          = true →
        (storeInCache env reply dataMap s).cacheFiles = s.cacheFiles) := by
  refine ⟨?_, fun h1 h2 => ?_, fun h1 => ?_, fun h2 => ?_⟩
  · unfold storeInCache
    simp only []
    split
    · split <;> rfl
    · rfl
  · simp [storeInCache, JsonRpcReply.nameSpace, JsonRpcReply.method, JsonRpcReply.params, h1, h2]
  · simp [storeInCache, JsonRpcReply.nameSpace, JsonRpcReply.method, h1]
  · unfold storeInCache
    simp only [JsonRpcReply.nameSpace, JsonRpcReply.method, JsonRpcReply.params]
    split
    · simp [h2]
    · rfl

/-- The store step leaves every existing cache file as it is. -/
theorem storeInCache_keeps (env : Env) (reply : JsonRpcReply) (dataMap : QVariantMap)
    (s : JsonRpcClient) (f : QString) (c : QByteArray)
    (hf : QMap.value? s.cacheFiles f = some c) :
    QMap.value? (storeInCache env reply dataMap s).cacheFiles f = some c := by
  unfold storeInCache
  simp only []
  split
  · split
    · rename_i hnew
      have hne : f ≠ cacheFileName env (reply.nameSpace ++ "." ++ reply.method) reply.params
          (QMap.value s.m_cacheHashes (reply.nameSpace ++ "." ++ reply.method) "") := by
        intro heq
        rw [← heq] at hnew
        simp [QMap.contains, hf] at hnew
      simp only []
      rw [QMap.value?_insert_of_ne _ _ _ _ hne]
      exact hf
    · exact hf
  · exact hf

/-- Forwarding a reply: whatever the callback does, the cache files are those of
before when the store step begins; a callback of another object leaves the
cache-hash table alone as well. -/
theorem forwardReply_store (env : Env) (reply : JsonRpcReply) (commandId : Int)
    (dataMap : QVariantMap) (s s' : JsonRpcClient)
    (h : forwardReply env reply commandId dataMap s = Except.ok s') :
    ∃ s1, s' = storeInCache env reply dataMap s1 ∧ s1.cacheFiles = s.cacheFiles
      ∧ (reply.m_caller ≠ some QObjectRef.self → s1.m_cacheHashes = s.m_cacheHashes) := by
  unfold forwardReply at h
  simp only [] at h
  cases hc : reply.caller with
  | none =>
    simp only [hc] at h
    cases h
    exact ⟨_, rfl, rfl, fun _ => rfl⟩
  | some object =>
    simp only [hc] at h
    by_cases hcb : reply.callback ≠ ""
    · rw [if_pos hcb] at h
      cases h1 : invokeCallback env object reply.callback commandId (dataMap.value "params").toMap s with
      | error e => simp [h1] at h
      | ok s1 =>
        simp only [h1] at h
        cases h
        refine ⟨_, rfl, invokeCallback_cacheFiles env object _ commandId _ s s1 h1, fun hself => ?_⟩
        cases object with
        | self => exact absurd hc hself
        | object id =>
          simp only [invokeCallback] at h1
          cases h1
          rfl
    · rw [if_neg hcb] at h
      cases h
      exact ⟨_, rfl, rfl, fun _ => rfl⟩

/-- The reply branch after the record has been taken out of the table: the same. -/
theorem handleMatchedReply_store (env : Env) (reply : JsonRpcReply) (commandId : Int)
    (dataMap : QVariantMap) (s s' : JsonRpcClient)
    (h : handleMatchedReply env reply commandId dataMap s = Except.ok s') :
    ∃ s1, s' = storeInCache env reply dataMap s1 ∧ s1.cacheFiles = s.cacheFiles
      ∧ (reply.m_caller ≠ some QObjectRef.self → s1.m_cacheHashes = s.m_cacheHashes) := by
  have hun : (if (dataMap.value "status").toQString = "unauthorized" then unauthorized s
      else s).cacheFiles = s.cacheFiles
      ∧ (if (dataMap.value "status").toQString = "unauthorized" then unauthorized s
      else s).m_cacheHashes = s.m_cacheHashes := by
    split
    · simp [unauthorized, emit]
    · exact ⟨rfl, rfl⟩
  unfold handleMatchedReply at h
  simp only [] at h
  generalize (if (dataMap.value "status").toQString = "unauthorized" then unauthorized s else s) = S
    at h hun
  split at h
  · cases hr : sendCommand env "JSONRPC.Hello" [] (some QObjectRef.self) "helloReply"
        { S with m_id := 0 } with
    | error e => simp [hr] at h
    | ok r =>
      simp only [hr] at h
      obtain ⟨s1, h1, h2, h3⟩ := forwardReply_store env reply commandId dataMap r.2 s' h
      have hr2 := sendCommand_cacheFiles env _ _ _ _ _ r hr
      exact ⟨s1, h1, h2.trans (hr2.1.trans hun.1),
        fun hself => (h3 hself).trans (hr2.2.trans hun.2)⟩
  · obtain ⟨s1, h1, h2, h3⟩ := forwardReply_store env reply commandId dataMap S s' h
    exact ⟨s1, h1, h2.trans hun.1, fun hself => (h3 hself).trans hun.2⟩

/-- The dispatch of a document whose id matches a pending record. -/
theorem handleDocument_matched (env : Env) (dataMap : QVariantMap) (s : JsonRpcClient)
    (reply : JsonRpcReply) (htopic : QMap.contains dataMap "notification" = false)
    (hid : QMap.value? s.m_replies (dataMap.value "id").toInt = some reply) :
    handleDocument env dataMap s
      = handleMatchedReply env reply (dataMap.value "id").toInt dataMap
          { s with m_replies := QMap.remove s.m_replies (dataMap.value "id").toInt } := by
  simp only [handleDocument, htopic, Bool.false_eq_true, if_false, handleReply, QMap.take, hid]

/-- The dispatch of any document leaves every existing cache file as it is. -/
theorem handleDocument_keeps (env : Env) (dataMap : QVariantMap) (s s' : JsonRpcClient)
    (f : QString) (c : QByteArray) (hf : QMap.value? s.cacheFiles f = some c)
    (h : handleDocument env dataMap s = Except.ok s') :
    QMap.value? s'.cacheFiles f = some c := by
  unfold handleDocument at h
  split at h
  · rw [handleNotification_cacheFiles env dataMap s s' h]
    exact hf
  · unfold handleReply at h
    simp only [QMap.take] at h
    cases hv : QMap.value? s.m_replies (dataMap.value "id").toInt with
    | none =>
      simp only [hv] at h
      cases h
      exact hf
    | some reply =>
      simp only [hv] at h
      obtain ⟨s1, h1, h2, -⟩ := handleMatchedReply_store env reply _ dataMap _ s' h
      rw [h1]
      exact storeInCache_keeps env reply dataMap s1 f c (by rw [h2]; exact hf)

/-! ### C15: when a cache file is written -/

/-- C15, counterexample: the server advertises a hash for `Things.GetThings`, the
call of object 7 is pending and nothing is cached; the reply has status
"error" (or "unauthorized") and no params: the cache file of the call is
written all the same. -/
theorem error_reply_is_cached_example :
    QMap.contains exampleCachePending.cacheFiles exampleCacheFile = false
      ∧ (handleDocument exampleEnv [("id", QVariant.int 2), ("status", QVariant.str "error")]
          exampleCachePending).map (fun s' => QMap.contains s'.cacheFiles exampleCacheFile)
          = Except.ok true
      ∧ (handleDocument exampleEnv [("id", QVariant.int 2), ("status", QVariant.str "unauthorized")]
          exampleCachePending).map (fun s' => QMap.contains s'.cacheFiles exampleCacheFile)
          = Except.ok true :=
  ⟨rfl, rfl, rfl⟩

/-- C15, amended: a received document whose id matches a pending record, whatever
its status: the dispatch returns (for a callback of the client itself, when the
connection has a host); a callback of another object leaves the cache-hash
table as it was; with the table as it stands after the callback, the cache
file of the call (named after the method, the params, the locale and the hash
of the method) is written with the params of the reply when the method is in
the table and no file of that name exists, and the cache files are unchanged
when the method is not in the table or the file exists. -/
theorem cache_written_whatever_status (env : Env) (dataMap : QVariantMap) (s : JsonRpcClient)
    (reply : JsonRpcReply)
    (htopic : QMap.contains dataMap "notification" = false)
    (hid : QMap.value? s.m_replies (dataMap.value "id").toInt = some reply)
    (hhost : reply.m_caller = some QObjectRef.self → ∃ host, s.m_connection.currentHost = some host) :
    ∃ s', handleDocument env dataMap s = Except.ok s'
      ∧ (reply.m_caller ≠ some QObjectRef.self → s'.m_cacheHashes = s.m_cacheHashes)
      ∧ (QMap.contains s'.m_cacheHashes (reply.m_nameSpace ++ "." ++ reply.m_method) = true →
          QMap.contains s.cacheFiles (cacheFileName env (reply.m_nameSpace ++ "." ++ reply.m_method)
            reply.m_params (QMap.value s'.m_cacheHashes (reply.m_nameSpace ++ "." ++ reply.m_method) ""))
            = false →
          s'.cacheFiles
            = QMap.insert s.cacheFiles (cacheFileName env (reply.m_nameSpace ++ "." ++ reply.m_method)
                reply.m_params
                (QMap.value s'.m_cacheHashes (reply.m_nameSpace ++ "." ++ reply.m_method) ""))
              (env.toJson (dataMap.value "params")))
      ∧ (QMap.contains s'.m_cacheHashes (reply.m_nameSpace ++ "." ++ reply.m_method) = false →
          s'.cacheFiles = s.cacheFiles)
      ∧ (QMap.contains s.cacheFiles (cacheFileName env (reply.m_nameSpace ++ "." ++ reply.m_method)
            reply.m_params (QMap.value s'.m_cacheHashes (reply.m_nameSpace ++ "." ++ reply.m_method) ""))
            = true →
          s'.cacheFiles = s.cacheFiles) := by
  rw [handleDocument_matched env dataMap s reply htopic hid]
  obtain ⟨s', hs'⟩ := handleMatchedReply_returns env reply (dataMap.value "id").toInt dataMap
    { s with m_replies := QMap.remove s.m_replies (dataMap.value "id").toInt } hhost
  obtain ⟨s1, h1, h2, h3⟩ := handleMatchedReply_store env reply _ dataMap _ s' hs'
  have h2' : s1.cacheFiles = s.cacheFiles := h2
  obtain ⟨e1, e2, e3, e4⟩ := storeInCache_eq env reply dataMap s1
  refine ⟨s', hs', fun hself => ?_, ?_, ?_, ?_⟩
  · rw [h1, e1]
    exact h3 hself
  · rw [h1, e1, ← h2']
    exact e2
  · rw [h1, e1, ← h2']
    exact e3
  · rw [h1, e1, ← h2']
    exact e4

/-- C15, witness: the error reply of the counterexample. -/
theorem cache_written_whatever_status_witness :
    ∃ s', handleDocument exampleEnv [("id", QVariant.int 2), ("status", QVariant.str "error")]
          exampleCachePending = Except.ok s'
      ∧ (exampleReply.m_caller ≠ some QObjectRef.self →
          s'.m_cacheHashes = exampleCachePending.m_cacheHashes)
      ∧ (QMap.contains s'.m_cacheHashes (exampleReply.m_nameSpace ++ "." ++ exampleReply.m_method)
            = true →
          QMap.contains exampleCachePending.cacheFiles
            (cacheFileName exampleEnv (exampleReply.m_nameSpace ++ "." ++ exampleReply.m_method)
              exampleReply.m_params
              (QMap.value s'.m_cacheHashes (exampleReply.m_nameSpace ++ "." ++ exampleReply.m_method) ""))
            = false →
          s'.cacheFiles
            = QMap.insert exampleCachePending.cacheFiles
                (cacheFileName exampleEnv (exampleReply.m_nameSpace ++ "." ++ exampleReply.m_method)
                  exampleReply.m_params
                  (QMap.value s'.m_cacheHashes
                    (exampleReply.m_nameSpace ++ "." ++ exampleReply.m_method) ""))
              (exampleEnv.toJson (QVariantMap.value
                [("id", QVariant.int 2), ("status", QVariant.str "error")] "params")))
      ∧ (QMap.contains s'.m_cacheHashes (exampleReply.m_nameSpace ++ "." ++ exampleReply.m_method)
            = false →
          s'.cacheFiles = exampleCachePending.cacheFiles)
      ∧ (QMap.contains exampleCachePending.cacheFiles
            (cacheFileName exampleEnv (exampleReply.m_nameSpace ++ "." ++ exampleReply.m_method)
              exampleReply.m_params
              (QMap.value s'.m_cacheHashes (exampleReply.m_nameSpace ++ "." ++ exampleReply.m_method) ""))
            = true →
          s'.cacheFiles = exampleCachePending.cacheFiles) :=
  cache_written_whatever_status exampleEnv [("id", QVariant.int 2), ("status", QVariant.str "error")]
    exampleCachePending exampleReply rfl rfl (fun h => by cases h)

/-! ### C16: first writer wins -/

/-- C16: a received document whose id matches a pending record, whatever its
payload: the dispatch returns (for a callback of the client itself, when the
connection has a host) and every cache file that existed before, in particular
the one of the call under the current hash of its method, has the content it
had. -/
theorem cache_file_never_overwritten (env : Env) (dataMap : QVariantMap) (s : JsonRpcClient)
    (reply : JsonRpcReply) (f : QString) (c : QByteArray)
    (htopic : QMap.contains dataMap "notification" = false)
    (hid : QMap.value? s.m_replies (dataMap.value "id").toInt = some reply)
    (hhost : reply.m_caller = some QObjectRef.self → ∃ host, s.m_connection.currentHost = some host)
    (hf : QMap.value? s.cacheFiles f = some c) :
    ∃ s', handleDocument env dataMap s = Except.ok s' ∧ QMap.value? s'.cacheFiles f = some c := by
  have hret : ∃ s', handleDocument env dataMap s = Except.ok s' := by
    rw [handleDocument_matched env dataMap s reply htopic hid]
    exact handleMatchedReply_returns env reply (dataMap.value "id").toInt dataMap
      { s with m_replies := QMap.remove s.m_replies (dataMap.value "id").toInt } hhost
  obtain ⟨s', hs'⟩ := hret
  exact ⟨s', hs', handleDocument_keeps env dataMap s s' f c hf hs'⟩

/-- C16, witness: the payload of `Things.GetThings` is cached and a reply to the
same call arrives with another payload. -/
theorem cache_file_never_overwritten_witness :
    ∃ s', handleDocument exampleEnv [("id", QVariant.int 2), ("status", QVariant.str "success"),
          ("params", QVariant.map [("things", QVariant.list [QVariant.int 1])])]
          exampleCachedPending = Except.ok s'
      ∧ QMap.value? s'.cacheFiles exampleCacheFile = some "\x7b\"things\":[]\x7d".toList :=
  cache_file_never_overwritten exampleEnv [("id", QVariant.int 2), ("status", QVariant.str "success"),
      ("params", QVariant.map [("things", QVariant.list [QVariant.int 1])])]
    exampleCachedPending exampleReply exampleCacheFile _ rfl rfl (fun h => by cases h) rfl

/-! ### C17: a cache hit -/

/-- A cache hit of `sendCommand`, as an equation: the identifier is handed out and
the calls are posted, nothing else changes. -/
theorem sendCommand_of_hit (env : Env) (method : QString) (params : QVariantMap)
    (caller : Option QObjectRef) (callback : QString) (s : JsonRpcClient) (payload : QVariantMap)
    (hparts : (QString.split method '.').length = 2)
    (hhit : cachedResponse env method params s = some payload) :
    sendCommand env method params caller callback s
      = Except.ok (toInt32 (s.m_id + 1),
          { s with m_id := toInt32 (s.m_id + 1),
                   eventQueue := s.eventQueue
                     ++ cacheHitCalls caller callback (toInt32 (s.m_id + 1)) payload }) := by
  have hhit' : cachedResponse env method params { s with m_id := toInt32 (s.m_id + 1) }
      = some payload := hhit
  rcases createReply_cases method params caller callback s with hc | ⟨ns, m, hc⟩
  · simp [createReply, hparts] at hc
  · simp only [sendCommand, hc, hhit']
    cases caller with
    | none => rfl
    | some object =>
      simp only [JsonRpcReply.caller, JsonRpcReply.callback, JsonRpcReply.commandId]
      by_cases hcb : callback ≠ ""
      · rw [if_pos hcb]
        simp only [post, cacheHitCalls, if_pos hcb, List.append_assoc]
      · rw [if_neg hcb]
        simp only [post, cacheHitCalls, if_neg hcb, List.nil_append]

/-- C17: `sendCommand` for a method of two parts whose cached payload is found: the
call returns the next identifier, which the counter then holds (one more than
before, while the counter is below the largest `int`); nothing is handed to the
connection, no callback is invoked (the effects are unchanged), no record is
added to the pending table; the callback, with the identifier and the cached
payload, is only posted to the event queue, followed by `responseReceived`. -/
theorem sendCommand_cache_hit (env : Env) (method : QString) (params : QVariantMap)
    (caller : Option QObjectRef) (callback : QString) (s : JsonRpcClient) (payload : QVariantMap)
    (hparts : (QString.split method '.').length = 2)
    (hhit : cachedResponse env method params s = some payload) :
    ∃ s', sendCommand env method params caller callback s = Except.ok (toInt32 (s.m_id + 1), s')
      ∧ s'.m_id = toInt32 (s.m_id + 1)
      ∧ (0 ≤ s.m_id → s.m_id < 2147483647 → s'.m_id = s.m_id + 1)
      ∧ s'.effects = s.effects ∧ s'.m_replies = s.m_replies
      ∧ s'.eventQueue = s.eventQueue
          ++ cacheHitCalls caller callback (toInt32 (s.m_id + 1)) payload := by
  have hrange : 0 ≤ s.m_id → s.m_id < 2147483647 → toInt32 (s.m_id + 1) = s.m_id + 1 :=
    fun h0 h1 => toInt32_of_range _ (by omega) (by omega)
  rw [sendCommand_of_hit env method params caller callback s payload hparts hhit]
  exact ⟨_, rfl, rfl, hrange, rfl, rfl, rfl⟩

/-- C17, witness: object 7 calls `Things.GetThings` on the example client that has
the payload cached. -/
theorem sendCommand_cache_hit_witness :
    ∃ s', sendCommand exampleEnv "Things.GetThings" [] (some (QObjectRef.object 7)) "getThingsReply"
          exampleCached = Except.ok (toInt32 (exampleCached.m_id + 1), s')
      ∧ s'.m_id = toInt32 (exampleCached.m_id + 1)
      ∧ (0 ≤ exampleCached.m_id → exampleCached.m_id < 2147483647 →
          s'.m_id = exampleCached.m_id + 1)
      ∧ s'.effects = exampleCached.effects ∧ s'.m_replies = exampleCached.m_replies
      ∧ s'.eventQueue = exampleCached.eventQueue
          ++ cacheHitCalls (some (QObjectRef.object 7)) "getThingsReply"
              (toInt32 (exampleCached.m_id + 1)) [("things", QVariant.list [])] :=
  sendCommand_cache_hit exampleEnv "Things.GetThings" [] (some (QObjectRef.object 7))
    "getThingsReply" exampleCached [("things", QVariant.list [])] rfl rfl

/-! ### C18: the file name at store and at lookup -/

theorem splitAux_ne_nil (sep : Char) (l cur : List Char) : splitAux sep l cur ≠ [] := by
  induction l generalizing cur with
  | nil => simp [splitAux]
  | cons c cs ih =>
    simp only [splitAux]
    split
    · simp
    · exact ih _

theorem splitAux_single (sep : Char) (l cur b : List Char) (h : splitAux sep l cur = [b]) :
    b = cur ++ l := by
  induction l generalizing cur with
  | nil =>
    simp only [splitAux, List.cons.injEq, and_true] at h
    simp [h]
  | cons c cs ih =>
    simp only [splitAux] at h
    split at h
    · simp only [List.cons.injEq] at h
      exact absurd h.2 (splitAux_ne_nil sep cs [])
    · rw [ih _ h]
      simp

/-- A text that splits into two parts is the first part, the separator and the
second part. -/
theorem splitAux_pair (sep : Char) (l cur a b : List Char) (h : splitAux sep l cur = [a, b]) :
    a ++ sep :: b = cur ++ l := by
  induction l generalizing cur with
  | nil => simp [splitAux] at h
  | cons c cs ih =>
    simp only [splitAux] at h
    split at h
    · rename_i hc
      simp only [List.cons.injEq] at h
      rw [h.1.symm, splitAux_single sep cs [] b h.2, hc]
      simp
    · rw [ih _ h]
      simp

/-- The record `createReply` builds for a method holds its two parts: joined with
a dot they are the method. -/
theorem createReply_record (method : QString) (params : QVariantMap) (caller : Option QObjectRef)
    (callback : QString) (t : JsonRpcClient) (reply : JsonRpcReply)
    (h : (createReply method params caller callback t).1 = some reply) :
    (QString.split method '.').length = 2
      ∧ reply.m_nameSpace ++ "." ++ reply.m_method = method ∧ reply.m_params = params := by
  simp only [createReply] at h
  split at h
  · cases h
  · rename_i hlen
    have hlen2 : (QString.split method '.').length = 2 := by
      by_contra hne
      exact hlen hne
    simp only [Option.some.injEq] at h
    subst h
    refine ⟨hlen2, ?_, rfl⟩
    simp only [QString.split, List.length_map] at hlen2
    obtain ⟨a, b, hab⟩ := List.length_eq_two.mp hlen2
    have hjoin := splitAux_pair '.' method.toList [] a b hab
    simp only [QString.split, hab, List.map_cons, List.map_nil, List.headD_cons, List.getLastD]
    apply String.ext
    simp only [String.data_append]
    simpa using hjoin

/-- C18: the pending record of a call made by `createReply` for a method and
params, and a received document whose id matches it.  The name of the cache
file computed from the record equals, for every hash, the name `sendCommand`
computes for the method and the params.  The dispatch returns (for a callback
of the client itself, when the connection has a host); if afterwards the
cache-hash table holds a hash for the method, no file of the call's name
existed under that hash, and the parser reads back the params the printer
wrote, then every later `sendCommand` for the same method and params is a
cache hit: nothing is sent, no record is added, and the callback is queued
with the payload of the reply. -/
theorem stored_reply_is_cache_hit (env : Env) (method : QString) (params : QVariantMap)
    (dataMap : QVariantMap) (s : JsonRpcClient) (reply : JsonRpcReply) (v : QVariant)
    (htopic : QMap.contains dataMap "notification" = false)
    (hid : QMap.value? s.m_replies (dataMap.value "id").toInt = some reply)
    (hhost : reply.m_caller = some QObjectRef.self → ∃ host, s.m_connection.currentHost = some host)
    (hrec : ∃ t, (createReply method params reply.m_caller reply.m_callback t).1 = some reply)
    (hround : env.fromJson (env.toJson (dataMap.value "params")) = some v)
    (hv : v.toMap = (dataMap.value "params").toMap) :
    (∀ hash, cacheFileName env (reply.m_nameSpace ++ "." ++ reply.m_method) reply.m_params hash
        = cacheFileName env method params hash)
    ∧ ∃ s', handleDocument env dataMap s = Except.ok s'
      ∧ ∀ hash, QMap.value? s'.m_cacheHashes method = some hash →
          QMap.contains s.cacheFiles (cacheFileName env method params hash) = false →
          ∀ caller callback, ∃ s'',
            sendCommand env method params caller callback s'
              = Except.ok (toInt32 (s'.m_id + 1), s'')
            ∧ s''.effects = s'.effects ∧ s''.m_replies = s'.m_replies
            ∧ s''.eventQueue = s'.eventQueue
                ++ cacheHitCalls caller callback (toInt32 (s'.m_id + 1))
                    (dataMap.value "params").toMap := by
  obtain ⟨t, ht⟩ := hrec
  obtain ⟨hparts, hname, hparams⟩ := createReply_record method params _ _ t reply ht
  refine ⟨fun hash => by rw [hname, hparams], ?_⟩
  rw [handleDocument_matched env dataMap s reply htopic hid]
  obtain ⟨s', hs'⟩ := handleMatchedReply_returns env reply (dataMap.value "id").toInt dataMap
    { s with m_replies := QMap.remove s.m_replies (dataMap.value "id").toInt } hhost
  obtain ⟨s1, h1, h2, -⟩ := handleMatchedReply_store env reply _ dataMap _ s' hs'
  have h2' : s1.cacheFiles = s.cacheFiles := h2
  obtain ⟨e1, e2, -, -⟩ := storeInCache_eq env reply dataMap s1
  refine ⟨s', hs', fun hash htable hnew caller callback => ?_⟩
  have ht1 : QMap.value? s1.m_cacheHashes method = some hash := by
    rw [← e1, ← h1]
    exact htable
  have hval : QMap.value s1.m_cacheHashes method "" = hash := by simp [QMap.value, ht1]
  have hcont : QMap.contains s1.m_cacheHashes method = true := by simp [QMap.contains, ht1]
  rw [hname, hparams, hval, h2'] at e2
  have hfiles : s'.cacheFiles = QMap.insert s.cacheFiles (cacheFileName env method params hash)
      (env.toJson (dataMap.value "params")) := by
    rw [h1]
    exact e2 hcont hnew
  have hhit : cachedResponse env method params s' = some (dataMap.value "params").toMap := by
    have hc' : QMap.contains s'.m_cacheHashes method = true := by simp [QMap.contains, htable]
    have hv' : QMap.value s'.m_cacheHashes method "" = hash := by simp [QMap.value, htable]
    simp only [cachedResponse, hc', if_true, hv', hfiles, QMap.value?_insert_self, hround,
      Option.map_some', hv]
  rw [sendCommand_of_hit env method params caller callback s' (dataMap.value "params").toMap
    hparts hhit]
  exact ⟨_, rfl, rfl, rfl, rfl⟩

/-- C18, witness: the call `Things.GetThings` of object 7 is pending, the server
advertises hash "h1" for it and nothing is cached; the reply carries an empty
list of things. -/
theorem stored_reply_is_cache_hit_witness :
    (∀ hash, cacheFileName examplePrinterEnv (exampleReply.m_nameSpace ++ "." ++ exampleReply.m_method)
        exampleReply.m_params hash = cacheFileName examplePrinterEnv "Things.GetThings" [] hash)
    ∧ ∃ s', handleDocument examplePrinterEnv [("id", QVariant.int 2),
          ("status", QVariant.str "success"), ("params", QVariant.map [("things", QVariant.list [])])]
          exampleCachePending = Except.ok s'
      ∧ ∀ hash, QMap.value? s'.m_cacheHashes "Things.GetThings" = some hash →
          QMap.contains exampleCachePending.cacheFiles
            (cacheFileName examplePrinterEnv "Things.GetThings" [] hash) = false →
          ∀ caller callback, ∃ s'',
            sendCommand examplePrinterEnv "Things.GetThings" [] caller callback s'
              = Except.ok (toInt32 (s'.m_id + 1), s'')
            ∧ s''.effects = s'.effects ∧ s''.m_replies = s'.m_replies
            ∧ s''.eventQueue = s'.eventQueue
                ++ cacheHitCalls caller callback (toInt32 (s'.m_id + 1))
                    (QVariantMap.value [("id", QVariant.int 2), ("status", QVariant.str "success"),
                      ("params", QVariant.map [("things", QVariant.list [])])] "params").toMap :=
  stored_reply_is_cache_hit examplePrinterEnv "Things.GetThings" []
    [("id", QVariant.int 2), ("status", QVariant.str "success"),
      ("params", QVariant.map [("things", QVariant.list [])])]
    exampleCachePending exampleReply (QVariant.map [("things", QVariant.list [])])
    rfl rfl (fun h => by cases h) ⟨{ exampleClient with m_id := 1 }, rfl⟩ rfl rfl

/-! ## C19 and C20: the registry of notification handlers -/

theorem setNotificationsEnabled_registry (s : JsonRpcClient) :
    ∃ s', setNotificationsEnabled s = Except.ok s'
      ∧ s'.m_notificationHandlers = s.m_notificationHandlers
      ∧ s'.m_notificationHandlerMethods = s.m_notificationHandlerMethods := by
  unfold setNotificationsEnabled
  split
  · exact ⟨_, rfl, rfl, rfl⟩
  · simp only [createReply_SetNotificationStatus]
    refine ⟨_, rfl, ?_⟩
    simp only [sendRequest, sendData]
    split <;> exact ⟨rfl, rfl⟩

theorem unregisterNotificationHandler_registry (handler : QObjectRef) (s : JsonRpcClient) :
    ∃ s', unregisterNotificationHandler handler s = Except.ok s'
      ∧ s'.m_notificationHandlers
          = s.m_notificationHandlers.filter (fun e => decide (e.2 ≠ handler))
      ∧ s'.m_notificationHandlerMethods = QMap.remove s.m_notificationHandlerMethods handler := by
  obtain ⟨s', h1, h2, h3⟩ := setNotificationsEnabled_registry
    { s with m_notificationHandlers :=
               s.m_notificationHandlers.filter (fun e => decide (e.2 ≠ handler)),
             m_notificationHandlerMethods := QMap.remove s.m_notificationHandlerMethods handler }
  exact ⟨s', h1, h2, h3⟩

/-- C20: `unregisterNotificationHandler` returns; afterwards the handler has no
entry in the registry and no callback method, while the entries of every other
handler, in their order, and its callback method are as before. -/
theorem unregister_removes_only_handler (handler : QObjectRef) (s : JsonRpcClient) :
    ∃ s', unregisterNotificationHandler handler s = Except.ok s'
      ∧ (∀ nameSpace, (nameSpace, handler) ∉ s'.m_notificationHandlers)
      ∧ QMap.value? s'.m_notificationHandlerMethods handler = none
      ∧ ∀ other, other ≠ handler →
          s'.m_notificationHandlers.filter (fun e => decide (e.2 = other))
            = s.m_notificationHandlers.filter (fun e => decide (e.2 = other))
          ∧ QMap.value? s'.m_notificationHandlerMethods other
            = QMap.value? s.m_notificationHandlerMethods other := by
  obtain ⟨s', h1, h2, h3⟩ := unregisterNotificationHandler_registry handler s
  refine ⟨s', h1, fun nameSpace hmem => ?_, ?_, fun other hne => ⟨?_, ?_⟩⟩
  · rw [h2] at hmem
    have := (List.mem_filter.mp hmem).2
    simp at this
  · rw [h3]
    exact QMap.value?_remove_self _ _
  · rw [h2, List.filter_filter]
    apply List.filter_congr
    intro e _
    by_cases he : e.2 = other
    · simp [he, hne]
    · simp [he]
  · rw [h3]
    exact QMap.value?_remove_of_ne _ _ _ hne

/-- C20, witness: object 7 is unregistered on the example client where it is
registered for "Things"; the registration of the client itself stays. -/
theorem unregister_removes_only_handler_witness :
    ∃ s', unregisterNotificationHandler (QObjectRef.object 7) exampleRegistered = Except.ok s'
      ∧ (∀ nameSpace, (nameSpace, QObjectRef.object 7) ∉ s'.m_notificationHandlers)
      ∧ QMap.value? s'.m_notificationHandlerMethods (QObjectRef.object 7) = none
      ∧ s'.m_notificationHandlers.filter (fun e => decide (e.2 = QObjectRef.self))
          = exampleRegistered.m_notificationHandlers.filter (fun e => decide (e.2 = QObjectRef.self))
      ∧ QMap.value? s'.m_notificationHandlerMethods QObjectRef.self
          = QMap.value? exampleRegistered.m_notificationHandlerMethods QObjectRef.self :=
  (unregister_removes_only_handler (QObjectRef.object 7) exampleRegistered).imp
    (fun _ h => ⟨h.1, h.2.1, h.2.2.1, h.2.2.2 QObjectRef.self (by decide)⟩)

/-! ## C21: delivery of notifications -/

/-- The text before the first dot of a topic is the first part `split` returns. -/
theorem splitAux_head (sep : Char) (a rest cur : List Char) (ha : sep ∉ a) :
    splitAux sep (a ++ sep :: rest) cur = (cur ++ a) :: splitAux sep rest [] := by
  induction a generalizing cur with
  | nil => simp [splitAux]
  | cons c cs ih =>
    have hc : c ≠ sep := fun h => ha (by simp [h])
    have hcs : sep ∉ cs := fun h => ha (List.mem_cons_of_mem c h)
    rw [List.cons_append, splitAux, if_neg hc, ih _ hcs]
    simp

theorem sentMethods_append (l1 l2 : List Effect) :
    sentMethods (l1 ++ l2) = sentMethods l1 ++ sentMethods l2 := by
  simp [sentMethods, List.filterMap_append]

theorem sentMethods_emit (l : List Effect) (signal : Signal) :
    sentMethods (l ++ [Effect.emit signal]) = sentMethods l := by
  simp [sentMethods, List.filterMap_append]

theorem sentMethods_issued (reply : JsonRpcReply) (s : JsonRpcClient) :
    sentMethods (issued reply s).effects
      = sentMethods s.effects ++ [reply.m_nameSpace ++ "." ++ reply.m_method] := by
  have hm : (QVariantMap.value (QMap.insert reply.requestMap "token" (QVariant.bytes s.m_token))
      "method") = QVariant.str (reply.m_nameSpace ++ "." ++ reply.m_method) := by
    rw [← requestMap_method reply]
    simp only [QVariantMap.value, QMap.value]
    rw [QMap.value?_insert_of_ne _ _ _ _ (by decide)]
  simp only [issued, sentMethods_append]
  simp [sentMethods, hm, QVariant.toQString]

/-- On a connected client `setNotificationsEnabled` sends one call. -/
theorem setNotificationsEnabled_sends (s : JsonRpcClient) (hconn : s.m_connection.connected = true) :
    ∃ s', setNotificationsEnabled s = Except.ok s'
      ∧ sentMethods s'.effects = sentMethods s.effects ++ ["JSONRPC.SetNotificationStatus"] := by
  refine ⟨_, setNotificationsEnabled_connected s hconn, ?_⟩
  rw [sentMethods_issued]
  rfl

/-- On a connected client the end of the handshake sends two calls. -/
theorem helloReplyNotifications_sends (s : JsonRpcClient) (hconn : s.m_connection.connected = true) :
    ∃ s', helloReplyNotifications s = Except.ok s'
      ∧ sentMethods s'.effects = sentMethods s.effects
          ++ ["JSONRPC.SetNotificationStatus", "JSONRPC.IsCloudConnected"] := by
  refine ⟨_, helloReplyNotifications_connected s hconn, ?_⟩
  rw [sentMethods_issued, sentMethods_issued]
  simp [notificationStatusReply, cloudConnectedReply]

theorem helloReplyAuthentication_sends (s : JsonRpcClient) (hconn : s.m_connection.connected = true)
    (hsetup : s.m_initialSetupRequired = false)
    (hauth : s.m_authenticationRequired = false
      ∨ (s.m_authenticationRequired = true ∧ settingsValue s s.m_serverUuid ≠ [])) :
    ∃ s', helloReplyAuthentication s = Except.ok s'
      ∧ sentMethods s'.effects = sentMethods s.effects
          ++ ["JSONRPC.SetNotificationStatus", "JSONRPC.IsCloudConnected"] := by
  have key : ∀ s1 : JsonRpcClient, s1.m_connection.connected = true →
      sentMethods s1.effects = sentMethods s.effects →
      ∃ s', helloReplyNotifications s1 = Except.ok s'
        ∧ sentMethods s'.effects = sentMethods s.effects
            ++ ["JSONRPC.SetNotificationStatus", "JSONRPC.IsCloudConnected"] := by
    intro s1 hc he
    obtain ⟨s', h1, h2⟩ := helloReplyNotifications_sends s1 hc
    exact ⟨s', h1, by rw [h2, he]⟩
  unfold helloReplyAuthentication
  rw [if_neg (by simp [hsetup])]
  rcases hauth with hno | ⟨hyes, htoken⟩
  · rw [if_neg (by simp [hno])]
    exact key s hconn rfl
  · rw [if_pos hyes]
    simp only []
    split
    · rename_i hempty
      exfalso
      have hempty' : (settingsValue s s.m_serverUuid).isEmpty = true := hempty
      cases hv : settingsValue s s.m_serverUuid with
      | nil => exact htoken hv
      | cons c cs => simp [hv] at hempty'
    · exact key _ hconn (by simp only [emit, sentMethods_emit])

/-- A Hello reply with a supported version that passes the certificate check: the
rest of the handshake starts from a state in which nothing has been sent yet
and the fields of the reply are set. -/
theorem helloReply_proceeds (env : Env) (commandId : Int) (params : QVariantMap)
    (s : JsonRpcClient)
    (hmin : QVersionNumber.lt (protocolVersion params) [5, 0] = false)
    (hmax : (protocolVersion params).majorVersion ≤ 6)
    (hcert : certificateAccepted params s) :
    ∃ s1, helloReply env commandId params s = helloReplySession env params s1
      ∧ s1.m_connection = s.m_connection ∧ s1.jsonTokens = s.jsonTokens
      ∧ s1.m_initialSetupRequired = (params.value "initialSetupRequired").toBool
      ∧ s1.m_authenticationRequired = (params.value "authenticationRequired").toBool
      ∧ s1.m_serverUuid = (params.value "uuid").toQString
      ∧ sentMethods s1.effects = sentMethods s.effects := by
  have hmax' : ¬ (protocolVersion params).majorVersion > QVersionNumber.majorVersion [6] := by
    simpa [QVersionNumber.majorVersion] using hmax
  have hv : (helloReplyFields params s).m_jsonRpcVersion = protocolVersion params := rfl
  have hfields : sentMethods (helloReplyFields params s).effects = sentMethods s.effects := by
    simp only [helloReplyFields, emit, sentMethods_emit]
  by_cases henc : s.m_connection.isEncrypted = true
  · have henc' : (helloReplyFields params s).m_connection.isEncrypted = true := henc
    cases hload : loadPem (QUuid.fromString (params.value "uuid").toQString) s with
    | none =>
      have hload' : loadPem (QUuid.fromString (helloReplyFields params s).m_serverUuid)
          (helloReplyFields params s) = none := hload
      refine ⟨pinned params s, ?_, rfl, rfl, rfl, rfl, rfl, ?_⟩
      · simp only [helloReply, hv, hmin, hmax', Bool.false_eq_true, if_false, henc', if_true,
          hload']
        rfl
      · simp only [pinned, storePem, emit, sentMethods_emit]
        exact hfields
    | some oldPem =>
      have hload' : loadPem (QUuid.fromString (helloReplyFields params s).m_serverUuid)
          (helloReplyFields params s) = some oldPem := hload
      have hsame : s.m_connection.sslCertificate.toPem = oldPem := by
        rcases hcert with h | h | h
        · rw [henc] at h
          cases h
        · rw [hload] at h
          cases h
        · rw [hload] at h
          simp only [Option.some.injEq] at h
          exact h.symm
      have hsame' : ¬ (helloReplyFields params s).m_connection.sslCertificate.toPem ≠ oldPem :=
        fun h => h hsame
      refine ⟨helloReplyFields params s, ?_, rfl, rfl, rfl, rfl, rfl, hfields⟩
      simp only [helloReply, hv, hmin, hmax', Bool.false_eq_true, if_false, henc', if_true,
        hload', hsame']
  · have henc' : ¬ (helloReplyFields params s).m_connection.isEncrypted = true := henc
    refine ⟨helloReplyFields params s, ?_, rfl, rfl, rfl, rfl, rfl, hfields⟩
    simp only [helloReply, hv, hmin, hmax', Bool.false_eq_true, if_false, henc']

/-! ### C14: a cache entry written under another hash -/

/-- C14, counterexample: the payload of `Things.GetThings` is cached under hash "h1";
in the next handshake the server advertises "h2" for the method, in a Hello
reply that names protocol version "4.2".  `helloReply` turns the reply down at
the version check, before it reads the cache hashes: the table still holds
"h1", and `sendCommand` for the same call is answered from the file written
under "h1": nothing is sent, and the callback and `responseReceived` are
posted with the cached payload. -/
theorem rejected_hello_keeps_stale_entry :
    QMap.value? exampleCached.cacheFiles exampleCacheFile = some "\x7b\"things\":[]\x7d".toList
    ∧ QMap.value? ((exampleOldCacheHello.value "cacheHashes").toList.foldl insertCacheHash [])
        "Things.GetThings" = some "h2"
    ∧ ∃ s1 s2, helloReply exampleEnv 1 exampleOldCacheHello exampleCached = Except.ok s1
      ∧ QMap.value? s1.m_cacheHashes "Things.GetThings" = some "h1"
      ∧ cachedResponse exampleEnv "Things.GetThings" [] s1 = some [("things", QVariant.list [])]
      ∧ sendCommand exampleEnv "Things.GetThings" [] (some (QObjectRef.object 7)) "getThingsReply" s1
          = Except.ok (1, s2)
      ∧ s2.effects = s1.effects ∧ s2.m_replies = s1.m_replies
      ∧ s2.eventQueue = s1.eventQueue
          ++ cacheHitCalls (some (QObjectRef.object 7)) "getThingsReply" 1
              [("things", QVariant.list [])] :=
  ⟨rfl, rfl, _, _, rfl, rfl, rfl, rfl, rfl, rfl, rfl⟩

/-- C14, amended: a cache file was written for a call under hash `H1`, and the Hello
reply of a handshake, which passes the version check and the certificate check
(on a connection that has a current host), advertises `H2`, different from
`H1`, for the method.  Then `helloReply` returns; afterwards the table holds
`H2` for the method and the file still exists with its content; the file name
`sendCommand` looks up for the same method, params and locale differs from its
name; and neither the lookup nor `sendCommand` depends on the file: both do the
same if it is removed. -/
theorem stale_cache_entry_not_returned (env : Env) (commandId : Int) (hello : QVariantMap)
    (method : QString) (params : QVariantMap) (H1 H2 : QString) (content : QByteArray)
    (s0 : JsonRpcClient) (host : NymeaHost)
    (hfile : QMap.value? s0.cacheFiles (cacheFileName env method params H1) = some content)
    (hmin : QVersionNumber.lt (protocolVersion hello) [5, 0] = false)
    (hmax : (protocolVersion hello).majorVersion ≤ 6)
    (hcert : certificateAccepted hello s0)
    (hhost : s0.m_connection.currentHost = some host)
    (hadv : QMap.value? ((hello.value "cacheHashes").toList.foldl insertCacheHash []) method
      = some H2)
    (hne : H2 ≠ H1) :
    ∃ s1, helloReply env commandId hello s0 = Except.ok s1
      ∧ QMap.value? s1.m_cacheHashes method = some H2
      ∧ QMap.value? s1.cacheFiles (cacheFileName env method params H1) = some content
      ∧ cacheFileName env method params H2 ≠ cacheFileName env method params H1
      ∧ cachedResponse env method params
          { s1 with cacheFiles := QMap.remove s1.cacheFiles (cacheFileName env method params H1) }
          = cachedResponse env method params s1
      ∧ ∀ caller callback,
          sendCommand env method params caller callback
            { s1 with cacheFiles := QMap.remove s1.cacheFiles (cacheFileName env method params H1) }
          = (sendCommand env method params caller callback s1).map
              (fun r => (r.1,
                { r.2 with cacheFiles := QMap.remove s1.cacheFiles (cacheFileName env method params H1) })) := by
  obtain ⟨s2, h2, hconn2, -⟩ := helloReply_proceeds env commandId hello s0 hmin hmax hcert
  have hframe := helloReplySession_frame env hello (fun _ => True) (fun _ _ => trivial) trivial
    trivial s2 s2 (EffectsAdded.refl _ s2)
  obtain ⟨s1, hs1⟩ := hframe.2 host (by rw [hconn2]; exact hhost)
  have hhs : helloReply env commandId hello s0 = Except.ok s1 := h2.trans hs1
  have htable : QMap.value? s1.m_cacheHashes method = some H2 := by
    rw [(hframe.1 s1 hs1).2.1]
    exact hadv
  have hname : cacheFileName env method params H1
      ≠ cacheFileName env method params (QMap.value s1.m_cacheHashes method "") := by
    have hv : QMap.value s1.m_cacheHashes method "" = H2 := by simp [QMap.value, htable]
    rw [hv]
    exact fun h => hne (cacheFileName_hash_injective env method params H1 H2 h).symm
  refine ⟨s1, hhs, htable, ?_, ?_,
    cachedResponse_remove env method params s1 _ hname,
    fun caller callback => sendCommand_remove env method params caller callback s1 _ hname⟩
  · rw [helloReply_cacheFiles env commandId hello s0 s1 hhs]
    exact hfile
  · exact fun h => hne (cacheFileName_hash_injective env method params H2 H1 h)

/-- C14, witness: the payload of `Things.GetThings` is cached under hash "h1" and
the Hello reply of the next handshake, with protocol version "6.2" on an
unencrypted transport, advertises "h2". -/
theorem stale_cache_entry_not_returned_witness :
    ∃ s1, helloReply exampleEnv 1 exampleCacheHello exampleCached = Except.ok s1
      ∧ QMap.value? s1.m_cacheHashes "Things.GetThings" = some "h2"
      ∧ QMap.value? s1.cacheFiles exampleCacheFile = some "\x7b\"things\":[]\x7d".toList
      ∧ cacheFileName exampleEnv "Things.GetThings" [] "h2" ≠ exampleCacheFile
      ∧ cachedResponse exampleEnv "Things.GetThings" []
          { s1 with cacheFiles := QMap.remove s1.cacheFiles exampleCacheFile }
          = cachedResponse exampleEnv "Things.GetThings" [] s1
      ∧ ∀ caller callback,
          sendCommand exampleEnv "Things.GetThings" [] caller callback
            { s1 with cacheFiles := QMap.remove s1.cacheFiles exampleCacheFile }
          = (sendCommand exampleEnv "Things.GetThings" [] caller callback s1).map
              (fun r => (r.1, { r.2 with cacheFiles := QMap.remove s1.cacheFiles exampleCacheFile })) :=
  stale_cache_entry_not_returned exampleEnv 1 exampleCacheHello "Things.GetThings" [] "h1" "h2"
    "\x7b\"things\":[]\x7d".toList exampleCached ⟨QUuid.null⟩ rfl (by decide) (by decide)
    (Or.inl rfl) rfl rfl (by decide)

/-- A Hello reply that asks for neither setup nor authentication, or finds a token
stored: the two calls go out. -/
theorem helloReply_sends (env : Env) (commandId : Int) (params : QVariantMap)
    (s : JsonRpcClient) (host : NymeaHost)
    (hconn : s.m_connection.connected = true)
    (hhost : s.m_connection.currentHost = some host)
    (hmin : QVersionNumber.lt (protocolVersion params) [5, 0] = false)
    (hmax : (protocolVersion params).majorVersion ≤ 6)
    (hcert : certificateAccepted params s)
    (hsetup : (params.value "initialSetupRequired").toBool = false)
    (hauth : (params.value "authenticationRequired").toBool = false
      ∨ ((params.value "authenticationRequired").toBool = true
        ∧ settingsValue s (params.value "uuid").toQString ≠ [])) :
    ∃ s', helloReply env commandId params s = Except.ok s'
      ∧ sentMethods s'.effects = sentMethods s.effects
          ++ ["JSONRPC.SetNotificationStatus", "JSONRPC.IsCloudConnected"] := by
  obtain ⟨s1, h1, c1, c2, c3, c4, c5, c6⟩ := helloReply_proceeds env commandId params s hmin hmax hcert
  have hhost1 : s1.m_connection.currentHost = some host := by rw [c1]; exact hhost
  rw [h1, helloReplySession_of_host env params s1 host hhost1]
  obtain ⟨s', h2, h3⟩ := helloReplyAuthentication_sends
    (updateHostUuid host (helloReplySessionFields env params s1))
    (by simpa [updateHostUuid, helloReplySessionFields, emit, c1] using hconn)
    (by simpa [updateHostUuid, helloReplySessionFields, emit, c3] using hsetup)
    (by
      simp only [updateHostUuid, helloReplySessionFields, emit, settingsValue, c2, c4, c5]
      exact hauth)
  refine ⟨s', h2, ?_⟩
  rw [h3, ← c6]
  simp only [updateHostUuid, helloReplySessionFields, emit, sentMethods_emit]

/-- A successful authentication sends one call. -/
theorem processAuthenticate_sends (env : Env) (commandId : Int) (data : QVariantMap)
    (s : JsonRpcClient) (hconn : s.m_connection.connected = true)
    (hsuccess : (data.value "success").toBool = true) :
    ∃ s', processAuthenticate env commandId data s = Except.ok s'
      ∧ sentMethods s'.effects = sentMethods s.effects ++ ["JSONRPC.SetNotificationStatus"] := by
  obtain ⟨s', h1, h2⟩ := setNotificationsEnabled_sends (processAuthenticateFields env data s)
    (by simpa [processAuthenticateFields, emit] using hconn)
  refine ⟨s', ?_, ?_⟩
  · simp only [processAuthenticate, hsuccess, if_true]
    exact h1
  · rw [h2]
    simp only [processAuthenticateFields, emit, settingsSetValue_effects, sentMethods_emit]

/-- A successful push button transaction sends one call. -/
theorem pushButtonAuthFinished_sends (env : Env) (data : QVariantMap) (s : JsonRpcClient)
    (hconn : s.m_connection.connected = true)
    (hname : (data.value "notification").toQString = "JSONRPC.PushButtonAuthFinished")
    (hid : ((data.value "params").toMap.value "transactionId").toInt
      = s.m_pendingPushButtonTransaction)
    (hsuccess : ((data.value "params").toMap.value "success").toBool = true) :
    ∃ s', notificationReceived env data s = Except.ok s'
      ∧ sentMethods s'.effects = sentMethods s.effects ++ ["JSONRPC.SetNotificationStatus"] := by
  obtain ⟨s', h1, h2⟩ := setNotificationsEnabled_sends
    (pushButtonAuthFields data { s with m_pendingPushButtonTransaction := -1 })
    (by simpa [pushButtonAuthFields, emit] using hconn)
  refine ⟨s', ?_, ?_⟩
  · simp only [notificationReceived, hname, if_true, hid, ne_eq, not_true_eq_false, if_false,
      hsuccess]
    exact h1
  · rw [h2]
    simp only [pushButtonAuthFields, emit, settingsSetValue_effects, sentMethods_emit]

/-- C22, counterexample: a successful username/password authentication on a connected
client sets the authenticated flag and issues `JSONRPC.SetNotificationStatus`
only; no `JSONRPC.IsCloudConnected` query goes out. -/
theorem authentication_issues_no_cloud_query :
    exampleClient.m_connection.connected = true
      ∧ ∃ s', processAuthenticate exampleEnv 3 exampleAuthenticated exampleClient = Except.ok s'
        ∧ s'.m_authenticated = true
        ∧ sentMethods s'.effects = ["JSONRPC.SetNotificationStatus"]
        ∧ "JSONRPC.IsCloudConnected" ∉ sentMethods s'.effects :=
  ⟨rfl, _, rfl, rfl, rfl, by decide⟩

/-- C22, amended: on a connected client, a Hello reply with a supported version that
passes the certificate check and asks for neither setup nor authentication, or
for authentication with a non-empty token stored for its server, issues
`JSONRPC.SetNotificationStatus` and then `JSONRPC.IsCloudConnected`; a
successful username/password authentication and a successful push button
transaction issue `JSONRPC.SetNotificationStatus` only. -/
theorem calls_after_authentication (env : Env) :
    (∀ (commandId : Int) (params : QVariantMap) (s : JsonRpcClient) (host : NymeaHost),
        s.m_connection.connected = true →
        s.m_connection.currentHost = some host →
        QVersionNumber.lt (protocolVersion params) [5, 0] = false →
        (protocolVersion params).majorVersion ≤ 6 →
        certificateAccepted params s →
        (params.value "initialSetupRequired").toBool = false →
        ((params.value "authenticationRequired").toBool = false
          ∨ ((params.value "authenticationRequired").toBool = true
            ∧ settingsValue s (params.value "uuid").toQString ≠ [])) →
        ∃ s', helloReply env commandId params s = Except.ok s'
          ∧ sentMethods s'.effects = sentMethods s.effects
              ++ ["JSONRPC.SetNotificationStatus", "JSONRPC.IsCloudConnected"])
    ∧ (∀ (commandId : Int) (data : QVariantMap) (s : JsonRpcClient),
        s.m_connection.connected = true →
        (data.value "success").toBool = true →
        ∃ s', processAuthenticate env commandId data s = Except.ok s'
          ∧ sentMethods s'.effects = sentMethods s.effects ++ ["JSONRPC.SetNotificationStatus"])
    ∧ (∀ (data : QVariantMap) (s : JsonRpcClient),
        s.m_connection.connected = true →
        (data.value "notification").toQString = "JSONRPC.PushButtonAuthFinished" →
        ((data.value "params").toMap.value "transactionId").toInt
          = s.m_pendingPushButtonTransaction →
        ((data.value "params").toMap.value "success").toBool = true →
        ∃ s', notificationReceived env data s = Except.ok s'
          ∧ sentMethods s'.effects = sentMethods s.effects ++ ["JSONRPC.SetNotificationStatus"]) :=
  ⟨fun commandId params s host hconn hhost hmin hmax hcert hsetup hauth =>
      helloReply_sends env commandId params s host hconn hhost hmin hmax hcert hsetup hauth,
    fun commandId data s hconn hsuccess => processAuthenticate_sends env commandId data s hconn hsuccess,
    fun data s hconn hname hid hsuccess =>
      pushButtonAuthFinished_sends env data s hconn hname hid hsuccess⟩

/-- C22, witness: the example Hello reply without authentication, the example
authentication reply and the example push button notification on the example
client. -/
theorem calls_after_authentication_witness :
    (∃ s', helloReply exampleEnv 1 exampleCacheHello exampleClient = Except.ok s'
        ∧ sentMethods s'.effects = sentMethods exampleClient.effects
            ++ ["JSONRPC.SetNotificationStatus", "JSONRPC.IsCloudConnected"])
    ∧ (∃ s', processAuthenticate exampleEnv 3 exampleAuthenticated exampleClient = Except.ok s'
        ∧ sentMethods s'.effects = sentMethods exampleClient.effects
            ++ ["JSONRPC.SetNotificationStatus"])
    ∧ (∃ s', notificationReceived exampleEnv examplePushButtonFinished examplePushButtonPending
          = Except.ok s'
        ∧ sentMethods s'.effects = sentMethods examplePushButtonPending.effects
            ++ ["JSONRPC.SetNotificationStatus"]) :=
  ⟨(calls_after_authentication exampleEnv).1 1 exampleCacheHello exampleClient ⟨QUuid.null⟩
      rfl rfl rfl (by decide) (Or.inl rfl) rfl (Or.inl rfl),
    (calls_after_authentication exampleEnv).2.1 3 exampleAuthenticated exampleClient rfl rfl,
    (calls_after_authentication exampleEnv).2.2 examplePushButtonFinished examplePushButtonPending
      rfl rfl rfl rfl⟩

/-! ## C23: the namespaces of `JSONRPC.SetNotificationStatus` -/

theorem toStringList_strings (l : QStringList) :
    (QVariant.list (l.map QVariant.str)).toStringList = l := by
  simp only [QVariant.toStringList, List.map_map]
  induction l with
  | nil => rfl
  | cons a l ih => simp only [List.map_cons, Function.comp, QVariant.toQString, ih]

theorem count_keys (handlers : List (QString × QObjectRef)) (n : QString) :
    (handlers.map Prod.fst).count n
      = ((handlers.filter (fun e => decide (e.1 = n))).map Prod.snd).length := by
  induction handlers with
  | nil => rfl
  | cons e l ih =>
    by_cases h : e.1 = n
    · simp [List.filter_cons, h, List.count_cons, ih]
    · simp [List.filter_cons, h, List.count_cons, ih]

/-- On a connected client of a server with protocol version 3.1 or later,
`setNotificationsEnabled` hands one document to the connection; its namespaces
are the keys of the handler table, followed by "Users" when that is not among
them. -/
theorem setNotificationsEnabled_namespaces (s : JsonRpcClient)
    (hconn : s.m_connection.connected = true) (hver : ensureServerVersion "3.1" s = true) :
    ∃ s' document, setNotificationsEnabled s = Except.ok s'
      ∧ s'.effects = s.effects ++ [Effect.sendData ⟨document, JsonFormat.Compact, ['\n']⟩]
      ∧ document.value "method" = QVariant.str "JSONRPC.SetNotificationStatus"
      ∧ namespacesOf document
          = if (s.m_notificationHandlers.map Prod.fst).contains "Users"
            then s.m_notificationHandlers.map Prod.fst
            else s.m_notificationHandlers.map Prod.fst ++ ["Users"] := by
  refine ⟨_, _, setNotificationsEnabled_connected s hconn, rfl, ?_, ?_⟩
  · simp only [QVariantMap.value, QMap.value]
    rw [QMap.value?_insert_of_ne _ _ _ _ (by decide)]
    exact requestMap_method (notificationStatusReply s)
  · have hp : notificationStatusParams s = [("namespaces", QVariant.list
        ((if (s.m_notificationHandlers.map Prod.fst).contains "Users"
          then s.m_notificationHandlers.map Prod.fst
          else s.m_notificationHandlers.map Prod.fst ++ ["Users"]).map QVariant.str))] := by
      simp only [notificationStatusParams, hver, if_true, QMap.insert]
      generalize (s.m_notificationHandlers.map Prod.fst).contains "Users" = b
      cases b <;> rfl
    have hdoc : namespacesOf (QMap.insert (notificationStatusReply s).requestMap "token"
        (QVariant.bytes s.m_token))
        = ((QVariant.map (notificationStatusParams s)).toMap.value "namespaces").toStringList := by
      simp only [namespacesOf, QVariantMap.value, QMap.value]
      rw [QMap.value?_insert_of_ne _ _ _ _ (by decide)]
      simp only [JsonRpcReply.requestMap, notificationStatusReply, hp]
      rfl
    rw [hdoc, hp]
    simp only [QVariant.toMap, QVariantMap.value, QMap.value, QMap.value?, if_true, Option.getD]
    exact toStringList_strings _

/-- C23, counterexample: on the example session (protocol version 6.2, connected)
objects 7 and 8 register for namespace "Things" one after the other; the
`JSONRPC.SetNotificationStatus` call of the second registration lists "Things"
twice. -/
theorem shared_namespace_listed_twice :
    ensureServerVersion "3.1" exampleSession = true
      ∧ ∃ s1 s2 document,
        registerNotificationHandler exampleEnv (QObjectRef.object 7) "Things"
            "thingsNotification" exampleSession = Except.ok s1
        ∧ registerNotificationHandler exampleEnv (QObjectRef.object 8) "Things" "thingsChanged" s1
            = Except.ok s2
        ∧ s2.effects = s1.effects ++ [Effect.sendData ⟨document, JsonFormat.Compact, ['\n']⟩]
        ∧ document.value "method" = QVariant.str "JSONRPC.SetNotificationStatus"
        ∧ namespacesOf document = ["Things", "Things", "JSONRPC", "Users"]
        ∧ (namespacesOf document).count "Things" = 2 :=
  ⟨by decide, _, _, _, rfl, rfl, rfl, rfl, rfl, by decide⟩

/-- C23, amended: on a connected client of a server with protocol version 3.1 or
later, `setNotificationsEnabled` sends one `JSONRPC.SetNotificationStatus`
document whose namespaces parameter contains exactly the namespaces with a
registered handler and "Users"; a namespace other than "Users" is listed once
per registration, "Users" once when it has no handler and once per registration
otherwise; the list is free of duplicates when no namespace has two
registrations. -/
theorem namespaces_once_per_registration (s : JsonRpcClient)
    (hconn : s.m_connection.connected = true) (hver : ensureServerVersion "3.1" s = true) :
    ∃ s' document, setNotificationsEnabled s = Except.ok s'
      ∧ s'.effects = s.effects ++ [Effect.sendData ⟨document, JsonFormat.Compact, ['\n']⟩]
      ∧ document.value "method" = QVariant.str "JSONRPC.SetNotificationStatus"
      ∧ (∀ n, n ∈ namespacesOf document ↔ (n = "Users" ∨ handlersOf n s ≠ []))
      ∧ (∀ n, n ≠ "Users" → (namespacesOf document).count n = (handlersOf n s).length)
      ∧ (namespacesOf document).count "Users" = max 1 (handlersOf "Users" s).length
      ∧ ((∀ n, (handlersOf n s).length ≤ 1) → (namespacesOf document).Nodup) := by
  obtain ⟨s', document, h1, h2, h3, h4⟩ := setNotificationsEnabled_namespaces s hconn hver
  have hcount : ∀ n, (s.m_notificationHandlers.map Prod.fst).count n = (handlersOf n s).length :=
    fun n => count_keys s.m_notificationHandlers n
  have hother : ∀ n, n ≠ "Users" → (namespacesOf document).count n = (handlersOf n s).length := by
    intro n hn
    rw [h4, ← hcount n]
    split
    · rfl
    · rw [List.count_append]
      simp [List.count_cons, Ne.symm hn]
  have husers : (namespacesOf document).count "Users" = max 1 (handlersOf "Users" s).length := by
    rw [h4, ← hcount "Users"]
    split
    · rename_i hin
      have hpos : 0 < (s.m_notificationHandlers.map Prod.fst).count "Users" :=
        List.count_pos_iff.mpr (by simpa using hin)
      omega
    · rename_i hnot
      have hzero : (s.m_notificationHandlers.map Prod.fst).count "Users" = 0 :=
        List.count_eq_zero.mpr (by simpa using hnot)
      rw [List.count_append, hzero]
      simp
  have hall : ∀ n, (namespacesOf document).count n
      = if n = "Users" then max 1 (handlersOf "Users" s).length else (handlersOf n s).length := by
    intro n
    by_cases hn : n = "Users"
    · rw [if_pos hn, hn]
      exact husers
    · rw [if_neg hn]
      exact hother n hn
  refine ⟨s', document, h1, h2, h3, ?_, hother, husers, ?_⟩
  · intro n
    rw [← List.count_pos_iff, hall n]
    by_cases hn : n = "Users"
    · simp [hn]
    · simp [hn, List.length_pos]
  · intro hone
    rw [List.nodup_iff_count_le_one]
    intro n
    rw [hall n]
    split
    · have := hone "Users"
      omega
    · exact hone n

/-- C23, witness: the example session, whose only handler is the client itself for
namespace "JSONRPC". -/
theorem namespaces_once_per_registration_witness :
    ∃ s' document, setNotificationsEnabled exampleSession = Except.ok s'
      ∧ s'.effects = exampleSession.effects
          ++ [Effect.sendData ⟨document, JsonFormat.Compact, ['\n']⟩]
      ∧ namespacesOf document = ["JSONRPC", "Users"]
      ∧ (namespacesOf document).Nodup := by
  obtain ⟨s', document, h1, h2, _, _, _, _, h7⟩ :=
    namespaces_once_per_registration exampleSession rfl (by decide)
  refine ⟨s', document, h1, h2, ?_, h7 ?_⟩
  · have h0 : setNotificationsEnabled exampleSession
        = Except.ok (issued (notificationStatusReply exampleSession) exampleSession) := rfl
    rw [h0] at h1
    cases h1
    simp only [issued, List.append_cancel_left_eq, List.cons.injEq, Effect.sendData.injEq,
      Outgoing.mk.injEq, and_true] at h2
    rw [← h2]
    rfl
  · intro n
    simp only [handlersOf, exampleSession, exampleClient, List.filter_cons, List.filter_nil]
    split <;> simp

/-! ## C24: a candidate that does not parse -/

/-- A text with the split bytes is cut at their first occurrence. -/
theorem hasSplit_first (B : List Char) (h : hasSplit B = true) :
    ∃ a X, B = a ++ '}' :: '\n' :: '{' :: X ∧ hasSplit (a ++ ['}', '\n']) = false := by
  induction B with
  | nil => cases h
  | cons c cs ih =>
    by_cases hp : ['}', '\n', '{'].isPrefixOf (c :: cs) = true
    · obtain ⟨r, hr⟩ := (isPrefixOf_split_iff _).mp hp
      exact ⟨[], r, hr, by decide⟩
    · rw [hasSplit_cons, Bool.or_eq_true] at h
      have hcs : hasSplit cs = true := h.resolve_left hp
      obtain ⟨a, X, hB, ha⟩ := ih hcs
      refine ⟨c :: a, X, by rw [hB, List.cons_append], ?_⟩
      rw [List.cons_append, hasSplit_cons, Bool.or_eq_false_iff]
      refine ⟨isPrefixOf_split_eq_false _ ?_, ha⟩
      rintro ⟨r, hr⟩
      apply hp
      rw [isPrefixOf_split_iff]
      refine ⟨r ++ '{' :: X, ?_⟩
      rw [hB]
      have : c :: (a ++ '}' :: '\n' :: '{' :: X) = (c :: (a ++ ['}', '\n'])) ++ '{' :: X := by simp
      rw [this, hr]
      rfl

theorem hasSplit_append (B data : List Char) (h : hasSplit B = true) :
    hasSplit (B ++ data) = true := by
  cases hx : hasSplit (B ++ data) with
  | true => rfl
  | false =>
    rw [hasSplit_append_left B data hx] at h
    cases h

/-- Bytes appended to a buffer with the split bytes do not change the candidate. -/
theorem candidate_append (B data : QByteArray) (h : hasSplit B = true) :
    candidate (B ++ data) = candidate B := by
  obtain ⟨a, X, hB, ha⟩ := hasSplit_first B h
  have h2 : B ++ data = a ++ '}' :: '\n' :: '{' :: (X ++ data) := by
    rw [hB]
    simp
  rw [h2, hB, (candidate_of_split a (X ++ data) ha).1, (candidate_of_split a X ha).1]

/-- While the transport stays connected, a buffer whose candidate does not parse
stays so: whatever arrives and however often the event loop delivers, no
document is dispatched and every byte that arrives is kept behind the
candidate. -/
theorem runLoop_blocked (env : Env) (steps : List LoopStep) (s : JsonRpcClient)
    (hconn : s.m_connection.connected = true)
    (hsplit : hasSplit s.m_receiveBuffer = true)
    (hbad : env.fromJson (candidate s.m_receiveBuffer) = none)
    (hqueue : ∀ c, c ∈ s.eventQueue → isData c = true) :
    ∃ s', runLoop env steps s = Except.ok ([], s')
      ∧ s'.m_connection.connected = true
      ∧ hasSplit s'.m_receiveBuffer = true
      ∧ candidate s'.m_receiveBuffer = candidate s.m_receiveBuffer
      ∧ s'.m_receiveBuffer ++ queuedBytes s'.eventQueue
          = s.m_receiveBuffer ++ queuedBytes s.eventQueue ++ arrivals steps
      ∧ s'.effects = s.effects ∧ s'.m_replies = s.m_replies := by
  induction steps generalizing s with
  | nil => exact ⟨s, rfl, hconn, hsplit, rfl, by simp [arrivals], rfl, rfl⟩
  | cons step rest ih =>
    cases step with
    | arrive chunk =>
      obtain ⟨s', h1, h2, h3, h4, h5, h6, h7⟩ := ih (post (QueuedCall.dataReceived chunk) s)
        hconn hsplit hbad (by
          intro c hc
          simp only [post, List.mem_append, List.mem_singleton] at hc
          rcases hc with hc | hc
          · exact hqueue c hc
          · rw [hc]
            rfl)
      refine ⟨s', by rw [runLoop_arrive]; exact h1, h2, h3, h4, ?_, h6, h7⟩
      rw [h5]
      simp only [post, queuedBytes_append, queuedBytes, arrivals, List.append_nil, List.append_assoc]
    | deliver =>
      cases hq : s.eventQueue with
      | nil =>
        obtain ⟨s', h1, h2, h3, h4, h5, h6, h7⟩ := ih s hconn hsplit hbad hqueue
        exact ⟨s', by rw [runLoop_deliver_nil env rest s hq]; exact h1, h2, h3, h4,
          by rw [h5, hq]; rfl, h6, h7⟩
      | cons call queue =>
        have hcall : isData call = true := hqueue call (by rw [hq]; exact List.mem_cons_self _ _)
        cases call with
        | callback object method commandId params => cases hcall
        | responseReceived commandId params => cases hcall
        | dataReceived data =>
          have hcand : candidate (s.m_receiveBuffer ++ data) = candidate s.m_receiveBuffer :=
            candidate_append _ data hsplit
          have hd : deliver env (QueuedCall.dataReceived data) { s with eventQueue := queue }
              = Except.ok { s with eventQueue := queue, m_receiveBuffer := s.m_receiveBuffer ++ data } :=
            dataReceived_none env data { s with eventQueue := queue } hconn
              (by rw [hcand]; exact hbad)
          have hdoc : documentOf env (QueuedCall.dataReceived data) { s with eventQueue := queue }
              = none := by
            simp only [documentOf, dispatchedDocument, hconn, Bool.not_true, Bool.false_eq_true,
              if_false, hcand, hbad, Option.map_none']
          obtain ⟨s', h1, h2, h3, h4, h5, h6, h7⟩ :=
            ih { s with eventQueue := queue, m_receiveBuffer := s.m_receiveBuffer ++ data }
              hconn (hasSplit_append _ data hsplit) (by rw [hcand]; exact hbad)
              (fun c hc => hqueue c (by rw [hq]; exact List.mem_cons_of_mem _ hc))
          refine ⟨s', ?_, h2, h3, h4.trans hcand, ?_, h6, h7⟩
          · rw [runLoop_deliver_cons env rest s _ _ queue ([], s') hq hd h1, hdoc]
            rfl
          · rw [h5]
            simp only [queuedBytes, arrivals, List.append_assoc]

/-- C24, counterexample: the buffer of a connected client holds the undecodable text
`\x7bx\x7d`, a newline, and the first example document; the candidate of every
pass is the undecodable text, and the passes that follow, also after the second
example document has arrived, dispatch nothing. -/
theorem undecodable_document_stalls_stream :
    exampleEnv.fromJson exampleFirst = some (QVariant.map [("id", QVariant.int 1)])
      ∧ exampleEnv.fromJson exampleSecond = some (QVariant.map [("id", QVariant.int 2)])
      ∧ exampleEnv.fromJson exampleUndecodable = none
      ∧ candidate exampleStalled.m_receiveBuffer = exampleUndecodable
      ∧ dispatched exampleEnv exampleLaterPasses exampleStalled = some []
      ∧ ∃ s', runLoop exampleEnv exampleLaterPasses exampleStalled = Except.ok ([], s')
          ∧ candidate s'.m_receiveBuffer = exampleUndecodable := by
  obtain ⟨s', h1, _, _, h4, _⟩ := runLoop_blocked exampleEnv exampleLaterPasses exampleStalled
    rfl (by decide) (by rfl) (by intro c hc; cases hc)
  refine ⟨by rfl, by rfl, by rfl, by rfl, ?_, s', h1, h4.trans (by rfl)⟩
  simp only [dispatched, h1]

/-- C24, amended: while the transport stays connected and only calls of
`dataReceived` are queued, a buffer that contains the split bytes and whose
candidate does not parse is stuck: every run of arrivals and deliveries returns
without dispatching a document; the candidate stays at the head of the buffer
and every byte that arrives is kept behind it. -/
theorem undecodable_document_blocks_stream (env : Env) (steps : List LoopStep)
    (s : JsonRpcClient)
    (hconn : s.m_connection.connected = true)
    (hsplit : hasSplit s.m_receiveBuffer = true)
    (hbad : env.fromJson (candidate s.m_receiveBuffer) = none)
    (hqueue : ∀ c, c ∈ s.eventQueue → isData c = true) :
    dispatched env steps s = some []
      ∧ ∃ s', runLoop env steps s = Except.ok ([], s')
        ∧ s'.m_connection.connected = true
        ∧ candidate s'.m_receiveBuffer = candidate s.m_receiveBuffer
        ∧ env.fromJson (candidate s'.m_receiveBuffer) = none
        ∧ s'.m_receiveBuffer ++ queuedBytes s'.eventQueue
            = s.m_receiveBuffer ++ queuedBytes s.eventQueue ++ arrivals steps := by
  obtain ⟨s', h1, h2, _, h4, h5, _⟩ := runLoop_blocked env steps s hconn hsplit hbad hqueue
  refine ⟨?_, s', h1, h2, h4, by rw [h4]; exact hbad, h5⟩
  simp only [dispatched, h1]

/-- C24, witness: the stalled example client and the example passes. -/
theorem undecodable_document_blocks_stream_witness :
    dispatched exampleEnv exampleLaterPasses exampleStalled = some []
      ∧ ∃ s', runLoop exampleEnv exampleLaterPasses exampleStalled = Except.ok ([], s')
        ∧ s'.m_connection.connected = true
        ∧ candidate s'.m_receiveBuffer = candidate exampleStalled.m_receiveBuffer
        ∧ exampleEnv.fromJson (candidate s'.m_receiveBuffer) = none
        ∧ s'.m_receiveBuffer ++ queuedBytes s'.eventQueue
            = exampleStalled.m_receiveBuffer ++ queuedBytes exampleStalled.eventQueue
              ++ arrivals exampleLaterPasses :=
  undecodable_document_blocks_stream exampleEnv exampleLaterPasses exampleStalled
    rfl (by decide) (by rfl) (by intro c hc; cases hc)

/-! ## C25: one pass of the frame reassembler -/

/-- C25: one pass of `dataReceived` on a connected client with a host.  When the
buffer with the new bytes is `a`, the split bytes, `X`, with no occurrence of
the split bytes before, the text handed to the parser is `a` with the closing
brace; if it parses, its document is dispatched, the call returns with the
buffer holding the opening brace and `X`, and one call of `dataReceived` is
queued.  When the split bytes do not occur and the whole buffer parses, its
document is dispatched, the call returns with an empty buffer and no call of
`dataReceived` is queued.  In both cases the bytes before the pass are the
parsed text, then (in the first case) the newline and the buffer afterwards. -/
theorem dataReceived_one_pass (env : Env) (data : QByteArray) (s : JsonRpcClient)
    (hconn : s.m_connection.connected = true)
    (hhost : s.m_connection.currentHost.isSome = true) :
    (∀ (a X : QByteArray) (v : QVariant),
        s.m_receiveBuffer ++ data = a ++ '}' :: '\n' :: '{' :: X →
        hasSplit (a ++ ['}', '\n']) = false →
        env.fromJson (a ++ ['}']) = some v →
        candidate (s.m_receiveBuffer ++ data) = a ++ ['}']
          ∧ dispatchedDocument env data s = some v.toMap
          ∧ ∃ s', dataReceived env data s = Except.ok s'
            ∧ s'.m_receiveBuffer = '{' :: X
            ∧ s.m_receiveBuffer ++ data
                = candidate (s.m_receiveBuffer ++ data) ++ '\n' :: s'.m_receiveBuffer
            ∧ ∃ extra, s'.eventQueue = s.eventQueue ++ QueuedCall.dataReceived [] :: extra
              ∧ ∀ c, c ∈ extra → isData c = false)
    ∧ (∀ (v : QVariant),
        hasSplit (s.m_receiveBuffer ++ data) = false →
        env.fromJson (s.m_receiveBuffer ++ data) = some v →
        candidate (s.m_receiveBuffer ++ data) = s.m_receiveBuffer ++ data
          ∧ dispatchedDocument env data s = some v.toMap
          ∧ ∃ s', dataReceived env data s = Except.ok s'
            ∧ s'.m_receiveBuffer = []
            ∧ ∃ extra, s'.eventQueue = s.eventQueue ++ extra
              ∧ ∀ c, c ∈ extra → isData c = false) := by
  constructor
  · intro a X v hB ha hv
    obtain ⟨hc, hr⟩ := candidate_of_split a X ha
    rw [← hB] at hc hr
    have hp : env.fromJson (candidate (s.m_receiveBuffer ++ data)) = some v := by rw [hc]; exact hv
    refine ⟨hc, ?_, ?_⟩
    · simp only [dispatchedDocument, hconn, Bool.not_true, Bool.false_eq_true, if_false, hp,
        Option.map_some']
    · rw [dataReceived_some env data s v hconn hp, hr]
      obtain ⟨s', h1, q1, q2, q3, extra, q4, _, q6⟩ := handleDocument_quiet env v.toMap
        (post (QueuedCall.dataReceived []) { s with m_receiveBuffer := '{' :: X }) hhost
      refine ⟨s', ?_, q1, ?_, extra, ?_, q6⟩
      · rw [← h1]
        rfl
      · rw [q1, hc, hB]
        simp [post]
      · rw [q4]
        simp [post]
  · intro v hno hv
    obtain ⟨hc, hr⟩ := candidate_of_not_hasSplit (s.m_receiveBuffer ++ data) hno
    have hp : env.fromJson (candidate (s.m_receiveBuffer ++ data)) = some v := by rw [hc]; exact hv
    refine ⟨hc, ?_, ?_⟩
    · simp only [dispatchedDocument, hconn, Bool.not_true, Bool.false_eq_true, if_false, hp,
        Option.map_some']
    · rw [dataReceived_some env data s v hconn hp, hr]
      obtain ⟨s', h1, q1, q2, q3, extra, q4, _, q6⟩ := handleDocument_quiet env v.toMap
        { s with m_receiveBuffer := [] } hhost
      refine ⟨s', ?_, q1, extra, q4, q6⟩
      rw [← h1]
      rfl

/-- C25, witness: the two example documents arrive in one chunk on the example
client, and the first example document arrives alone. -/
theorem dataReceived_one_pass_witness :
    (candidate (exampleClient.m_receiveBuffer ++ (exampleFirst ++ '\n' :: exampleSecond))
        = exampleFirst
      ∧ dispatchedDocument exampleEnv (exampleFirst ++ '\n' :: exampleSecond) exampleClient
        = some [("id", QVariant.int 1)]
      ∧ ∃ s', dataReceived exampleEnv (exampleFirst ++ '\n' :: exampleSecond) exampleClient
          = Except.ok s'
        ∧ s'.m_receiveBuffer = exampleSecond
        ∧ exampleClient.m_receiveBuffer ++ (exampleFirst ++ '\n' :: exampleSecond)
            = candidate (exampleClient.m_receiveBuffer ++ (exampleFirst ++ '\n' :: exampleSecond))
              ++ '\n' :: s'.m_receiveBuffer
        ∧ ∃ extra, s'.eventQueue = exampleClient.eventQueue ++ QueuedCall.dataReceived [] :: extra
          ∧ ∀ c, c ∈ extra → isData c = false)
    ∧ (candidate (exampleClient.m_receiveBuffer ++ exampleFirst)
        = exampleClient.m_receiveBuffer ++ exampleFirst
      ∧ dispatchedDocument exampleEnv exampleFirst exampleClient = some [("id", QVariant.int 1)]
      ∧ ∃ s', dataReceived exampleEnv exampleFirst exampleClient = Except.ok s'
        ∧ s'.m_receiveBuffer = []
        ∧ ∃ extra, s'.eventQueue = exampleClient.eventQueue ++ extra
          ∧ ∀ c, c ∈ extra → isData c = false) :=
  ⟨(dataReceived_one_pass exampleEnv (exampleFirst ++ '\n' :: exampleSecond) exampleClient
      rfl rfl).1 "\x7b\"id\":1".toList "\"id\":2\x7d".toList (QVariant.map [("id", QVariant.int 1)])
      (by rfl) (by decide) (by rfl),
    (dataReceived_one_pass exampleEnv exampleFirst exampleClient rfl rfl).2
      (QVariant.map [("id", QVariant.int 1)]) (by decide) (by rfl)⟩

/-! ## C26: a pass whose candidate does not parse -/

/-- C26: when the candidate of a pass on a connected client does not parse,
`dataReceived` returns a state that differs from the one before in the buffer
only, which holds its previous content followed by the new bytes: no document
is dispatched, nothing is queued, sent or raised, and the pending table and the
session are as before.  The pass for a later chunk looks at all these bytes: if
they then hold no split bytes and parse as a whole, that document is
dispatched. -/
theorem dataReceived_parse_failure (env : Env) (data : QByteArray) (s : JsonRpcClient)
    (hconn : s.m_connection.connected = true)
    (hp : env.fromJson (candidate (s.m_receiveBuffer ++ data)) = none) :
    dataReceived env data s = Except.ok { s with m_receiveBuffer := s.m_receiveBuffer ++ data }
      ∧ dispatchedDocument env data s = none
      ∧ ∀ (more : QByteArray) (v : QVariant),
          hasSplit (s.m_receiveBuffer ++ data ++ more) = false →
          env.fromJson (s.m_receiveBuffer ++ data ++ more) = some v →
          candidate (s.m_receiveBuffer ++ data ++ more) = s.m_receiveBuffer ++ data ++ more
            ∧ dispatchedDocument env more { s with m_receiveBuffer := s.m_receiveBuffer ++ data }
                = some v.toMap := by
  refine ⟨dataReceived_none env data s hconn hp, ?_, ?_⟩
  · simp only [dispatchedDocument, hconn, Bool.not_true, Bool.false_eq_true, if_false, hp,
      Option.map_none']
  · intro more v hno hv
    have hc := (candidate_of_not_hasSplit _ hno).1
    refine ⟨hc, ?_⟩
    simp only [dispatchedDocument, hconn, Bool.not_true, Bool.false_eq_true, if_false, hc, hv,
      Option.map_some']

/-- C26, witness: the first example document arrives in two chunks on the example
client. -/
theorem dataReceived_parse_failure_witness :
    (dataReceived exampleEnv "\x7b\"id\":".toList exampleClient
        = Except.ok { exampleClient with
            m_receiveBuffer := exampleClient.m_receiveBuffer ++ "\x7b\"id\":".toList }
      ∧ dispatchedDocument exampleEnv "\x7b\"id\":".toList exampleClient = none)
    ∧ candidate (exampleClient.m_receiveBuffer ++ "\x7b\"id\":".toList ++ "1\x7d".toList)
        = exampleFirst
    ∧ dispatchedDocument exampleEnv "1\x7d".toList
        { exampleClient with
          m_receiveBuffer := exampleClient.m_receiveBuffer ++ "\x7b\"id\":".toList }
        = some [("id", QVariant.int 1)] :=
  ⟨⟨(dataReceived_parse_failure exampleEnv "\x7b\"id\":".toList exampleClient rfl (by rfl)).1,
      (dataReceived_parse_failure exampleEnv "\x7b\"id\":".toList exampleClient rfl (by rfl)).2.1⟩,
    ((dataReceived_parse_failure exampleEnv "\x7b\"id\":".toList exampleClient rfl (by rfl)).2.2
      "1\x7d".toList (QVariant.map [("id", QVariant.int 1)]) (by decide) (by rfl)).1,
    ((dataReceived_parse_failure exampleEnv "\x7b\"id\":".toList exampleClient rfl (by rfl)).2.2
      "1\x7d".toList (QVariant.map [("id", QVariant.int 1)]) (by decide) (by rfl)).2⟩

/-! ## C27: failed authentication -/

/-- C27: a reply to `JSONRPC.Authenticate` without success raises
`authenticationFailed` and nothing else: the held and the stored token, the
flags, the session (server uuid, version, scopes, cache hashes, user name), the
pending table and the identifier counter are as before and nothing is sent.  A
reply to `JSONRPC.RequestPushButtonAuth` without success, and the notification
that the pending push button transaction finished without success, raise
`pushButtonAuthFailed` and nothing else, with the same fields unchanged. -/
theorem failed_authentication_keeps_session (env : Env) (s : JsonRpcClient) :
    (∀ (commandId : Int) (data : QVariantMap), (data.value "success").toBool = false →
        ∃ s', processAuthenticate env commandId data s = Except.ok s'
          ∧ s'.effects = s.effects ++ [Effect.emit Signal.authenticationFailed]
          ∧ credentials s' = credentials s ∧ session s' = session s
          ∧ s'.m_replies = s.m_replies ∧ s'.m_id = s.m_id)
    ∧ (∀ (commandId : Int) (data : QVariantMap), (data.value "success").toBool = false →
        (processRequestPushButtonAuth commandId data s).effects
            = s.effects ++ [Effect.emit Signal.pushButtonAuthFailed]
          ∧ credentials (processRequestPushButtonAuth commandId data s) = credentials s
          ∧ session (processRequestPushButtonAuth commandId data s) = session s
          ∧ (processRequestPushButtonAuth commandId data s).m_replies = s.m_replies
          ∧ (processRequestPushButtonAuth commandId data s).m_id = s.m_id)
    ∧ (∀ (data : QVariantMap),
        (data.value "notification").toQString = "JSONRPC.PushButtonAuthFinished" →
        ((data.value "params").toMap.value "transactionId").toInt
          = s.m_pendingPushButtonTransaction →
        ((data.value "params").toMap.value "success").toBool = false →
        ∃ s', notificationReceived env data s = Except.ok s'
          ∧ s'.effects = s.effects ++ [Effect.emit Signal.pushButtonAuthFailed]
          ∧ credentials s' = credentials s ∧ session s' = session s
          ∧ s'.m_replies = s.m_replies ∧ s'.m_id = s.m_id) := by
  refine ⟨?_, ?_, ?_⟩
  · intro commandId data hfail
    refine ⟨emit Signal.authenticationFailed s, ?_, rfl, rfl, rfl, rfl, rfl⟩
    simp only [processAuthenticate, hfail, Bool.false_eq_true, if_false]
  · intro commandId data hfail
    have h : processRequestPushButtonAuth commandId data s = emit Signal.pushButtonAuthFailed s := by
      simp only [processRequestPushButtonAuth, hfail, Bool.false_eq_true, if_false]
    rw [h]
    exact ⟨rfl, rfl, rfl, rfl, rfl⟩
  · intro data hname hid hfail
    refine ⟨emit Signal.pushButtonAuthFailed { s with m_pendingPushButtonTransaction := -1 },
      ?_, rfl, rfl, rfl, rfl, rfl⟩
    simp only [notificationReceived, hname, if_true, hid, ne_eq, not_true_eq_false, if_false,
      hfail, Bool.false_eq_true]

/-- C27, witness: the example session receives a failed authentication reply and a
failed push button reply; the example client waiting for transaction 4
receives the notification of its failure. -/
theorem failed_authentication_keeps_session_witness :
    (∃ s', processAuthenticate exampleEnv 3 [("success", QVariant.bool false)] exampleSession
        = Except.ok s'
      ∧ s'.effects = exampleSession.effects ++ [Effect.emit Signal.authenticationFailed]
      ∧ credentials s' = credentials exampleSession ∧ session s' = session exampleSession
      ∧ s'.m_replies = exampleSession.m_replies ∧ s'.m_id = exampleSession.m_id)
    ∧ (processRequestPushButtonAuth 3 [("success", QVariant.bool false)] exampleSession).effects
        = exampleSession.effects ++ [Effect.emit Signal.pushButtonAuthFailed]
    ∧ (∃ s', notificationReceived exampleEnv examplePushButtonFailed examplePushButtonPending
        = Except.ok s'
      ∧ s'.effects = examplePushButtonPending.effects ++ [Effect.emit Signal.pushButtonAuthFailed]
      ∧ credentials s' = credentials examplePushButtonPending
      ∧ session s' = session examplePushButtonPending
      ∧ s'.m_replies = examplePushButtonPending.m_replies
      ∧ s'.m_id = examplePushButtonPending.m_id) :=
  ⟨(failed_authentication_keeps_session exampleEnv exampleSession).1 3
      [("success", QVariant.bool false)] rfl,
    ((failed_authentication_keeps_session exampleEnv exampleSession).2.1 3
      [("success", QVariant.bool false)] rfl).1,
    (failed_authentication_keeps_session exampleEnv examplePushButtonPending).2.2
      examplePushButtonFailed rfl rfl rfl⟩

/-! ## C28: queued data and a new connection -/

theorem transportConnectedChanged_false (env : Env) (s : JsonRpcClient) :
    ∃ s', transportConnectedChanged env false s = Except.ok s'
      ∧ s'.m_connection.connected = false
      ∧ s'.m_connection.currentHost = s.m_connection.currentHost
      ∧ s'.eventQueue = s.eventQueue ∧ s'.m_receiveBuffer = [] := by
  unfold transportConnectedChanged onInterfaceConnectedChanged
  simp only [Bool.not_false, if_true]
  split
  · exact ⟨_, rfl, rfl, rfl, rfl, rfl⟩
  · exact ⟨_, rfl, rfl, rfl, rfl, rfl⟩

theorem transportConnectedChanged_true (env : Env) (s : JsonRpcClient) (host : NymeaHost)
    (hhost : s.m_connection.currentHost = some host) :
    ∃ s' extra, transportConnectedChanged env true s = Except.ok s'
      ∧ s'.m_connection.connected = true
      ∧ s'.m_connection.currentHost.isSome = true
      ∧ s'.m_receiveBuffer = []
      ∧ s'.eventQueue = s.eventQueue ++ extra ∧ ∀ c, c ∈ extra → isData c = false := by
  have key : transportConnectedChanged env true s
      = (match sendCommand env "JSONRPC.Hello"
          (QMap.insert [] "locale" (QVariant.str env.localeName)) (some QObjectRef.self) "helloReply"
          { s with m_connection := { s.m_connection with connected := true }, m_receiveBuffer := [],
                   m_token := settingsValue s host.uuid.toQString } with
        | Except.error e => Except.error e
        | Except.ok r => Except.ok r.2) := by
    unfold transportConnectedChanged onInterfaceConnectedChanged
    simp only [Bool.not_true, Bool.false_eq_true, if_false, hhost]
    rfl
  obtain ⟨r, h1, q1, q2, q3, extra, q4, _, q6⟩ := sendCommand_Hello_quiet env
    (QMap.insert [] "locale" (QVariant.str env.localeName)) (some QObjectRef.self) "helloReply"
    { s with m_connection := { s.m_connection with connected := true }, m_receiveBuffer := [],
             m_token := settingsValue s host.uuid.toQString }
  refine ⟨r.2, extra, ?_, q2, ?_, q1, q4, q6⟩
  · rw [key, h1]
  · rw [q3]
    simp only [hhost, Option.isSome_some]

/-- C28, counterexample: a chunk read on the first connection is queued for
`dataReceived`; the transport reports the disconnect and then the next
connection before the event loop delivers the chunk.  Both reports leave the
chunk at the head of the queue, and its delivery on the new connection parses
the chunk and dispatches its document. -/
theorem stale_chunk_processed_after_reconnect :
    exampleChunkQueued.eventQueue = [QueuedCall.dataReceived (exampleSecond ++ ['\n'])]
      ∧ ∃ s2 s3 s4 extra,
        transportConnectedChanged exampleEnv false exampleChunkQueued = Except.ok s2
        ∧ transportConnectedChanged exampleEnv true s2 = Except.ok s3
        ∧ s3.m_connection.connected = true
        ∧ s3.m_receiveBuffer = []
        ∧ s3.eventQueue = QueuedCall.dataReceived (exampleSecond ++ ['\n']) :: extra
        ∧ documentOf exampleEnv (QueuedCall.dataReceived (exampleSecond ++ ['\n']))
            { s3 with eventQueue := extra } = some [("id", QVariant.int 2)]
        ∧ deliver exampleEnv (QueuedCall.dataReceived (exampleSecond ++ ['\n']))
            { s3 with eventQueue := extra } = Except.ok s4
        ∧ s4.m_receiveBuffer = [] := by
  refine ⟨rfl, ?_⟩
  obtain ⟨s2, h2, _, c2, q2, _⟩ := transportConnectedChanged_false exampleEnv exampleChunkQueued
  obtain ⟨s3, extra, h3, c3, t3, b3, q3, _⟩ := transportConnectedChanged_true exampleEnv s2
    ⟨QUuid.null⟩ (by rw [c2]; rfl)
  have hq : s3.eventQueue = QueuedCall.dataReceived (exampleSecond ++ ['\n']) :: extra := by
    rw [q3, q2]
    rfl
  have hcand : candidate (s3.m_receiveBuffer ++ (exampleSecond ++ ['\n'])) = exampleSecond ++ ['\n'] := by
    rw [b3]
    exact (candidate_of_not_hasSplit _ (by decide)).1
  have hrem : remainder (s3.m_receiveBuffer ++ (exampleSecond ++ ['\n'])) = [] := by
    rw [b3]
    exact (candidate_of_not_hasSplit _ (by decide)).2
  have hparse : exampleEnv.fromJson (exampleSecond ++ ['\n'])
      = some (QVariant.map [("id", QVariant.int 2)]) := by rfl
  have hp : exampleEnv.fromJson
      (candidate (({ s3 with eventQueue := extra } : JsonRpcClient).m_receiveBuffer
        ++ (exampleSecond ++ ['\n']))) = some (QVariant.map [("id", QVariant.int 2)]) := by
    show exampleEnv.fromJson (candidate (s3.m_receiveBuffer ++ (exampleSecond ++ ['\n']))) = _
    rw [hcand]
    exact hparse
  obtain ⟨s4, h4, b4, _⟩ := handleDocument_quiet exampleEnv
    (QVariant.map [("id", QVariant.int 2)]).toMap
    { s3 with eventQueue := extra, m_receiveBuffer := [] } t3
  refine ⟨s2, s3, s4, extra, h2, h3, c3, b3, hq, ?_, ?_, b4⟩
  · simp only [documentOf, dispatchedDocument, c3, Bool.not_true, Bool.false_eq_true, if_false,
      hcand, hparse, Option.map_some']
    rfl
  · show dataReceived exampleEnv (exampleSecond ++ ['\n']) { s3 with eventQueue := extra } = _
    rw [dataReceived_some exampleEnv (exampleSecond ++ ['\n']) { s3 with eventQueue := extra }
      (QVariant.map [("id", QVariant.int 2)]) c3 hp]
    have hrem2 : remainder (({ s3 with eventQueue := extra } : JsonRpcClient).m_receiveBuffer
        ++ (exampleSecond ++ ['\n'])) = [] := hrem
    rw [hrem2]
    exact h4

/-- C28, amended: the client holds no tag of the connection a queued chunk was read
on.  A call of `dataReceived` delivered while the transport is not connected
leaves the state as it is and dispatches nothing.  Delivered while the
transport is connected, its bytes are appended to the buffer and the candidate
is parsed, whichever connection they were read on.  A report of the transport,
disconnected or connected, empties the buffer and leaves every queued call in
the queue, adding no call of `dataReceived`. -/
theorem queued_data_discarded_while_disconnected (env : Env) (s : JsonRpcClient) :
    (∀ data : QByteArray, s.m_connection.connected = false →
        dataReceived env data s = Except.ok s ∧ dispatchedDocument env data s = none)
    ∧ (∀ data : QByteArray, s.m_connection.connected = true →
        (env.fromJson (candidate (s.m_receiveBuffer ++ data)) = none →
          dataReceived env data s
            = Except.ok { s with m_receiveBuffer := s.m_receiveBuffer ++ data })
        ∧ (∀ v, env.fromJson (candidate (s.m_receiveBuffer ++ data)) = some v →
          dispatchedDocument env data s = some v.toMap))
    ∧ (∃ s', transportConnectedChanged env false s = Except.ok s'
        ∧ s'.m_connection.connected = false
        ∧ s'.m_connection.currentHost = s.m_connection.currentHost
        ∧ s'.eventQueue = s.eventQueue ∧ s'.m_receiveBuffer = [])
    ∧ (∀ host : NymeaHost, s.m_connection.currentHost = some host →
        ∃ s' extra, transportConnectedChanged env true s = Except.ok s'
          ∧ s'.m_connection.connected = true
          ∧ s'.m_connection.currentHost.isSome = true
          ∧ s'.m_receiveBuffer = []
          ∧ s'.eventQueue = s.eventQueue ++ extra ∧ ∀ c, c ∈ extra → isData c = false) := by
  refine ⟨?_, ?_, transportConnectedChanged_false env s,
    fun host hhost => transportConnectedChanged_true env s host hhost⟩
  · intro data hconn
    constructor
    · simp only [dataReceived, hconn, Bool.not_false, if_true]
    · simp only [dispatchedDocument, hconn, Bool.not_false, if_true]
  · intro data hconn
    constructor
    · exact fun hp => dataReceived_none env data s hconn hp
    · intro v hv
      simp only [dispatchedDocument, hconn, Bool.not_true, Bool.false_eq_true, if_false, hv,
        Option.map_some']

/-- C28, witness: the example client with the queued chunk, disconnected and
connected. -/
theorem queued_data_discarded_while_disconnected_witness :
    (dataReceived exampleEnv (exampleSecond ++ ['\n'])
          { exampleChunkQueued with m_connection := ⟨false, false, exampleCertificate, none⟩ }
        = Except.ok { exampleChunkQueued with m_connection := ⟨false, false, exampleCertificate, none⟩ }
      ∧ dispatchedDocument exampleEnv (exampleSecond ++ ['\n'])
          { exampleChunkQueued with m_connection := ⟨false, false, exampleCertificate, none⟩ }
        = none)
    ∧ dataReceived exampleEnv exampleUndecodable exampleChunkQueued
        = Except.ok { exampleChunkQueued with
            m_receiveBuffer := exampleChunkQueued.m_receiveBuffer ++ exampleUndecodable }
    ∧ dispatchedDocument exampleEnv (exampleSecond ++ ['\n']) exampleChunkQueued
        = some (QVariant.map [("id", QVariant.int 2)]).toMap
    ∧ (∃ s' extra, transportConnectedChanged exampleEnv true exampleChunkQueued = Except.ok s'
        ∧ s'.m_connection.connected = true
        ∧ s'.m_connection.currentHost.isSome = true
        ∧ s'.m_receiveBuffer = []
        ∧ s'.eventQueue = exampleChunkQueued.eventQueue ++ extra
        ∧ ∀ c, c ∈ extra → isData c = false) :=
  ⟨(queued_data_discarded_while_disconnected exampleEnv
      { exampleChunkQueued with m_connection := ⟨false, false, exampleCertificate, none⟩ }).1
      (exampleSecond ++ ['\n']) rfl,
    ((queued_data_discarded_while_disconnected exampleEnv exampleChunkQueued).2.1
      exampleUndecodable rfl).1 (by rfl),
    ((queued_data_discarded_while_disconnected exampleEnv exampleChunkQueued).2.1
      (exampleSecond ++ ['\n']) rfl).2 (QVariant.map [("id", QVariant.int 2)]) (by rfl),
    (queued_data_discarded_while_disconnected exampleEnv exampleChunkQueued).2.2.2
      ⟨QUuid.null⟩ rfl⟩

/-! ## C29: the request document -/

theorem splitAux_no_separator (sep : Char) (l cur : List Char) (h : sep ∉ l) :
    splitAux sep l cur = [cur ++ l] := by
  induction l generalizing cur with
  | nil => simp [splitAux]
  | cons c cs ih =>
    have hc : c ≠ sep := fun hc => h (by simp [hc])
    have hcs : sep ∉ cs := fun hcs => h (List.mem_cons_of_mem c hcs)
    rw [splitAux, if_neg hc, ih _ hcs]
    simp

/-- A namespace and a name without dots, joined by a dot, split into the two. -/
theorem split_full_method (nameSpace name : QString) (hns : '.' ∉ nameSpace.toList)
    (hname : '.' ∉ name.toList) :
    QString.split (nameSpace ++ "." ++ name) '.' = [nameSpace, name] := by
  have h : (nameSpace ++ "." ++ name).toList = nameSpace.toList ++ '.' :: name.toList := by
    simp [String.toList, String.data_append]
  simp only [QString.split, h, splitAux_head '.' nameSpace.toList name.toList [] hns,
    splitAux_no_separator '.' name.toList [] hname, List.map_cons, List.map_nil, List.nil_append]
  rfl

/-- C29: for a method made of a namespace and a name without dots, joined by a dot,
`createReply` allocates the next identifier and builds a record whose request
document holds "id" with that identifier and "method" with the full method;
it holds "params" with the params of the call when these are not empty, and no
other entry. -/
theorem request_document_entries (nameSpace name : QString) (params : QVariantMap)
    (caller : Option QObjectRef) (callback : QString) (s : JsonRpcClient)
    (hns : '.' ∉ nameSpace.toList) (hname : '.' ∉ name.toList) :
    ∃ reply, createReply (nameSpace ++ "." ++ name) params caller callback s
        = (some reply, { s with m_id := toInt32 (s.m_id + 1) })
      ∧ reply.m_commandId = toInt32 (s.m_id + 1)
      ∧ (params = [] → reply.requestMap
          = [("id", QVariant.int (toInt32 (s.m_id + 1))),
             ("method", QVariant.str (nameSpace ++ "." ++ name))])
      ∧ (params ≠ [] → reply.requestMap
          = [("id", QVariant.int (toInt32 (s.m_id + 1))),
             ("method", QVariant.str (nameSpace ++ "." ++ name)),
             ("params", QVariant.map params)]) := by
  have hsplit := split_full_method nameSpace name hns hname
  refine ⟨⟨toInt32 (s.m_id + 1), nameSpace, name, params, caller, callback⟩, ?_, rfl, ?_, ?_⟩
  · simp only [createReply, hsplit, List.length_cons, List.length_nil, ne_eq, not_true_eq_false,
      if_false, List.headD_cons, List.getLastD]
    rfl
  · intro hp
    subst hp
    simp [JsonRpcReply.requestMap, QMap.insert]
  · intro hp
    cases params with
    | nil => exact absurd rfl hp
    | cons e rest => simp [JsonRpcReply.requestMap, QMap.insert]

/-- C29, witness: the call `Things.GetThings` without params and the call
`JSONRPC.Hello` with a locale, on the example client. -/
theorem request_document_entries_witness :
    (∃ reply, createReply ("Things" ++ "." ++ "GetThings") [] (some (QObjectRef.object 7))
          "getThingsReply" exampleClient
        = (some reply, { exampleClient with m_id := toInt32 (exampleClient.m_id + 1) })
      ∧ reply.requestMap
          = [("id", QVariant.int (toInt32 (exampleClient.m_id + 1))),
             ("method", QVariant.str ("Things" ++ "." ++ "GetThings"))])
    ∧ (∃ reply, createReply ("JSONRPC" ++ "." ++ "Hello") [("locale", QVariant.str "en_US")]
          (some QObjectRef.self) "helloReply" exampleClient
        = (some reply, { exampleClient with m_id := toInt32 (exampleClient.m_id + 1) })
      ∧ reply.requestMap
          = [("id", QVariant.int (toInt32 (exampleClient.m_id + 1))),
             ("method", QVariant.str ("JSONRPC" ++ "." ++ "Hello")),
             ("params", QVariant.map [("locale", QVariant.str "en_US")])]) := by
  constructor
  · obtain ⟨reply, h1, _, h3, _⟩ := request_document_entries "Things" "GetThings" []
      (some (QObjectRef.object 7)) "getThingsReply" exampleClient (by decide) (by decide)
    exact ⟨reply, h1, h3 rfl⟩
  · obtain ⟨reply, h1, _, _, h4⟩ := request_document_entries "JSONRPC" "Hello"
      [("locale", QVariant.str "en_US")] (some QObjectRef.self) "helloReply" exampleClient
      (by decide) (by decide)
    exact ⟨reply, h1, h4 (by simp)⟩

/-! ## C30: certificates of different servers -/

theorem takeHex_length (n : Nat) (cs d rest : List Char)
    (h : QUuid.takeHex n cs = some (d, rest)) : d.length = n := by
  induction n generalizing cs d rest with
  | zero =>
    simp only [QUuid.takeHex, Option.some.injEq, Prod.mk.injEq] at h
    rw [← h.1]
    rfl
  | succ n ih =>
    cases cs with
    | nil => simp [QUuid.takeHex] at h
    | cons c cs =>
      simp only [QUuid.takeHex] at h
      split at h
      · cases hr : QUuid.takeHex n cs with
        | none => simp [hr] at h
        | some r =>
          obtain ⟨d1, rest1⟩ := r
          simp only [hr, Option.map_some', Option.some.injEq, Prod.mk.injEq] at h
          rw [← h.1, List.length_cons, ih cs d1 rest1 hr]
      · cases h

/-- The uuid read from a text has 32 digits. -/
theorem fromString_length (text : QString) : (QUuid.fromString text).digits.length = 32 := by
  unfold QUuid.fromString
  simp only []
  split
  · rename_i ds hparsed
    simp only [bind, Option.bind_eq_some, Prod.exists, pure, Option.some.injEq] at hparsed
    obtain ⟨d1, r1, h1, r2, _, d2, r3, h2, r4, _, d3, r5, h3, r6, _, d4, r7, h4, r8, _, d5, r9,
      h5, hds⟩ := hparsed
    rw [← hds]
    simp only [List.length_append, takeHex_length _ _ _ _ h1, takeHex_length _ _ _ _ h2,
      takeHex_length _ _ _ _ h3, takeHex_length _ _ _ _ h4, takeHex_length _ _ _ _ h5]
  · rfl

theorem digits_pieces (d : List Char) :
    d = d.take 8 ++ ((d.drop 8).take 4 ++ ((d.drop 12).take 4 ++ ((d.drop 16).take 4
      ++ d.drop 20))) := by
  have h1 : d.drop 16 = (d.drop 16).take 4 ++ d.drop 20 := by
    conv_lhs => rw [← List.take_append_drop 4 (d.drop 16)]
    rw [List.drop_drop]
  have h2 : d.drop 12 = (d.drop 12).take 4 ++ d.drop 16 := by
    conv_lhs => rw [← List.take_append_drop 4 (d.drop 12)]
    rw [List.drop_drop]
  have h3 : d.drop 8 = (d.drop 8).take 4 ++ d.drop 12 := by
    conv_lhs => rw [← List.take_append_drop 4 (d.drop 8)]
    rw [List.drop_drop]
  rw [← h1, ← h2, ← h3, List.take_append_drop]

/-- Uuids of 32 digits with the same text are the same. -/
theorem toStringWithoutBraces_injective (u v : QUuid) (hu : u.digits.length = 32)
    (hv : v.digits.length = 32)
    (h : u.toStringWithoutBraces = v.toStringWithoutBraces) : u = v := by
  obtain ⟨d⟩ := u
  obtain ⟨e⟩ := v
  simp only at hu hv
  simp only [QUuid.toStringWithoutBraces, List.append_assoc] at h
  have h := congrArg String.data h
  simp only at h
  have l1 : (d.take 8).length = (e.take 8).length := by simp [hu, hv]
  obtain ⟨p1, h⟩ := List.append_inj h l1
  simp only [List.singleton_append, List.cons.injEq, true_and] at h
  have l2 : ((d.drop 8).take 4).length = ((e.drop 8).take 4).length := by simp [hu, hv]
  obtain ⟨p2, h⟩ := List.append_inj h l2
  simp only [List.singleton_append, List.cons.injEq, true_and] at h
  have l3 : ((d.drop 12).take 4).length = ((e.drop 12).take 4).length := by simp [hu, hv]
  obtain ⟨p3, h⟩ := List.append_inj h l3
  simp only [List.singleton_append, List.cons.injEq, true_and] at h
  have l4 : ((d.drop 16).take 4).length = ((e.drop 16).take 4).length := by simp [hu, hv]
  obtain ⟨p4, h⟩ := List.append_inj h l4
  simp only [List.singleton_append, List.cons.injEq, true_and] at h
  have hd := digits_pieces d
  have he := digits_pieces e
  rw [p1, p2, p3, p4, h, ← he] at hd
  rw [hd]

/-- Different uuids read from texts have different certificate files. -/
theorem pemFileName_ne (A B : QString) (h : QUuid.fromString A ≠ QUuid.fromString B) :
    pemFileName (QUuid.fromString A) ≠ pemFileName (QUuid.fromString B) := by
  intro heq
  apply h
  apply toStringWithoutBraces_injective _ _ (fromString_length A) (fromString_length B)
  simp only [pemFileName] at heq
  apply String.ext
  have := congrArg String.data heq
  simpa [String.data_append] using this

/-- C30, counterexample: the texts "srv-1" and "srv-2" differ and neither is the text
of a uuid; both are read as the null uuid, so their certificate files have the
same name and a certificate stored for "srv-1" is the one loaded for "srv-2". -/
theorem certificate_files_collide :
    ("srv-1" : QString) ≠ "srv-2"
      ∧ QUuid.fromString "srv-1" = QUuid.null ∧ QUuid.fromString "srv-2" = QUuid.null
      ∧ pemFileName (QUuid.fromString "srv-1") = pemFileName (QUuid.fromString "srv-2")
      ∧ loadPem (QUuid.fromString "srv-2") exampleEncrypted = none
      ∧ loadPem (QUuid.fromString "srv-2")
          (storePem (QUuid.fromString "srv-1") "PEM-A".toList exampleEncrypted)
        = some "PEM-A".toList :=
  ⟨by decide, by decide, by decide, by decide, by decide, by decide⟩

/-- C30, amended: pinned certificates are kept per uuid read from the identifier
text.  When the texts A and B are read as different uuids, their certificate
files have different names, storing a certificate for A does not change the
certificate loaded for B, and the certificate loaded for A afterwards is the
stored one. -/
theorem certificates_kept_per_uuid (A B : QString) (pem : QByteArray) (s : JsonRpcClient)
    (h : QUuid.fromString A ≠ QUuid.fromString B) :
    pemFileName (QUuid.fromString A) ≠ pemFileName (QUuid.fromString B)
      ∧ loadPem (QUuid.fromString B) (storePem (QUuid.fromString A) pem s)
          = loadPem (QUuid.fromString B) s
      ∧ loadPem (QUuid.fromString B) (acceptCertificate A pem s)
          = loadPem (QUuid.fromString B) s
      ∧ loadPem (QUuid.fromString A) (storePem (QUuid.fromString A) pem s) = some pem := by
  have hne := pemFileName_ne A B h
  have hkeep : loadPem (QUuid.fromString B) (storePem (QUuid.fromString A) pem s)
      = loadPem (QUuid.fromString B) s := by
    simp only [loadPem, storePem]
    exact QMap.value?_insert_of_ne _ _ _ _ hne.symm
  refine ⟨hne, hkeep, hkeep, ?_⟩
  simp only [loadPem, storePem]
  exact QMap.value?_insert_self _ _ _

/-- C30, witness: two uuid texts that differ in the last digit, on the encrypted
example client. -/
theorem certificates_kept_per_uuid_witness :
    pemFileName (QUuid.fromString exampleUuidA) ≠ pemFileName (QUuid.fromString exampleUuidB)
      ∧ loadPem (QUuid.fromString exampleUuidB)
          (storePem (QUuid.fromString exampleUuidA) "PEM-A".toList exampleEncrypted)
          = loadPem (QUuid.fromString exampleUuidB) exampleEncrypted
      ∧ loadPem (QUuid.fromString exampleUuidB)
          (acceptCertificate exampleUuidA "PEM-A".toList exampleEncrypted)
          = loadPem (QUuid.fromString exampleUuidB) exampleEncrypted
      ∧ loadPem (QUuid.fromString exampleUuidA)
          (storePem (QUuid.fromString exampleUuidA) "PEM-A".toList exampleEncrypted)
          = some "PEM-A".toList :=
  certificates_kept_per_uuid exampleUuidA exampleUuidB "PEM-A".toList exampleEncrypted
    (by decide)


/-! ## C31: a method that is not `Namespace.Method` -/

/-- C31: for a method that does not split into exactly two parts at the dots,
`createReply` hands back the null pointer and leaves the client as it is, the
identifier counter included; `sendCommand` then dereferences the null pointer,
whatever the cache holds: it does not return. -/
theorem sendCommand_invalid_method (env : Env) (method : QString) (params : QVariantMap)
    (caller : Option QObjectRef) (callbackMethod : QString) (s : JsonRpcClient)
    (hparts : (QString.split method '.').length ≠ 2) :
    createReply method params caller callbackMethod s = (none, s)
      ∧ sendCommand env method params caller callbackMethod s
          = Except.error Fault.nullDereference := by
  have h : createReply method params caller callbackMethod s = (none, s) := by
    unfold createReply
    exact if_pos hparts
  refine ⟨h, ?_⟩
  simp only [sendCommand, h]

/-- C31, witness: the call `sendCommand("Hello", ...)` on the example client: the
method has no dot, no record is created and the call ends in a null pointer
dereference. -/
theorem sendCommand_invalid_method_witness :
    createReply "Hello" [] (some (QObjectRef.object 7)) "helloDone" exampleClient
        = (none, exampleClient)
      ∧ sendCommand exampleEnv "Hello" [] (some (QObjectRef.object 7)) "helloDone" exampleClient
          = Except.error Fault.nullDereference :=
  sendCommand_invalid_method exampleEnv "Hello" [] (some (QObjectRef.object 7)) "helloDone"
    exampleClient (by decide)

/-! ## C33: authenticated and authentication required -/

theorem sendRequest_authFlags (request : QVariantMap) (s : JsonRpcClient) :
    (sendRequest request s).m_authenticated = s.m_authenticated
      ∧ (sendRequest request s).m_authenticationRequired = s.m_authenticationRequired
      ∧ (sendRequest request s).m_token = s.m_token := by
  simp only [sendRequest, sendData]
  split <;> exact ⟨rfl, rfl, rfl⟩

theorem setNotificationsEnabled_authFlags (s : JsonRpcClient) :
    ∃ s', setNotificationsEnabled s = Except.ok s'
      ∧ s'.m_authenticated = s.m_authenticated
      ∧ s'.m_authenticationRequired = s.m_authenticationRequired ∧ s'.m_token = s.m_token := by
  unfold setNotificationsEnabled
  split
  · exact ⟨_, rfl, rfl, rfl, rfl⟩
  · simp only [createReply_SetNotificationStatus]
    exact ⟨_, rfl, (sendRequest_authFlags _ _).1, (sendRequest_authFlags _ _).2.1,
      (sendRequest_authFlags _ _).2.2⟩

theorem getCloudConnectionStatus_authFlags (s : JsonRpcClient) :
    ∃ s', getCloudConnectionStatus s = Except.ok s'
      ∧ s'.m_authenticated = s.m_authenticated
      ∧ s'.m_authenticationRequired = s.m_authenticationRequired ∧ s'.m_token = s.m_token := by
  simp only [getCloudConnectionStatus, createReply_IsCloudConnected]
  exact ⟨_, rfl, (sendRequest_authFlags _ _).1, (sendRequest_authFlags _ _).2.1,
    (sendRequest_authFlags _ _).2.2⟩

theorem helloReplyNotifications_authFlags (s : JsonRpcClient) :
    ∃ s', helloReplyNotifications s = Except.ok s'
      ∧ s'.m_authenticated = s.m_authenticated
      ∧ s'.m_authenticationRequired = s.m_authenticationRequired ∧ s'.m_token = s.m_token := by
  obtain ⟨s1, h1, a1, b1, c1⟩ := setNotificationsEnabled_authFlags s
  obtain ⟨s2, h2, a2, b2, c2⟩ := getCloudConnectionStatus_authFlags s1
  refine ⟨s2, ?_, a2.trans a1, b2.trans b1, c2.trans c1⟩
  simp only [helloReplyNotifications, h1, h2]

theorem bothAuthenticatedAndRequired_eq_false (s : JsonRpcClient)
    (h : s.m_authenticated = false ∨ s.m_authenticationRequired = false ∨ s.m_token ≠ []) :
    bothAuthenticatedAndRequired s = false := by
  simp only [bothAuthenticatedAndRequired, authenticated, authenticationRequired]
  rcases h with h | h | h
  · simp [h]
  · simp [h]
  · cases ht : s.m_token with
    | nil => exact absurd ht h
    | cons c cs => simp [List.isEmpty]

theorem bothAuthenticatedAndRequired_cases (s : JsonRpcClient)
    (h : bothAuthenticatedAndRequired s = false) :
    s.m_authenticated = false ∨ s.m_authenticationRequired = false ∨ s.m_token ≠ [] := by
  simp only [bothAuthenticatedAndRequired, authenticated, authenticationRequired] at h
  cases ha : s.m_authenticated with
  | false => exact Or.inl rfl
  | true =>
    cases hr : s.m_authenticationRequired with
    | false => exact Or.inr (Or.inl rfl)
    | true =>
      right
      right
      intro ht
      simp [ha, hr, ht] at h

theorem helloReplyAuthentication_flags (s s' : JsonRpcClient) (hno : s.m_authenticated = false)
    (h : helloReplyAuthentication s = Except.ok s') : bothAuthenticatedAndRequired s' = false := by
  have key : ∀ s1 : JsonRpcClient,
      (s1.m_authenticated = false ∨ s1.m_authenticationRequired = false ∨ s1.m_token ≠ []) →
      helloReplyNotifications s1 = Except.ok s' → bothAuthenticatedAndRequired s' = false := by
    intro s1 h1 hs
    obtain ⟨s2, h2, a2, b2, c2⟩ := helloReplyNotifications_authFlags s1
    rw [h2] at hs
    cases hs
    apply bothAuthenticatedAndRequired_eq_false
    rw [a2, b2, c2]
    exact h1
  unfold helloReplyAuthentication at h
  split at h
  · cases h
    exact bothAuthenticatedAndRequired_eq_false _ (Or.inl hno)
  · split at h
    · simp only [] at h
      split at h
      · cases h
        exact bothAuthenticatedAndRequired_eq_false _ (Or.inl hno)
      · rename_i hne
        refine key _ (Or.inr (Or.inr ?_)) h
        intro ht
        apply hne
        simp only [emit] at ht ⊢
        rw [ht]
        rfl
    · rename_i hreq
      exact key s (Or.inr (Or.inl (by simpa using hreq))) h

theorem helloReplySession_flags (env : Env) (params : QVariantMap) (s s' : JsonRpcClient)
    (hno : s.m_authenticated = false)
    (h : helloReplySession env params s = Except.ok s') :
    bothAuthenticatedAndRequired s' = false := by
  unfold helloReplySession at h
  simp only [] at h
  split at h
  · cases h
  · exact helloReplyAuthentication_flags _ s' (by simpa [updateHostUuid, helloReplySessionFields, emit] using hno) h

theorem helloReply_flags (env : Env) (commandId : Int) (params : QVariantMap)
    (s s' : JsonRpcClient) (hno : s.m_authenticated = false)
    (h : helloReply env commandId params s = Except.ok s') :
    bothAuthenticatedAndRequired s' = false := by
  have hf : (helloReplyFields params s).m_authenticated = false := hno
  unfold helloReply at h
  simp only [] at h
  split at h
  · cases h
    exact bothAuthenticatedAndRequired_eq_false _ (Or.inl hno)
  · split at h
    · cases h
      exact bothAuthenticatedAndRequired_eq_false _ (Or.inl hno)
    · split at h
      · split at h
        · exact helloReplySession_flags env params _ s' (by simpa [storePem, emit] using hf) h
        · split at h
          · cases h
            exact bothAuthenticatedAndRequired_eq_false _ (Or.inl hno)
          · exact helloReplySession_flags env params _ s' hf h
      · exact helloReplySession_flags env params _ s' hf h

theorem sendCommand_authFlags (env : Env) (method : QString) (params : QVariantMap)
    (caller : Option QObjectRef) (callback : QString) (s : JsonRpcClient) (r : Int × JsonRpcClient)
    (h : sendCommand env method params caller callback s = Except.ok r) :
    r.2.m_authenticated = s.m_authenticated
      ∧ r.2.m_authenticationRequired = s.m_authenticationRequired ∧ r.2.m_token = s.m_token := by
  rcases createReply_cases method params caller callback s with hc | ⟨ns, m, hc⟩
  · simp only [sendCommand, hc] at h
    cases h
  · simp only [sendCommand, hc] at h
    split at h
    · cases h
      cases caller with
      | none => exact ⟨rfl, rfl, rfl⟩
      | some object =>
        simp only [JsonRpcReply.caller, JsonRpcReply.callback, post]
        split <;> exact ⟨rfl, rfl, rfl⟩
    · cases h
      exact ⟨(sendRequest_authFlags _ _).1, (sendRequest_authFlags _ _).2.1,
        (sendRequest_authFlags _ _).2.2⟩

theorem transportConnectedChanged_flags (env : Env) (connected : Bool) (s s' : JsonRpcClient)
    (hno : connected = true → s.m_authenticated = false)
    (h : transportConnectedChanged env connected s = Except.ok s') :
    bothAuthenticatedAndRequired s' = false := by
  cases connected with
  | false =>
    unfold transportConnectedChanged onInterfaceConnectedChanged at h
    simp only [Bool.not_false, if_true] at h
    split at h
    · cases h
      exact bothAuthenticatedAndRequired_eq_false _ (Or.inl rfl)
    · cases h
      exact bothAuthenticatedAndRequired_eq_false _ (Or.inl rfl)
  | true =>
    unfold transportConnectedChanged onInterfaceConnectedChanged at h
    simp only [Bool.not_true, Bool.false_eq_true, if_false] at h
    split at h
    · cases h
    · split at h
      · cases h
      · rename_i r hr
        cases h
        have := (sendCommand_authFlags env _ _ _ _ _ r hr).1
        exact bothAuthenticatedAndRequired_eq_false _ (Or.inl (this.trans (hno rfl)))

theorem processAuthenticate_flags (env : Env) (commandId : Int) (data : QVariantMap)
    (s s' : JsonRpcClient) (hinv : bothAuthenticatedAndRequired s = false)
    (htoken : (data.value "success").toBool = true → (data.value "token").toByteArray ≠ [])
    (h : processAuthenticate env commandId data s = Except.ok s') :
    bothAuthenticatedAndRequired s' = false := by
  unfold processAuthenticate at h
  split at h
  · rename_i hsuccess
    obtain ⟨s2, h2, a2, b2, c2⟩ := setNotificationsEnabled_authFlags (processAuthenticateFields env data s)
    rw [h2] at h
    cases h
    apply bothAuthenticatedAndRequired_eq_false
    right
    right
    rw [c2, processAuthenticateFields_m_token]
    exact htoken hsuccess
  · cases h
    exact hinv

theorem notificationReceived_flags (env : Env) (data : QVariantMap) (s s' : JsonRpcClient)
    (hinv : bothAuthenticatedAndRequired s = false)
    (htoken : ((data.value "params").toMap.value "success").toBool = true →
      ((data.value "params").toMap.value "token").toByteArray ≠ [])
    (h : notificationReceived env data s = Except.ok s') :
    bothAuthenticatedAndRequired s' = false := by
  unfold notificationReceived at h
  split at h
  · split at h
    · cases h
      exact hinv
    · simp only [] at h
      split at h
      · rename_i hsuccess
        obtain ⟨s2, h2, a2, b2, c2⟩ := setNotificationsEnabled_authFlags
          (pushButtonAuthFields data { s with m_pendingPushButtonTransaction := -1 })
        rw [h2] at h
        cases h
        apply bothAuthenticatedAndRequired_eq_false
        right
        right
        rw [c2, pushButtonAuthFields_m_token]
        exact htoken hsuccess
      · cases h
        exact hinv
  · split at h
    · cases h
      exact hinv
    · cases h
      exact hinv

/-- One admissible event keeps the two properties apart. -/
theorem performAuth_flags (env : Env) (e : AuthEvent) (s s' : JsonRpcClient)
    (hinv : bothAuthenticatedAndRequired s = false) (hadm : e.admissible s)
    (h : performAuth env e s = Except.ok s') : bothAuthenticatedAndRequired s' = false := by
  cases e with
  | transport connected => exact transportConnectedChanged_flags env connected s s' hadm h
  | helloReply commandId params => exact helloReply_flags env commandId params s s' hadm h
  | authenticateReply commandId data =>
    exact processAuthenticate_flags env commandId data s s' hinv hadm h
  | notification data => exact notificationReceived_flags env data s s' hinv hadm h
  | unauthorizedReply =>
    simp only [performAuth, Except.ok.injEq] at h
    rw [← h]
    exact bothAuthenticatedAndRequired_eq_false _ (Or.inl rfl)

theorem runAuth_flags (env : Env) (events : List AuthEvent) (s s' : JsonRpcClient)
    (hinv : bothAuthenticatedAndRequired s = false) (hord : Orderly env events s)
    (h : runAuth env events s = Except.ok s') : bothAuthenticatedAndRequired s' = false := by
  induction events generalizing s with
  | nil =>
    simp only [runAuth, Except.ok.injEq] at h
    rw [← h]
    exact hinv
  | cons e rest ih =>
    simp only [runAuth] at h
    cases he : performAuth env e s with
    | error f => simp [he] at h
    | ok s1 =>
      simp only [he] at h
      exact ih s1 (performAuth_flags env e s s1 hinv hord.1 he) (hord.2 s1 he) h

theorem transportConnectedChanged_authenticated (env : Env) (s s' : JsonRpcClient)
    (h : transportConnectedChanged env true s = Except.ok s') :
    s'.m_authenticated = s.m_authenticated := by
  unfold transportConnectedChanged onInterfaceConnectedChanged at h
  simp only [Bool.not_true, Bool.false_eq_true, if_false] at h
  split at h
  · cases h
  · split at h
    · cases h
    · rename_i r hr
      cases h
      exact (sendCommand_authFlags env _ _ _ _ _ r hr).1

/-- C33, counterexample: the Hello reply requires authentication and no token is
stored; the authentication reply reports success without a token.  The client
is marked authenticated while its token is empty, so `authenticated()` and
`authenticationRequired()` are both true. -/
theorem authenticated_without_token_example :
    bothAuthenticatedAndRequired exampleClient = false
      ∧ ∃ s', runAuth exampleEnv exampleTokenlessRun exampleClient = Except.ok s'
        ∧ authenticated s' = true ∧ authenticationRequired s' = true :=
  ⟨rfl, _, rfl, rfl, rfl⟩

/-- C33, amended: from a state in which `authenticated()` and
`authenticationRequired()` are not both true, every run of transport reports,
Hello replies, authentication replies, JSONRPC notifications and unauthorized
replies ends in such a state again, provided every event is admissible where
it occurs: a connection report and a Hello reply meet a client that is not
marked authenticated, and a successful authentication reply or push button
notification carries a token that is not empty. -/
theorem authenticated_excludes_required (env : Env) (events : List AuthEvent)
    (s s' : JsonRpcClient)
    (hinv : bothAuthenticatedAndRequired s = false) (hord : Orderly env events s)
    (h : runAuth env events s = Except.ok s') :
    bothAuthenticatedAndRequired s' = false
      ∧ ¬ (authenticated s' = true ∧ authenticationRequired s' = true) := by
  have hb := runAuth_flags env events s s' hinv hord h
  refine ⟨hb, ?_⟩
  rintro ⟨ha, hr⟩
  simp [bothAuthenticatedAndRequired, ha, hr] at hb

/-- C33, witness: on the example client the transport reports a connection, the
Hello reply requires authentication, the authentication succeeds with the token
"tok" and a later reply is "unauthorized". -/
theorem authenticated_excludes_required_witness :
    ∃ s', runAuth exampleEnv exampleAuthRun exampleClient = Except.ok s'
      ∧ bothAuthenticatedAndRequired s' = false
      ∧ ¬ (authenticated s' = true ∧ authenticationRequired s' = true) := by
  have hord : Orderly exampleEnv exampleAuthRun exampleClient :=
    ⟨fun _ => rfl, fun s1 h1 =>
      ⟨(transportConnectedChanged_authenticated exampleEnv exampleClient s1 h1).trans rfl,
        fun _ _ => ⟨fun _ => by decide, fun _ _ => ⟨trivial, fun _ _ => trivial⟩⟩⟩⟩
  have hrun : ∃ s', runAuth exampleEnv exampleAuthRun exampleClient = Except.ok s' := ⟨_, rfl⟩
  obtain ⟨s', hs'⟩ := hrun
  exact ⟨s', hs', authenticated_excludes_required exampleEnv exampleAuthRun exampleClient s'
    rfl hord hs'⟩

/-! ## C34: the end of a push button transaction -/

theorem setNotificationsEnabled_stored (s : JsonRpcClient) :
    ∃ s', setNotificationsEnabled s = Except.ok s'
      ∧ s'.m_authenticated = s.m_authenticated ∧ s'.m_token = s.m_token
      ∧ s'.jsonTokens = s.jsonTokens ∧ s'.m_serverUuid = s.m_serverUuid := by
  unfold setNotificationsEnabled
  split
  · exact ⟨_, rfl, rfl, rfl, rfl, rfl⟩
  · simp only [createReply_SetNotificationStatus, sendRequest, sendData]
    split <;> exact ⟨_, rfl, rfl, rfl, rfl, rfl⟩

/-- C34: the notification `JSONRPC.PushButtonAuthFinished` for the pending
transaction with success makes the client hold the delivered token and, when
the server uuid it holds is not empty, store it under that uuid (with the empty
uuid the store is left as it is), but leaves the flag behind `authenticated()`
as it was, whereas a successful reply to `JSONRPC.Authenticate`, which holds
and stores the token in the same way, sets it; a notification for another
transaction changes nothing. -/
theorem pushButton_success_leaves_authenticated (env : Env) (data : QVariantMap)
    (s : JsonRpcClient)
    (hname : (data.value "notification").toQString = "JSONRPC.PushButtonAuthFinished") :
    (((data.value "params").toMap.value "transactionId").toInt = s.m_pendingPushButtonTransaction →
      ((data.value "params").toMap.value "success").toBool = true →
      ∃ s', notificationReceived env data s = Except.ok s'
        ∧ s'.m_token = ((data.value "params").toMap.value "token").toByteArray
        ∧ (s.m_serverUuid ≠ "" → QMap.value? s'.jsonTokens s.m_serverUuid
            = some ((data.value "params").toMap.value "token").toByteArray)
        ∧ (s.m_serverUuid = "" → s'.jsonTokens = s.jsonTokens)
        ∧ authenticated s' = authenticated s)
    ∧ (((data.value "params").toMap.value "transactionId").toInt ≠ s.m_pendingPushButtonTransaction →
      notificationReceived env data s = Except.ok s)
    ∧ (∀ (commandId : Int) (reply : QVariantMap), (reply.value "success").toBool = true →
      ∃ s', processAuthenticate env commandId reply s = Except.ok s'
        ∧ s'.m_token = (reply.value "token").toByteArray
        ∧ (s.m_serverUuid ≠ "" →
            QMap.value? s'.jsonTokens s.m_serverUuid = some (reply.value "token").toByteArray)
        ∧ (s.m_serverUuid = "" → s'.jsonTokens = s.jsonTokens)
        ∧ authenticated s' = true) := by
  refine ⟨?_, ?_, ?_⟩
  · intro hid hsuccess
    obtain ⟨s', h1, a1, t1, j1, _⟩ := setNotificationsEnabled_stored
      (pushButtonAuthFields data { s with m_pendingPushButtonTransaction := -1 })
    rw [pushButtonAuthFields_m_token] at t1
    rw [pushButtonAuthFields_jsonTokens] at j1
    rw [pushButtonAuthFields_m_authenticated] at a1
    refine ⟨s', ?_, t1, ?_, ?_, a1⟩
    · simp only [notificationReceived, hname, if_true, hid, ne_eq, not_true_eq_false, if_false,
        hsuccess]
      exact h1
    · intro hu
      rw [j1]
      simp only [hu, if_false]
      exact QMap.value?_insert_self _ _ _
    · intro hu
      rw [j1]
      simp only [hu, if_true]
  · intro hid
    simp only [notificationReceived, hname, if_true, hid, ne_eq, not_false_eq_true]
  · intro commandId reply hsuccess
    obtain ⟨s', h1, a1, t1, j1, _⟩ := setNotificationsEnabled_stored
      (processAuthenticateFields env reply s)
    rw [processAuthenticateFields_m_token] at t1
    rw [processAuthenticateFields_jsonTokens] at j1
    rw [processAuthenticateFields_m_authenticated] at a1
    refine ⟨s', ?_, t1, ?_, ?_, a1⟩
    · simp only [processAuthenticate, hsuccess, if_true]
      exact h1
    · intro hu
      rw [j1]
      simp only [hu, if_false]
      exact QMap.value?_insert_self _ _ _
    · intro hu
      rw [j1]
      simp only [hu, if_true]

/-- C34, witness: the example client has learnt the server uuid "srv-1", waits for
push button transaction 4 and is not marked authenticated; the notification of
its success delivers the token "tok".  Afterwards the token is held and stored
under "srv-1", and `authenticated()` is still false; the same token in a
successful authentication reply makes it true, and the notification changes
nothing on the example client, which waits for no transaction. -/
theorem pushButton_success_leaves_authenticated_witness :
    authenticated exampleAwaitingPushButton = false
    ∧ (∃ s', notificationReceived exampleEnv examplePushButtonFinished exampleAwaitingPushButton
          = Except.ok s'
        ∧ s'.m_token = "tok".toList
        ∧ QMap.value? s'.jsonTokens "srv-1" = some "tok".toList
        ∧ authenticated s' = false)
    ∧ (∃ s', processAuthenticate exampleEnv 3 exampleAuthenticated exampleAwaitingPushButton
          = Except.ok s'
        ∧ s'.m_token = "tok".toList
        ∧ QMap.value? s'.jsonTokens "srv-1" = some "tok".toList
        ∧ authenticated s' = true)
    ∧ notificationReceived exampleEnv examplePushButtonFinished exampleClient
        = Except.ok exampleClient :=
  ⟨rfl,
    (match (pushButton_success_leaves_authenticated exampleEnv examplePushButtonFinished
        exampleAwaitingPushButton rfl).1 rfl rfl with
      | ⟨s', h1, h2, h3, _, h5⟩ => ⟨s', h1, h2, h3 (by decide), h5⟩),
    (match (pushButton_success_leaves_authenticated exampleEnv examplePushButtonFinished
        exampleAwaitingPushButton rfl).2.2 3 exampleAuthenticated rfl with
      | ⟨s', h1, h2, h3, _, h5⟩ => ⟨s', h1, h2, h3 (by decide), h5⟩),
    (pushButton_success_leaves_authenticated exampleEnv examplePushButtonFinished
      exampleClient rfl).2.1 (by decide)⟩

/-! ## C35: whether a token is stored -/

/-- C35: `tokenExists` looks for an entry under the text of the uuid, whatever the
entry holds.  On a server whose uuid is reported in that form, it is true
after a successful authentication, and it is still true after the status
"unauthorized" has emptied the token: the empty token is stored under the
same key. -/
theorem tokenExists_after_unauthorized (env : Env) (s : JsonRpcClient)
    (hcanon : (QUuid.fromString s.m_serverUuid).toQString = s.m_serverUuid) :
    (∀ (commandId : Int) (data : QVariantMap), (data.value "success").toBool = true →
      ∃ s', processAuthenticate env commandId data s = Except.ok s'
        ∧ tokenExists s.m_serverUuid s' = true)
    ∧ tokenExists s.m_serverUuid (unauthorized s) = true
    ∧ settingsValue (unauthorized s) s.m_serverUuid = []
    ∧ (unauthorized s).m_token = [] := by
  have hu : s.m_serverUuid ≠ "" := by
    rw [← hcanon]
    exact QUuid_toQString_ne_empty _
  refine ⟨?_, ?_, ?_, unauthorized_m_token s⟩
  · intro commandId data hsuccess
    obtain ⟨s', h1, _, _, j1, _⟩ := setNotificationsEnabled_stored
      (processAuthenticateFields env data s)
    refine ⟨s', ?_, ?_⟩
    · simp only [processAuthenticate, hsuccess, if_true]
      exact h1
    · simp only [tokenExists, hcanon, QMap.contains, j1, processAuthenticateFields_jsonTokens,
        if_neg hu]
      rw [QMap.value?_insert_self]
      rfl
  · simp only [tokenExists, hcanon, QMap.contains, unauthorized_jsonTokens, if_neg hu]
    rw [QMap.value?_insert_self]
    rfl
  · simp only [settingsValue, QMap.value, unauthorized_jsonTokens, if_neg hu]
    rw [QMap.value?_insert_self]
    rfl

/-- C35, witness: the example session on the server with uuid `exampleUuidA`; a
reply to the pending call 2 arrives with status "unauthorized".  Afterwards the
held and the stored token are empty and `tokenExists` is true. -/
theorem tokenExists_after_unauthorized_witness :
    (tokenExists exampleUuidA (unauthorized exampleUuidSession) = true
      ∧ settingsValue (unauthorized exampleUuidSession) exampleUuidA = []
      ∧ (unauthorized exampleUuidSession).m_token = [])
    ∧ (∃ s', processAuthenticate exampleEnv 3 exampleAuthenticated exampleUuidSession
          = Except.ok s'
        ∧ tokenExists exampleUuidA s' = true)
    ∧ ∃ s', handleDocument exampleEnv
          [("id", QVariant.int 2), ("status", QVariant.str "unauthorized")] exampleUuidSession
          = Except.ok s'
        ∧ s'.m_token = [] ∧ settingsValue s' exampleUuidA = []
        ∧ tokenExists exampleUuidA s' = true :=
  ⟨(tokenExists_after_unauthorized exampleEnv exampleUuidSession (by decide)).2,
    (tokenExists_after_unauthorized exampleEnv exampleUuidSession (by decide)).1 3
      exampleAuthenticated rfl,
    ⟨_, rfl, rfl, rfl, by decide⟩⟩

/-! ## C36: an error reply to the Hello call -/

/-- A Hello reply without params: the version read is 0, below the minimum. -/
theorem helloReply_no_params (env : Env) (commandId : Int) (s : JsonRpcClient) :
    helloReply env commandId [] s
      = Except.ok (emit (Signal.invalidMinimumVersion "0" "5.0") (helloReplyFields [] s)) := rfl

/-- The Hello call without params on a connected client that has no cache hash for
it. -/
theorem sendCommand_Hello_miss (env : Env) (s : JsonRpcClient)
    (hconn : s.m_connection.connected = true)
    (hcache : QMap.contains s.m_cacheHashes "JSONRPC.Hello" = false) :
    sendCommand env "JSONRPC.Hello" [] (some QObjectRef.self) "helloReply" s
      = Except.ok (toInt32 (s.m_id + 1),
          issued ⟨toInt32 (s.m_id + 1), "JSONRPC", "Hello", [], some QObjectRef.self, "helloReply"⟩ s) := by
  have hmiss : cachedResponse env "JSONRPC.Hello" [] { s with m_id := toInt32 (s.m_id + 1) }
      = none := by
    simp only [cachedResponse, hcache, Bool.false_eq_true, if_false]
  simp only [sendCommand, createReply_Hello, hmiss, sendRequest, sendData, hconn, if_true]
  rfl

/-- The reply branch for an error reply without params to a Hello call of the
client: the counter is set back, the Hello call is issued again without params,
and the failed reply is forwarded to `helloReply`. -/
theorem handleMatchedReply_hello_error (env : Env) (dataMap : QVariantMap) (s : JsonRpcClient)
    (commandId : Int) (p : QVariantMap)
    (hconn : s.m_connection.connected = true)
    (hstatus : (dataMap.value "status").toQString = "error")
    (hparams : (dataMap.value "params").toMap = [])
    (hcache : QMap.contains s.m_cacheHashes "JSONRPC.Hello" = false) :
    handleMatchedReply env ⟨commandId, "JSONRPC", "Hello", p, some QObjectRef.self, "helloReply"⟩
        commandId dataMap s
      = Except.ok (emit (Signal.responseReceived commandId [])
          (emit (Signal.invalidMinimumVersion "0" "5.0")
            (helloReplyFields []
              { issued helloRetryReply { s with m_id := 0 } with
                effects := (issued helloRetryReply { s with m_id := 0 }).effects
                  ++ [Effect.invoke QObjectRef.self "helloReply" commandId []] }))) := by
  have hne : ¬ (dataMap.value "status").toQString = "unauthorized" := by
    rw [hstatus]
    decide
  have h1 : handleMatchedReply env
      ⟨commandId, "JSONRPC", "Hello", p, some QObjectRef.self, "helloReply"⟩ commandId dataMap s
      = (match sendCommand env "JSONRPC.Hello" [] (some QObjectRef.self) "helloReply"
          { s with m_id := 0 } with
        | Except.error e => Except.error e
        | Except.ok r => forwardReply env
            ⟨commandId, "JSONRPC", "Hello", p, some QObjectRef.self, "helloReply"⟩ commandId
            dataMap r.2) := by
    have hne2 : ¬ ("error" : QString) = "unauthorized" := by decide
    unfold handleMatchedReply
    simp only [hne2, if_false, hstatus, JsonRpcReply.nameSpace, JsonRpcReply.method, and_self,
      if_true]
    try rfl
  have hsend := sendCommand_Hello_miss env { s with m_id := 0 } hconn hcache
  rw [h1, hsend]
  simp only [forwardReply, JsonRpcReply.caller, JsonRpcReply.callback, ne_eq, invokeCallback,
    hparams]
  rw [if_pos (by decide)]
  have hself : ∀ S : JsonRpcClient, invokeSelf env "helloReply" commandId [] S
      = Except.ok (emit (Signal.invalidMinimumVersion "0" "5.0") (helloReplyFields [] S)) :=
    fun S => rfl
  rw [hself]
  simp only [JsonRpcReply.commandId]
  have hstore : ∀ S : JsonRpcClient, S.m_cacheHashes = s.m_cacheHashes →
      storeInCache env ⟨commandId, "JSONRPC", "Hello", p, some QObjectRef.self,
        "helloReply"⟩ dataMap S = S := by
    intro S hS
    have hfull : ("JSONRPC" ++ "." ++ "Hello" : QString) = "JSONRPC.Hello" := by decide
    simp only [storeInCache, JsonRpcReply.nameSpace, JsonRpcReply.method, hfull, hS, hcache,
      Bool.false_eq_true, if_false]
  rw [hstore]
  · rfl
  · rfl

/-- C36, counterexample: the example session (server uuid "srv-1", protocol version
6.2) is connected again and its Hello call, identifier 1, is answered with
status "error".  The failed reply reaches `helloReply` with empty params: the
server uuid becomes empty, the protocol version 0, and invalidMinimumVersion is
raised. -/
theorem hello_error_overwrites_session_example :
    ∃ s0 s1, transportConnectedChanged exampleEnv true exampleSession = Except.ok s0
      ∧ s0.m_serverUuid = "srv-1" ∧ s0.m_jsonRpcVersion = [6, 2]
      ∧ QMap.value? s0.m_replies 1 = some ⟨1, "JSONRPC", "Hello",
          [("locale", QVariant.str "en_US")], some QObjectRef.self, "helloReply"⟩
      ∧ handleDocument exampleEnv exampleHelloError s0 = Except.ok s1
      ∧ s1.m_serverUuid = "" ∧ s1.m_jsonRpcVersion = [0]
      ∧ s1.effects.filter isVersionMismatch
          = [Effect.emit (Signal.invalidMinimumVersion "0" "5.0")] :=
  ⟨_, _, rfl, rfl, rfl, rfl, rfl, rfl, rfl, rfl⟩

/-- C36, amended: on a connected client without a cache hash for `JSONRPC.Hello`, an
error reply without params to the pending Hello call of the client is
dispatched as follows: the counter is set back and one Hello call without
params is sent under identifier 1 and recorded; the failed reply is then
forwarded to `helloReply` with empty params, which empties the server uuid,
sets the protocol version to 0 and the setup and authentication flags to
false, and raises invalidMinimumVersion("0", "5.0"); responseReceived follows.
Nothing else is sent or raised. -/
theorem hello_error_retried_and_forwarded (env : Env) (dataMap : QVariantMap)
    (s : JsonRpcClient) (p : QVariantMap)
    (hconn : s.m_connection.connected = true)
    (htopic : QMap.contains dataMap "notification" = false)
    (hid : QMap.value? s.m_replies (dataMap.value "id").toInt
      = some ⟨(dataMap.value "id").toInt, "JSONRPC", "Hello", p, some QObjectRef.self, "helloReply"⟩)
    (hstatus : (dataMap.value "status").toQString = "error")
    (hparams : (dataMap.value "params").toMap = [])
    (hcache : QMap.contains s.m_cacheHashes "JSONRPC.Hello" = false) :
    ∃ s', handleDocument env dataMap s = Except.ok s'
      ∧ s'.effects = s.effects
          ++ [Effect.sendData ⟨[("id", QVariant.int 1), ("method", QVariant.str "JSONRPC.Hello"),
                ("token", QVariant.bytes s.m_token)], JsonFormat.Compact, ['\n']⟩,
              Effect.invoke QObjectRef.self "helloReply" (dataMap.value "id").toInt [],
              Effect.emit Signal.pushButtonAuthAvailableChanged,
              Effect.emit (Signal.invalidMinimumVersion "0" "5.0"),
              Effect.emit (Signal.responseReceived (dataMap.value "id").toInt [])]
      ∧ sentMethods s'.effects = sentMethods s.effects ++ ["JSONRPC.Hello"]
      ∧ s'.m_id = 1 ∧ QMap.value? s'.m_replies 1 = some helloRetryReply
      ∧ s'.m_serverUuid = "" ∧ s'.m_jsonRpcVersion = [0]
      ∧ s'.m_initialSetupRequired = false ∧ s'.m_authenticationRequired = false := by
  have heffects : ∀ l : List Effect, l ++ [Effect.sendData
        ⟨QMap.insert helloRetryReply.requestMap "token" (QVariant.bytes s.m_token),
          JsonFormat.Compact, ['\n']⟩]
        ++ [Effect.invoke QObjectRef.self "helloReply" (dataMap.value "id").toInt []]
        ++ [Effect.emit Signal.pushButtonAuthAvailableChanged]
        ++ [Effect.emit (Signal.invalidMinimumVersion "0" "5.0")]
        ++ [Effect.emit (Signal.responseReceived (dataMap.value "id").toInt [])]
      = l ++ [Effect.sendData ⟨[("id", QVariant.int 1), ("method", QVariant.str "JSONRPC.Hello"),
                ("token", QVariant.bytes s.m_token)], JsonFormat.Compact, ['\n']⟩,
              Effect.invoke QObjectRef.self "helloReply" (dataMap.value "id").toInt [],
              Effect.emit Signal.pushButtonAuthAvailableChanged,
              Effect.emit (Signal.invalidMinimumVersion "0" "5.0"),
              Effect.emit (Signal.responseReceived (dataMap.value "id").toInt [])] := by
    intro l
    have hdoc : QMap.insert helloRetryReply.requestMap "token" (QVariant.bytes s.m_token)
        = [("id", QVariant.int 1), ("method", QVariant.str "JSONRPC.Hello"),
            ("token", QVariant.bytes s.m_token)] := rfl
    rw [hdoc]
    simp only [List.append_assoc, List.cons_append, List.nil_append]
  have hrun := handleMatchedReply_hello_error env dataMap
    { s with m_replies := QMap.remove s.m_replies (dataMap.value "id").toInt }
    (dataMap.value "id").toInt p hconn hstatus hparams hcache
  rw [handleDocument_matched env dataMap s _ htopic hid, hrun]
  refine ⟨_, rfl, ?_, ?_, rfl, ?_, rfl, rfl, rfl, rfl⟩
  · exact heffects s.effects
  · have he := heffects s.effects
    simp only [emit, helloReplyFields, issued] at he ⊢
    rw [he]
    simp [sentMethods, QVariantMap.value, QMap.value, QMap.value?, QVariant.toQString]
  · simp only [emit, helloReplyFields, issued]
    exact QMap.value?_insert_self _ _ _

/-- C36, witness: the example session, connected again, with its Hello call pending
under identifier 1, receives the example error reply. -/
theorem hello_error_retried_and_forwarded_witness :
    ∃ s0 s', transportConnectedChanged exampleEnv true exampleSession = Except.ok s0
      ∧ handleDocument exampleEnv exampleHelloError s0 = Except.ok s'
      ∧ sentMethods s'.effects = sentMethods s0.effects ++ ["JSONRPC.Hello"]
      ∧ s'.m_id = 1 ∧ QMap.value? s'.m_replies 1 = some helloRetryReply
      ∧ s'.m_serverUuid = "" ∧ s'.m_jsonRpcVersion = [0]
      ∧ s'.m_initialSetupRequired = false ∧ s'.m_authenticationRequired = false := by
  have h0 : ∃ s0, transportConnectedChanged exampleEnv true exampleSession = Except.ok s0
      ∧ s0.m_connection.connected = true
      ∧ QMap.value? s0.m_replies (exampleHelloError.value "id").toInt
          = some ⟨(exampleHelloError.value "id").toInt, "JSONRPC", "Hello",
              [("locale", QVariant.str "en_US")], some QObjectRef.self, "helloReply"⟩
      ∧ QMap.contains s0.m_cacheHashes "JSONRPC.Hello" = false := ⟨_, rfl, rfl, rfl, rfl⟩
  obtain ⟨s0, e0, c0, r0, m0⟩ := h0
  obtain ⟨s', h1, _, h3, h4, h5, h6, h7, h8, h9⟩ := hello_error_retried_and_forwarded exampleEnv
    exampleHelloError s0 [("locale", QVariant.str "en_US")] c0 rfl r0 rfl rfl m0
  exact ⟨s0, s', e0, h1, h3, h4, h5, h6, h7, h8, h9⟩

end JsonRpcClient

namespace ThingPowerLogs

/-! ## C32: the batches of a reply to the log query -/

theorem batches_append (l1 l2 : List LogEffect) : batches (l1 ++ l2) = batches l1 ++ batches l2 := by
  simp [batches, List.filterMap_append]

/-- The loop over the live entries appends nothing to the model. -/
theorem receiveCurrentEntries_model (env : EnergyEnv) (variants : QVariantList)
    (logs : ThingPowerLogs) :
    (receiveCurrentEntries env variants logs).m_list = logs.m_list
      ∧ batches (receiveCurrentEntries env variants logs).effects = batches logs.effects := by
  induction variants generalizing logs with
  | nil => exact ⟨rfl, rfl⟩
  | cons variant rest ih =>
    simp only [receiveCurrentEntries]
    refine ⟨(ih _).1, (ih _).2.trans ?_⟩
    simp [batches_append, batches]

/-- The loop over the log entries, started with a group that shares one timestamp,
followed by the final batch: the batches are the group extended by the entries
that follow with its timestamp, then the runs of entries with equal timestamp
in the order of the reply. -/
theorem groupEntries_batches (env : EnergyEnv) (variants : QVariantList)
    (group : List ThingPowerLogEntry) (logs : ThingPowerLogs) (hne : group ≠ [])
    (huniform : ∀ e, e ∈ group → ∀ f, f ∈ group → e.timestamp = f.timestamp) :
    (groupEntries env variants group logs).1 ≠ []
    ∧ ∃ T : List (List ThingPowerLogEntry),
      batches (addEntries (groupEntries env variants group logs).1
          (groupEntries env variants group logs).2).effects = batches logs.effects ++ T
      ∧ (addEntries (groupEntries env variants group logs).1
          (groupEntries env variants group logs).2).m_list = logs.m_list ++ T.flatten
      ∧ T.flatten = group ++ variants.map (fun variant => unpack env variant.toMap)
      ∧ (∀ g, g ∈ T → g ≠ [] ∧ ∀ e, e ∈ g → ∀ f, f ∈ g → e.timestamp = f.timestamp)
      ∧ T.Chain' (fun g h => ∀ e, e ∈ g → ∀ f, f ∈ h → e.timestamp ≠ f.timestamp)
      ∧ ∃ tail, T.head? = some (group ++ tail) := by
  induction variants generalizing group logs with
  | nil =>
    refine ⟨hne, [group], ?_, ?_, ?_, ?_, List.chain'_singleton _, [], by simp⟩
    · simp [groupEntries, addEntries, appendEntries, batches_append, batches]
    · simp [groupEntries, addEntries, appendEntries]
    · simp
    · intro g hg
      simp only [List.mem_singleton] at hg
      subst hg
      exact ⟨hne, huniform⟩
  | cons variant rest ih =>
    obtain ⟨first, others, hgroup⟩ := List.exists_cons_of_ne_nil hne
    subst hgroup
    by_cases hts : first.timestamp = (unpack env variant.toMap).timestamp
    · have hstep : groupEntries env (variant :: rest) (first :: others) logs
          = groupEntries env rest ((first :: others) ++ [unpack env variant.toMap]) logs := by
        simp only [groupEntries, hts, if_true]
      have huni' : ∀ e, e ∈ (first :: others) ++ [unpack env variant.toMap] →
          ∀ f, f ∈ (first :: others) ++ [unpack env variant.toMap] →
          e.timestamp = f.timestamp := by
        have hfirst : ∀ e, e ∈ (first :: others) ++ [unpack env variant.toMap] →
            e.timestamp = first.timestamp := by
          intro e he
          rw [List.mem_append, List.mem_singleton] at he
          rcases he with he | he
          · exact huniform e he first (List.mem_cons_self _ _)
          · rw [he, hts]
        intro e he f hf
        rw [hfirst e he, hfirst f hf]
      obtain ⟨h1, T, h2, h3, h4, h5, h6, tail, h7⟩ :=
        ih ((first :: others) ++ [unpack env variant.toMap]) logs (by simp) huni'
      rw [hstep]
      refine ⟨h1, T, h2, h3, ?_, h5, h6, unpack env variant.toMap :: tail, ?_⟩
      · rw [h4]
        simp
      · rw [h7]
        simp
    · have hstep : groupEntries env (variant :: rest) (first :: others) logs
          = groupEntries env rest [unpack env variant.toMap]
              (addEntries (first :: others) logs) := by
        simp only [groupEntries, hts, if_false]
      obtain ⟨h1, T, h2, h3, h4, h5, h6, tail, h7⟩ :=
        ih [unpack env variant.toMap] (addEntries (first :: others) logs) (by simp)
          (by
            intro e he f hf
            rw [List.mem_singleton] at he hf
            rw [he, hf])
      rw [hstep]
      refine ⟨h1, (first :: others) :: T, ?_, ?_, ?_, ?_, ?_, [], by simp⟩
      · rw [h2]
        simp [addEntries, appendEntries, batches_append, batches]
      · rw [h3]
        simp [addEntries, appendEntries]
      · rw [List.flatten_cons, h4]
        simp
      · intro g hg
        rw [List.mem_cons] at hg
        rcases hg with hg | hg
        · subst hg
          exact ⟨hne, huniform⟩
        · exact h5 g hg
      · rw [List.chain'_cons']
        refine ⟨?_, h6⟩
        intro h hh
        rw [h7] at hh
        simp only [Option.mem_def, Option.some.injEq] at hh
        subst hh
        intro e he f hf
        have hT : [unpack env variant.toMap] ++ tail ∈ T := by
          cases T with
          | nil => simp at h7
          | cons t ts =>
            simp only [List.head?_cons, Option.some.injEq] at h7
            rw [h7]
            exact List.mem_cons_self _ _
        have hf' : f.timestamp = (unpack env variant.toMap).timestamp :=
          (h5 _ hT).2 f hf _ (by simp)
        rw [huniform e he first (List.mem_cons_self _ _), hf']
        exact hts

end ThingPowerLogs

namespace ThingPowerLogs

/-- The batches of `logEntriesReceived`: the runs of entries with equal timestamp,
in the order of the reply. -/
theorem logEntriesReceived_batches (env : EnergyEnv) (params : QVariantMap)
    (logs : ThingPowerLogs) :
    ∃ T : List (List ThingPowerLogEntry),
      batches (logEntriesReceived env params logs).effects = batches logs.effects ++ T
      ∧ (logEntriesReceived env params logs).m_list = logs.m_list ++ T.flatten
      ∧ T.flatten = (params.value "thingPowerLogEntries").toList.map
          (fun variant => unpack env variant.toMap)
      ∧ (∀ g, g ∈ T → g ≠ [] ∧ ∀ e, e ∈ g → ∀ f, f ∈ g → e.timestamp = f.timestamp)
      ∧ T.Chain' (fun g h => ∀ e, e ∈ g → ∀ f, f ∈ h → e.timestamp ≠ f.timestamp) := by
  obtain ⟨m1, b1⟩ := receiveCurrentEntries_model env (params.value "currentEntries").toList logs
  cases hv : (params.value "thingPowerLogEntries").toList with
  | nil =>
    refine ⟨[], ?_, ?_, rfl, fun g hg => absurd hg (List.not_mem_nil g), List.chain'_nil⟩
    · simp only [logEntriesReceived, hv, groupEntries, List.isEmpty, Bool.not_true,
        Bool.false_eq_true, if_false, List.append_nil]
      exact b1
    · simp only [logEntriesReceived, hv, groupEntries, List.isEmpty, Bool.not_true,
        Bool.false_eq_true, if_false, List.flatten_nil, List.append_nil]
      exact m1
  | cons variant rest =>
    obtain ⟨h1, T, h2, h3, h4, h5, h6, _⟩ := groupEntries_batches env rest
      [unpack env variant.toMap]
      (receiveCurrentEntries env (params.value "currentEntries").toList logs) (by simp)
      (by
        intro e he f hf
        rw [List.mem_singleton] at he hf
        rw [he, hf])
    have hrun : logEntriesReceived env params logs
        = addEntries (groupEntries env rest [unpack env variant.toMap]
            (receiveCurrentEntries env (params.value "currentEntries").toList logs)).1
          (groupEntries env rest [unpack env variant.toMap]
            (receiveCurrentEntries env (params.value "currentEntries").toList logs)).2 := by
      have hnot : (!(groupEntries env rest [unpack env variant.toMap]
          (receiveCurrentEntries env (params.value "currentEntries").toList logs)).1.isEmpty)
          = true := by
        cases hg : (groupEntries env rest [unpack env variant.toMap]
            (receiveCurrentEntries env (params.value "currentEntries").toList logs)).1 with
        | nil => exact absurd hg h1
        | cons a l => rfl
      simp only [logEntriesReceived, hv, groupEntries]
      rw [if_pos hnot]
    refine ⟨T, ?_, ?_, ?_, h5, h6⟩
    · rw [hrun, h2, b1]
    · rw [hrun, h3, m1]
    · rw [h4]
      rfl

/-- Groups in the order of their timestamps: neighbours with different timestamps
make all groups differ in their timestamp. -/
theorem groups_differ_of_sorted (T : List (List ThingPowerLogEntry))
    (hgroups : ∀ g, g ∈ T → g ≠ [])
    (hchain : T.Chain' (fun g h => ∀ e, e ∈ g → ∀ f, f ∈ h → e.timestamp ≠ f.timestamp))
    (hsorted : T.flatten.Pairwise (fun a b => a.timestamp.msecs ≤ b.timestamp.msecs)) :
    T.Pairwise (fun g h => ∀ e, e ∈ g → ∀ f, f ∈ h → e.timestamp ≠ f.timestamp) := by
  induction T with
  | nil => exact List.Pairwise.nil
  | cons g T ih =>
    have hparts := List.pairwise_flatten.mp hsorted
    have htail : T.flatten.Pairwise (fun a b => a.timestamp.msecs ≤ b.timestamp.msecs) := by
      rw [List.flatten_cons, List.pairwise_append] at hsorted
      exact hsorted.2.1
    rw [List.pairwise_cons]
    refine ⟨?_, ih (fun h hh => hgroups h (List.mem_cons_of_mem _ hh)) hchain.tail htail⟩
    intro h hh e he f hf heq
    cases T with
    | nil => cases hh
    | cons g' T' =>
      have hnext := (List.chain'_cons.mp hchain).1
      rw [List.mem_cons] at hh
      rcases hh with hh | hh
      · subst hh
        exact hnext e he f hf heq
      · obtain ⟨x, hx⟩ := List.exists_mem_of_ne_nil g'
          (hgroups g' (List.mem_cons_of_mem _ (List.mem_cons_self _ _)))
        have hpair := hparts.2
        rw [List.pairwise_cons, List.pairwise_cons] at hpair
        have h1 : e.timestamp.msecs ≤ x.timestamp.msecs :=
          hpair.1 g' (List.mem_cons_self _ _) e he x hx
        have h2 : x.timestamp.msecs ≤ f.timestamp.msecs := hpair.2.1 h hh x hx f hf
        have h3 : e.timestamp = x.timestamp := by
          have hef : e.timestamp.msecs = f.timestamp.msecs := by rw [heq]
          have h4 : e.timestamp.msecs = x.timestamp.msecs := by omega
          cases he' : e.timestamp
          cases hx' : x.timestamp
          rw [he', hx'] at h4
          simp only at h4
          rw [h4]
        exact hnext e he x hx h3

end ThingPowerLogs

namespace ThingPowerLogs

/-- C32, counterexample: a reply with entries at the seconds 60, 120 and 60 again is
appended in three batches; the first and the third entry share a timestamp and
are in different batches. -/
theorem entries_of_one_timestamp_in_two_batches :
    batches (logEntriesReceived exampleEnergyEnv exampleUnsortedReply exampleEmptyLogs).effects
        = [[unpack exampleEnergyEnv (exampleEntryMap 60 5).toMap],
           [unpack exampleEnergyEnv (exampleEntryMap 120 6).toMap],
           [unpack exampleEnergyEnv (exampleEntryMap 60 7).toMap]]
      ∧ (unpack exampleEnergyEnv (exampleEntryMap 60 5).toMap).timestamp
          = (unpack exampleEnergyEnv (exampleEntryMap 60 7).toMap).timestamp :=
  ⟨rfl, rfl⟩

/-- C32, amended: `logEntriesReceived` appends the entries of `thingPowerLogEntries`
to the model in the order of the reply, in batches that are the runs of
neighbouring entries with equal timestamp: every batch is non-empty and holds
one timestamp, and a batch and the next one have different timestamps.  When
the entries of the reply are in non-decreasing order of their timestamps, all
entries that share a timestamp are in one batch. -/
theorem log_entries_batched_by_runs (env : EnergyEnv) (params : QVariantMap)
    (logs : ThingPowerLogs) :
    ∃ T : List (List ThingPowerLogEntry),
      batches (logEntriesReceived env params logs).effects = batches logs.effects ++ T
      ∧ (logEntriesReceived env params logs).m_list
          = logs.m_list ++ (params.value "thingPowerLogEntries").toList.map
              (fun variant => unpack env variant.toMap)
      ∧ T.flatten = (params.value "thingPowerLogEntries").toList.map
          (fun variant => unpack env variant.toMap)
      ∧ (∀ g, g ∈ T → g ≠ [] ∧ ∀ e, e ∈ g → ∀ f, f ∈ g → e.timestamp = f.timestamp)
      ∧ T.Chain' (fun g h => ∀ e, e ∈ g → ∀ f, f ∈ h → e.timestamp ≠ f.timestamp)
      ∧ (((params.value "thingPowerLogEntries").toList.map
            (fun variant => unpack env variant.toMap)).Pairwise
            (fun a b => a.timestamp.msecs ≤ b.timestamp.msecs) →
          ∀ g, g ∈ T → ∀ e, e ∈ g →
            ∀ f, f ∈ (params.value "thingPowerLogEntries").toList.map
                (fun variant => unpack env variant.toMap) →
              f.timestamp = e.timestamp → f ∈ g) := by
  obtain ⟨T, h1, h2, h3, h4, h5⟩ := logEntriesReceived_batches env params logs
  refine ⟨T, h1, by rw [h2, h3], h3, h4, h5, ?_⟩
  intro hsorted g hg e he f hf heq
  rw [← h3] at hsorted hf
  have hpair := groups_differ_of_sorted T (fun g hg => (h4 g hg).1) h5 hsorted
  obtain ⟨h, hh, hfh⟩ := List.mem_flatten.mp hf
  by_cases hgh : h = g
  · rw [← hgh]
    exact hfh
  · have hsymm : Symmetric (fun g h : List ThingPowerLogEntry =>
        ∀ e, e ∈ g → ∀ f, f ∈ h → e.timestamp ≠ f.timestamp) :=
      fun a b hab e he f hf hc => hab f hf e he hc.symm
    exact absurd heq (hpair.forall hsymm hh hg hgh f hfh e he)

/-- C32, witness: the example reply with the seconds 60, 60 and 120 is appended in
two batches, the two entries of the second 60 together. -/
theorem log_entries_batched_by_runs_witness :
    batches (logEntriesReceived exampleEnergyEnv exampleSortedReply exampleEmptyLogs).effects
        = [[unpack exampleEnergyEnv (exampleEntryMap 60 5).toMap,
            unpack exampleEnergyEnv (exampleEntryMap 60 7).toMap],
           [unpack exampleEnergyEnv (exampleEntryMap 120 6).toMap]]
    ∧ ∃ T : List (List ThingPowerLogEntry),
      batches (logEntriesReceived exampleEnergyEnv exampleSortedReply exampleEmptyLogs).effects
        = batches exampleEmptyLogs.effects ++ T
      ∧ ∀ g, g ∈ T → ∀ e, e ∈ g →
          ∀ f, f ∈ (exampleSortedReply.value "thingPowerLogEntries").toList.map
              (fun variant => unpack exampleEnergyEnv variant.toMap) →
            f.timestamp = e.timestamp → f ∈ g := by
  refine ⟨rfl, ?_⟩
  obtain ⟨T, h1, _, _, _, _, h6⟩ := log_entries_batched_by_runs exampleEnergyEnv
    exampleSortedReply exampleEmptyLogs
  refine ⟨T, h1, h6 ?_⟩
  simp [exampleSortedReply, exampleEntryMap, QVariantMap.value, QMap.value, QMap.value?,
    QVariant.toList, QVariant.toMap, unpack, QDateTime.fromSecsSinceEpoch, QVariant.toLongLong,
    toInt64]

end ThingPowerLogs

namespace ZigbeeNode

/-! ## C37: the instant a node was last seen -/

theorem setLastSeen_lastSeen (lastSeen : QDateTime) (node : ZigbeeNode) :
    (setLastSeen lastSeen node).m_lastSeen = lastSeen := by
  unfold setLastSeen
  split
  · rename_i h
    exact h
  · rfl

/-- C37: for a "lastSeen" of `s` seconds within the range of `uint`,
`updateNodeProperties` sets the instant to `s * 1000` modulo 2^32 milliseconds
after the epoch: the product is computed in `uint`.  It is `s * 1000`
milliseconds only up to the second 4294967 (19 February 1970); for every later
second it is a different instant. -/
theorem lastSeen_product_wraps (nodeMap : QVariantMap) (node : ZigbeeNode) (s : Int)
    (hs : 0 ≤ s ∧ s ≤ 4294967295) (hmap : nodeMap.value "lastSeen" = QVariant.int s) :
    (updateNodeProperties nodeMap node).m_lastSeen = ⟨(s * 1000) % 4294967296⟩
      ∧ (s ≤ 4294967 → (updateNodeProperties nodeMap node).m_lastSeen = ⟨s * 1000⟩)
      ∧ (4294967 < s → (updateNodeProperties nodeMap node).m_lastSeen ≠ ⟨s * 1000⟩) := by
  have hu : (QVariant.int s).toUInt = s := by
    simp only [QVariant.toUInt, toUInt32]
    omega
  have h : (updateNodeProperties nodeMap node).m_lastSeen = ⟨(s * 1000) % 4294967296⟩ := by
    unfold updateNodeProperties
    simp only []
    rw [setLastSeen_lastSeen, hmap, hu]
    rfl
  refine ⟨h, ?_, ?_⟩
  · intro hle
    rw [h]
    congr 1
    omega
  · intro hgt
    rw [h]
    intro heq
    have := congrArg QDateTime.msecs heq
    simp only at this
    omega

/-- C37, witness: a node last seen at second 1700000000; the instant set is
3487918080 milliseconds after the epoch (10 February 1970), not 1700000000000. -/
theorem lastSeen_product_wraps_witness :
    (updateNodeProperties exampleNodeMap exampleNode).m_lastSeen = ⟨3487918080⟩
      ∧ (updateNodeProperties exampleNodeMap exampleNode).m_lastSeen ≠ ⟨1700000000 * 1000⟩ :=
  ⟨(lastSeen_product_wraps exampleNodeMap exampleNode 1700000000 (by decide) rfl).1,
    (lastSeen_product_wraps exampleNodeMap exampleNode 1700000000 (by decide) rfl).2.2
      (by decide)⟩

end ZigbeeNode

namespace ThingPowerLogs

/-! ## C38: the search for an entry -/

/-- The loop of `find` never meets the null pointer while the index is within the
list. -/
theorem findFrom_returns (thingId : QUuid) (timestamp : QDateTime) (logs : ThingPowerLogs)
    (i : Nat) (hi : i ≤ logs.rowCount) :
    ∃ r, findFrom thingId timestamp logs i = Except.ok r := by
  induction i with
  | zero => exact ⟨none, rfl⟩
  | succ i ih =>
    have hlt : i < logs.m_list.length := hi
    have hget : logs.get i = some (logs.m_list.get ⟨i, hlt⟩) := by
      simp only [get]
      exact List.getElem?_eq_getElem hlt
    simp only [findFrom, hget]
    split
    · exact ih (Nat.le_of_succ_le hi)
    · split
      · exact ⟨_, rfl⟩
      · split
        · exact ⟨_, rfl⟩
        · exact ih (Nat.le_of_succ_le hi)

/-- What the loop of `find` hands back is the entry of the thing and the timestamp
with the highest index below the start of the loop. -/
theorem findFrom_sound (thingId : QUuid) (timestamp : QDateTime) (logs : ThingPowerLogs)
    (i : Nat) (entry : ThingPowerLogEntry)
    (h : findFrom thingId timestamp logs i = Except.ok (some entry)) :
    ∃ k, k < i ∧ logs.get k = some entry ∧ entry.thingId = thingId ∧ entry.timestamp = timestamp
      ∧ ∀ j e, k < j → j < i → logs.get j = some e →
          ¬ (e.thingId = thingId ∧ e.timestamp = timestamp) := by
  induction i with
  | zero => simp [findFrom] at h
  | succ i ih =>
    simp only [findFrom] at h
    cases hget : logs.get i with
    | none => simp [hget] at h
    | some e1 =>
      simp only [hget] at h
      have step : findFrom thingId timestamp logs i = Except.ok (some entry) →
          ¬ (e1.thingId = thingId ∧ e1.timestamp = timestamp) →
          ∃ k, k < i + 1 ∧ logs.get k = some entry ∧ entry.thingId = thingId
            ∧ entry.timestamp = timestamp
            ∧ ∀ j e, k < j → j < i + 1 → logs.get j = some e →
                ¬ (e.thingId = thingId ∧ e.timestamp = timestamp) := by
        intro hrec hno
        obtain ⟨k, hk, hgk, ht, hts, hmax⟩ := ih hrec
        refine ⟨k, Nat.lt_succ_of_lt hk, hgk, ht, hts, ?_⟩
        intro j e hkj hji hgj
        by_cases hj : j = i
        · subst hj
          rw [hget] at hgj
          cases hgj
          exact hno
        · exact hmax j e hkj (by omega) hgj
      split at h
      · rename_i hne
        exact step h (fun hc => hne hc.1)
      · rename_i hthing
        have hthing' : e1.thingId = thingId := by
          by_contra hc
          exact hthing hc
        split at h
        · rename_i hts
          simp only [Except.ok.injEq, Option.some.injEq] at h
          subst h
          exact ⟨i, Nat.lt_succ_self i, hget, hthing', hts.symm, fun j e hij hji _ => by omega⟩
        · rename_i hts
          split at h
          · simp at h
          · exact step h (fun hc => hts hc.2.symm)

/-- When the entries of the thing are in non-decreasing order of their timestamps,
the loop of `find` finds an entry of the thing and the timestamp if there is
one below the start of the loop. -/
theorem findFrom_complete (thingId : QUuid) (timestamp : QDateTime) (logs : ThingPowerLogs)
    (hsorted : ∀ a b ea eb, a < b → logs.get a = some ea → logs.get b = some eb →
      ea.thingId = thingId → eb.thingId = thingId → ea.timestamp.msecs ≤ eb.timestamp.msecs)
    (i : Nat) (hi : i ≤ logs.rowCount) (k : Nat) (e : ThingPowerLogEntry) (hk : k < i)
    (hgk : logs.get k = some e) (hthing : e.thingId = thingId) (hts : e.timestamp = timestamp) :
    ∃ entry, findFrom thingId timestamp logs i = Except.ok (some entry) := by
  induction i with
  | zero => omega
  | succ i ih =>
    have hi' : i ≤ logs.rowCount := Nat.le_of_succ_le hi
    cases hget : logs.get i with
    | none =>
      exfalso
      simp only [get] at hget
      have h1 : logs.m_list.length ≤ i := List.getElem?_eq_none_iff.mp hget
      have h2 : i < logs.m_list.length := hi
      omega
    | some e1 =>
      simp only [findFrom, hget]
      by_cases hki : k = i
      · subst hki
        rw [hget] at hgk
        cases hgk
        rw [if_neg (by simpa using hthing), if_pos hts.symm]
        exact ⟨_, rfl⟩
      · have hk' : k < i := by omega
        split
        · exact ih hi' hk'
        · rename_i hthing1
          have hthing1' : e1.thingId = thingId := by
            by_contra hc
            exact hthing1 hc
          split
          · exact ⟨_, rfl⟩
          · split
            · rename_i hgt
              have hle := hsorted k i e e1 hk' hgk hget hthing hthing1'
              rw [hts] at hle
              omega
            · exact ih hi' hk'

end ThingPowerLogs

namespace ThingPowerLogs

/-- C38: `find` returns, and what it returns, if not the null pointer, is the entry
of the model with the given thing and timestamp that has the highest index.
When the entries of the thing are in non-decreasing order of their timestamps,
it returns an entry if and only if the model holds an entry of the thing with
the timestamp. -/
theorem find_entry_of_thing_at_timestamp (thingId : QUuid) (timestamp : QDateTime)
    (logs : ThingPowerLogs) :
    (∃ r, find thingId timestamp logs = Except.ok r)
    ∧ (∀ entry, find thingId timestamp logs = Except.ok (some entry) →
        entry ∈ logs.m_list ∧ entry.thingId = thingId ∧ entry.timestamp = timestamp
        ∧ ∃ k, logs.get k = some entry
          ∧ ∀ j e, k < j → logs.get j = some e →
              ¬ (e.thingId = thingId ∧ e.timestamp = timestamp))
    ∧ (logs.m_list.Pairwise (fun a b => a.thingId = thingId → b.thingId = thingId →
          a.timestamp.msecs ≤ b.timestamp.msecs) →
        ((∃ entry, find thingId timestamp logs = Except.ok (some entry))
          ↔ ∃ e, e ∈ logs.m_list ∧ e.thingId = thingId ∧ e.timestamp = timestamp)) := by
  refine ⟨findFrom_returns thingId timestamp logs logs.rowCount (Nat.le_refl _), ?_, ?_⟩
  · intro entry h
    obtain ⟨k, hk, hgk, ht, hts, hmax⟩ := findFrom_sound thingId timestamp logs logs.rowCount
      entry h
    refine ⟨List.mem_iff_getElem?.mpr ⟨k, hgk⟩, ht, hts, k, hgk, ?_⟩
    intro j e hkj hgj
    have hj : j < logs.rowCount := by
      simp only [get] at hgj
      obtain ⟨hlt, _⟩ := List.getElem?_eq_some.mp hgj
      exact hlt
    exact hmax j e hkj hj hgj
  · intro hsorted
    constructor
    · rintro ⟨entry, h⟩
      obtain ⟨k, _, hgk, ht, hts, _⟩ := findFrom_sound thingId timestamp logs logs.rowCount
        entry h
      exact ⟨entry, List.mem_iff_getElem?.mpr ⟨k, hgk⟩, ht, hts⟩
    · rintro ⟨e, hmem, ht, hts⟩
      obtain ⟨k, hgk⟩ := List.mem_iff_getElem?.mp hmem
      have hk : k < logs.rowCount := (List.getElem?_eq_some.mp hgk).1
      refine findFrom_complete thingId timestamp logs ?_ logs.rowCount (Nat.le_refl _) k e hk hgk
        ht hts
      intro a b ea eb hab hga hgb hta htb
      simp only [get] at hga hgb
      obtain ⟨ha, hea⟩ := List.getElem?_eq_some.mp hga
      obtain ⟨hb, heb⟩ := List.getElem?_eq_some.mp hgb
      have := List.pairwise_iff_getElem.mp hsorted a b ha hb hab
      rw [hea, heb] at this
      exact this hta htb

/-- C38, witness: in the example log, whose entries of the example thing are in
order, the search for the thing at the second 120 hands back the entry with
index 3, and the search at the second 90 hands back the null pointer. -/
theorem find_entry_of_thing_at_timestamp_witness :
    find exampleThing ⟨120000⟩ exampleLogs = Except.ok (exampleLogs.get 3)
    ∧ find exampleThing ⟨90000⟩ exampleLogs = Except.ok none
    ∧ ((∃ entry, find exampleThing ⟨120000⟩ exampleLogs = Except.ok (some entry))
        ↔ ∃ e, e ∈ exampleLogs.m_list ∧ e.thingId = exampleThing ∧ e.timestamp = ⟨120000⟩)
    ∧ ∀ entry, find exampleThing ⟨120000⟩ exampleLogs = Except.ok (some entry) →
        entry ∈ exampleLogs.m_list ∧ entry.thingId = exampleThing ∧ entry.timestamp = ⟨120000⟩
        ∧ ∃ k, exampleLogs.get k = some entry
          ∧ ∀ j e, k < j → exampleLogs.get j = some e →
              ¬ (e.thingId = exampleThing ∧ e.timestamp = ⟨120000⟩) :=
  ⟨by rfl, by rfl,
    (find_entry_of_thing_at_timestamp exampleThing ⟨120000⟩ exampleLogs).2.2
      (by simp [exampleLogs, exampleThing, exampleOtherThing]),
    (find_entry_of_thing_at_timestamp exampleThing ⟨120000⟩ exampleLogs).2.1⟩

end ThingPowerLogs

end Nymea
